import Mathlib

/-!
# Jazz2 event map: a shallow embedding of `Sources/Jazz2/Events/EventMap.cpp`

The event grid (`EventMap`) and the checkpoint protocol of the level controller
(`LevelHandler.cpp`) are translated to pure functions with explicit state passing.

Modelling conventions
* `std::int32_t` coordinates are `Int`; the grid is allocated with
  `_layoutSize.X * _layoutSize.Y` tiles, so no index computed on an allocated grid overflows.
* `float` quantities (`TimeLeft`, `Delay`, the time multiplier, the frame counters) are exact
  rationals.
* An indexing of `_eventLayout` outside the allocated array is undefined behaviour in the
  source; the embedding returns `none` there, so a result `some _` also states that every
  access was in bounds.
* The level handler the event map calls back into (`_levelHandler`) is an interface over an
  arbitrary external state; every call made through it is also written to a call log.
-/

namespace Jazz2

/-- Event kinds. `EventType.h` is not among the sources: the enumerators that
`EventMap.cpp` names are listed, and every other value of the enumeration is `Other code`. -/
inductive EventType where
  | Empty
  | Generator
  | AreaWeather
  | LevelStart
  | WarpOrigin
  | WarpTarget
  | ModifierHurt
  | ModifierDeath
  | ModifierOneWay
  | ModifierVine
  | ModifierHook
  | SceneryDestruct
  | SceneryDestructButtstomp
  | TriggerArea
  | SceneryDestructSpeed
  | SceneryCollapse
  | ModifierHPole
  | ModifierVPole
  | Other (code : Nat)
  deriving DecidableEq, Repr

/-- The sixteen parameter bytes of a tile, `std::uint8_t EventParams[16]`. -/
structure Params where
  bytes : List Nat
  size_eq : bytes.length = 16
  byte_lt : ∀ b ∈ bytes, b < 256
  deriving DecidableEq, Repr

/-- A zero-filled parameter block (`EventTile newEvent = {}`, `std::memset(.., 0, ..)`). -/
def Params.zero : Params := ⟨List.replicate 16 0, rfl, by decide⟩

/-- Byte `i` of the block, `EventParams[i]`. -/
def Params.byte (p : Params) (i : Nat) : Nat := p.bytes.getD i 0

/-- The value `*(std::uint32_t*)EventParams` on a little-endian host. -/
def Params.readU32 (p : Params) : Nat :=
  p.byte 0 + 256 * p.byte 1 + 65536 * p.byte 2 + 16777216 * p.byte 3

/-- The block after `*(std::uint32_t*)eventParams = v` on a little-endian host. -/
def Params.writeU32 (p : Params) (v : Nat) : Params :=
  ⟨[v % 256, v / 256 % 256, v / 65536 % 256, v / 16777216 % 256] ++ p.bytes.drop 4,
    by simp [p.size_eq],
    by
      intro b hb
      rw [List.mem_append] at hb
      rcases hb with hb | hb
      · simp only [List.mem_cons, List.mem_singleton, List.not_mem_nil, or_false] at hb
        omega
      · exact p.byte_lt b (List.mem_of_mem_drop hb)⟩

/-- A handle of an actor object (`std::shared_ptr<Actors::ActorBase>`). -/
abbrev ActorRef := Nat

/-- One cell of the grid, `EventMap::EventTile`. `EventFlags` is the `Actors::ActorState`
bit set carried by the tile. -/
structure EventTile where
  Event : EventType
  EventFlags : Nat
  EventParams : Params
  IsEventActive : Bool
  deriving DecidableEq, Repr

/-- A value-initialised tile, as produced by `std::make_unique<EventTile[]>(n)` and
`EventTile newEvent = {}`. -/
def EventTile.empty : EventTile :=
  { Event := EventType.Empty, EventFlags := 0, EventParams := Params.zero, IsEventActive := false }

/-- An entry of the generator table, `EventMap::GeneratorInfo`. -/
structure GeneratorInfo where
  EventPos : Int
  Event : EventType
  EventParams : Params
  Delay : ℚ
  TimeLeft : ℚ
  SpawnedActor : Option ActorRef

/-- An entry of the spawn point table, `EventMap::SpawnPoint`. -/
structure SpawnPoint where
  PlayerTypeMask : Nat
  Pos : ℚ × ℚ

/-- An entry of the warp target table, `EventMap::WarpTarget`. -/
structure WarpTarget where
  Id : Nat
  Pos : ℚ × ℚ

/-- A pair of `std::int32_t` coordinates, `Vector2i`. -/
structure Vector2i where
  X : Int
  Y : Int
  deriving DecidableEq, Repr

/-- A rectangle of `std::int32_t` coordinates, `AABBi`. -/
structure AABBi where
  L : Int
  T : Int
  R : Int
  B : Int
  deriving DecidableEq, Repr

/-- The pit type of the level. -/
inductive PitType where
  | FallForever
  | InstantDeathPit
  | StandOnPlatform
  deriving DecidableEq, Repr

/-- The state of an `EventMap` object. An `_eventLayout` that has not been allocated yet is the
empty list; `_eventLayoutForRollback == nullptr` is `none`. -/
structure EventMap where
  _layoutSize : Vector2i
  _pitType : PitType
  _eventLayout : List EventTile
  _eventLayoutForRollback : Option (List EventTile)
  _generators : List GeneratorInfo
  _spawnPoints : List SpawnPoint
  _warpTargets : List WarpTarget

/-- Constants and casts declared in headers that are not among the sources. -/
structure Consts where
  /-- The bit `Actors::ActorState::IsCreatedFromEventMap`. -/
  IsCreatedFromEventMap : Nat
  /-- The bit `Actors::ActorState::IsFromGenerator`. -/
  IsFromGenerator : Nat
  /-- The bit `Actors::ActorState::Async`. -/
  Async : Nat
  /-- The bit `Actors::ActorState::IsDestroyed`. -/
  IsDestroyed : Nat
  /-- The bit `Actors::ActorState::PreserveOnRollback`. -/
  PreserveOnRollback : Nat
  /-- The bit `Actors::ActorState::IsDirty`. -/
  IsDirty : Nat
  /-- The bit `Actors::ActorState::ForceDisableCollisions`. -/
  ForceDisableCollisions : Nat
  /-- The bit `Actors::ActorState::CollideWithOtherActors`. -/
  CollideWithOtherActors : Nat
  /-- The bit `Actors::ActorState::CollideWithSolidObjects`. -/
  CollideWithSolidObjects : Nat
  /-- The bit `Actors::ActorState::CollideWithSolidObjectsBelow`. -/
  CollideWithSolidObjectsBelow : Nat
  /-- The bit `Actors::ActorState::IsSolidObject`. -/
  IsSolidObject : Nat
  /-- The bit `Actors::ActorState::ExcludeSimilar`. -/
  ExcludeSimilar : Nat
  /-- The constant `LevelHandler::ActivateTileRange`. -/
  ActivateTileRange : Int
  /-- The test `AABBi::Contains(Vector2i)`. -/
  Contains : AABBi → Vector2i → Bool
  /-- The constant `FrameTimer::FramesPerSecond`. -/
  FramesPerSecond : ℚ
  /-- The constant `ILevelHandler::MainPlaneZ`. -/
  MainPlaneZ : Int
  /-- The constant `ILevelHandler::SpritePlaneZ`. -/
  SpritePlaneZ : Int
  /-- The constant `Tiles::TileSet::DefaultTileSize`. -/
  DefaultTileSize : Int
  /-- The cast `(EventType)n` of a stored number to an enumerator. -/
  toEventType : Nat → EventType
  /-- The cast `(std::uint32_t)kind` of an enumerator to its number. -/
  fromEventType : EventType → Nat

/-- The interface `ILevelHandler` the event map calls back into, over an external state `φ`:
the actor factory `EventSpawner()->SpawnEvent`, `AddActor`, `SetWeather`, and the health of
an actor object as read through a generator's `SpawnedActor` pointer. -/
structure ILevelHandler (φ : Type) where
  SpawnEvent : φ → EventType → Params → Nat → Int → Int → Int → Option ActorRef × φ
  AddActor : φ → ActorRef → φ
  SetWeather : φ → Nat → Nat → φ
  GetHealth : φ → ActorRef → Int

/-- A call made through `_levelHandler`, as written to the call log. -/
inductive Call where
  | SpawnEvent (type : EventType) (params : Params) (flags : Nat) (x y z : Int)
  | AddActor (actor : ActorRef)
  | SetWeather (type intensity : Nat)
  deriving DecidableEq, Repr

/-- Whether a logged call is a call of the actor factory. -/
def Call.isSpawn : Call → Bool
  | Call.SpawnEvent _ _ _ _ _ _ => true
  | _ => false

/-- Whether a logged call is a weather call. -/
def Call.isWeather : Call → Bool
  | Call.SetWeather _ _ => true
  | _ => false

/-- The integers `a, a + 1, .., b` in increasing order: the values a loop
`for (i = a; i <= b; i++)` runs through. -/
def intRange (a b : Int) : List Int :=
  (List.range (b + 1 - a).toNat).map (fun (i : Nat) => a + (i : Int))

/-- The read `_eventLayout[i]`: `none` when `i` is outside the allocated array. -/
def tileAt? (layout : List EventTile) (i : Int) : Option EventTile :=
  if 0 ≤ i then layout[i.toNat]? else none

/-- The write `_eventLayout[i] = t` for an index that has been read. -/
def setTile (layout : List EventTile) (i : Int) (t : EventTile) : List EventTile :=
  layout.set i.toNat t

/-- The state an operation threads through its loops: the event map, the external state and
the call log. -/
abbrev Run (φ : Type) := EventMap × φ × List Call

/-- The constructor `EventMap::EventMap(layoutSize)`. -/
def EventMap.new (layoutSize : Vector2i) : EventMap :=
  { _layoutSize := layoutSize, _pitType := PitType.FallForever, _eventLayout := [],
    _eventLayoutForRollback := none, _generators := [], _spawnPoints := [], _warpTargets := [] }

/-- The method `EventMap::CreateCheckpointForRollback`: `memcpy` of `X * Y` tiles. -/
def CreateCheckpointForRollback (m : EventMap) : Option EventMap :=
  if 0 ≤ m._layoutSize.X * m._layoutSize.Y ∧ (m._layoutSize.X * m._layoutSize.Y).toNat ≤ m._eventLayout.length then
    some { m with _eventLayoutForRollback := some (m._eventLayout.take (m._layoutSize.X * m._layoutSize.Y).toNat) }
  else none

/-- The body of the loops of `EventMap::RollbackToCheckpoint` at tile `(x, y)`. -/
def RollbackToCheckpoint.tile {φ : Type} (c : Consts) (h : ILevelHandler φ)
    (prev : List EventTile) (y x : Int) (s : Run φ) : Option (Run φ) :=
  let tileID := y * s.1._layoutSize.X + x
  match tileAt? s.1._eventLayout tileID, tileAt? prev tileID with
  | some tile, some tilePrev =>
    let respawn := tilePrev.IsEventActive && !tile.IsEventActive
    if respawn && tilePrev.Event != EventType.Empty then
      let m1 : EventMap := { s.1 with
        _eventLayout := setTile s.1._eventLayout tileID { tilePrev with IsEventActive := true } }
      if tilePrev.Event = EventType.AreaWeather then
        some (m1, h.SetWeather s.2.1 (tilePrev.EventParams.byte 0) (tilePrev.EventParams.byte 1),
          s.2.2 ++ [Call.SetWeather (tilePrev.EventParams.byte 0) (tilePrev.EventParams.byte 1)])
      else if tilePrev.Event ≠ EventType.Generator then
        let flags := c.IsCreatedFromEventMap ||| tilePrev.EventFlags
        let r := h.SpawnEvent s.2.1 tilePrev.Event tilePrev.EventParams flags x y c.MainPlaneZ
        let call := Call.SpawnEvent tilePrev.Event tilePrev.EventParams flags x y c.MainPlaneZ
        match r.1 with
        | some actor => some (m1, h.AddActor r.2 actor, s.2.2 ++ [call, Call.AddActor actor])
        | none => some (m1, r.2, s.2.2 ++ [call])
      else some (m1, s.2.1, s.2.2)
    else
      some ({ s.1 with _eventLayout := setTile s.1._eventLayout tileID tilePrev }, s.2.1, s.2.2)
  | _, _ => none

/-- The method `EventMap::RollbackToCheckpoint`. -/
def RollbackToCheckpoint {φ : Type} (c : Consts) (h : ILevelHandler φ) (m : EventMap) (w : φ) :
    Option (Run φ) :=
  match m._eventLayoutForRollback with
  | none => some (m, w, [])
  | some prev =>
    match (intRange 0 (m._layoutSize.Y - 1)).foldlM
        (fun s y => (intRange 0 (m._layoutSize.X - 1)).foldlM
          (fun s x => RollbackToCheckpoint.tile c h prev y x s) s) (m, w, []) with
    | none => none
    | some s =>
      some ({ s.1 with _generators := s.1._generators.map (fun g => { g with TimeLeft := 0 }) },
        s.2.1, s.2.2)

/-- The method `EventMap::StoreTileEvent`; `tileParams == nullptr` is `none`. -/
def StoreTileEvent (m : EventMap) (x y : Int) (eventType : EventType) (eventFlags : Nat)
    (tileParams : Option Params) : Option EventMap :=
  if eventType = EventType.Empty ∧ (x < 0 ∨ y < 0 ∨ x ≥ m._layoutSize.X ∨ y ≥ m._layoutSize.Y) then some m
  else
    match tileAt? m._eventLayout (x + y * m._layoutSize.X) with
    | none => none
    | some previousEvent =>
      let newEvent : EventTile :=
        { Event := eventType, EventFlags := eventFlags,
          IsEventActive := (previousEvent.Event == eventType && previousEvent.IsEventActive),
          EventParams := match tileParams with
            | some p => p
            | none => Params.zero }
      some { m with _eventLayout := setTile m._eventLayout (x + y * m._layoutSize.X) newEvent }

/-- Whether a generator has no live spawned actor:
`SpawnedActor == nullptr || SpawnedActor->GetHealth() <= 0`. -/
def GeneratorInfo.noLiveActor {φ : Type} (h : ILevelHandler φ) (w : φ) (g : GeneratorInfo) :
    Bool :=
  match g.SpawnedActor with
  | none => true
  | some a => decide (h.GetHealth w a ≤ 0)

/-- The body of the loop of `EventMap::ProcessGenerators` for one generator: the generator
after the step, the external state after it and the calls made. -/
def ProcessGenerators.step {φ : Type} (c : Consts) (h : ILevelHandler φ)
    (layout : List EventTile) (X : Int) (timeMult : ℚ) (g : GeneratorInfo) (w : φ) :
    Option (GeneratorInfo × φ × List Call) :=
  match tileAt? layout g.EventPos with
  | none => none
  | some tile =>
    if !tile.IsEventActive then
      some ({ g with TimeLeft := g.TimeLeft - timeMult }, w, [])
    else if g.noLiveActor h w then
      if g.TimeLeft ≤ 0 then
        let x := Int.tmod g.EventPos X
        let y := Int.tdiv g.EventPos X
        let r := h.SpawnEvent w g.Event g.EventParams c.IsFromGenerator x y c.SpritePlaneZ
        let call := Call.SpawnEvent g.Event g.EventParams c.IsFromGenerator x y c.SpritePlaneZ
        let g1 := { g with TimeLeft := g.Delay * c.FramesPerSecond, SpawnedActor := r.1 }
        match r.1 with
        | some actor => some (g1, h.AddActor r.2 actor, [call, Call.AddActor actor])
        | none => some (g1, r.2, [call])
      else
        some ({ g with TimeLeft := g.TimeLeft - timeMult, SpawnedActor := none }, w, [])
    else some (g, w, [])

/-- The loop `for (auto& generator : _generators)` of `EventMap::ProcessGenerators`. -/
def ProcessGenerators.loop {φ : Type} (c : Consts) (h : ILevelHandler φ)
    (layout : List EventTile) (X : Int) (timeMult : ℚ) :
    List GeneratorInfo → φ → Option (List GeneratorInfo × φ × List Call)
  | [], w => some ([], w, [])
  | g :: gs, w =>
    match ProcessGenerators.step c h layout X timeMult g w with
    | none => none
    | some r =>
      match ProcessGenerators.loop c h layout X timeMult gs r.2.1 with
      | none => none
      | some rs => some (r.1 :: rs.1, rs.2.1, r.2.2 ++ rs.2.2)

/-- The method `EventMap::ProcessGenerators`. -/
def ProcessGenerators {φ : Type} (c : Consts) (h : ILevelHandler φ) (m : EventMap) (w : φ)
    (timeMult : ℚ) : Option (Run φ) :=
  match ProcessGenerators.loop c h m._eventLayout m._layoutSize.X timeMult m._generators w with
  | none => none
  | some r => some ({ m with _generators := r.1 }, r.2.1, r.2.2)

/-- The body of the loops of `EventMap::ActivateEvents` at tile `(x, y)`. -/
def ActivateEvents.tile {φ : Type} (c : Consts) (h : ILevelHandler φ) (allowAsync : Bool)
    (x y : Int) (s : Run φ) : Option (Run φ) :=
  let i := x + y * s.1._layoutSize.X
  match tileAt? s.1._eventLayout i with
  | none => none
  | some tile =>
    if !tile.IsEventActive && tile.Event != EventType.Empty then
      let m1 : EventMap := { s.1 with
        _eventLayout := setTile s.1._eventLayout i { tile with IsEventActive := true } }
      if tile.Event = EventType.AreaWeather then
        some (m1, h.SetWeather s.2.1 (tile.EventParams.byte 0) (tile.EventParams.byte 1),
          s.2.2 ++ [Call.SetWeather (tile.EventParams.byte 0) (tile.EventParams.byte 1)])
      else if tile.Event ≠ EventType.Generator then
        let flags := c.IsCreatedFromEventMap ||| tile.EventFlags
        let flags := if allowAsync then flags ||| c.Async else flags
        let r := h.SpawnEvent s.2.1 tile.Event tile.EventParams flags x y c.SpritePlaneZ
        let call := Call.SpawnEvent tile.Event tile.EventParams flags x y c.SpritePlaneZ
        match r.1 with
        | some actor => some (m1, h.AddActor r.2 actor, s.2.2 ++ [call, Call.AddActor actor])
        | none => some (m1, r.2, s.2.2 ++ [call])
      else some (m1, s.2.1, s.2.2)
    else some s

/-- The method `EventMap::ActivateEvents`. -/
def ActivateEvents {φ : Type} (c : Consts) (h : ILevelHandler φ) (m : EventMap) (w : φ)
    (tx1 ty1 tx2 ty2 : Int) (allowAsync : Bool) : Option (Run φ) :=
  let x1 := max 0 tx1
  let x2 := min (m._layoutSize.X - 1) tx2
  let y1 := max 0 ty1
  let y2 := min (m._layoutSize.Y - 1) ty2
  (intRange x1 x2).foldlM
    (fun s x => (intRange y1 y2).foldlM (fun s y => ActivateEvents.tile c h allowAsync x y s) s)
    (m, w, [])

/-- The method `EventMap::HasEventByPosition`. -/
def HasEventByPosition (m : EventMap) (x y : Int) : Option Bool :=
  if x ≥ 0 ∧ y ≥ 0 ∧ y < m._layoutSize.Y ∧ x < m._layoutSize.X then
    match tileAt? m._eventLayout (x + y * m._layoutSize.X) with
    | none => none
    | some tile => some (tile.Event != EventType.Empty)
  else some false

/-- The method `EventMap::Deactivate`. -/
def Deactivate (m : EventMap) (x y : Int) : Option EventMap :=
  match HasEventByPosition m x y with
  | none => none
  | some false => some m
  | some true =>
    match tileAt? m._eventLayout (x + y * m._layoutSize.X) with
    | none => none
    | some tile =>
      some { m with
        _eventLayout := setTile m._eventLayout (x + y * m._layoutSize.X) { tile with IsEventActive := false } }

/-- The method `EventMap::ResetGenerator`. -/
def ResetGenerator (m : EventMap) (tx ty : Int) : Option EventMap :=
  match tileAt? m._eventLayout (tx + ty * m._layoutSize.X) with
  | none => none
  | some tile =>
    let generatorIdx := tile.EventParams.readU32
    if generatorIdx ≥ m._generators.length then some m
    else
      some { m with
        _generators := m._generators.modify
          (fun g => { g with TimeLeft := 0, SpawnedActor := none }) generatorIdx }

/-- The method `EventMap::GetEventByPosition(std::int32_t, std::int32_t, std::uint8_t**)`:
the kind returned and, when it is written, the parameter block `*eventParams` points to. -/
def GetEventByPosition (m : EventMap) (x y : Int) : Option (EventType × Option Params) :=
  if y > m._layoutSize.Y then
    some (if m._pitType = PitType.InstantDeathPit then EventType.ModifierDeath
      else EventType.Empty, none)
  else if x ≥ 0 ∧ y ≥ 0 ∧ y < m._layoutSize.Y ∧ x < m._layoutSize.X then
    match tileAt? m._eventLayout (x + y * m._layoutSize.X) with
    | none => none
    | some tile => some (tile.Event, some tile.EventParams)
  else some (EventType.Empty, none)

/-- An allocated grid: the layout size is non-negative and `_eventLayout` holds `X * Y` tiles,
as after `std::make_unique<EventTile[]>(_layoutSize.X * _layoutSize.Y)`. -/
def EventMap.WF (m : EventMap) : Prop :=
  0 ≤ m._layoutSize.X ∧ 0 ≤ m._layoutSize.Y ∧ m._eventLayout.length = (m._layoutSize.X * m._layoutSize.Y).toNat

instance (m : EventMap) : Decidable m.WF := by
  unfold EventMap.WF; infer_instance

/-- The tile coordinates `(x, y)` lie inside the grid. -/
def EventMap.inGrid (m : EventMap) (x y : Int) : Prop :=
  0 ≤ x ∧ x < m._layoutSize.X ∧ 0 ≤ y ∧ y < m._layoutSize.Y

instance (m : EventMap) (x y : Int) : Decidable (m.inGrid x y) := by
  unfold EventMap.inGrid; infer_instance

/-- The tile stored for `(x, y)`, at linear index `x + y * X`. -/
def EventMap.cell (m : EventMap) (x y : Int) : Option EventTile :=
  tileAt? m._eventLayout (x + y * m._layoutSize.X)

/-! ## Sample data

Concrete values for the constants whose headers are not among the sources, a small grid and two
level handlers; they are used to evaluate the definitions on explicit inputs. -/

/-- A sample cast from stored numbers to event kinds. -/
def Sample.toEventType : Nat → EventType
  | 0 => EventType.Empty
  | 1 => EventType.Generator
  | 2 => EventType.AreaWeather
  | 3 => EventType.LevelStart
  | 4 => EventType.WarpOrigin
  | 5 => EventType.WarpTarget
  | 6 => EventType.ModifierHurt
  | 7 => EventType.ModifierDeath
  | 8 => EventType.ModifierOneWay
  | 9 => EventType.ModifierVine
  | 10 => EventType.ModifierHook
  | 11 => EventType.SceneryDestruct
  | 12 => EventType.SceneryDestructButtstomp
  | 13 => EventType.TriggerArea
  | 14 => EventType.SceneryDestructSpeed
  | 15 => EventType.SceneryCollapse
  | 16 => EventType.ModifierHPole
  | 17 => EventType.ModifierVPole
  | n => EventType.Other n

/-- A sample cast from event kinds to stored numbers, inverse to `Sample.toEventType` on the
values it produces. -/
def Sample.fromEventType : EventType → Nat
  | EventType.Empty => 0
  | EventType.Generator => 1
  | EventType.AreaWeather => 2
  | EventType.LevelStart => 3
  | EventType.WarpOrigin => 4
  | EventType.WarpTarget => 5
  | EventType.ModifierHurt => 6
  | EventType.ModifierDeath => 7
  | EventType.ModifierOneWay => 8
  | EventType.ModifierVine => 9
  | EventType.ModifierHook => 10
  | EventType.SceneryDestruct => 11
  | EventType.SceneryDestructButtstomp => 12
  | EventType.TriggerArea => 13
  | EventType.SceneryDestructSpeed => 14
  | EventType.SceneryCollapse => 15
  | EventType.ModifierHPole => 16
  | EventType.ModifierVPole => 17
  | EventType.Other n => n

/-- Sample constants: distinct single-bit actor state flags, 60 frames per second, rectangles
that contain their border. -/
def Sample.consts : Consts :=
  { IsCreatedFromEventMap := 1, IsFromGenerator := 2, Async := 8, IsDestroyed := 16,
    PreserveOnRollback := 32, IsDirty := 64, ForceDisableCollisions := 128,
    CollideWithOtherActors := 256, CollideWithSolidObjects := 512,
    CollideWithSolidObjectsBelow := 1024, IsSolidObject := 2048, ExcludeSimilar := 4096,
    ActivateTileRange := 26,
    Contains := fun b p => decide (b.L ≤ p.X ∧ p.X ≤ b.R ∧ b.T ≤ p.Y ∧ p.Y ≤ b.B),
    FramesPerSecond := 60,
    MainPlaneZ := 500, SpritePlaneZ := 510, DefaultTileSize := 32,
    toEventType := Sample.toEventType, fromEventType := Sample.fromEventType }

/-- A level handler whose factory always creates an actor: the external state counts the
actors created so far and the new actor gets that number; every actor has health 1. -/
def Sample.handler : ILevelHandler Nat :=
  { SpawnEvent := fun w _ _ _ _ _ _ => (some w, w + 1), AddActor := fun w _ => w,
    SetWeather := fun w _ _ => w, GetHealth := fun _ _ => 1 }

/-- A level handler whose factory never creates an actor. -/
def Sample.failingHandler : ILevelHandler Nat :=
  { SpawnEvent := fun w _ _ _ _ _ _ => (none, w), AddActor := fun w _ => w,
    SetWeather := fun w _ _ => w, GetHealth := fun _ _ => 1 }

/-- A parameter block holding the bytes `b0 mod 256, b1 mod 256` followed by zeros. -/
def Sample.params (b0 b1 : Nat) : Params :=
  ⟨[b0 % 256, b1 % 256] ++ List.replicate 14 0, by simp, by
    intro b hb
    simp only [List.cons_append, List.nil_append, List.mem_cons, List.mem_replicate] at hb
    omega⟩

/-- A tile of kind `Other 40` (a collectible), inactive, flagged `0x04` (illuminated). -/
def Sample.gem : EventTile :=
  { Event := EventType.Other 40, EventFlags := 4, EventParams := Sample.params 3 0,
    IsEventActive := false }

/-- An inactive generator tile whose parameters store generator index 0. -/
def Sample.generatorTile : EventTile :=
  { Event := EventType.Generator, EventFlags := 0, EventParams := Sample.params 0 0,
    IsEventActive := false }

/-- An inactive weather tile: weather type 3 (rain), intensity 5. -/
def Sample.weatherTile : EventTile :=
  { Event := EventType.AreaWeather, EventFlags := 0, EventParams := Sample.params 3 5,
    IsEventActive := false }

/-- The generator of `Sample.generatorTile`, at linear index 1: delay 2, timer 0, no actor. -/
def Sample.generator : GeneratorInfo :=
  { EventPos := 1, Event := EventType.Other 41, EventParams := Params.zero, Delay := 2,
    TimeLeft := 0, SpawnedActor := none }

/-- A 2 × 2 event map: `(0,0)` a collectible, `(1,0)` a generator, `(0,1)` weather,
`(1,1)` empty; no snapshot. -/
def Sample.map : EventMap :=
  { _layoutSize := ⟨2, 2⟩, _pitType := PitType.FallForever,
    _eventLayout := [Sample.gem, Sample.generatorTile, Sample.weatherTile, EventTile.empty],
    _eventLayoutForRollback := none, _generators := [Sample.generator], _spawnPoints := [],
    _warpTargets := [] }

/-! ## Specification vocabulary for `ActivateEvents` -/

/-- The clamped rectangle of `ActivateEvents` in the order the loops visit it: `x` in the outer
loop, `y` in the inner loop. -/
def ActivateEvents.coords (m : EventMap) (tx1 ty1 tx2 ty2 : Int) : List (Int × Int) :=
  (intRange (max 0 tx1) (min (m._layoutSize.X - 1) tx2)).flatMap fun x =>
    (intRange (max 0 ty1) (min (m._layoutSize.Y - 1) ty2)).map fun y => (x, y)

/-- A tile with its active bit set unless its kind is `Empty`. -/
def EventTile.activated (t : EventTile) : EventTile :=
  if t.Event = EventType.Empty then t else { t with IsEventActive := true }

/-- The factory or weather call due for a tile that `ActivateEvents` visits at `(x, y)`: none
for an active, `Empty` or `Generator` tile, a weather call for `AreaWeather`, and otherwise a
factory call whose flags are `IsCreatedFromEventMap`, the tile's own flags, and `Async` when
`allowAsync` is set. -/
def ActivateEvents.call? (c : Consts) (allowAsync : Bool) (x y : Int) (t : EventTile) :
    Option Call :=
  if t.IsEventActive = true ∨ t.Event = EventType.Empty ∨ t.Event = EventType.Generator then none
  else if t.Event = EventType.AreaWeather then
    some (Call.SetWeather (t.EventParams.byte 0) (t.EventParams.byte 1))
  else
    some (Call.SpawnEvent t.Event t.EventParams
      (if allowAsync then c.IsCreatedFromEventMap ||| t.EventFlags ||| c.Async
        else c.IsCreatedFromEventMap ||| t.EventFlags) x y c.SpritePlaneZ)

/-- Whether a logged call is a factory call or a weather call. -/
def Call.isSpawnOrWeather (k : Call) : Bool := k.isSpawn || k.isWeather

/-- The factory call due for a tile that `ActivateEvents` visits at `(x, y)`: one call, with
the tile's kind and parameters, the tile coordinates and the flags `IsCreatedFromEventMap`,
the tile's own flags and `Async` when `allowAsync` is set, for an inactive tile whose kind is
none of `Empty`, `Generator` and `AreaWeather`; no call otherwise. -/
def ActivateEvents.spawnCall? (c : Consts) (allowAsync : Bool) (x y : Int) (t : EventTile) :
    Option Call :=
  if t.IsEventActive = false ∧ t.Event ≠ EventType.Empty ∧ t.Event ≠ EventType.Generator ∧
      t.Event ≠ EventType.AreaWeather then
    some (Call.SpawnEvent t.Event t.EventParams
      (if allowAsync then c.IsCreatedFromEventMap ||| t.EventFlags ||| c.Async
        else c.IsCreatedFromEventMap ||| t.EventFlags) x y c.SpritePlaneZ)
  else none

/-- The weather call due for a tile that `ActivateEvents` visits: one call with the first two
parameter bytes for an inactive `AreaWeather` tile; no call otherwise. -/
def ActivateEvents.weatherCall? (t : EventTile) : Option Call :=
  if t.IsEventActive = false ∧ t.Event = EventType.AreaWeather then
    some (Call.SetWeather (t.EventParams.byte 0) (t.EventParams.byte 1))
  else none

/-! ## Specification vocabulary for `RollbackToCheckpoint` -/

/-- The tiles of the grid as pairs `(y, x)` in the order the loops of `RollbackToCheckpoint`
visit them: `y` in the outer loop, `x` in the inner loop. -/
def RollbackToCheckpoint.coords (m : EventMap) : List (Int × Int) :=
  (intRange 0 (m._layoutSize.Y - 1)).flatMap fun y =>
    (intRange 0 (m._layoutSize.X - 1)).map fun x => (y, x)

/-- The factory or weather call due at `(x, y)` when `RollbackToCheckpoint` restores the
snapshot tile `tilePrev` over the live tile `tile`: none unless the snapshot tile is active,
the live tile inactive and the snapshot kind neither `Empty` nor `Generator`; a weather call
for `AreaWeather`; otherwise a factory call with the snapshot tile's kind and parameters and
the flags `IsCreatedFromEventMap | tilePrev.EventFlags`. -/
def RollbackToCheckpoint.call? (c : Consts) (x y : Int) (tile tilePrev : EventTile) :
    Option Call :=
  if tilePrev.IsEventActive = true ∧ tile.IsEventActive = false ∧
      tilePrev.Event ≠ EventType.Empty ∧ tilePrev.Event ≠ EventType.Generator then
    if tilePrev.Event = EventType.AreaWeather then
      some (Call.SetWeather (tilePrev.EventParams.byte 0) (tilePrev.EventParams.byte 1))
    else
      some (Call.SpawnEvent tilePrev.Event tilePrev.EventParams
        (c.IsCreatedFromEventMap ||| tilePrev.EventFlags) x y c.MainPlaneZ)
  else none

/-! ## The level controller (`LevelHandler.cpp`): events and checkpoints

Only the state the event and checkpoint protocol reads or writes is kept: the frame counters,
the event map, the actor list and the players' positions. Camera, music, HUD, scripting and
the tile map's own checkpoint do not touch this state and are left out. -/

/-- A rectangle of `float` coordinates, `AABBf`; `y` grows downwards, `T` is the top and `B`
the bottom. -/
structure AABBf where
  L : ℚ
  T : ℚ
  R : ℚ
  B : ℚ

/-- The fields of an actor object (`Actors::ActorBase`) the level controller reads or writes.
`OnTileDeactivated` is the answer of the virtual method of that name; `_collisionProxyID` is
`none` for `Collisions::NullNode`, the value a new actor object has. -/
structure ActorBase where
  _state : Nat
  _originTile : Vector2i
  _spawnFrames : ℚ
  _health : Int
  OnTileDeactivated : Bool
  _collisionProxyID : Option Int := none

/-- The test `ActorBase::GetState(flag)`, `(_state & flag) == flag`; `ActorBase.h` is not
among the sources. -/
def ActorBase.GetState (actor : ActorBase) (flag : Nat) : Bool :=
  actor._state &&& flag == flag

/-- The update `ActorBase::SetState(flag, false)`, `_state &= ~flag`. -/
def ActorBase.clearState (actor : ActorBase) (flag : Nat) : ActorBase :=
  { actor with _state := actor._state ^^^ (actor._state &&& flag) }

/-- The update `_state |= flag`. -/
def ActorBase.raiseState (actor : ActorBase) (flag : Nat) : ActorBase :=
  { actor with _state := actor._state ||| flag }

/-- The actor factory `Events::EventSpawner::SpawnEvent` over its own state `ψ`: the actor
object it creates, if any. -/
abbrev EventSpawner (ψ : Type) :=
  ψ → EventType → Params → Nat → Int → Int → Int → Option ActorBase × ψ

/-- A call made on the spatial index `_collisions`, as written to its call log. -/
inductive ProxyCall where
  | CreateProxy (actor : ActorRef) (id : Int)
  | DestroyProxy (id : Int)
  | MoveProxy (id : Int)
  deriving DecidableEq, Repr

/-- Modelled from the spec: the spatial index `_collisions`
(`Collisions::DynamicTreeBroadPhase`, whose source is not among the sources) as the set of
valid proxy handles, each with the actor it carries as user data, and the log of the calls
made on it. -/
structure DynamicTreeBroadPhase where
  proxies : List (Int × ActorRef)
  calls : List ProxyCall

/-- Modelled from the spec: `CreateProxy` hands out a handle that is not in use, here the
number after the largest handle in use (handles are never `NullNode`, which is negative). -/
def DynamicTreeBroadPhase.CreateProxy (t : DynamicTreeBroadPhase) (actor : ActorRef) :
    Int × DynamicTreeBroadPhase :=
  let id := (t.proxies.map Prod.fst).foldl max (-1) + 1
  (id, { proxies := t.proxies ++ [(id, actor)],
         calls := t.calls ++ [ProxyCall.CreateProxy actor id] })

/-- Modelled from the spec: `DestroyProxy` takes the handle out of the set. -/
def DynamicTreeBroadPhase.DestroyProxy (t : DynamicTreeBroadPhase) (id : Int) :
    DynamicTreeBroadPhase :=
  { proxies := t.proxies.filter (fun p => p.1 ≠ id),
    calls := t.calls ++ [ProxyCall.DestroyProxy id] }

/-- Modelled from the spec: `MoveProxy` keeps the set of handles. -/
def DynamicTreeBroadPhase.MoveProxy (t : DynamicTreeBroadPhase) (id : Int) :
    DynamicTreeBroadPhase :=
  { t with calls := t.calls ++ [ProxyCall.MoveProxy id] }

/-- The part of a `LevelHandler` the event map and the collision resolver reach: the factory
state, the arena of actor objects (an `ActorRef` is an index into it), the actor list
`_actors`, the spatial index `_collisions` and the weather. -/
structure LevelWorld (ψ : Type) where
  spawner : ψ
  objects : List ActorBase
  _actors : List ActorRef
  _collisions : DynamicTreeBroadPhase
  _weatherType : Nat
  _weatherIntensity : Nat

/-- The state of a `LevelHandler`. `_players` holds the position `GetPos()` of each player. -/
structure LevelHandler (ψ : Type) where
  _elapsedFrames : ℚ
  _checkpointFrames : ℚ
  _checkpointCreated : Bool
  _eventMap : EventMap
  _players : List (ℚ × ℚ)
  world : LevelWorld ψ

/-- The method `LevelHandler::AddActor`: an actor without `ForceDisableCollisions` gets a
proxy in the spatial index, then the actor is appended to `_actors`. `SetParent` and
`UpdateAABB` touch no state that is kept here. An `ActorRef` that names no object does not
occur: the reference is the one the factory has just returned. -/
def LevelHandler.AddActor {ψ : Type} (c : Consts) (w : LevelWorld ψ) (actor : ActorRef) :
    LevelWorld ψ :=
  match w.objects[actor]? with
  | some o =>
    if !o.GetState c.ForceDisableCollisions then
      let r := w._collisions.CreateProxy actor
      { w with
        objects := w.objects.set actor { o with _collisionProxyID := some r.1 },
        _collisions := r.2,
        _actors := w._actors ++ [actor] }
    else { w with _actors := w._actors ++ [actor] }
  | none => { w with _actors := w._actors ++ [actor] }

/-- The methods of `LevelHandler` the event map calls: `EventSpawner()->SpawnEvent`, which
puts a created actor object into the arena, `AddActor`, `SetWeather`, and the health of an
actor object. -/
def LevelHandler.callbacks {ψ : Type} (c : Consts) (spawn : EventSpawner ψ) :
    ILevelHandler (LevelWorld ψ) :=
  { SpawnEvent := fun w type params flags x y z =>
      match spawn w.spawner type params flags x y z with
      | (some actor, sp) =>
        (some w.objects.length, { w with spawner := sp, objects := w.objects ++ [actor] })
      | (none, sp) => (none, { w with spawner := sp })
    AddActor := LevelHandler.AddActor c
    SetWeather := fun w type intensity =>
      { w with _weatherType := type, _weatherIntensity := intensity }
    GetHealth := fun w actor =>
      match w.objects[actor]? with
      | some o => o._health
      | none => 0 }

/-- The method `LevelHandler::IsLocalSession` of the base class. -/
def LevelHandler.IsLocalSession {ψ : Type} (_lh : LevelHandler ψ) : Bool := true

/-- The method `LevelHandler::GetElapsedFrames`. -/
def LevelHandler.GetElapsedFrames {ψ : Type} (lh : LevelHandler ψ) : ℚ := lh._elapsedFrames

/-- The conversion `(std::int32_t)v` of a `float`: truncation towards zero. -/
def truncToInt (v : ℚ) : Int := Int.tdiv v.num v.den

/-- The bookkeeping both actor loops of the level controller share: reset the generator of an
actor that came from a generator, then deactivate its origin tile. -/
def LevelHandler.releaseTile (c : Consts) (em : EventMap) (actor : ActorBase) :
    Option EventMap :=
  match (if actor._state &&& c.IsFromGenerator = c.IsFromGenerator then
      ResetGenerator em actor._originTile.X actor._originTile.Y else some em) with
  | none => none
  | some em1 => Deactivate em1 actor._originTile.X actor._originTile.Y

/-- The body of the actor loop of `LevelHandler::RollbackToCheckpoint`. -/
def LevelHandler.RollbackToCheckpoint.actor (c : Consts) (checkpointFrames : ℚ)
    (s : EventMap × List ActorBase) (a : ActorRef) : Option (EventMap × List ActorBase) :=
  match s.2[a]? with
  | none => none
  | some actor =>
    if actor._spawnFrames > checkpointFrames ∧
        ¬ (actor._state &&& c.PreserveOnRollback = c.PreserveOnRollback) then
      match (if actor._state &&& (c.IsCreatedFromEventMap ||| c.IsFromGenerator) ≠ 0 then
          LevelHandler.releaseTile c s.1 actor else some s.1) with
      | none => none
      | some em => some (em, s.2.set a { actor with _state := actor._state ||| c.IsDestroyed })
    else some s

/-- The method `LevelHandler::SetCheckpoint`. -/
def LevelHandler.SetCheckpoint {ψ : Type} (lh : LevelHandler ψ) : Option (LevelHandler ψ) :=
  let lh1 := { lh with _checkpointFrames := lh.GetElapsedFrames }
  if lh1.IsLocalSession then
    match CreateCheckpointForRollback lh1._eventMap with
    | none => none
    | some em => some { lh1 with _eventMap := em }
  else some lh1

/-- The method `LevelHandler::RollbackToCheckpoint`. -/
def LevelHandler.RollbackToCheckpoint {ψ : Type} (c : Consts) (spawn : EventSpawner ψ)
    (lh : LevelHandler ψ) : Option (LevelHandler ψ) :=
  if lh.IsLocalSession then
    match lh.world._actors.foldlM (LevelHandler.RollbackToCheckpoint.actor c lh._checkpointFrames)
        (lh._eventMap, lh.world.objects) with
    | none => none
    | some s =>
      match Jazz2.RollbackToCheckpoint c (LevelHandler.callbacks c spawn) s.1
          { lh.world with objects := s.2 } with
      | none => none
      | some r =>
        some { lh with _eventMap := r.1, world := r.2.1, _elapsedFrames := lh._checkpointFrames }
  else some lh

/-- The two rectangles `ProcessEvents` builds for a player at `pos`: the activation range and
the same range widened by 4 tiles. -/
def LevelHandler.ProcessEvents.zones (c : Consts) (pos : ℚ × ℚ) : AABBi × AABBi :=
  let tx := Int.tdiv (truncToInt pos.1) c.DefaultTileSize
  let ty := Int.tdiv (truncToInt pos.2) c.DefaultTileSize
  let activationRange : AABBi :=
    ⟨tx - c.ActivateTileRange, ty - c.ActivateTileRange, tx + c.ActivateTileRange,
      ty + c.ActivateTileRange⟩
  (activationRange,
    ⟨activationRange.L - 4, activationRange.T - 4, activationRange.R + 4, activationRange.B + 4⟩)

/-- The body of the actor loop of `LevelHandler::ProcessEvents`. -/
def LevelHandler.ProcessEvents.actor (c : Consts) (playerZones : List (AABBi × AABBi))
    (s : EventMap × List ActorBase) (a : ActorRef) : Option (EventMap × List ActorBase) :=
  match s.2[a]? with
  | none => none
  | some actor =>
    if actor._state &&& (c.IsCreatedFromEventMap ||| c.IsFromGenerator) ≠ 0 then
      let isInside := playerZones.any (fun z => c.Contains z.2 actor._originTile)
      if !isInside && actor.OnTileDeactivated then
        match LevelHandler.releaseTile c s.1 actor with
        | none => none
        | some em => some (em, s.2.set a { actor with _state := actor._state ||| c.IsDestroyed })
      else some s
    else some s

/-- The part of `LevelHandler::ProcessEvents` guarded by `!_players.empty()`: the event map,
the world and the flag `_checkpointCreated` after it. -/
def LevelHandler.ProcessEvents.withPlayers {ψ : Type} (c : Consts) (spawn : EventSpawner ψ)
    (lh : LevelHandler ψ) : Option (EventMap × LevelWorld ψ × Bool) :=
  let playerZones := lh._players.map (LevelHandler.ProcessEvents.zones c)
  match lh.world._actors.foldlM (LevelHandler.ProcessEvents.actor c playerZones)
      (lh._eventMap, lh.world.objects) with
  | none => none
  | some s =>
    match playerZones.foldlM (fun (r : Run (LevelWorld ψ)) z =>
        match ActivateEvents c (LevelHandler.callbacks c spawn) r.1 r.2.1 z.1.L z.1.T z.1.R z.1.B
            true with
        | none => none
        | some r1 => some (r1.1, r1.2.1, r.2.2 ++ r1.2.2))
        (s.1, { lh.world with objects := s.2 }, []) with
    | none => none
    | some r =>
      if !lh._checkpointCreated then
        match CreateCheckpointForRollback r.1 with
        | none => none
        | some em => some (em, r.2.1, true)
      else some (r.1, r.2.1, lh._checkpointCreated)

/-- The method `LevelHandler::ProcessEvents`. -/
def LevelHandler.ProcessEvents {ψ : Type} (c : Consts) (spawn : EventSpawner ψ)
    (lh : LevelHandler ψ) (timeMult : ℚ) : Option (LevelHandler ψ) :=
  match (if !lh._players.isEmpty then LevelHandler.ProcessEvents.withPlayers c spawn lh
      else some (lh._eventMap, lh.world, lh._checkpointCreated)) with
  | none => none
  | some s =>
    match ProcessGenerators c (LevelHandler.callbacks c spawn) s.1 s.2.1 timeMult with
    | none => none
    | some r => some { lh with _eventMap := r.1, world := r.2.1, _checkpointCreated := s.2.2 }

/-- The update of the frame counter at the end of `LevelHandler::OnEndFrame` in a frame that
is not paused: `_elapsedFrames += timeMult`. -/
def LevelHandler.advanceFrames {ψ : Type} (lh : LevelHandler ψ) (timeMult : ℚ) :
    LevelHandler ψ :=
  { lh with _elapsedFrames := lh._elapsedFrames + timeMult }

/-- A factory that creates, for every request, an actor flagged `IsCreatedFromEventMap` at
the requested tile. -/
def Sample.spawner : EventSpawner Unit :=
  fun sp _ _ flags x y _ =>
    (some { _state := flags, _originTile := ⟨x, y⟩, _spawnFrames := 0, _health := 1,
            OnTileDeactivated := true }, sp)

/-- A level controller one frame into a level: one player at the origin of the sample map,
no actors, no checkpoint taken yet and the checkpoint frame still at its initial value 0. -/
def Sample.level : LevelHandler Unit :=
  { _elapsedFrames := 1, _checkpointFrames := 0, _checkpointCreated := false,
    _eventMap := Sample.map, _players := [(0, 0)],
    world := { spawner := (), objects := [], _actors := [],
               _collisions := { proxies := [], calls := [] }, _weatherType := 0,
               _weatherIntensity := 0 } }

/-! ## Specification vocabulary for `ProcessGenerators` -/

/-- Every generator of the table points at a tile of the allocated grid. -/
def EventMap.GeneratorsInGrid (m : EventMap) : Prop :=
  ∀ g ∈ m._generators, 0 ≤ g.EventPos ∧ g.EventPos.toNat < m._eventLayout.length

instance (m : EventMap) : Decidable m.GeneratorsInGrid := by
  unfold EventMap.GeneratorsInGrid; infer_instance

/-- A generator over several ticks: tick `k` processes it against the grid and external state
given as the `k`-th entry of the list (both may change between ticks). The result is the
generator after the last tick and the calls it made, in order. -/
def ProcessGenerators.ticks {φ : Type} (c : Consts) (h : ILevelHandler φ) (X : Int)
    (timeMult : ℚ) : List (List EventTile × φ) → GeneratorInfo →
      Option (GeneratorInfo × List Call)
  | [], g => some (g, [])
  | lw :: rest, g =>
    match ProcessGenerators.step c h lw.1 X timeMult g lw.2 with
    | none => none
    | some r =>
      match ProcessGenerators.ticks c h X timeMult rest r.1 with
      | none => none
      | some r2 => some (r2.1, r.2.2 ++ r2.2)

/-- The sample map after its three events have been activated. -/
def Sample.activeMap : EventMap :=
  { Sample.map with
    _eventLayout := [{ Sample.gem with IsEventActive := true },
      { Sample.generatorTile with IsEventActive := true },
      { Sample.weatherTile with IsEventActive := true }, EventTile.empty] }

/-! ## Streams, `ReadEvents`, `InitializeFromStream`, `SerializeResumableToStream` -/

/-- Modelled from the spec: the byte stream class `Death::IO::Stream` is not among the
sources. A stream being read is the list of bytes still to come; a read that needs more bytes
than are left has no result. -/
abbrev Stream := List Nat

/-- Modelled from the spec: `Stream::ReadValue<std::uint8_t>()` takes one byte. -/
def Stream.ReadU8 : Stream → Option (Nat × Stream)
  | b :: rest => some (b % 256, rest)
  | [] => none

/-- Modelled from the spec: `Stream::ReadValue<std::uint16_t>()` takes two bytes, low byte
first. -/
def Stream.ReadU16 : Stream → Option (Nat × Stream)
  | b0 :: b1 :: rest => some (b0 % 256 + 256 * (b1 % 256), rest)
  | _ => none

/-- Modelled from the spec: `Stream::Read(eventParams, 16)` takes sixteen raw bytes. -/
def Stream.ReadParams (s : Stream) : Option (Params × Stream) :=
  if hlen : 16 ≤ s.length then
    some (⟨(s.take 16).map (fun b => b % 256), by simp; omega, by
      intro b hb
      simp only [List.mem_map] at hb
      obtain ⟨a, _, rfl⟩ := hb
      omega⟩, s.drop 16)
  else none

/-- The variable-length integer codec of `Death::IO::Stream` (`ReadVariableUint32`,
`ReadVariableInt32`, `WriteVariableUint32`, `WriteVariableInt32`), whose source is not among
the sources. -/
structure VarintCodec where
  ReadVariableUint32 : Stream → Option (Nat × Stream)
  ReadVariableInt32 : Stream → Option (Int × Stream)
  WriteVariableUint32 : Nat → List Nat
  WriteVariableInt32 : Int → List Nat

/-- The game difficulty; `GameDifficulty.h` is not among the sources, the enumerators are the
ones `ReadEvents` names. -/
inductive GameDifficulty where
  | Default
  | Easy
  | Normal
  | Hard
  | Multiplayer
  deriving DecidableEq, Repr

/-- The `switch (difficulty)` at the head of `ReadEvents`. -/
def ReadEvents.difficultyBit : GameDifficulty → Nat
  | GameDifficulty.Easy => 4
  | GameDifficulty.Hard => 6
  | _ => 5

/-- What `ReadEvents` has in its local variables once it has read one record: the kind, the
flags byte after the `^= 0x01`, the two generator bytes and the parameter block. -/
structure ReadEvents.Record where
  eventType : Nat
  eventFlags : Nat
  generatorFlags : Nat
  generatorDelay : Nat
  eventParams : Params
  deriving DecidableEq, Repr

/-- The reads `ReadEvents` makes for one record, on-grid or off-grid. -/
def ReadEvents.readRecord (s : Stream) : Option (ReadEvents.Record × Stream) :=
  match Stream.ReadU16 s with
  | none => none
  | some (eventType, s1) =>
    match Stream.ReadU8 s1 with
    | none => none
    | some (eventFlags, s2) =>
      match (if eventFlags &&& 0x02 ≠ 0 then
          match Stream.ReadU8 s2 with
          | none => none
          | some (generatorFlags, s3) =>
            match Stream.ReadU8 s3 with
            | none => none
            | some (generatorDelay, s4) => some (generatorFlags, generatorDelay, s4)
        else some (0, 0, s2)) with
      | none => none
      | some (generatorFlags, generatorDelay, s5) =>
        if eventFlags &&& 0x01 = 0 then
          match Stream.ReadParams s5 with
          | none => none
          | some (eventParams, s6) =>
            some (⟨eventType, eventFlags ^^^ 0x01, generatorFlags, generatorDelay, eventParams⟩,
              s6)
        else
          some (⟨eventType, eventFlags, generatorFlags, generatorDelay, Params.zero⟩, s5)

/-- The method `EventMap::AddWarpTarget`. -/
def AddWarpTarget (c : Consts) (m : EventMap) (id : Nat) (x y : Int) : EventMap :=
  { m with
    _warpTargets := m._warpTargets ++
      [{ Id := id,
         Pos := (((x * c.DefaultTileSize + Int.tdiv c.DefaultTileSize 2 : Int) : ℚ),
           ((y * c.DefaultTileSize + Int.tdiv c.DefaultTileSize 2 : Int) : ℚ)) }] }

/-- The method `EventMap::AddSpawnPosition`. -/
def AddSpawnPosition (c : Consts) (m : EventMap) (typeMask : Nat) (x y : Int) : EventMap :=
  if typeMask = 0 then m
  else
    { m with
      _spawnPoints := m._spawnPoints ++
        [{ PlayerTypeMask := typeMask,
           Pos := (((x * c.DefaultTileSize : Int) : ℚ), ((y * c.DefaultTileSize : Int) : ℚ) - 8) }] }

/-- A call `tileMap->SetTileEventFlags(x, y, kind, params)` made by `ReadEvents`. -/
structure TileMapCall where
  x : Int
  y : Int
  type : EventType
  params : Params
  deriving DecidableEq, Repr

/-- The kinds `ReadEvents` also reports to the tile map. -/
def ReadEvents.isTileMapKind : EventType → Bool
  | EventType.ModifierOneWay => true
  | EventType.ModifierVine => true
  | EventType.ModifierHook => true
  | EventType.SceneryDestruct => true
  | EventType.SceneryDestructButtstomp => true
  | EventType.TriggerArea => true
  | EventType.SceneryDestructSpeed => true
  | EventType.SceneryCollapse => true
  | EventType.ModifierHPole => true
  | EventType.ModifierVPole => true
  | _ => false

/-- The difficulty test of `ReadEvents`:
`(eventFlags & (0x01 << difficultyBit)) != 0 && (eventFlags & 0x80) == 0`. -/
def ReadEvents.passes (difficultyBit eventFlags : Nat) : Bool :=
  decide (eventFlags &&& (0x01 <<< difficultyBit) ≠ 0) && decide (eventFlags &&& 0x80 = 0)

/-- The body of the on-grid loops of `ReadEvents` at `(x, y)` after the record has been
read. -/
def ReadEvents.store (c : Consts) (difficultyBit : Nat) (x y : Int) (r : ReadEvents.Record)
    (s : EventMap × List TileMapCall) : Option (EventMap × List TileMapCall) :=
  let actorFlags := r.eventFlags &&& 0x04
  if r.eventFlags &&& 0x02 ≠ 0 then
    if c.toEventType r.eventType ≠ EventType.Empty ∧
        ReadEvents.passes difficultyBit r.eventFlags = true then
      let generatorIdx := s.1._generators.length % 4294967296
      let timeLeft : ℚ := if r.generatorFlags &&& 0x01 ≠ 0 then (r.generatorDelay : ℚ) else 0
      let generator : GeneratorInfo :=
        { EventPos := x + y * s.1._layoutSize.X, Event := c.toEventType r.eventType,
          EventParams := r.eventParams, Delay := (r.generatorDelay : ℚ), TimeLeft := timeLeft,
          SpawnedActor := none }
      match StoreTileEvent { s.1 with _generators := s.1._generators ++ [generator] } x y
          EventType.Generator actorFlags (some (r.eventParams.writeU32 generatorIdx)) with
      | none => none
      | some m1 => some (m1, s.2)
    else some s
  else if r.eventFlags = 0 ∨ ReadEvents.passes difficultyBit r.eventFlags = true then
    match c.toEventType r.eventType with
    | EventType.Empty => some s
    | EventType.LevelStart => some (AddSpawnPosition c s.1 (r.eventParams.byte 0) x y, s.2)
    | EventType.WarpTarget => some (AddWarpTarget c s.1 (r.eventParams.byte 0) x y, s.2)
    | kind =>
      match StoreTileEvent s.1 x y kind actorFlags (some r.eventParams) with
      | none => none
      | some m1 =>
        some (m1, if ReadEvents.isTileMapKind kind then s.2 ++ [⟨x, y, kind, r.eventParams⟩]
          else s.2)
  else some s

/-- The body of the on-grid loops of `ReadEvents` at `(x, y)`: read a record, then store. -/
def ReadEvents.tile (c : Consts) (difficultyBit : Nat) (y x : Int)
    (s : EventMap × Stream × List TileMapCall) : Option (EventMap × Stream × List TileMapCall) :=
  match ReadEvents.readRecord s.2.1 with
  | none => none
  | some (r, s1) =>
    match ReadEvents.store c difficultyBit x y r (s.1, s.2.2) with
    | none => none
    | some (m1, log) => some (m1, s1, log)

/-- The loop over the off-grid records of `ReadEvents`: each is read and dropped. -/
def ReadEvents.offGrid (codec : VarintCodec) : Nat → Stream → Option Stream
  | 0, s => some s
  | n + 1, s =>
    match codec.ReadVariableUint32 s with
    | none => none
    | some (_, s1) =>
      match codec.ReadVariableUint32 s1 with
      | none => none
      | some (_, s2) =>
        match ReadEvents.readRecord s2 with
        | none => none
        | some (_, s3) => ReadEvents.offGrid codec n s3

/-- The method `EventMap::ReadEvents`: the event map after it, the rest of the stream and the
calls made to the tile map. -/
def ReadEvents (c : Consts) (codec : VarintCodec) (m : EventMap) (s : Stream)
    (difficulty : GameDifficulty) : Option (EventMap × Stream × List TileMapCall) :=
  if m._layoutSize.X * m._layoutSize.Y < 0 then none
  else
    let m0 : EventMap := { m with
      _eventLayout := List.replicate (m._layoutSize.X * m._layoutSize.Y).toNat EventTile.empty }
    match (intRange 0 (m._layoutSize.Y - 1)).foldlM
        (fun st y => (intRange 0 (m._layoutSize.X - 1)).foldlM
          (fun st x => ReadEvents.tile c (ReadEvents.difficultyBit difficulty) y x st) st)
        (m0, s, []) with
    | none => none
    | some (m1, s1, log) =>
      match codec.ReadVariableUint32 s1 with
      | none => none
      | some (offGridEventCount, s2) =>
        match ReadEvents.offGrid codec offGridEventCount s2 with
        | none => none
        | some s3 => some (m1, s3, log)

/-- The body of the loop of `EventMap::InitializeFromStream` at index `i`. -/
def InitializeFromStream.tile (c : Consts) (codec : VarintCodec) (s : EventMap × Stream)
    (i : Int) : Option (EventMap × Stream) :=
  match tileAt? s.1._eventLayout i with
  | none => none
  | some tile =>
    match codec.ReadVariableUint32 s.2 with
    | none => none
    | some (event, s1) =>
      match codec.ReadVariableUint32 s1 with
      | none => none
      | some (flags, s2) =>
        match Stream.ReadParams s2 with
        | none => none
        | some (params, s3) =>
          some ({ s.1 with
            _eventLayout := setTile s.1._eventLayout i
              { tile with
                Event := c.toEventType (event % 65536), EventFlags := flags,
                EventParams := params } }, s3)

/-- The method `EventMap::InitializeFromStream`. A layout size that differs from the size of
the grid fails the `DEATH_ASSERT`, which returns. -/
def InitializeFromStream (c : Consts) (codec : VarintCodec) (m : EventMap) (src : Stream) :
    Option (EventMap × Stream) :=
  match codec.ReadVariableInt32 src with
  | none => none
  | some (layoutSize, s1) =>
    if layoutSize = m._layoutSize.X * m._layoutSize.Y then
      (intRange 0 (layoutSize - 1)).foldlM (InitializeFromStream.tile c codec) (m, s1)
    else some (m, s1)

/-- The bytes `SerializeResumableToStream` writes for one tile. -/
def SerializeResumableToStream.tile (c : Consts) (codec : VarintCodec) (tile : EventTile) :
    List Nat :=
  codec.WriteVariableUint32 (c.fromEventType tile.Event) ++
    codec.WriteVariableUint32 tile.EventFlags ++ tile.EventParams.bytes

/-- The method `EventMap::SerializeResumableToStream`: the bytes appended to `dest`. -/
def SerializeResumableToStream (c : Consts) (codec : VarintCodec) (m : EventMap)
    (fromCheckpoint : Bool) : Option (List Nat) :=
  let layoutSize := m._layoutSize.X * m._layoutSize.Y
  let source := match fromCheckpoint, m._eventLayoutForRollback with
    | true, some prev => prev
    | _, _ => m._eventLayout
  match (intRange 0 (layoutSize - 1)).mapM (fun i => tileAt? source i) with
  | none => none
  | some tiles =>
    some (codec.WriteVariableInt32 layoutSize ++
      tiles.flatMap (SerializeResumableToStream.tile c codec))

/-! ## The operations of `EventMap` as data -/

/-- A call of a state-changing method of `EventMap` with its arguments. -/
inductive Op where
  | StoreTileEvent (x y : Int) (eventType : EventType) (eventFlags : Nat)
      (tileParams : Option Params)
  | ActivateEvents (tx1 ty1 tx2 ty2 : Int) (allowAsync : Bool)
  | Deactivate (x y : Int)
  | ResetGenerator (tx ty : Int)
  | ProcessGenerators (timeMult : ℚ)
  | CreateCheckpointForRollback
  | RollbackToCheckpoint
  | ReadEvents (s : Stream) (difficulty : GameDifficulty)
  | InitializeFromStream (src : Stream)

/-- The event map and external state after a call. -/
def Op.apply {φ : Type} (c : Consts) (codec : VarintCodec) (h : ILevelHandler φ) :
    Op → EventMap × φ → Option (EventMap × φ)
  | Op.StoreTileEvent x y eventType eventFlags tileParams, s =>
    (Jazz2.StoreTileEvent s.1 x y eventType eventFlags tileParams).map fun m => (m, s.2)
  | Op.ActivateEvents tx1 ty1 tx2 ty2 allowAsync, s =>
    (Jazz2.ActivateEvents c h s.1 s.2 tx1 ty1 tx2 ty2 allowAsync).map fun r => (r.1, r.2.1)
  | Op.Deactivate x y, s => (Jazz2.Deactivate s.1 x y).map fun m => (m, s.2)
  | Op.ResetGenerator tx ty, s => (Jazz2.ResetGenerator s.1 tx ty).map fun m => (m, s.2)
  | Op.ProcessGenerators timeMult, s =>
    (Jazz2.ProcessGenerators c h s.1 s.2 timeMult).map fun r => (r.1, r.2.1)
  | Op.CreateCheckpointForRollback, s =>
    (Jazz2.CreateCheckpointForRollback s.1).map fun m => (m, s.2)
  | Op.RollbackToCheckpoint, s =>
    (Jazz2.RollbackToCheckpoint c h s.1 s.2).map fun r => (r.1, r.2.1)
  | Op.ReadEvents st difficulty, s =>
    (Jazz2.ReadEvents c codec s.1 st difficulty).map fun r => (r.1, s.2)
  | Op.InitializeFromStream src, s =>
    (Jazz2.InitializeFromStream c codec s.1 src).map fun r => (r.1, s.2)

/-- The event map and external state after a sequence of calls. -/
def Op.applyAll {φ : Type} (c : Consts) (codec : VarintCodec) (h : ILevelHandler φ)
    (ops : List Op) (s : EventMap × φ) : Option (EventMap × φ) :=
  ops.foldlM (fun s op => op.apply c codec h s) s

/-- The calls that change the grid or the generators between a capture and a rollback:
`ActivateEvents`, `Deactivate`, `StoreTileEvent`, `ProcessGenerators`, `ResetGenerator`. -/
def Op.isMutation : Op → Bool
  | Op.StoreTileEvent _ _ _ _ _ => true
  | Op.ActivateEvents _ _ _ _ _ => true
  | Op.Deactivate _ _ => true
  | Op.ResetGenerator _ _ => true
  | Op.ProcessGenerators _ => true
  | _ => false

/-- The factory call due at `(x, y)` when `RollbackToCheckpoint` restores the snapshot tile
`tilePrev` over the live tile `tile`: one call for a snapshot tile that is active while the
live tile is inactive and whose kind is none of `Empty`, `Generator` and `AreaWeather`. -/
def RollbackToCheckpoint.spawnCall? (c : Consts) (x y : Int) (tile tilePrev : EventTile) :
    Option Call :=
  if tilePrev.IsEventActive = true ∧ tile.IsEventActive = false ∧
      tilePrev.Event ≠ EventType.Empty ∧ tilePrev.Event ≠ EventType.Generator ∧
      tilePrev.Event ≠ EventType.AreaWeather then
    some (Call.SpawnEvent tilePrev.Event tilePrev.EventParams
      (c.IsCreatedFromEventMap ||| tilePrev.EventFlags) x y c.MainPlaneZ)
  else none

/-- The weather call due when `RollbackToCheckpoint` restores the snapshot tile `tilePrev`
over the live tile `tile`: one call for an active `AreaWeather` snapshot tile while the live
tile is inactive. -/
def RollbackToCheckpoint.weatherCall? (tile tilePrev : EventTile) : Option Call :=
  if tilePrev.IsEventActive = true ∧ tile.IsEventActive = false ∧
      tilePrev.Event = EventType.AreaWeather then
    some (Call.SetWeather (tilePrev.EventParams.byte 0) (tilePrev.EventParams.byte 1))
  else none

/-- The sample map with the snapshot `CreateCheckpointForRollback` takes of it. -/
def Sample.capturedMap : EventMap :=
  { Sample.map with _eventLayoutForRollback := some Sample.map._eventLayout }

/-- A codec that reads and writes nothing, for calls that use no stream. -/
def Sample.noCodec : VarintCodec :=
  ⟨fun _ => none, fun _ => none, fun _ => [], fun _ => []⟩

/-- The sample map with the snapshot `CreateCheckpointForRollback` takes after activation,
and all of its tiles deactivated again. -/
def Sample.rolledMap : EventMap :=
  { Sample.map with _eventLayoutForRollback := some Sample.activeMap._eventLayout }

/-! ## Invariants of the data model -/

/-- The invariant of one cell: kind `Empty` implies inactive and all parameter bytes zero. -/
def EventTile.EmptyOk (t : EventTile) : Prop :=
  t.Event = EventType.Empty → t.IsEventActive = false ∧ t.EventParams = Params.zero

instance (t : EventTile) : Decidable t.EmptyOk := by
  unfold EventTile.EmptyOk; infer_instance

/-- The cell invariant on every cell of the live grid and of the snapshot, if there is one. -/
def EventMap.EmptyInvariant (m : EventMap) : Prop :=
  (∀ t ∈ m._eventLayout, t.EmptyOk) ∧
    ∀ prev, m._eventLayoutForRollback = some prev → ∀ t ∈ prev, t.EmptyOk

/-- The round-trip link between the generator table and a grid `layout`: generator `i` points
at an in-grid tile `x + y * width` whose kind is `Generator` and whose first four parameter
bytes hold `i`. -/
def EventMap.LinkOn (m : EventMap) (layout : List EventTile) : Prop :=
  ∀ i g, m._generators[i]? = some g →
    ∃ x y t, m.inGrid x y ∧ g.EventPos = x + y * m._layoutSize.X ∧
      tileAt? layout g.EventPos = some t ∧ t.Event = EventType.Generator ∧
      t.EventParams.readU32 = i

/-- The generator link on the live grid and on the snapshot, if there is one. -/
def EventMap.GeneratorLink (m : EventMap) : Prop :=
  m.LinkOn m._eventLayout ∧
    ∀ prev, m._eventLayoutForRollback = some prev → m.LinkOn prev

/-- The records `ReadEvents` reads for `n` consecutive tiles. -/
def ReadEvents.readRecords : Nat → Stream → Option (List ReadEvents.Record × Stream)
  | 0, s => some ([], s)
  | n + 1, s =>
    match ReadEvents.readRecord s with
    | none => none
    | some (r, s1) =>
      match ReadEvents.readRecords n s1 with
      | none => none
      | some (rs, s2) => some (r :: rs, s2)

/-- The on-grid loops of `ReadEvents` once the records are known: each record is stored at
its tile `(y, x)`, in list order. -/
def ReadEvents.storeAll (c : Consts) (difficultyBit : Nat)
    (Z : List ((Int × Int) × ReadEvents.Record)) (st : EventMap × List TileMapCall) :
    Option (EventMap × List TileMapCall) :=
  Z.foldlM (fun st z => ReadEvents.store c difficultyBit z.1.2 z.1.1 z.2 st) st

/-- The tiles of the grid as pairs `(y, x)` in row-major order, the order in which the on-grid
loops of `ReadEvents` read their records: `y` in the outer loop, `x` in the inner loop. -/
def ReadEvents.coords (m : EventMap) : List (Int × Int) :=
  (intRange 0 (m._layoutSize.Y - 1)).flatMap fun y =>
    (intRange 0 (m._layoutSize.X - 1)).map fun x => (y, x)

/-- The grid `ReadEvents` allocates: `X * Y` value-initialised tiles. -/
def ReadEvents.fresh (m : EventMap) : EventMap :=
  { m with
    _eventLayout := List.replicate (m._layoutSize.X * m._layoutSize.Y).toNat EventTile.empty }

/-- The three values `InitializeFromStream` reads for each of `n` consecutive tiles: kind
number, flags and parameter block. -/
def InitializeFromStream.records (codec : VarintCodec) :
    Nat → Stream → Option (List (Nat × Nat × Params) × Stream)
  | 0, s => some ([], s)
  | n + 1, s =>
    match codec.ReadVariableUint32 s with
    | none => none
    | some (event, s1) =>
      match codec.ReadVariableUint32 s1 with
      | none => none
      | some (flags, s2) =>
        match Stream.ReadParams s2 with
        | none => none
        | some (params, s3) =>
          match InitializeFromStream.records codec n s3 with
          | none => none
          | some (rs, s4) => some ((event, flags, params) :: rs, s4)

/-- A tile after `InitializeFromStream` has assigned it the values of a record: kind, flags
and parameters come from the record, the active bit stays. -/
def InitializeFromStream.update (c : Consts) (t : EventTile) (r : Nat × Nat × Params) :
    EventTile :=
  { t with Event := c.toEventType (r.1 % 65536), EventFlags := r.2.1, EventParams := r.2.2 }

/-! ## A sample codec and a sample level stream -/

/-- A sample reader of a variable-length unsigned number: seven bits per byte, low bits first,
the top bit of a byte says that another byte follows; at most `k` bytes. -/
def Sample.readVar : Nat → Stream → Option (Nat × Stream)
  | 0, _ => none
  | _ + 1, [] => none
  | k + 1, b :: rest =>
    if b % 256 < 128 then some (b % 256, rest)
    else
      match Sample.readVar k rest with
      | none => none
      | some (v, r) => some (b % 256 - 128 + 128 * v, r)

/-- The writer that goes with `Sample.readVar`. -/
def Sample.writeVar : Nat → Nat → List Nat
  | 0, _ => []
  | k + 1, v => if v < 128 then [v] else (128 + v % 128) :: Sample.writeVar k (v / 128)

/-- A sample instance of the variable-length integer codec: unsigned numbers take up to five
bytes, signed numbers are written as `2 * v` when `v ≥ 0` and as `-2 * v - 1` otherwise. -/
def Sample.codec : VarintCodec :=
  { ReadVariableUint32 := fun s =>
      (Sample.readVar 5 s).map fun r => (r.1 % 4294967296, r.2),
    ReadVariableInt32 := fun s =>
      (Sample.readVar 5 s).map fun r =>
        (if r.1 % 2 = 0 then ((r.1 / 2 : Nat) : Int) else -(((r.1 + 1) / 2 : Nat) : Int), r.2),
    WriteVariableUint32 := fun v => Sample.writeVar 5 (v % 4294967296),
    WriteVariableInt32 := fun v =>
      Sample.writeVar 5 (if 0 ≤ v then (2 * v).toNat else (-2 * v - 1).toNat) }

/-- An event map of two by two tiles on which nothing has been loaded yet. -/
def Sample.blank : EventMap := EventMap.new ⟨2, 2⟩

/-- A sample level stream for two by two tiles: kind 40 for every difficulty tier of `Normal`
without parameters, kind 40 for `Easy` only, a generator of kind 40 with delay 2, kind 41 for
multiplayer only; then a count of zero off-grid records. -/
def Sample.levelStream : Stream :=
  [40, 0, 33, 40, 0, 17, 40, 0, 35, 0, 2, 41, 0, 161, 0]

/-- The grid `ReadEvents` builds from `Sample.levelStream` on difficulty `Normal`. -/
def Sample.loaded : EventMap :=
  { _layoutSize := ⟨2, 2⟩, _pitType := PitType.FallForever,
    _eventLayout :=
      [{ Event := EventType.Other 40, EventFlags := 0, EventParams := Params.zero,
         IsEventActive := false },
       EventTile.empty,
       { Event := EventType.Generator, EventFlags := 0,
         EventParams := Params.zero.writeU32 0, IsEventActive := false },
       EventTile.empty],
    _eventLayoutForRollback := none,
    _generators :=
      [{ EventPos := 2, Event := EventType.Other 40, EventParams := Params.zero,
         Delay := ((2 : Nat) : ℚ), TimeLeft := 0, SpawnedActor := none }],
    _spawnPoints := [], _warpTargets := [] }

/-! ## Lookups in the warp target and spawn point tables -/

/-- The generator `nCine::Random()` over its own state `ρ`: the call `Next(min, max)`. Its
source is not among the sources. -/
abbrev RandomGenerator (ρ : Type) := ρ → Int → Int → Int × ρ

/-- The counting loop of `GetWarpTarget`. -/
def GetWarpTarget.count (targets : List WarpTarget) (id : Nat) : Int :=
  targets.foldl (fun targetCount target => if target.Id = id then targetCount + 1 else targetCount) 0

/-- The selecting loop of `GetWarpTarget` and the `return Vector2f(-1.0f, -1.0f)` after it. -/
def GetWarpTarget.select (id : Nat) : List WarpTarget → Int → ℚ × ℚ
  | [], _ => (-1, -1)
  | target :: rest, selectedTarget =>
    if target.Id ≠ id then GetWarpTarget.select id rest selectedTarget
    else if selectedTarget = 0 then target.Pos
    else GetWarpTarget.select id rest (selectedTarget - 1)

/-- The method `EventMap::GetWarpTarget`: the position returned, the state of the random
generator afterwards and the ranges `(min, max)` requested from it. -/
def GetWarpTarget {ρ : Type} (rnd : RandomGenerator ρ) (m : EventMap) (id : Nat) (r : ρ) :
    (ℚ × ℚ) × ρ × List (Int × Int) :=
  let targetCount := GetWarpTarget.count m._warpTargets id
  let selectedTarget := rnd r 0 targetCount
  (GetWarpTarget.select id m._warpTargets selectedTarget.1, selectedTarget.2,
    [(0, targetCount)])

/-- The test `(target.PlayerTypeMask & (1 << ((std::int32_t)type - 1))) != 0` of
`GetSpawnPosition` for a player type `type ≥ 1`. -/
def GetSpawnPosition.isFor (type : Nat) (target : SpawnPoint) : Bool :=
  decide (target.PlayerTypeMask &&& (1 <<< (type - 1)) ≠ 0)

/-- The selecting loop of `GetSpawnPosition` and the `return Vector2f(-1, -1)` after it. -/
def GetSpawnPosition.select (type : Nat) : List SpawnPoint → Int → ℚ × ℚ
  | [], _ => (-1, -1)
  | target :: rest, selectedTarget =>
    if !GetSpawnPosition.isFor type target then GetSpawnPosition.select type rest selectedTarget
    else if selectedTarget = 0 then target.Pos
    else GetSpawnPosition.select type rest (selectedTarget - 1)

/-- The method `EventMap::GetSpawnPosition`: the position returned, the state of the random
generator afterwards and the ranges `(min, max)` requested from it. -/
def GetSpawnPosition {ρ : Type} (rnd : RandomGenerator ρ) (m : EventMap) (type : Nat) (r : ρ) :
    (ℚ × ℚ) × ρ × List (Int × Int) :=
  let targetCount : Int := m._spawnPoints.foldl
    (fun targetCount target =>
      if GetSpawnPosition.isFor type target then targetCount + 1 else targetCount) 0
  if targetCount > 0 then
    let selectedTarget := rnd r 0 targetCount
    (GetSpawnPosition.select type m._spawnPoints selectedTarget.1, selectedTarget.2,
      [(0, targetCount)])
  else ((-1, -1), r, [])

/-- A sample random generator: it returns `min` and counts the requests. -/
def Sample.random : RandomGenerator Nat := fun r min _ => (min, r + 1)

/-! ## The collision resolver (`LevelHandler::ResolveCollisions`) -/

/-- The call `_actors.eraseUnordered(it)` of `SmallVector`, whose source is not among the
sources: the last element is moved into position `it` and the list gets one shorter. -/
def eraseUnordered (actors : List ActorRef) (it : Nat) : List ActorRef :=
  match actors.getLast? with
  | none => actors
  | some last => (actors.set it last).dropLast

/-- The sweep loop of `ResolveCollisions` from position `it` on, with `fuel` bounding the
number of times the loop condition is evaluated: `none` when the fuel runs out (or when an
`ActorRef` names no object, which valid references exclude). `BeforeActorDestroyed` does
nothing in `LevelHandler`. -/
def ResolveCollisions.sweep {ψ : Type} (c : Consts) :
    Nat → Nat → LevelWorld ψ → Option (LevelWorld ψ)
  | 0, _, _ => none
  | fuel + 1, it, w =>
    match w._actors[it]? with
    | none => some w
    | some a =>
      match w.objects[a]? with
      | none => none
      | some actor =>
        if actor.GetState c.IsDestroyed then
          let w1 : LevelWorld ψ :=
            match actor._collisionProxyID with
            | some id =>
              { w with
                _collisions := w._collisions.DestroyProxy id,
                objects := w.objects.set a { actor with _collisionProxyID := none } }
            | none => w
          ResolveCollisions.sweep c fuel it { w1 with _actors := eraseUnordered w1._actors it }
        else if actor.GetState c.IsDirty then
          match actor._collisionProxyID with
          | none => ResolveCollisions.sweep c fuel it w
          | some id =>
            ResolveCollisions.sweep c fuel (it + 1)
              { w with
                _collisions := w._collisions.MoveProxy id,
                objects := w.objects.set a (actor.clearState c.IsDirty) }
        else ResolveCollisions.sweep c fuel (it + 1) w

/-- The virtual methods and fields of actors the resolver and `IsPositionEmpty` go through,
over a world state `ω` they may change: the flags `GetState()`, the narrow phase
`IsCollidingWith`, the handler `OnHandleCollision(other)`, the box `AABBInner`, and
`runtime_cast<SolidObjectBase>(actor)` with the field `IsOneWay` (`none` when the cast gives
`nullptr`). -/
structure ActorMethods (ω : Type) where
  GetState : ω → ActorRef → Nat
  IsCollidingWith : ω → ActorRef → ActorRef → Bool
  OnHandleCollision : ω → ActorRef → ActorRef → Bool × ω
  AABBInner : ω → ActorRef → AABBf
  IsOneWay : ω → ActorRef → Option Bool

/-- The callback `UpdatePairsHelper::OnPairAdded(proxyA, proxyB)` of `ResolveCollisions`: the
world afterwards and the handler calls `(self, other)` made, appended to the log. -/
def ResolveCollisions.OnPairAdded {ω : Type} (c : Consts) (am : ActorMethods ω)
    (s : ω × List (ActorRef × ActorRef)) (actorA actorB : ActorRef) :
    ω × List (ActorRef × ActorRef) :=
  if (am.GetState s.1 actorA ||| am.GetState s.1 actorB) &&&
      (c.CollideWithOtherActors ||| c.IsDestroyed) ≠ c.CollideWithOtherActors then s
  else if am.IsCollidingWith s.1 actorA actorB then
    let r := am.OnHandleCollision s.1 actorA actorB
    if !r.1 then
      ((am.OnHandleCollision r.2 actorB actorA).2, s.2 ++ [(actorA, actorB), (actorB, actorA)])
    else (r.2, s.2 ++ [(actorA, actorB)])
  else s

/-- The call `_collisions.UpdatePairs(&helper)` for the pairs the broad phase reports. -/
def ResolveCollisions.UpdatePairs {ω : Type} (c : Consts) (am : ActorMethods ω)
    (pairs : List (ActorRef × ActorRef)) (s : ω × List (ActorRef × ActorRef)) :
    ω × List (ActorRef × ActorRef) :=
  pairs.foldl (fun s p => ResolveCollisions.OnPairAdded c am s p.1 p.2) s

/-- The state the solid object phase of `IsPositionEmpty` threads through its callback: the
world, the local `colliderActor` and the handler calls `(self, other)` made. -/
abbrev QueryState (ω : Type) := ω × Option ActorRef × List (ActorRef × ActorRef)

/-- The lambda `IsPositionEmpty` passes to `FindCollisionActorsByAABB`: the value it returns
(`false` stops the query) and the state afterwards. -/
def IsPositionEmpty.callback {ω : Type} (c : Consts) (am : ActorMethods ω) (self : ActorRef)
    (Downwards : Bool) (s : QueryState ω) (actor : ActorRef) : Bool × QueryState ω :=
  if am.GetState s.1 actor &&& (c.IsSolidObject ||| c.IsDestroyed) ≠ c.IsSolidObject then
    (true, s)
  else if am.GetState s.1 self &&& c.ExcludeSimilar = c.ExcludeSimilar ∧
      am.GetState s.1 actor &&& c.ExcludeSimilar = c.ExcludeSimilar then (true, s)
  else if am.GetState s.1 self &&& c.CollideWithSolidObjectsBelow =
        c.CollideWithSolidObjectsBelow ∧
      (am.AABBInner s.1 self).B >
        ((am.AABBInner s.1 actor).T + (am.AABBInner s.1 actor).B) * (1 / 2) then (true, s)
  else if am.IsOneWay s.1 actor = none ∨ am.IsOneWay s.1 actor = some false ∨
      Downwards = true then
    let r := am.OnHandleCollision s.1 self actor
    if !r.1 then
      let r2 := am.OnHandleCollision r.2 actor self
      if !r2.1 then (false, (r2.2, some actor, s.2.2 ++ [(self, actor), (actor, self)]))
      else (true, (r2.2, s.2.1, s.2.2 ++ [(self, actor), (actor, self)]))
    else (true, (r.2, s.2.1, s.2.2 ++ [(self, actor)]))
  else (true, s)

/-- The helper `QueryHelper::OnCollisionQuery` of `FindCollisionActorsByAABB` for the actor
of a node the broad phase reports; `overlaps` is `actor->IsCollidingWith(AABB)`. -/
def FindCollisionActorsByAABB.OnCollisionQuery {ω : Type} (c : Consts) (am : ActorMethods ω)
    (self : ActorRef) (overlaps : ω → ActorRef → Bool)
    (callback : QueryState ω → ActorRef → Bool × QueryState ω) (s : QueryState ω)
    (actor : ActorRef) : Bool × QueryState ω :=
  if self = actor ∨ am.GetState s.1 actor &&& (c.CollideWithOtherActors ||| c.IsDestroyed) ≠
      c.CollideWithOtherActors then (true, s)
  else if overlaps s.1 actor then callback s actor
  else (true, s)

/-- The call `_collisions.Query(&helper, aabb)` over the nodes the broad phase reports, in
the order it reports them; the query ends when the helper returns `false`. -/
def FindCollisionActorsByAABB {ω : Type} (c : Consts) (am : ActorMethods ω) (self : ActorRef)
    (overlaps : ω → ActorRef → Bool)
    (callback : QueryState ω → ActorRef → Bool × QueryState ω) :
    List ActorRef → QueryState ω → QueryState ω
  | [], s => s
  | actor :: rest, s =>
    let r := FindCollisionActorsByAABB.OnCollisionQuery c am self overlaps callback s actor
    if r.1 then FindCollisionActorsByAABB c am self overlaps callback rest r.2 else r.2

/-- The method `LevelHandler::IsPositionEmpty` after the tile map phase, which returns early
with `false` when `tilesEmpty` is `false` (the tile map is not among the sources): the value
returned, `*collider`, the world and the handler calls made. -/
def IsPositionEmpty {ω : Type} (c : Consts) (am : ActorMethods ω) (self : ActorRef)
    (Downwards tilesEmpty : Bool) (overlaps : ω → ActorRef → Bool) (nodes : List ActorRef)
    (w : ω) : Bool × QueryState ω :=
  if !tilesEmpty then (false, (w, none, []))
  else if am.GetState w self &&& c.CollideWithSolidObjects = c.CollideWithSolidObjects then
    let s := FindCollisionActorsByAABB c am self overlaps
      (IsPositionEmpty.callback c am self Downwards) nodes (w, none, [])
    (s.2.1.isNone, s)
  else (true, (w, none, []))

/-- Sample actor methods over a world that lists, for each actor, its flags and the top and
bottom of its inner box: every narrow phase test succeeds, no handler handles a collision,
no actor is a `SolidObjectBase`. -/
def Sample.methods : ActorMethods (List (Nat × ℚ × ℚ)) :=
  { GetState := fun w a => (w.getD a (0, 0, 0)).1
    IsCollidingWith := fun _ _ _ => true
    OnHandleCollision := fun w _ _ => (false, w)
    AABBInner := fun w a => ⟨0, (w.getD a (0, 0, 0)).2.1, 0, (w.getD a (0, 0, 0)).2.2⟩
    IsOneWay := fun _ _ => none }

/-- Two actors: actor 0 collides with other actors and with solid objects below it, its
inner box ends at `y = 10`; actor 1 is a solid object that collides with other actors, its
inner box spans `15 ≤ y ≤ 25`, so its centre `y = 20` is below the bottom of actor 0. -/
def Sample.twoActors : List (Nat × ℚ × ℚ) :=
  [(256 + 512 + 1024, 0, 10), (256 + 2048, 15, 25)]

/-! ## Specification vocabulary for the sweep of `ResolveCollisions` -/

/-- A list with its last element moved to the front: what `eraseUnordered` leaves of the
elements after the erased position. -/
def rotateLast (r : List ActorRef) : List ActorRef :=
  match r.getLast? with
  | none => []
  | some last => last :: r.dropLast

/-- The sweep loop on the part of `_actors` it has not passed yet: the actors of that part
that stay, in their final order, and the arena and the spatial index afterwards. -/
def ResolveCollisions.sweepRest (c : Consts) :
    Nat → List ActorRef → List ActorBase × DynamicTreeBroadPhase →
      Option (List ActorRef × List ActorBase × DynamicTreeBroadPhase)
  | 0, _, _ => none
  | _ + 1, [], st => some ([], st)
  | fuel + 1, a :: r, st =>
    match st.1[a]? with
    | none => none
    | some actor =>
      if actor.GetState c.IsDestroyed then
        ResolveCollisions.sweepRest c fuel (rotateLast r)
          (match actor._collisionProxyID with
            | some id => (st.1.set a { actor with _collisionProxyID := none },
                st.2.DestroyProxy id)
            | none => st)
      else if actor.GetState c.IsDirty then
        match actor._collisionProxyID with
        | none => ResolveCollisions.sweepRest c fuel (a :: r) st
        | some id =>
          (ResolveCollisions.sweepRest c fuel r
            (st.1.set a (actor.clearState c.IsDirty), st.2.MoveProxy id)).map
              fun q => (a :: q.1, q.2)
      else (ResolveCollisions.sweepRest c fuel r st).map fun q => (a :: q.1, q.2)

/-- What the sweep does to one actor object of the list: a destroyed actor loses its proxy
handle, a dirty actor that has a proxy gets its dirty flag cleared. -/
def ActorBase.swept (c : Consts) (o : ActorBase) : ActorBase :=
  if o.GetState c.IsDestroyed then { o with _collisionProxyID := none }
  else if o.GetState c.IsDirty then
    match o._collisionProxyID with
    | none => o
    | some _ => o.clearState c.IsDirty
  else o

/-- The call the sweep makes on the spatial index for one actor object of the list. -/
def ActorBase.sweepCall? (c : Consts) (o : ActorBase) : Option ProxyCall :=
  if o.GetState c.IsDestroyed then o._collisionProxyID.map ProxyCall.DestroyProxy
  else if o.GetState c.IsDirty then o._collisionProxyID.map ProxyCall.MoveProxy
  else none

/-- The handle the sweep takes out of the spatial index for one actor object of the list. -/
def ActorBase.evictedProxy? (c : Consts) (o : ActorBase) : Option Int :=
  if o.GetState c.IsDestroyed then o._collisionProxyID else none

/-- Whether the actor object behind a reference is not flagged `IsDestroyed`. -/
def ResolveCollisions.aliveIn (c : Consts) (objs : List ActorBase) (a : ActorRef) : Bool :=
  match objs[a]? with
  | some o => !o.GetState c.IsDestroyed
  | none => false

/-- The handle the sweep takes out of the spatial index for the actor behind a reference. -/
def ResolveCollisions.evictedIn (c : Consts) (objs : List ActorBase) (a : ActorRef) :
    Option Int :=
  (objs[a]?).bind (ActorBase.evictedProxy? c)

/-- The call the sweep makes on the spatial index for the actor behind a reference. -/
def ResolveCollisions.sweepCallIn (c : Consts) (objs : List ActorBase) (a : ActorRef) :
    Option ProxyCall :=
  (objs[a]?).bind (ActorBase.sweepCall? c)

/-- A non-destroyed actor flagged dirty that has no collision proxy. -/
def ActorBase.dirtyWithoutProxy (c : Consts) (o : ActorBase) : Prop :=
  o.GetState c.IsDestroyed = false ∧ o.GetState c.IsDirty = true ∧ o._collisionProxyID = none

/-- An empty world of a level controller. -/
def LevelWorld.empty {ψ : Type} (sp : ψ) : LevelWorld ψ :=
  { spawner := sp, objects := [], _actors := [], _collisions := { proxies := [], calls := [] },
    _weatherType := 0, _weatherIntensity := 0 }

/-- The steps the proxy invariant is stated over: `AddActor` for a new actor object, a change
of an actor's flags to `IsDestroyed` or `IsDirty`, and a sweep of `ResolveCollisions` with a
bound on the number of loop iterations. -/
inductive CollisionOp where
  | AddActor (actor : ActorBase)
  | MarkDestroyed (a : ActorRef)
  | MarkDirty (a : ActorRef)
  | Sweep (fuel : Nat)

/-- One step on the world; a new actor object has no proxy handle before `AddActor`. -/
def CollisionOp.apply {ψ : Type} (c : Consts) (w : LevelWorld ψ) :
    CollisionOp → Option (LevelWorld ψ)
  | CollisionOp.AddActor actor =>
    some (LevelHandler.AddActor c
      { w with objects := w.objects ++ [{ actor with _collisionProxyID := none }] }
      w.objects.length)
  | CollisionOp.MarkDestroyed a =>
    some { w with objects := w.objects.modify (fun o => o.raiseState c.IsDestroyed) a }
  | CollisionOp.MarkDirty a =>
    some { w with objects := w.objects.modify (fun o => o.raiseState c.IsDirty) a }
  | CollisionOp.Sweep fuel => ResolveCollisions.sweep c fuel 0 w

/-- A sequence of steps. -/
def CollisionOp.applyAll {ψ : Type} (c : Consts) (w : LevelWorld ψ) (ops : List CollisionOp) :
    Option (LevelWorld ψ) :=
  ops.foldlM (CollisionOp.apply c) w

/-- The proxy invariant: the actors of `_actors` are distinct objects of the arena; the
handles of the spatial index are distinct, each belongs to an actor of `_actors` that holds
it; an actor of `_actors` without `ForceDisableCollisions` holds a handle of the index, one
with that flag holds none. -/
def LevelWorld.ProxyInvariant {ψ : Type} (c : Consts) (w : LevelWorld ψ) : Prop :=
  (∀ a ∈ w._actors, a < w.objects.length) ∧ w._actors.Nodup ∧
  (w._collisions.proxies.map Prod.fst).Nodup ∧
  (∀ p ∈ w._collisions.proxies, p.2 ∈ w._actors ∧
    ∃ o, w.objects[p.2]? = some o ∧ o._collisionProxyID = some p.1) ∧
  (∀ a ∈ w._actors, ∀ o, w.objects[a]? = some o →
    (o.GetState c.ForceDisableCollisions = false →
      ∃ id, o._collisionProxyID = some id ∧ (id, a) ∈ w._collisions.proxies) ∧
    (o.GetState c.ForceDisableCollisions = true → o._collisionProxyID = none))

/-- Whether the actor behind a reference is alive (not flagged `IsDestroyed`). -/
def LevelWorld.alive {ψ : Type} (c : Consts) (w : LevelWorld ψ) (a : ActorRef) : Bool :=
  ResolveCollisions.aliveIn c w.objects a

/-- Whether the actor behind a reference is collision-enabled (no
`ForceDisableCollisions`). -/
def LevelWorld.collisionEnabled {ψ : Type} (c : Consts) (w : LevelWorld ψ) (a : ActorRef) :
    Bool :=
  match w.objects[a]? with
  | some o => !o.GetState c.ForceDisableCollisions
  | none => false

/-- A sample actor object with the given flags. -/
def Sample.actor (state : Nat) : ActorBase :=
  { _state := state, _originTile := ⟨0, 0⟩, _spawnFrames := 0, _health := 1,
    OnTileDeactivated := true }

/-- A world with one actor that was added with `ForceDisableCollisions` set, so without a
proxy, and flagged dirty afterwards. -/
def Sample.stuckWorld : LevelWorld Unit :=
  { spawner := (), objects := [Sample.actor (128 ||| 64)], _actors := [0],
    _collisions := { proxies := [], calls := [] }, _weatherType := 0, _weatherIntensity := 0 }

/-- A world with three actors: actor 0 is destroyed and holds proxy 0, actor 1 is dirty and
holds proxy 1, actor 2 has collisions disabled and holds no proxy. -/
def Sample.sweepWorld : LevelWorld Unit :=
  { spawner := (),
    objects := [{ Sample.actor 16 with _collisionProxyID := some 0 },
      { Sample.actor 64 with _collisionProxyID := some 1 }, Sample.actor 128],
    _actors := [0, 1, 2],
    _collisions := { proxies := [(0, 0), (1, 1)], calls := [] },
    _weatherType := 0, _weatherIntensity := 0 }

/-- The world after adding a collision-enabled actor and one with collisions disabled,
flagging the first as destroyed, and a sweep. -/
def Sample.afterSweep : LevelWorld Unit :=
  { spawner := (), objects := [Sample.actor 16, Sample.actor 128], _actors := [1],
    _collisions :=
      { proxies := [], calls := [ProxyCall.CreateProxy 0 0, ProxyCall.DestroyProxy 0] },
    _weatherType := 0, _weatherIntensity := 0 }

/-! ## Specification vocabulary for the level controller -/

/-- A property of the external state that every call the event map makes on the level
handler keeps: `SetWeather`, and `SpawnEvent` followed by `AddActor` of the actor it
returned. -/
def ILevelHandler.Preserves {φ : Type} (h : ILevelHandler φ) (Q : φ → Prop) : Prop :=
  (∀ w type intensity, Q w → Q (h.SetWeather w type intensity)) ∧
  (∀ w type params flags x y z, Q w →
    Q (h.SpawnEvent w type params flags x y z).2 ∧
    ∀ actor, (h.SpawnEvent w type params flags x y z).1 = some actor →
      Q (h.AddActor (h.SpawnEvent w type params flags x y z).2 actor))

/-- The actor objects `objs0` are still in the arena, unchanged. -/
def LevelWorld.Keeps {ψ : Type} (objs0 : List ActorBase) (w : LevelWorld ψ) : Prop :=
  objs0.length ≤ w.objects.length ∧ ∀ b, b < objs0.length → w.objects[b]? = objs0[b]?

/-- Whether the actor loop of `ProcessEvents` deactivates an actor: it was created from the
event map or a generator, its origin tile is in no player's secondary rectangle, and its
`OnTileDeactivated` returns `true`. -/
def LevelHandler.ProcessEvents.deactivates (c : Consts) (playerZones : List (AABBi × AABBi))
    (o : ActorBase) : Bool :=
  decide (o._state &&& (c.IsCreatedFromEventMap ||| c.IsFromGenerator) ≠ 0) &&
    !playerZones.any (fun z => c.Contains z.2 o._originTile) && o.OnTileDeactivated

/-- Whether the actor loop of `LevelHandler::RollbackToCheckpoint` purges an actor: it was
spawned after the checkpoint frame and has no `PreserveOnRollback`. -/
def LevelHandler.RollbackToCheckpoint.purges (c : Consts) (checkpointFrames : ℚ)
    (o : ActorBase) : Bool :=
  decide (o._spawnFrames > checkpointFrames) &&
    !decide (o._state &&& c.PreserveOnRollback = c.PreserveOnRollback)

/-- Whether an actor was created from the event map or from a generator. -/
def ActorBase.fromEventMap (c : Consts) (o : ActorBase) : Bool :=
  decide (o._state &&& (c.IsCreatedFromEventMap ||| c.IsFromGenerator) ≠ 0)

/-- The shape the two actor loops of the level controller share: an actor that `mark`
selects is flagged `IsDestroyed`, after its tile has been released when `release` holds. -/
def LevelHandler.actorStep (c : Consts) (mark release : ActorBase → Bool)
    (s : EventMap × List ActorBase) (a : ActorRef) : Option (EventMap × List ActorBase) :=
  match s.2[a]? with
  | none => none
  | some actor =>
    if mark actor then
      match (if release actor then LevelHandler.releaseTile c s.1 actor else some s.1) with
      | none => none
      | some em => some (em, s.2.set a { actor with _state := actor._state ||| c.IsDestroyed })
    else some s

/-- The tiles released one after the other for the listed actor objects. -/
def LevelHandler.releaseAll (c : Consts) (em : EventMap) (os : List ActorBase) :
    Option EventMap :=
  os.foldlM (LevelHandler.releaseTile c) em

/-- A tile with its active bit cleared unless its kind is `Empty`. -/
def EventTile.deactivated (t : EventTile) : EventTile :=
  if t.Event ≠ EventType.Empty then { t with IsEventActive := false } else t

/-- Whether an actor loop of the level controller releases the tile with linear index `j`:
one of the listed actors is selected by `mark` and `release` and has its origin tile there,
inside the grid. -/
def LevelHandler.releasedAt (mark release : ActorBase → Bool) (em : EventMap)
    (objs : List ActorBase) (L : List ActorRef) (j : Int) : Bool :=
  L.any fun a =>
    match objs[a]? with
    | some o =>
      mark o && release o && decide (em.inGrid o._originTile.X o._originTile.Y) &&
        decide (j = o._originTile.X + o._originTile.Y * em._layoutSize.X)
    | none => false

/-- The actor objects an actor loop of the level controller releases the tiles of, in list
order. -/
def LevelHandler.releasedActors (mark release : ActorBase → Bool) (objs : List ActorBase)
    (L : List ActorRef) : List ActorBase :=
  L.filterMap fun a => (objs[a]?).filter fun o => mark o && release o

/-- The actors the actor loop of `ProcessEvents` runs over: `_actors` when there is a player,
none otherwise. -/
def LevelHandler.ProcessEvents.visited {ψ : Type} (lh : LevelHandler ψ) : List ActorRef :=
  if lh._players.isEmpty then [] else lh.world._actors

/-- A level controller over the sample map with one player at the origin and two actors
created from the event map: actor 0 with origin tile `(100, 100)`, far outside the player's
secondary rectangle, and actor 1 with origin tile `(0, 0)`, inside it. -/
def Sample.farLevel : LevelHandler Unit :=
  { _elapsedFrames := 5, _checkpointFrames := 2, _checkpointCreated := true,
    _eventMap := Sample.activeMap, _players := [(0, 0)],
    world :=
      { spawner := (),
        objects := [{ Sample.actor 1 with _originTile := ⟨100, 100⟩, _spawnFrames := 3 },
          { Sample.actor 1 with _spawnFrames := 1 }],
        _actors := [0, 1], _collisions := { proxies := [], calls := [] }, _weatherType := 0,
        _weatherIntensity := 0 } }

/-- A resumable stream for two by two tiles, in the format of `Sample.codec`: the size 4, then
four records of kind 0 (`Empty`) with flags 0 and sixteen zero bytes. -/
def Sample.emptyStream : Stream :=
  8 :: (List.replicate 4 (0 :: 0 :: List.replicate 16 0)).flatten

/-- The operations the generator link is claimed to survive: `ActivateEvents`, `Deactivate`,
`ProcessGenerators`, `ResetGenerator`, `CreateCheckpointForRollback` and
`RollbackToCheckpoint`. -/
def Op.keepsLink : Op → Bool
  | Op.ActivateEvents _ _ _ _ _ => true
  | Op.Deactivate _ _ => true
  | Op.ProcessGenerators _ => true
  | Op.ResetGenerator _ _ => true
  | Op.CreateCheckpointForRollback => true
  | Op.RollbackToCheckpoint => true
  | _ => false

/-- An allocated grid whose snapshot, if there is one, has the size of the grid, and on which
the generator link holds. -/
def EventMap.Linked (m : EventMap) : Prop :=
  m.WF ∧ (∀ prev, m._eventLayoutForRollback = some prev →
    prev.length = m._eventLayout.length) ∧ m.GeneratorLink

/-- The grid `SerializeResumableToStream` writes: the snapshot when `fromCheckpoint` is set
and there is one, the live grid otherwise. -/
def SerializeResumableToStream.source (m : EventMap) (fromCheckpoint : Bool) :
    List EventTile :=
  match fromCheckpoint, m._eventLayoutForRollback with
  | true, some prev => prev
  | _, _ => m._eventLayout

/-- The values `InitializeFromStream` reads back for a tile that
`SerializeResumableToStream` wrote: kind number, flags and parameter block. -/
def SerializeResumableToStream.record (c : Consts) (t : EventTile) : Nat × Nat × Params :=
  (c.fromEventType t.Event, t.EventFlags, t.EventParams)

/-! ## Single precision arithmetic

A `float` is modelled as the rational number it denotes. The definitions above compute with
these numbers exactly. The definitions of this section round the result of every `float`
operation to binary32, to the nearest number with ties to the even significand, as the code
does in `generator.TimeLeft -= timeMult` and `(T + B) * 0.5f`. Infinities and NaN are not
modelled: `Binary32.inRange` bounds the results the model covers. -/

/-- The number `⌊log₂ n⌋` for `1 ≤ n`, by halving `n` at most `fuel` times; `fuel = n` is
enough. -/
def Binary32.log2 : Nat → Nat → Nat
  | 0, _ => 0
  | fuel + 1, n => if n < 2 then 0 else Binary32.log2 fuel (n / 2) + 1

/-- The exponent `⌊log₂ |q|⌋` of a rational number `q ≠ 0`: the difference of the exponents
of numerator and denominator, or one less. -/
def Binary32.exponent (q : ℚ) : Int :=
  let e0 : Int := (Binary32.log2 q.num.natAbs q.num.natAbs : Int) -
    (Binary32.log2 q.den q.den : Int)
  if (2 : ℚ) ^ e0 ≤ |q| then e0 else e0 - 1

/-- The exponent of the unit in the last place of the binary32 numbers around `q`: 24
significant bits, and the exponent `-126` for the subnormal numbers. -/
def Binary32.ulpExponent (q : ℚ) : Int :=
  max (Binary32.exponent q) (-126) - 23

/-- The size of `q` in units of the last place, rounded to the nearest integer, to the even
one when `q` is half way between two. -/
def Binary32.significand (q : ℚ) : Int :=
  let scaled : ℚ := |q| / (2 : ℚ) ^ Binary32.ulpExponent q
  let m : Int := ⌊scaled⌋
  let frac : ℚ := scaled - m
  if frac < 1 / 2 then m
  else if 1 / 2 < frac then m + 1
  else if m % 2 = 0 then m else m + 1

/-- The binary32 number nearest to `q`, the one with the even significand when `q` is half
way between two: the value a `float` operation stores when its exact result is `q`. -/
def Binary32.round (q : ℚ) : ℚ :=
  (if q < 0 then -1 else 1) * (Binary32.significand q : ℚ) * (2 : ℚ) ^ Binary32.ulpExponent q

/-- The exact results that round to a finite binary32 number: those of magnitude below
`2^128 - 2^103`. A result outside is stored as an infinity, which is not modelled. -/
def Binary32.inRange (q : ℚ) : Prop :=
  |q| < 2 ^ 128 - 2 ^ 103

instance (q : ℚ) : Decidable (Binary32.inRange q) := by
  unfold Binary32.inRange; infer_instance

/-- The `float` sum `a + b`. -/
def Binary32.add (a b : ℚ) : ℚ := Binary32.round (a + b)

/-- The `float` difference `a - b`. -/
def Binary32.sub (a b : ℚ) : ℚ := Binary32.round (a - b)

/-- The `float` product `a * b`. -/
def Binary32.mul (a b : ℚ) : ℚ := Binary32.round (a * b)

/-- The body of the loop of `EventMap::ProcessGenerators` for one generator, with the timer
computed in `float`: the generator after the step, the external state after it and the calls
made. -/
def Binary32.ProcessGenerators.step {φ : Type} (c : Consts) (h : ILevelHandler φ)
    (layout : List EventTile) (X : Int) (timeMult : ℚ) (g : GeneratorInfo) (w : φ) :
    Option (GeneratorInfo × φ × List Call) :=
  match tileAt? layout g.EventPos with
  | none => none
  | some tile =>
    if !tile.IsEventActive then
      some ({ g with TimeLeft := Binary32.sub g.TimeLeft timeMult }, w, [])
    else if g.noLiveActor h w then
      if g.TimeLeft ≤ 0 then
        let x := Int.tmod g.EventPos X
        let y := Int.tdiv g.EventPos X
        let r := h.SpawnEvent w g.Event g.EventParams c.IsFromGenerator x y c.SpritePlaneZ
        let call := Call.SpawnEvent g.Event g.EventParams c.IsFromGenerator x y c.SpritePlaneZ
        let g1 := { g with
          TimeLeft := Binary32.mul g.Delay c.FramesPerSecond, SpawnedActor := r.1 }
        match r.1 with
        | some actor => some (g1, h.AddActor r.2 actor, [call, Call.AddActor actor])
        | none => some (g1, r.2, [call])
      else
        some ({ g with TimeLeft := Binary32.sub g.TimeLeft timeMult, SpawnedActor := none },
          w, [])
    else some (g, w, [])

/-- The loop `for (auto& generator : _generators)` of `EventMap::ProcessGenerators`, with the
timers computed in `float`. -/
def Binary32.ProcessGenerators.loop {φ : Type} (c : Consts) (h : ILevelHandler φ)
    (layout : List EventTile) (X : Int) (timeMult : ℚ) :
    List GeneratorInfo → φ → Option (List GeneratorInfo × φ × List Call)
  | [], w => some ([], w, [])
  | g :: gs, w =>
    match Binary32.ProcessGenerators.step c h layout X timeMult g w with
    | none => none
    | some r =>
      match Binary32.ProcessGenerators.loop c h layout X timeMult gs r.2.1 with
      | none => none
      | some rs => some (r.1 :: rs.1, rs.2.1, r.2.2 ++ rs.2.2)

/-- The method `EventMap::ProcessGenerators`, with the timers computed in `float`. -/
def Binary32.ProcessGenerators {φ : Type} (c : Consts) (h : ILevelHandler φ) (m : EventMap)
    (w : φ) (timeMult : ℚ) : Option (Run φ) :=
  match Binary32.ProcessGenerators.loop c h m._eventLayout m._layoutSize.X timeMult
      m._generators w with
  | none => none
  | some r => some ({ m with _generators := r.1 }, r.2.1, r.2.2)

/-- The lambda `IsPositionEmpty` passes to `FindCollisionActorsByAABB`, with the centre of
the candidate computed in `float`, `(AABBInner.T + AABBInner.B) * 0.5f`: the value it returns
(`false` stops the query) and the state afterwards. -/
def Binary32.IsPositionEmpty.callback {ω : Type} (c : Consts) (am : ActorMethods ω)
    (self : ActorRef) (Downwards : Bool) (s : QueryState ω) (actor : ActorRef) :
    Bool × QueryState ω :=
  if am.GetState s.1 actor &&& (c.IsSolidObject ||| c.IsDestroyed) ≠ c.IsSolidObject then
    (true, s)
  else if am.GetState s.1 self &&& c.ExcludeSimilar = c.ExcludeSimilar ∧
      am.GetState s.1 actor &&& c.ExcludeSimilar = c.ExcludeSimilar then (true, s)
  else if am.GetState s.1 self &&& c.CollideWithSolidObjectsBelow =
        c.CollideWithSolidObjectsBelow ∧
      (am.AABBInner s.1 self).B >
        Binary32.mul (Binary32.add (am.AABBInner s.1 actor).T (am.AABBInner s.1 actor).B)
          (1 / 2) then (true, s)
  else if am.IsOneWay s.1 actor = none ∨ am.IsOneWay s.1 actor = some false ∨
      Downwards = true then
    let r := am.OnHandleCollision s.1 self actor
    if !r.1 then
      let r2 := am.OnHandleCollision r.2 actor self
      if !r2.1 then (false, (r2.2, some actor, s.2.2 ++ [(self, actor), (actor, self)]))
      else (true, (r2.2, s.2.1, s.2.2 ++ [(self, actor), (actor, self)]))
    else (true, (r.2, s.2.1, s.2.2 ++ [(self, actor)]))
  else (true, s)

/-- Two actors at a rounding tie: actor 0 collides with other actors and with solid objects
below it, its inner box ends at `y = 100 + 2^-16`; actor 1 is a solid object that collides
with other actors, its inner box spans `100 + 2^-17 ≤ y ≤ 100 + 2^-16`. The exact centre of
actor 1 is `100 + 3 / 2^18`, above the bottom of actor 0; the sum `T + B` is half way between
two binary32 numbers and the centre computed in `float` is `100 + 2^-16`. -/
def Sample.tieActors : List (Nat × ℚ × ℚ) :=
  [(256 + 512 + 1024, 0, 100 + 1 / 65536), (256 + 2048, 100 + 1 / 131072, 100 + 1 / 65536)]

/-- Two actors: actor 0 collides with other actors and with solid objects below it, its
inner box ends at `y = 30`; actor 1 is a solid object that collides with other actors, its
inner box spans `15 ≤ y ≤ 25`, so its centre `y = 20` is above the bottom of actor 0. -/
def Sample.stackedActors : List (Nat × ℚ × ℚ) :=
  [(256 + 512 + 1024, 0, 30), (256 + 2048, 15, 25)]

/-- A level controller over the activated sample map whose only player stands at tile
`(100, 100)`, so that the whole grid is outside the secondary rectangle `[70, 130]²`: actor 0
was created from the event map at tile `(0, 0)`, actor 1 by the generator at tile `(1, 0)`,
whose table entry has a running timer and refers to the actor. -/
def Sample.awayLevel : LevelHandler Unit :=
  { _elapsedFrames := 5, _checkpointFrames := 2, _checkpointCreated := true,
    _eventMap := { Sample.activeMap with
      _generators := [{ Sample.generator with TimeLeft := 7, SpawnedActor := some 1 }] },
    _players := [(3200, 3200)],
    world :=
      { spawner := (),
        objects := [Sample.actor 1, { Sample.actor 2 with _originTile := ⟨1, 0⟩ }],
        _actors := [0, 1], _collisions := { proxies := [], calls := [] }, _weatherType := 0,
        _weatherIntensity := 0 } }

/-! ## Indexing lemmas -/

theorem tileAt?_eq_some_iff (l : List EventTile) (i : Int) (t : EventTile) :
    tileAt? l i = some t ↔ 0 ≤ i ∧ l[i.toNat]? = some t := by
  unfold tileAt?
  by_cases h : 0 ≤ i <;> simp [h]

theorem tileAt?_isSome_of_lt (l : List EventTile) (i : Int) (h0 : 0 ≤ i)
    (h1 : i.toNat < l.length) : ∃ t, tileAt? l i = some t := by
  refine ⟨l[i.toNat], ?_⟩
  simp [tileAt?, h0, List.getElem?_eq_getElem h1]

theorem tileAt?_lt_of_some (l : List EventTile) (i : Int) (t : EventTile)
    (h : tileAt? l i = some t) : 0 ≤ i ∧ i.toNat < l.length := by
  rw [tileAt?_eq_some_iff] at h
  refine ⟨h.1, ?_⟩
  by_contra hlt
  rw [List.getElem?_eq_none (by omega)] at h
  exact absurd h.2 (by simp)

theorem tileAt?_setTile_self (l : List EventTile) (i : Int) (t : EventTile) (h0 : 0 ≤ i)
    (h1 : i.toNat < l.length) : tileAt? (setTile l i t) i = some t := by
  simp [tileAt?, setTile, h0, h1]

theorem tileAt?_setTile_ne (l : List EventTile) (i j : Int) (t : EventTile) (h0 : 0 ≤ i)
    (hne : i ≠ j) : tileAt? (setTile l i t) j = tileAt? l j := by
  unfold tileAt? setTile
  by_cases hj : 0 ≤ j
  · have : i.toNat ≠ j.toNat := by omega
    simp [hj, List.getElem?_set_ne this]
  · simp [hj]

theorem length_setTile (l : List EventTile) (i : Int) (t : EventTile) :
    (setTile l i t).length = l.length := by
  simp [setTile]

theorem setTile_same (l : List EventTile) (i : Int) (t : EventTile)
    (h : tileAt? l i = some t) : setTile l i t = l := by
  rw [tileAt?_eq_some_iff] at h
  unfold setTile
  apply List.ext_getElem?
  intro n
  by_cases hn : i.toNat = n
  · subst hn
    rw [List.getElem?_set]
    simp only [if_true]
    split
    · exact h.2.symm
    · rename_i hlt
      rw [List.getElem?_eq_none (by omega)]
  · rw [List.getElem?_set_ne hn]

theorem index_bounds (m : EventMap) (x y : Int) (hwf : m.WF) (hin : m.inGrid x y) :
    0 ≤ x + y * m._layoutSize.X ∧ (x + y * m._layoutSize.X).toNat < m._eventLayout.length := by
  obtain ⟨hX, hY, hlen⟩ := hwf
  obtain ⟨hx0, hx1, hy0, hy1⟩ := hin
  have h1 : 0 ≤ y * m._layoutSize.X := mul_nonneg hy0 hX
  have h2 : (y + 1) * m._layoutSize.X ≤ m._layoutSize.Y * m._layoutSize.X :=
    mul_le_mul_of_nonneg_right (by omega) hX
  have h3 : m._layoutSize.Y * m._layoutSize.X = m._layoutSize.X * m._layoutSize.Y := mul_comm _ _
  have h4 : (y + 1) * m._layoutSize.X = y * m._layoutSize.X + m._layoutSize.X := by ring
  refine ⟨by omega, ?_⟩
  rw [hlen]
  omega

theorem index_inj (X x y x' y' : Int) (hx0 : 0 ≤ x) (hx1 : x < X) (hx0' : 0 ≤ x')
    (hx1' : x' < X) (h : x + y * X = x' + y' * X) : x = x' ∧ y = y' := by
  have hX : 0 < X := by omega
  have e1 : (x + y * X) % X = x := by
    rw [Int.add_mul_emod_self, Int.emod_eq_of_lt hx0 hx1]
  have e2 : (x' + y' * X) % X = x' := by
    rw [Int.add_mul_emod_self, Int.emod_eq_of_lt hx0' hx1']
  have hx : x = x' := by rw [← e1, ← e2, h]
  subst hx
  have h5 : y * X = y' * X := by omega
  exact ⟨rfl, Int.eq_of_mul_eq_mul_right (by omega) h5⟩

theorem cell_isSome (m : EventMap) (x y : Int) (hwf : m.WF) (hin : m.inGrid x y) :
    ∃ t, m.cell x y = some t := by
  obtain ⟨h0, h1⟩ := index_bounds m x y hwf hin
  exact tileAt?_isSome_of_lt _ _ h0 h1

/-! ## StoreTileEvent, Deactivate, ResetGenerator -/

/-- C5. For in-grid `(x, y)` on an allocated grid, `StoreTileEvent` succeeds; afterwards the
cell at `(x, y)` has exactly the given kind and flags, the given parameter block (zeros when
no block is supplied) and `active = (previous kind = kind ∧ previous active)`; every other
cell, as a tile coordinate and as a linear index, is unchanged, and so is everything else in
the event map. -/
theorem StoreTileEvent_postcondition (m : EventMap) (x y : Int) (eventType : EventType)
    (eventFlags : Nat) (tileParams : Option Params) (hwf : m.WF) (hin : m.inGrid x y) :
    ∃ previousEvent m1, m.cell x y = some previousEvent ∧
      StoreTileEvent m x y eventType eventFlags tileParams = some m1 ∧
      m1.cell x y = some
        { Event := eventType, EventFlags := eventFlags,
          EventParams := tileParams.getD Params.zero,
          IsEventActive := decide (previousEvent.Event = eventType) &&
            previousEvent.IsEventActive } ∧
      (∀ x1 y1, m.inGrid x1 y1 → (x1 ≠ x ∨ y1 ≠ y) → m1.cell x1 y1 = m.cell x1 y1) ∧
      (∀ j : Int, j ≠ x + y * m._layoutSize.X →
        tileAt? m1._eventLayout j = tileAt? m._eventLayout j) ∧
      m1._eventLayout.length = m._eventLayout.length ∧
      m1._layoutSize = m._layoutSize ∧ m1._generators = m._generators ∧
      m1._eventLayoutForRollback = m._eventLayoutForRollback := by
  obtain ⟨h0, h1⟩ := index_bounds m x y hwf hin
  obtain ⟨prev, hprev⟩ := cell_isSome m x y hwf hin
  have hguard : ¬ (eventType = EventType.Empty ∧
      (x < 0 ∨ y < 0 ∨ x ≥ m._layoutSize.X ∨ y ≥ m._layoutSize.Y)) := by
    obtain ⟨a, b, c, d⟩ := hin
    intro hh
    omega
  have hprev1 : tileAt? m._eventLayout (x + y * m._layoutSize.X) = some prev := hprev
  refine ⟨prev, { m with
    _eventLayout := setTile m._eventLayout (x + y * m._layoutSize.X)
      { Event := eventType, EventFlags := eventFlags,
        EventParams := tileParams.getD Params.zero,
        IsEventActive := decide (prev.Event = eventType) && prev.IsEventActive } },
    hprev, ?_, ?_, ?_, ?_, ?_, rfl, rfl, rfl⟩
  · simp only [StoreTileEvent, hguard, if_false, hprev1]
    cases tileParams <;> rfl
  · simp only [EventMap.cell]
    rw [tileAt?_setTile_self _ _ _ h0 h1]
  · intro x1 y1 hin1 hne
    simp only [EventMap.cell]
    apply tileAt?_setTile_ne _ _ _ _ h0
    intro heq
    obtain ⟨e1, e2⟩ := index_inj m._layoutSize.X x y x1 y1 hin.1 hin.2.1 hin1.1 hin1.2.1 heq
    omega
  · intro j hj
    exact tileAt?_setTile_ne _ _ _ _ h0 (Ne.symm hj)
  · simp [length_setTile]

theorem StoreTileEvent_postcondition_witness :
    ∃ previousEvent m1, Sample.map.cell 0 0 = some previousEvent ∧
      StoreTileEvent Sample.map 0 0 (EventType.Other 40) 0 none = some m1 ∧
      m1.cell 0 0 = some
        { Event := EventType.Other 40, EventFlags := 0,
          EventParams := (none : Option Params).getD Params.zero,
          IsEventActive := decide (previousEvent.Event = EventType.Other 40) &&
            previousEvent.IsEventActive } ∧
      (∀ x1 y1, Sample.map.inGrid x1 y1 → (x1 ≠ 0 ∨ y1 ≠ 0) →
        m1.cell x1 y1 = Sample.map.cell x1 y1) ∧
      (∀ j : Int, j ≠ 0 + 0 * Sample.map._layoutSize.X →
        tileAt? m1._eventLayout j = tileAt? Sample.map._eventLayout j) ∧
      m1._eventLayout.length = Sample.map._eventLayout.length ∧
      m1._layoutSize = Sample.map._layoutSize ∧ m1._generators = Sample.map._generators ∧
      m1._eventLayoutForRollback = Sample.map._eventLayoutForRollback :=
  StoreTileEvent_postcondition Sample.map 0 0 (EventType.Other 40) 0 none (by decide)
    (by decide)

/-- C8. On an allocated grid `Deactivate(x, y)` succeeds for every pair of integers, without
indexing outside the array. If `(x, y)` is inside the grid and the cell's kind is not
`Empty`, the result is the event map with `active = false` in that one cell (kind, flags and
parameters of the cell, every other cell, the generator table and the snapshot as before);
in every other case the event map is returned unchanged. -/
theorem Deactivate_postcondition (m : EventMap) (x y : Int) (hwf : m.WF) :
    ∃ m1, Deactivate m x y = some m1 ∧
      ((∃ t, m.inGrid x y ∧ m.cell x y = some t ∧ t.Event ≠ EventType.Empty ∧
          m1 = { m with
            _eventLayout := setTile m._eventLayout (x + y * m._layoutSize.X)
              { t with IsEventActive := false } } ∧
          m1.cell x y = some { t with IsEventActive := false } ∧
          (∀ j : Int, j ≠ x + y * m._layoutSize.X →
            tileAt? m1._eventLayout j = tileAt? m._eventLayout j)) ∨
       (¬ (∃ t, m.inGrid x y ∧ m.cell x y = some t ∧ t.Event ≠ EventType.Empty) ∧ m1 = m)) ∧
      m1._eventLayout.length = m._eventLayout.length ∧
      m1._layoutSize = m._layoutSize ∧ m1._generators = m._generators ∧
      m1._eventLayoutForRollback = m._eventLayoutForRollback := by
  by_cases hin : m.inGrid x y
  · obtain ⟨h0, h1⟩ := index_bounds m x y hwf hin
    obtain ⟨t, ht⟩ := cell_isSome m x y hwf hin
    have ht1 : tileAt? m._eventLayout (x + y * m._layoutSize.X) = some t := ht
    have hc : x ≥ 0 ∧ y ≥ 0 ∧ y < m._layoutSize.Y ∧ x < m._layoutSize.X :=
      ⟨hin.1, hin.2.2.1, hin.2.2.2, hin.2.1⟩
    by_cases hE : t.Event = EventType.Empty
    · refine ⟨m, ?_, Or.inr ⟨?_, rfl⟩, rfl, rfl, rfl, rfl⟩
      · simp [Deactivate, HasEventByPosition, hc, ht1, hE]
      · rintro ⟨t1, _, h2, h3⟩
        rw [ht] at h2
        cases h2
        exact h3 hE
    · refine ⟨{ m with
        _eventLayout := setTile m._eventLayout (x + y * m._layoutSize.X)
          { t with IsEventActive := false } },
        ?_, Or.inl ⟨t, hin, ht, hE, rfl, ?_, ?_⟩, ?_, rfl, rfl, rfl⟩
      · have hb : (t.Event != EventType.Empty) = true := by simpa using hE
        simp [Deactivate, HasEventByPosition, hc, ht1, hb]
      · exact tileAt?_setTile_self _ _ _ h0 h1
      · intro j hj
        exact tileAt?_setTile_ne _ _ _ _ h0 (Ne.symm hj)
      · simp [length_setTile]
  · refine ⟨m, ?_, Or.inr ⟨?_, rfl⟩, rfl, rfl, rfl, rfl⟩
    · have hc : ¬ (x ≥ 0 ∧ y ≥ 0 ∧ y < m._layoutSize.Y ∧ x < m._layoutSize.X) := by
        intro hh
        exact hin ⟨hh.1, hh.2.2.2, hh.2.1, hh.2.2.1⟩
      simp [Deactivate, HasEventByPosition, hc]
    · rintro ⟨t1, h1, _⟩
      exact hin h1

theorem Deactivate_postcondition_witness :
    ∃ m1, Deactivate Sample.map 5 (-1) = some m1 ∧
      ((∃ t, Sample.map.inGrid 5 (-1) ∧ Sample.map.cell 5 (-1) = some t ∧
          t.Event ≠ EventType.Empty ∧
          m1 = { Sample.map with
            _eventLayout := setTile Sample.map._eventLayout
              (5 + (-1) * Sample.map._layoutSize.X) { t with IsEventActive := false } } ∧
          m1.cell 5 (-1) = some { t with IsEventActive := false } ∧
          (∀ j : Int, j ≠ 5 + (-1) * Sample.map._layoutSize.X →
            tileAt? m1._eventLayout j = tileAt? Sample.map._eventLayout j)) ∨
       (¬ (∃ t, Sample.map.inGrid 5 (-1) ∧ Sample.map.cell 5 (-1) = some t ∧
          t.Event ≠ EventType.Empty) ∧ m1 = Sample.map)) ∧
      m1._eventLayout.length = Sample.map._eventLayout.length ∧
      m1._layoutSize = Sample.map._layoutSize ∧ m1._generators = Sample.map._generators ∧
      m1._eventLayoutForRollback = Sample.map._eventLayoutForRollback :=
  Deactivate_postcondition Sample.map 5 (-1) (by decide)

/-- C9. For in-grid `(tx, ty)` on an allocated grid let `idx` be the unsigned 32-bit value in
the first four parameter bytes of the cell. `ResetGenerator` succeeds; if `idx` is not below
the number of generators it returns the event map unchanged; otherwise generator `idx` gets
`TimeLeft = 0` and no spawned actor, every other generator is unchanged, and so are the grid,
the snapshot and the layout size. -/
theorem ResetGenerator_postcondition (m : EventMap) (tx ty : Int) (hwf : m.WF)
    (hin : m.inGrid tx ty) :
    ∃ tile m1, m.cell tx ty = some tile ∧ ResetGenerator m tx ty = some m1 ∧
      (m._generators.length ≤ tile.EventParams.readU32 → m1 = m) ∧
      (tile.EventParams.readU32 < m._generators.length →
        ∃ g, m._generators[tile.EventParams.readU32]? = some g ∧
          m1._generators[tile.EventParams.readU32]? =
            some { g with TimeLeft := 0, SpawnedActor := none } ∧
          (∀ j : Nat, j ≠ tile.EventParams.readU32 → m1._generators[j]? = m._generators[j]?) ∧
          m1._generators.length = m._generators.length) ∧
      m1._eventLayout = m._eventLayout ∧ m1._layoutSize = m._layoutSize ∧
      m1._eventLayoutForRollback = m._eventLayoutForRollback := by
  obtain ⟨tile, ht⟩ := cell_isSome m tx ty hwf hin
  have ht1 : tileAt? m._eventLayout (tx + ty * m._layoutSize.X) = some tile := ht
  by_cases hidx : tile.EventParams.readU32 ≥ m._generators.length
  · refine ⟨tile, m, ht, ?_, fun _ => rfl, fun hlt => ?_, rfl, rfl, rfl⟩
    · simp [ResetGenerator, ht1, hidx]
    · omega
  · refine ⟨tile, { m with
      _generators := m._generators.modify
        (fun g => { g with TimeLeft := 0, SpawnedActor := none }) tile.EventParams.readU32 },
      ht, ?_, fun hge => ?_, fun hlt => ?_, rfl, rfl, rfl⟩
    · simp only [ResetGenerator, ht1, hidx, if_false]
    · omega
    · refine ⟨m._generators[tile.EventParams.readU32], List.getElem?_eq_getElem hlt, ?_, ?_, ?_⟩
      · simp [List.getElem?_modify, List.getElem?_eq_getElem hlt]
      · intro j hj
        simp only [List.getElem?_modify]
        cases m._generators[j]? with
        | none => rfl
        | some a => simp [Ne.symm hj]
      · simp

theorem ResetGenerator_postcondition_witness :
    ∃ tile m1, Sample.map.cell 1 0 = some tile ∧ ResetGenerator Sample.map 1 0 = some m1 ∧
      (Sample.map._generators.length ≤ tile.EventParams.readU32 → m1 = Sample.map) ∧
      (tile.EventParams.readU32 < Sample.map._generators.length →
        ∃ g, Sample.map._generators[tile.EventParams.readU32]? = some g ∧
          m1._generators[tile.EventParams.readU32]? =
            some { g with TimeLeft := 0, SpawnedActor := none } ∧
          (∀ j : Nat, j ≠ tile.EventParams.readU32 →
            m1._generators[j]? = Sample.map._generators[j]?) ∧
          m1._generators.length = Sample.map._generators.length) ∧
      m1._eventLayout = Sample.map._eventLayout ∧
      m1._layoutSize = Sample.map._layoutSize ∧
      m1._eventLayoutForRollback = Sample.map._eventLayoutForRollback :=
  ResetGenerator_postcondition Sample.map 1 0 (by decide) (by decide)

/-! ## Loops -/

theorem mem_intRange (a b i : Int) : i ∈ intRange a b ↔ a ≤ i ∧ i ≤ b := by
  unfold intRange
  simp only [List.mem_map, List.mem_range]
  constructor
  · rintro ⟨n, hn, rfl⟩
    omega
  · rintro ⟨h1, h2⟩
    exact ⟨(i - a).toNat, by omega, by omega⟩

theorem nodup_intRange (a b : Int) : (intRange a b).Nodup := by
  unfold intRange
  apply List.Nodup.map _ (List.nodup_range _)
  intro i j hij
  simp only at hij
  omega

theorem foldlM_nested {α β σ : Type} (f : α → β → σ → Option σ) (xs : List α) (ys : List β)
    (s : σ) :
    xs.foldlM (fun s x => ys.foldlM (fun s y => f x y s) s) s =
      (xs.flatMap fun x => ys.map fun y => (x, y)).foldlM (fun s p => f p.1 p.2 s) s := by
  induction xs generalizing s with
  | nil => rfl
  | cons x xs ih =>
    rw [List.foldlM_cons, List.flatMap_cons, List.foldlM_append, List.foldlM_map]
    cases ys.foldlM (fun s y => f x y s) s with
    | none => rfl
    | some s1 => exact ih s1

/-! ## ActivateEvents -/

theorem EventTile.activated_activated (t : EventTile) : t.activated.activated = t.activated := by
  unfold EventTile.activated
  by_cases h : t.Event = EventType.Empty <;> simp [h]

theorem EventTile.activated_of_settled (t : EventTile)
    (h : t.IsEventActive = true ∨ t.Event = EventType.Empty) : t.activated = t := by
  unfold EventTile.activated
  by_cases hE : t.Event = EventType.Empty
  · simp [hE]
  · rcases h with h | h
    · simp only [hE, if_false]
      cases t
      simp_all
    · exact absurd h hE

theorem ActivateEvents_coords_eq (m : EventMap) (tx1 ty1 tx2 ty2 : Int) :
    ActivateEvents.coords m tx1 ty1 tx2 ty2 =
      (intRange (max 0 tx1) (min (m._layoutSize.X - 1) tx2)).flatMap fun x =>
        (intRange (max 0 ty1) (min (m._layoutSize.Y - 1) ty2)).map fun y => (x, y) := rfl

theorem ActivateEvents_mem_coords (m : EventMap) (tx1 ty1 tx2 ty2 : Int) (p : Int × Int) :
    p ∈ ActivateEvents.coords m tx1 ty1 tx2 ty2 ↔
      m.inGrid p.1 p.2 ∧ tx1 ≤ p.1 ∧ p.1 ≤ tx2 ∧ ty1 ≤ p.2 ∧ p.2 ≤ ty2 := by
  obtain ⟨x, y⟩ := p
  simp only [ActivateEvents.coords, List.mem_flatMap, List.mem_map, mem_intRange,
    EventMap.inGrid, Prod.mk.injEq]
  constructor
  · rintro ⟨a, ha, b, hb, rfl, rfl⟩
    omega
  · intro hh
    exact ⟨x, by omega, y, by omega, rfl, rfl⟩

/-- One visit of `ActivateEvents` at a tile that can be read: the tile becomes
`activated`, nothing else in the event map changes, and the calls appended to the log contain
exactly the call `ActivateEvents.call?` names. -/
theorem ActivateEvents_tile_spec {φ : Type} (c : Consts) (h : ILevelHandler φ)
    (allowAsync : Bool) (x y : Int) (s : Run φ) (t : EventTile)
    (ht : tileAt? s.1._eventLayout (x + y * s.1._layoutSize.X) = some t) :
    ∃ w1 cs, ActivateEvents.tile c h allowAsync x y s =
        some ({ s.1 with
          _eventLayout := setTile s.1._eventLayout (x + y * s.1._layoutSize.X) t.activated },
          w1, s.2.2 ++ cs) ∧
      cs.filter Call.isSpawnOrWeather = (ActivateEvents.call? c allowAsync x y t).toList ∧
      ((t.IsEventActive = true ∨ t.Event = EventType.Empty) → w1 = s.2.1 ∧ cs = []) := by
  obtain ⟨m, w, tr⟩ := s
  simp only at ht
  by_cases hA : t.IsEventActive = true
  · refine ⟨w, [], ?_, ?_, fun _ => ⟨rfl, rfl⟩⟩
    · simp [ActivateEvents.tile, ht, hA, EventTile.activated_of_settled t (Or.inl hA),
        setTile_same _ _ _ ht]
    · simp [ActivateEvents.call?, hA]
  · by_cases hE : t.Event = EventType.Empty
    · refine ⟨w, [], ?_, ?_, fun _ => ⟨rfl, rfl⟩⟩
      · simp [ActivateEvents.tile, ht, hE, EventTile.activated_of_settled t (Or.inr hE),
          setTile_same _ _ _ ht]
      · simp [ActivateEvents.call?, hE]
    · have hact : t.activated = { t with IsEventActive := true } := by
        simp [EventTile.activated, hE]
      have hb : (t.Event != EventType.Empty) = true := by simpa using hE
      have hA1 : t.IsEventActive = false := by simpa using hA
      by_cases hW : t.Event = EventType.AreaWeather
      · refine ⟨h.SetWeather w (t.EventParams.byte 0) (t.EventParams.byte 1),
          [Call.SetWeather (t.EventParams.byte 0) (t.EventParams.byte 1)], ?_, ?_, ?_⟩
        · simp [ActivateEvents.tile, ht, hA1, hb, hW, hact]
        · simp [ActivateEvents.call?, hA1, hW, Call.isSpawnOrWeather, Call.isSpawn,
            Call.isWeather]
        · intro hh
          rcases hh with hh | hh
          · exact absurd hh hA
          · exact absurd hh hE
      · by_cases hG : t.Event = EventType.Generator
        · refine ⟨w, [], ?_, ?_, fun _ => ⟨rfl, rfl⟩⟩
          · simp [ActivateEvents.tile, ht, hA1, hb, hG, hact]
          · simp [ActivateEvents.call?, hG]
        · rcases hsp : h.SpawnEvent w t.Event t.EventParams
              (if allowAsync = true then c.IsCreatedFromEventMap ||| t.EventFlags ||| c.Async
                else c.IsCreatedFromEventMap ||| t.EventFlags) x y c.SpritePlaneZ with ⟨r1, r2⟩
          cases r1 with
          | none =>
            refine ⟨r2, [Call.SpawnEvent t.Event t.EventParams
              (if allowAsync = true then c.IsCreatedFromEventMap ||| t.EventFlags ||| c.Async
                else c.IsCreatedFromEventMap ||| t.EventFlags) x y c.SpritePlaneZ], ?_, ?_, ?_⟩
            · simp only [ActivateEvents.tile, ht, hA1, hb, hW, hG, hact]
              simp [hsp, hG]
            · simp [ActivateEvents.call?, hA1, hE, hW, hG, Call.isSpawnOrWeather, Call.isSpawn]
            · intro hh
              rcases hh with hh | hh
              · exact absurd hh hA
              · exact absurd hh hE
          | some actor =>
            refine ⟨h.AddActor r2 actor, [Call.SpawnEvent t.Event t.EventParams
              (if allowAsync = true then c.IsCreatedFromEventMap ||| t.EventFlags ||| c.Async
                else c.IsCreatedFromEventMap ||| t.EventFlags) x y c.SpritePlaneZ,
              Call.AddActor actor], ?_, ?_, ?_⟩
            · simp only [ActivateEvents.tile, ht, hA1, hb, hW, hG, hact]
              simp [hsp, hG]
            · simp [ActivateEvents.call?, hA1, hE, hW, hG, Call.isSpawnOrWeather, Call.isSpawn,
                Call.isWeather]
            · intro hh
              rcases hh with hh | hh
              · exact absurd hh hA
              · exact absurd hh hE

/-- The loop of `ActivateEvents` over a list of coordinates with distinct, readable linear
indices: it succeeds, activates exactly the listed tiles, changes nothing else in the event
map, and appends to the log exactly the calls due for the listed tiles in order. When every
listed tile is already active or `Empty`, the whole state is returned unchanged. -/
theorem ActivateEvents_fold_spec {φ : Type} (c : Consts) (h : ILevelHandler φ)
    (allowAsync : Bool) (X : Int) (L : List (Int × Int)) :
    ∀ s : Run φ, s.1._layoutSize.X = X →
      (∀ p ∈ L, 0 ≤ p.1 + p.2 * X ∧ (p.1 + p.2 * X).toNat < s.1._eventLayout.length) →
      (L.map fun p => p.1 + p.2 * X).Nodup →
      ∃ s1 : Run φ,
        L.foldlM (fun s p => ActivateEvents.tile c h allowAsync p.1 p.2 s) s = some s1 ∧
        s1.1 = { s.1 with _eventLayout := s1.1._eventLayout } ∧
        s1.1._eventLayout.length = s.1._eventLayout.length ∧
        (∀ j : Int, tileAt? s1.1._eventLayout j =
          (tileAt? s.1._eventLayout j).map
            (fun t => if j ∈ L.map (fun p => p.1 + p.2 * X) then t.activated else t)) ∧
        (∃ cs, s1.2.2 = s.2.2 ++ cs ∧
          cs.filter Call.isSpawnOrWeather = L.filterMap (fun p =>
            (tileAt? s.1._eventLayout (p.1 + p.2 * X)).bind
              (ActivateEvents.call? c allowAsync p.1 p.2))) ∧
        ((∀ p ∈ L, ∀ t, tileAt? s.1._eventLayout (p.1 + p.2 * X) = some t →
            (t.IsEventActive = true ∨ t.Event = EventType.Empty)) → s1 = s) := by
  induction L with
  | nil =>
    intro s _ _ _
    refine ⟨s, rfl, rfl, rfl, ?_, ⟨[], by simp, by simp⟩, fun _ => rfl⟩
    intro j
    cases tileAt? s.1._eventLayout j <;> simp
  | cons p L ih =>
    intro s hX hb hnd
    obtain ⟨hp0, hp1⟩ := hb p (List.mem_cons_self _ _)
    obtain ⟨t, ht⟩ := tileAt?_isSome_of_lt _ _ hp0 hp1
    have ht1 : tileAt? s.1._eventLayout (p.1 + p.2 * s.1._layoutSize.X) = some t := by
      rw [hX]; exact ht
    obtain ⟨w1, cs1, hstep, hcs1, hset1⟩ := ActivateEvents_tile_spec c h allowAsync p.1 p.2 s t ht1
    rw [hX] at hstep
    rw [List.map_cons, List.nodup_cons] at hnd
    obtain ⟨hpn, hnd1⟩ := hnd
    have hne : ∀ q ∈ L, p.1 + p.2 * X ≠ q.1 + q.2 * X := by
      intro q hq heq
      apply hpn
      rw [heq]
      exact List.mem_map_of_mem (fun p => p.1 + p.2 * X) hq
    obtain ⟨s1, hfold, hrest, hlen, hgrid, ⟨cs, hcs, hfil⟩, hsettled⟩ :=
      ih ({ s.1 with _eventLayout := setTile s.1._eventLayout (p.1 + p.2 * X) t.activated },
        w1, s.2.2 ++ cs1) hX
        (by
          intro q hq
          have := hb q (List.mem_cons_of_mem _ hq)
          simpa [length_setTile] using this) hnd1
    simp only [length_setTile] at hlen
    refine ⟨s1, ?_, ?_, hlen, ?_, ⟨cs1 ++ cs, ?_, ?_⟩, ?_⟩
    · rw [List.foldlM_cons, hstep]
      exact hfold
    · rw [hrest]
    · intro j
      rw [hgrid j]
      by_cases hj : j = p.1 + p.2 * X
      · subst hj
        simp only [tileAt?_setTile_self _ _ _ hp0 hp1, ht, Option.map_some', List.map_cons,
          List.mem_cons, true_or, if_true]
        simp only [hpn, if_false]
      · simp only [tileAt?_setTile_ne _ _ _ _ hp0 (Ne.symm hj), List.map_cons, List.mem_cons,
          hj, false_or]
    · rw [hcs]
      simp [List.append_assoc]
    · rw [List.filter_append, hcs1, hfil, List.filterMap_cons, ht]
      have hcongr : L.filterMap (fun q =>
            (tileAt? (setTile s.1._eventLayout (p.1 + p.2 * X) t.activated)
              (q.1 + q.2 * X)).bind (ActivateEvents.call? c allowAsync q.1 q.2)) =
          L.filterMap (fun q =>
            (tileAt? s.1._eventLayout (q.1 + q.2 * X)).bind
              (ActivateEvents.call? c allowAsync q.1 q.2)) := by
        apply List.filterMap_congr
        intro q hq
        rw [tileAt?_setTile_ne _ _ _ _ hp0 (hne q hq)]
      simp only at hcongr
      rw [hcongr]
      simp only [Option.some_bind]
      cases ActivateEvents.call? c allowAsync p.1 p.2 t <;> simp
    · intro hall
      have hst := hall p (List.mem_cons_self _ _) t ht
      obtain ⟨hw1, hcs1e⟩ := hset1 hst
      have e1 : ({ s.1 with
          _eventLayout := setTile s.1._eventLayout (p.1 + p.2 * X) t.activated }, w1,
          s.2.2 ++ cs1) = s := by
        rw [EventTile.activated_of_settled t hst, setTile_same _ _ _ ht, hw1, hcs1e]
        simp
      rw [e1] at hsettled
      apply hsettled
      intro q hq t1 ht1
      exact hall q (List.mem_cons_of_mem _ hq) t1 ht1

theorem ActivateEvents_nodup_coords (m : EventMap) (tx1 ty1 tx2 ty2 : Int) :
    (ActivateEvents.coords m tx1 ty1 tx2 ty2).Nodup := by
  unfold ActivateEvents.coords
  rw [List.nodup_flatMap]
  constructor
  · intro x _
    apply List.Nodup.map _ (nodup_intRange _ _)
    intro a b hab
    simpa using hab
  · apply List.Pairwise.imp _ (nodup_intRange _ _)
    intro a b hab
    simp only [Function.onFun, List.Disjoint, List.mem_map]
    rintro p ⟨y1, _, rfl⟩ ⟨y2, _, h2⟩
    simp only [Prod.mk.injEq] at h2
    exact hab h2.1.symm

theorem ActivateEvents_nodup_indices (m : EventMap) (tx1 ty1 tx2 ty2 : Int) :
    ((ActivateEvents.coords m tx1 ty1 tx2 ty2).map
      fun p => p.1 + p.2 * m._layoutSize.X).Nodup := by
  apply List.Nodup.map_on _ (ActivateEvents_nodup_coords m tx1 ty1 tx2 ty2)
  intro p hp q hq heq
  rw [ActivateEvents_mem_coords] at hp hq
  obtain ⟨e1, e2⟩ := index_inj m._layoutSize.X p.1 p.2 q.1 q.2 hp.1.1 hp.1.2.1 hq.1.1
    hq.1.2.1 heq
  exact Prod.ext e1 e2

theorem ActivateEvents_mem_indices (m : EventMap) (tx1 ty1 tx2 ty2 x y : Int)
    (hin : m.inGrid x y) :
    x + y * m._layoutSize.X ∈ (ActivateEvents.coords m tx1 ty1 tx2 ty2).map
        (fun p => p.1 + p.2 * m._layoutSize.X) ↔
      tx1 ≤ x ∧ x ≤ tx2 ∧ ty1 ≤ y ∧ y ≤ ty2 := by
  rw [List.mem_map]
  constructor
  · rintro ⟨p, hp, heq⟩
    rw [ActivateEvents_mem_coords] at hp
    obtain ⟨e1, e2⟩ := index_inj m._layoutSize.X p.1 p.2 x y hp.1.1 hp.1.2.1 hin.1 hin.2.1 heq
    rw [← e1, ← e2]
    exact hp.2
  · intro hr
    exact ⟨(x, y), (ActivateEvents_mem_coords m tx1 ty1 tx2 ty2 (x, y)).2 ⟨hin, hr⟩, rfl⟩

/-- The whole of `ActivateEvents` on an allocated grid, in terms of the visited coordinates. -/
theorem ActivateEvents_run_spec {φ : Type} (c : Consts) (h : ILevelHandler φ) (m : EventMap)
    (w : φ) (tx1 ty1 tx2 ty2 : Int) (allowAsync : Bool) (hwf : m.WF) :
    ∃ s1 : Run φ, ActivateEvents c h m w tx1 ty1 tx2 ty2 allowAsync = some s1 ∧
      s1.1 = { m with _eventLayout := s1.1._eventLayout } ∧
      s1.1._eventLayout.length = m._eventLayout.length ∧
      (∀ j : Int, tileAt? s1.1._eventLayout j =
        (tileAt? m._eventLayout j).map
          (fun t => if j ∈ (ActivateEvents.coords m tx1 ty1 tx2 ty2).map
            (fun p => p.1 + p.2 * m._layoutSize.X) then t.activated else t)) ∧
      s1.2.2.filter Call.isSpawnOrWeather =
        (ActivateEvents.coords m tx1 ty1 tx2 ty2).filterMap (fun p =>
          (m.cell p.1 p.2).bind (ActivateEvents.call? c allowAsync p.1 p.2)) ∧
      ((∀ p ∈ ActivateEvents.coords m tx1 ty1 tx2 ty2, ∀ t, m.cell p.1 p.2 = some t →
          (t.IsEventActive = true ∨ t.Event = EventType.Empty)) → s1 = (m, w, [])) := by
  obtain ⟨s1, hfold, hrest, hlen, hgrid, ⟨cs, hcs, hfil⟩, hsettled⟩ :=
    ActivateEvents_fold_spec c h allowAsync m._layoutSize.X
      (ActivateEvents.coords m tx1 ty1 tx2 ty2) (m, w, []) rfl
      (by
        intro p hp
        rw [ActivateEvents_mem_coords] at hp
        exact index_bounds m p.1 p.2 hwf hp.1)
      (ActivateEvents_nodup_indices m tx1 ty1 tx2 ty2)
  refine ⟨s1, ?_, hrest, hlen, hgrid, ?_, hsettled⟩
  · unfold ActivateEvents
    simp only
    rw [foldlM_nested]
    exact hfold
  · rw [hcs]
    simpa using hfil

/-! ### C6, C7, C2 -/

/-- C6. On an allocated grid `ActivateEvents` succeeds for every rectangle, so it never
indexes the grid out of bounds. Afterwards every in-grid cell inside the rectangle whose kind
is not `Empty` is the old cell with its active bit set (generator and weather cells
included), every other in-grid cell is the old cell, nothing but the grid changes in the
event map, and a rectangle that contains no in-grid tile leaves the event map and the
external state unchanged and makes no call. -/
theorem ActivateEvents_state {φ : Type} (c : Consts) (h : ILevelHandler φ) (m : EventMap)
    (w : φ) (tx1 ty1 tx2 ty2 : Int) (allowAsync : Bool) (hwf : m.WF) :
    ∃ m1 w1 tr, ActivateEvents c h m w tx1 ty1 tx2 ty2 allowAsync = some (m1, w1, tr) ∧
      m1 = { m with _eventLayout := m1._eventLayout } ∧
      m1._eventLayout.length = m._eventLayout.length ∧
      (∀ x y, m.inGrid x y → ∃ t, m.cell x y = some t ∧
        m1.cell x y = some
          (if (tx1 ≤ x ∧ x ≤ tx2 ∧ ty1 ≤ y ∧ y ≤ ty2) ∧ t.Event ≠ EventType.Empty then
            { t with IsEventActive := true } else t)) ∧
      ((∀ x y, m.inGrid x y → ¬ (tx1 ≤ x ∧ x ≤ tx2 ∧ ty1 ≤ y ∧ y ≤ ty2)) →
        m1 = m ∧ w1 = w ∧ tr = []) := by
  obtain ⟨⟨m1, w1, tr⟩, hrun, hrest, hlen, hgrid, _, hsettled⟩ :=
    ActivateEvents_run_spec c h m w tx1 ty1 tx2 ty2 allowAsync hwf
  simp only at hrest hlen hgrid hsettled
  refine ⟨m1, w1, tr, hrun, hrest, hlen, ?_, ?_⟩
  · intro x y hin
    obtain ⟨t, ht⟩ := cell_isSome m x y hwf hin
    refine ⟨t, ht, ?_⟩
    have hX : m1._layoutSize.X = m._layoutSize.X := by
      have := congrArg (fun e : EventMap => e._layoutSize.X) hrest
      simpa using this
    have hg := hgrid (x + y * m._layoutSize.X)
    have hmem := ActivateEvents_mem_indices m tx1 ty1 tx2 ty2 x y hin
    simp only [EventMap.cell] at ht ⊢
    rw [hX, hg, ht, Option.map_some']
    by_cases hr : tx1 ≤ x ∧ x ≤ tx2 ∧ ty1 ≤ y ∧ y ≤ ty2
    · have h1 := hmem.2 hr
      by_cases hE : t.Event = EventType.Empty <;> simp [h1, hr, hE, EventTile.activated]
    · have h1 : ¬ _ := fun hh => hr (hmem.1 hh)
      simp [h1, hr]
  · intro hout
    have := hsettled (by
      intro p hp
      rw [ActivateEvents_mem_coords] at hp
      exact absurd hp.2 (hout p.1 p.2 hp.1))
    simp only [Prod.mk.injEq] at this
    exact this

theorem ActivateEvents_state_witness :
    ∃ m1 w1 tr, ActivateEvents Sample.consts Sample.handler Sample.map 0 (-3) 0 7 0 true =
        some (m1, w1, tr) ∧
      m1 = { Sample.map with _eventLayout := m1._eventLayout } ∧
      m1._eventLayout.length = Sample.map._eventLayout.length ∧
      (∀ x y, Sample.map.inGrid x y → ∃ t, Sample.map.cell x y = some t ∧
        m1.cell x y = some
          (if ((-3 : Int) ≤ x ∧ x ≤ 7 ∧ (0 : Int) ≤ y ∧ y ≤ 0) ∧ t.Event ≠ EventType.Empty then
            { t with IsEventActive := true } else t)) ∧
      ((∀ x y, Sample.map.inGrid x y → ¬ ((-3 : Int) ≤ x ∧ x ≤ 7 ∧ (0 : Int) ≤ y ∧ y ≤ 0)) →
        m1 = Sample.map ∧ w1 = 0 ∧ tr = []) :=
  ActivateEvents_state Sample.consts Sample.handler Sample.map 0 (-3) 0 7 0 true (by decide)

theorem ActivateEvents_call?_filter_isSpawn (c : Consts) (allowAsync : Bool) (x y : Int)
    (t : EventTile) :
    (ActivateEvents.call? c allowAsync x y t).filter Call.isSpawn =
      ActivateEvents.spawnCall? c allowAsync x y t := by
  unfold ActivateEvents.call? ActivateEvents.spawnCall?
  by_cases hA : t.IsEventActive = true
  · simp [hA]
  · have hA1 : t.IsEventActive = false := by simpa using hA
    by_cases hE : t.Event = EventType.Empty
    · simp [hE]
    · by_cases hG : t.Event = EventType.Generator
      · simp [hG]
      · by_cases hW : t.Event = EventType.AreaWeather
        · simp [hA1, hW, Option.filter, Call.isSpawn]
        · simp [hA1, hE, hG, hW, Option.filter, Call.isSpawn]

theorem ActivateEvents_call?_filter_isWeather (c : Consts) (allowAsync : Bool) (x y : Int)
    (t : EventTile) :
    (ActivateEvents.call? c allowAsync x y t).filter Call.isWeather =
      ActivateEvents.weatherCall? t := by
  unfold ActivateEvents.call? ActivateEvents.weatherCall?
  by_cases hA : t.IsEventActive = true
  · simp [hA]
  · have hA1 : t.IsEventActive = false := by simpa using hA
    by_cases hE : t.Event = EventType.Empty
    · simp [hE]
    · by_cases hG : t.Event = EventType.Generator
      · simp [hG]
      · by_cases hW : t.Event = EventType.AreaWeather
        · simp [hA1, hW, Option.filter, Call.isWeather]
        · simp [hA1, hE, hG, hW, Option.filter, Call.isWeather]

theorem filter_of_filter_isSpawnOrWeather (tr : List Call) (q : Call → Bool)
    (hq : ∀ k, q k = true → k.isSpawnOrWeather = true) :
    tr.filter q = (tr.filter Call.isSpawnOrWeather).filter q := by
  rw [List.filter_filter]
  apply List.filter_congr
  intro k _
  cases hk : q k
  · simp
  · simp [hq k hk]

/-- C7, as the code has it. On an allocated grid `ActivateEvents` visits the in-grid tiles of
the rectangle once each (`x` outer, `y` inner). The factory calls in its log are, in that
order, exactly one call for each visited cell that was inactive and of a kind other than
`Empty`, `Generator` and `AreaWeather`, with that cell's kind, parameters and coordinates and
the flags `IsCreatedFromEventMap | tile.EventFlags` (`| Async` exactly when `allowAsync`);
the weather calls are exactly one call `(params[0], params[1])` for each visited inactive
`AreaWeather` cell. No other factory or weather call is made. -/
theorem ActivateEvents_calls {φ : Type} (c : Consts) (h : ILevelHandler φ) (m : EventMap)
    (w : φ) (tx1 ty1 tx2 ty2 : Int) (allowAsync : Bool) (hwf : m.WF) :
    ∃ m1 w1 tr, ActivateEvents c h m w tx1 ty1 tx2 ty2 allowAsync = some (m1, w1, tr) ∧
      (ActivateEvents.coords m tx1 ty1 tx2 ty2).Nodup ∧
      (∀ x y, (x, y) ∈ ActivateEvents.coords m tx1 ty1 tx2 ty2 ↔
        m.inGrid x y ∧ tx1 ≤ x ∧ x ≤ tx2 ∧ ty1 ≤ y ∧ y ≤ ty2) ∧
      tr.filter Call.isSpawn = (ActivateEvents.coords m tx1 ty1 tx2 ty2).filterMap
        (fun p => (m.cell p.1 p.2).bind (ActivateEvents.spawnCall? c allowAsync p.1 p.2)) ∧
      tr.filter Call.isWeather = (ActivateEvents.coords m tx1 ty1 tx2 ty2).filterMap
        (fun p => (m.cell p.1 p.2).bind ActivateEvents.weatherCall?) := by
  obtain ⟨⟨m1, w1, tr⟩, hrun, _, _, _, hcalls, _⟩ :=
    ActivateEvents_run_spec c h m w tx1 ty1 tx2 ty2 allowAsync hwf
  simp only at hcalls
  refine ⟨m1, w1, tr, hrun, ActivateEvents_nodup_coords m tx1 ty1 tx2 ty2,
    fun x y => ActivateEvents_mem_coords m tx1 ty1 tx2 ty2 (x, y), ?_, ?_⟩
  · rw [filter_of_filter_isSpawnOrWeather tr Call.isSpawn
      (fun k hk => by simp [Call.isSpawnOrWeather, hk]), hcalls, List.filter_filterMap]
    apply List.filterMap_congr
    intro p _
    cases m.cell p.1 p.2 with
    | none => rfl
    | some t => exact ActivateEvents_call?_filter_isSpawn c allowAsync p.1 p.2 t
  · rw [filter_of_filter_isSpawnOrWeather tr Call.isWeather
      (fun k hk => by simp [Call.isSpawnOrWeather, hk]), hcalls, List.filter_filterMap]
    apply List.filterMap_congr
    intro p _
    cases m.cell p.1 p.2 with
    | none => rfl
    | some t => exact ActivateEvents_call?_filter_isWeather c allowAsync p.1 p.2 t

theorem ActivateEvents_calls_witness :
    ∃ m1 w1 tr, ActivateEvents Sample.consts Sample.handler Sample.map 0 0 0 1 1 true =
        some (m1, w1, tr) ∧
      (ActivateEvents.coords Sample.map 0 0 1 1).Nodup ∧
      (∀ x y, (x, y) ∈ ActivateEvents.coords Sample.map 0 0 1 1 ↔
        Sample.map.inGrid x y ∧ 0 ≤ x ∧ x ≤ 1 ∧ 0 ≤ y ∧ y ≤ 1) ∧
      tr.filter Call.isSpawn = (ActivateEvents.coords Sample.map 0 0 1 1).filterMap
        (fun p => (Sample.map.cell p.1 p.2).bind
          (ActivateEvents.spawnCall? Sample.consts true p.1 p.2)) ∧
      tr.filter Call.isWeather = (ActivateEvents.coords Sample.map 0 0 1 1).filterMap
        (fun p => (Sample.map.cell p.1 p.2).bind ActivateEvents.weatherCall?) :=
  ActivateEvents_calls Sample.consts Sample.handler Sample.map 0 0 0 1 1 true (by decide)

/-- C7 as stated fails: activating the illuminated collectible of the sample map with
`allowAsync = false` calls the factory with flags `1 | 4 = 5`, the tile's own flag `0x04`
included, and not with `IsCreatedFromEventMap` alone. -/
theorem ActivateEvents_flags_counterexample :
    (ActivateEvents Sample.consts Sample.handler Sample.map 0 0 0 0 0 false).map
        (fun r => r.2.2) =
      some [Call.SpawnEvent (EventType.Other 40) (Sample.params 3 0) 5 0 0 510, Call.AddActor 0] ∧
    (5 : Nat) ≠ Sample.consts.IsCreatedFromEventMap := by
  decide

/-- C2. On an allocated grid, a second `ActivateEvents` with the same rectangle, run on the
event map and external state the first one produced, makes no call at all (no factory call,
no weather call) and returns that event map and external state unchanged. The level handler
is arbitrary, so this includes factories that returned no actor during the first call. -/
theorem ActivateEvents_idempotent {φ : Type} (c : Consts) (h : ILevelHandler φ) (m : EventMap)
    (w : φ) (tx1 ty1 tx2 ty2 : Int) (allowAsync allowAsync2 : Bool) (hwf : m.WF) :
    ∃ m1 w1 tr, ActivateEvents c h m w tx1 ty1 tx2 ty2 allowAsync = some (m1, w1, tr) ∧
      ActivateEvents c h m1 w1 tx1 ty1 tx2 ty2 allowAsync2 = some (m1, w1, []) := by
  obtain ⟨⟨m1, w1, tr⟩, hrun, hrest, hlen, hgrid, _, _⟩ :=
    ActivateEvents_run_spec c h m w tx1 ty1 tx2 ty2 allowAsync hwf
  simp only at hrest hlen hgrid
  have hsize : m1._layoutSize = m._layoutSize := by
    have := congrArg (fun e : EventMap => e._layoutSize) hrest
    simpa using this
  have hwf1 : m1.WF := by
    unfold EventMap.WF at hwf ⊢
    rw [hsize, hlen]
    exact hwf
  have hco : ActivateEvents.coords m1 tx1 ty1 tx2 ty2 = ActivateEvents.coords m tx1 ty1 tx2 ty2 := by
    simp only [ActivateEvents.coords, hsize]
  obtain ⟨s2, hrun2, _, _, _, _, hsettled⟩ :=
    ActivateEvents_run_spec c h m1 w1 tx1 ty1 tx2 ty2 allowAsync2 hwf1
  refine ⟨m1, w1, tr, hrun, ?_⟩
  rw [hrun2, hsettled]
  intro p hp t ht
  rw [hco] at hp
  have hp1 := (ActivateEvents_mem_coords m tx1 ty1 tx2 ty2 p).1 hp
  obtain ⟨t0, ht0⟩ := cell_isSome m p.1 p.2 hwf hp1.1
  have hmem : p.1 + p.2 * m._layoutSize.X ∈ (ActivateEvents.coords m tx1 ty1 tx2 ty2).map
      (fun p => p.1 + p.2 * m._layoutSize.X) := List.mem_map_of_mem _ hp
  simp only [EventMap.cell] at ht ht0
  rw [hsize, hgrid, ht0, Option.map_some'] at ht
  simp only [hmem, if_true, Option.some.injEq] at ht
  subst ht
  unfold EventTile.activated
  by_cases hE : t0.Event = EventType.Empty
  · simp [hE]
  · simp [hE]

theorem ActivateEvents_idempotent_witness :
    ∃ m1 w1 tr, ActivateEvents Sample.consts Sample.failingHandler Sample.map 0 0 0 1 1 true =
        some (m1, w1, tr) ∧
      ActivateEvents Sample.consts Sample.failingHandler m1 w1 0 0 1 1 true =
        some (m1, w1, []) :=
  ActivateEvents_idempotent Sample.consts Sample.failingHandler Sample.map 0 0 0 1 1 true true
    (by decide)

/-! ## RollbackToCheckpoint -/

/-- One visit of `RollbackToCheckpoint` at a tile that can be read in the grid and in the
snapshot: the live tile becomes the snapshot tile, nothing else in the event map changes, and
the calls appended to the log contain exactly the call `RollbackToCheckpoint.call?` names. -/
theorem RollbackToCheckpoint_tile_spec {φ : Type} (c : Consts) (h : ILevelHandler φ)
    (prev : List EventTile) (y x : Int) (s : Run φ) (tile tilePrev : EventTile)
    (ht : tileAt? s.1._eventLayout (y * s.1._layoutSize.X + x) = some tile)
    (hp : tileAt? prev (y * s.1._layoutSize.X + x) = some tilePrev) :
    ∃ w1 cs, RollbackToCheckpoint.tile c h prev y x s =
        some ({ s.1 with
          _eventLayout := setTile s.1._eventLayout (y * s.1._layoutSize.X + x) tilePrev },
          w1, s.2.2 ++ cs) ∧
      cs.filter Call.isSpawnOrWeather =
        (RollbackToCheckpoint.call? c x y tile tilePrev).toList ∧
      (¬ (tilePrev.IsEventActive = true ∧ tile.IsEventActive = false) →
        w1 = s.2.1 ∧ cs = []) := by
  obtain ⟨m, w, tr⟩ := s
  simp only at ht hp
  by_cases hR : tilePrev.IsEventActive = true ∧ tile.IsEventActive = false
  · obtain ⟨hP, hT⟩ := hR
    have hsame : { tilePrev with IsEventActive := true } = tilePrev := by
      cases tilePrev
      simp_all
    by_cases hE : tilePrev.Event = EventType.Empty
    · refine ⟨w, [], ?_, ?_, fun hh => absurd ⟨hP, hT⟩ hh⟩
      · simp [RollbackToCheckpoint.tile, ht, hp, hP, hT, hE]
      · simp [RollbackToCheckpoint.call?, hE]
    · have hb : (tilePrev.Event != EventType.Empty) = true := by simpa using hE
      by_cases hW : tilePrev.Event = EventType.AreaWeather
      · refine ⟨h.SetWeather w (tilePrev.EventParams.byte 0) (tilePrev.EventParams.byte 1),
          [Call.SetWeather (tilePrev.EventParams.byte 0) (tilePrev.EventParams.byte 1)],
          ?_, ?_, fun hh => absurd ⟨hP, hT⟩ hh⟩
        · simp only [RollbackToCheckpoint.tile, ht, hp, hP, hT, hb, hsame]
          simp [hW]
        · simp [RollbackToCheckpoint.call?, hP, hT, hW, Call.isSpawnOrWeather, Call.isSpawn,
            Call.isWeather]
      · by_cases hG : tilePrev.Event = EventType.Generator
        · refine ⟨w, [], ?_, ?_, fun hh => absurd ⟨hP, hT⟩ hh⟩
          · simp only [RollbackToCheckpoint.tile, ht, hp, hP, hT, hb, hsame]
            simp [hG]
          · simp [RollbackToCheckpoint.call?, hG]
        · rcases hsp : h.SpawnEvent w tilePrev.Event tilePrev.EventParams
              (c.IsCreatedFromEventMap ||| tilePrev.EventFlags) x y c.MainPlaneZ with ⟨r1, r2⟩
          cases r1 with
          | none =>
            refine ⟨r2, [Call.SpawnEvent tilePrev.Event tilePrev.EventParams
              (c.IsCreatedFromEventMap ||| tilePrev.EventFlags) x y c.MainPlaneZ],
              ?_, ?_, fun hh => absurd ⟨hP, hT⟩ hh⟩
            · simp only [RollbackToCheckpoint.tile, ht, hp, hP, hT, hb, hW, hG, hsame]
              simp [hsp, hG]
            · simp [RollbackToCheckpoint.call?, hP, hT, hE, hW, hG, Call.isSpawnOrWeather,
                Call.isSpawn]
          | some actor =>
            refine ⟨h.AddActor r2 actor, [Call.SpawnEvent tilePrev.Event tilePrev.EventParams
              (c.IsCreatedFromEventMap ||| tilePrev.EventFlags) x y c.MainPlaneZ,
              Call.AddActor actor], ?_, ?_, fun hh => absurd ⟨hP, hT⟩ hh⟩
            · simp only [RollbackToCheckpoint.tile, ht, hp, hP, hT, hb, hW, hG, hsame]
              simp [hsp, hG]
            · simp [RollbackToCheckpoint.call?, hP, hT, hE, hW, hG, Call.isSpawnOrWeather,
                Call.isSpawn, Call.isWeather]
  · refine ⟨w, [], ?_, ?_, fun _ => ⟨rfl, rfl⟩⟩
    · have hb : (tilePrev.IsEventActive && !tile.IsEventActive) = false := by
        cases h1 : tilePrev.IsEventActive <;> cases h2 : tile.IsEventActive <;> simp_all
      simp [RollbackToCheckpoint.tile, ht, hp, hb]
    · have : ¬ (tilePrev.IsEventActive = true ∧ tile.IsEventActive = false ∧
          tilePrev.Event ≠ EventType.Empty ∧ tilePrev.Event ≠ EventType.Generator) :=
        fun hh => hR ⟨hh.1, hh.2.1⟩
      simp [RollbackToCheckpoint.call?, this]

/-- The loops of `RollbackToCheckpoint` over a list of tiles `(y, x)` with distinct linear
indices readable in the grid and in the snapshot: they succeed, the listed tiles become the
snapshot tiles, nothing else in the event map changes, and the log receives exactly the calls
due for the listed tiles in order. Where grid and snapshot agree on every listed tile, the
whole state is returned unchanged. -/
theorem RollbackToCheckpoint_fold_spec {φ : Type} (c : Consts) (h : ILevelHandler φ)
    (prev : List EventTile) (X : Int) (L : List (Int × Int)) :
    ∀ s : Run φ, s.1._layoutSize.X = X →
      (∀ p ∈ L, 0 ≤ p.1 * X + p.2 ∧ (p.1 * X + p.2).toNat < s.1._eventLayout.length ∧
        (p.1 * X + p.2).toNat < prev.length) →
      (L.map fun p => p.1 * X + p.2).Nodup →
      ∃ s1 : Run φ,
        L.foldlM (fun s p => RollbackToCheckpoint.tile c h prev p.1 p.2 s) s = some s1 ∧
        s1.1 = { s.1 with _eventLayout := s1.1._eventLayout } ∧
        s1.1._eventLayout.length = s.1._eventLayout.length ∧
        (∀ j : Int, tileAt? s1.1._eventLayout j =
          if j ∈ L.map (fun p => p.1 * X + p.2) then tileAt? prev j
          else tileAt? s.1._eventLayout j) ∧
        (∃ cs, s1.2.2 = s.2.2 ++ cs ∧
          cs.filter Call.isSpawnOrWeather = L.filterMap (fun p =>
            (tileAt? s.1._eventLayout (p.1 * X + p.2)).bind fun tile =>
              (tileAt? prev (p.1 * X + p.2)).bind fun tilePrev =>
                RollbackToCheckpoint.call? c p.2 p.1 tile tilePrev)) ∧
        ((∀ p ∈ L, tileAt? s.1._eventLayout (p.1 * X + p.2) = tileAt? prev (p.1 * X + p.2)) →
          s1 = s) := by
  induction L with
  | nil =>
    intro s _ _ _
    exact ⟨s, rfl, rfl, rfl, by simp, ⟨[], by simp, by simp⟩, fun _ => rfl⟩
  | cons p L ih =>
    intro s hX hb hnd
    obtain ⟨hp0, hp1, hp2⟩ := hb p (List.mem_cons_self _ _)
    obtain ⟨t, ht⟩ := tileAt?_isSome_of_lt _ _ hp0 hp1
    obtain ⟨tp, htp⟩ := tileAt?_isSome_of_lt _ _ hp0 hp2
    have ht1 : tileAt? s.1._eventLayout (p.1 * s.1._layoutSize.X + p.2) = some t := by
      rw [hX]; exact ht
    have htp1 : tileAt? prev (p.1 * s.1._layoutSize.X + p.2) = some tp := by
      rw [hX]; exact htp
    obtain ⟨w1, cs1, hstep, hcs1, hset1⟩ :=
      RollbackToCheckpoint_tile_spec c h prev p.1 p.2 s t tp ht1 htp1
    rw [hX] at hstep
    rw [List.map_cons, List.nodup_cons] at hnd
    obtain ⟨hpn, hnd1⟩ := hnd
    have hne : ∀ q ∈ L, p.1 * X + p.2 ≠ q.1 * X + q.2 := by
      intro q hq heq
      apply hpn
      rw [heq]
      exact List.mem_map_of_mem (fun p => p.1 * X + p.2) hq
    obtain ⟨s1, hfold, hrest, hlen, hgrid, ⟨cs, hcs, hfil⟩, hsame⟩ :=
      ih ({ s.1 with _eventLayout := setTile s.1._eventLayout (p.1 * X + p.2) tp },
        w1, s.2.2 ++ cs1) hX
        (by
          intro q hq
          have := hb q (List.mem_cons_of_mem _ hq)
          simpa [length_setTile] using this) hnd1
    simp only [length_setTile] at hlen
    refine ⟨s1, ?_, ?_, hlen, ?_, ⟨cs1 ++ cs, ?_, ?_⟩, ?_⟩
    · rw [List.foldlM_cons, hstep]
      exact hfold
    · rw [hrest]
    · intro j
      rw [hgrid j]
      by_cases hj : j = p.1 * X + p.2
      · subst hj
        simp only [tileAt?_setTile_self _ _ _ hp0 hp1, htp, List.map_cons, List.mem_cons,
          true_or, if_true]
        simp only [hpn, if_false]
      · simp only [tileAt?_setTile_ne _ _ _ _ hp0 (Ne.symm hj), List.map_cons, List.mem_cons,
          hj, false_or]
    · rw [hcs]
      simp [List.append_assoc]
    · rw [List.filter_append, hcs1, hfil, List.filterMap_cons, ht, htp]
      have hcongr : L.filterMap (fun q =>
            (tileAt? (setTile s.1._eventLayout (p.1 * X + p.2) tp) (q.1 * X + q.2)).bind
              fun tile => (tileAt? prev (q.1 * X + q.2)).bind fun tilePrev =>
                RollbackToCheckpoint.call? c q.2 q.1 tile tilePrev) =
          L.filterMap (fun q =>
            (tileAt? s.1._eventLayout (q.1 * X + q.2)).bind
              fun tile => (tileAt? prev (q.1 * X + q.2)).bind fun tilePrev =>
                RollbackToCheckpoint.call? c q.2 q.1 tile tilePrev) := by
        apply List.filterMap_congr
        intro q hq
        rw [tileAt?_setTile_ne _ _ _ _ hp0 (hne q hq)]
      simp only at hcongr
      rw [hcongr]
      simp only [Option.some_bind]
      cases RollbackToCheckpoint.call? c p.2 p.1 t tp <;> simp
    · intro hall
      have hst := hall p (List.mem_cons_self _ _)
      rw [ht, htp] at hst
      have hst1 : t = tp := Option.some.inj hst
      subst hst1
      obtain ⟨hw1, hcs1e⟩ := hset1 (by
        rintro ⟨h1, h2⟩
        rw [h1] at h2
        exact absurd h2 (by simp))
      have e1 : ({ s.1 with
          _eventLayout := setTile s.1._eventLayout (p.1 * X + p.2) t }, w1,
          s.2.2 ++ cs1) = s := by
        rw [setTile_same _ _ _ ht, hw1, hcs1e]
        simp
      rw [e1] at hsame
      apply hsame
      intro q hq
      exact hall q (List.mem_cons_of_mem _ hq)

theorem RollbackToCheckpoint_mem_coords (m : EventMap) (p : Int × Int) :
    p ∈ RollbackToCheckpoint.coords m ↔ m.inGrid p.2 p.1 := by
  obtain ⟨y, x⟩ := p
  simp only [RollbackToCheckpoint.coords, List.mem_flatMap, List.mem_map, mem_intRange,
    EventMap.inGrid, Prod.mk.injEq]
  constructor
  · rintro ⟨a, ha, b, hb, rfl, rfl⟩
    omega
  · intro hh
    exact ⟨y, by omega, x, by omega, rfl, rfl⟩

theorem RollbackToCheckpoint_nodup_coords (m : EventMap) :
    (RollbackToCheckpoint.coords m).Nodup := by
  unfold RollbackToCheckpoint.coords
  rw [List.nodup_flatMap]
  constructor
  · intro y _
    apply List.Nodup.map _ (nodup_intRange _ _)
    intro a b hab
    simpa using hab
  · apply List.Pairwise.imp _ (nodup_intRange _ _)
    intro a b hab
    simp only [Function.onFun, List.Disjoint, List.mem_map]
    rintro p ⟨x1, _, rfl⟩ ⟨x2, _, h2⟩
    simp only [Prod.mk.injEq] at h2
    exact hab h2.1.symm

theorem RollbackToCheckpoint_nodup_indices (m : EventMap) :
    ((RollbackToCheckpoint.coords m).map fun p => p.1 * m._layoutSize.X + p.2).Nodup := by
  apply List.Nodup.map_on _ (RollbackToCheckpoint_nodup_coords m)
  intro p hp q hq heq
  rw [RollbackToCheckpoint_mem_coords] at hp hq
  have heq1 : p.2 + p.1 * m._layoutSize.X = q.2 + q.1 * m._layoutSize.X := by omega
  obtain ⟨e1, e2⟩ := index_inj m._layoutSize.X p.2 p.1 q.2 q.1 hp.1 hp.2.1 hq.1 hq.2.1 heq1
  exact Prod.ext e2 e1

theorem RollbackToCheckpoint_mem_indices (m : EventMap) (j : Int) (h0 : 0 ≤ j)
    (h1 : j < m._layoutSize.X * m._layoutSize.Y) (hwf : m.WF) :
    j ∈ (RollbackToCheckpoint.coords m).map fun p => p.1 * m._layoutSize.X + p.2 := by
  obtain ⟨hX, hY, _⟩ := hwf
  have hXpos : 0 < m._layoutSize.X := by
    rcases hX.lt_or_eq with hlt | heq
    · exact hlt
    · rw [← heq] at h1
      simp at h1
      omega
  rw [List.mem_map]
  refine ⟨(j / m._layoutSize.X, j % m._layoutSize.X), ?_, ?_⟩
  · rw [RollbackToCheckpoint_mem_coords]
    refine ⟨Int.emod_nonneg _ (by omega), Int.emod_lt_of_pos _ hXpos,
      Int.ediv_nonneg h0 hX, ?_⟩
    apply Int.ediv_lt_of_lt_mul hXpos
    rw [mul_comm]
    exact h1
  · simp only
    have := Int.ediv_add_emod j m._layoutSize.X
    rw [mul_comm] at this
    exact this

/-- The whole of `RollbackToCheckpoint` on an allocated grid with a snapshot of the same size:
it succeeds, the grid becomes the snapshot, the timer of every generator becomes zero, nothing
else in the event map changes, and the factory and weather calls in the log are exactly the
calls due for the tiles in visiting order. If the grid equals the snapshot, no call is made
and the external state is unchanged. -/
theorem RollbackToCheckpoint_run_spec {φ : Type} (c : Consts) (h : ILevelHandler φ)
    (m : EventMap) (w : φ) (prev : List EventTile) (hwf : m.WF)
    (hsnap : m._eventLayoutForRollback = some prev)
    (hlen : prev.length = m._eventLayout.length) :
    ∃ w1 tr, RollbackToCheckpoint c h m w =
        some ({ m with
          _eventLayout := prev,
          _generators := m._generators.map (fun g => { g with TimeLeft := 0 }) }, w1, tr) ∧
      tr.filter Call.isSpawnOrWeather = (RollbackToCheckpoint.coords m).filterMap (fun p =>
        (m.cell p.2 p.1).bind fun tile =>
          (tileAt? prev (p.2 + p.1 * m._layoutSize.X)).bind fun tilePrev =>
            RollbackToCheckpoint.call? c p.2 p.1 tile tilePrev) ∧
      (m._eventLayout = prev → w1 = w ∧ tr = []) := by
  obtain ⟨s1, hfold, hrest, hlen1, hgrid, ⟨cs, hcs, hfil⟩, hsame⟩ :=
    RollbackToCheckpoint_fold_spec c h prev m._layoutSize.X (RollbackToCheckpoint.coords m)
      (m, w, []) rfl
      (by
        intro p hp
        rw [RollbackToCheckpoint_mem_coords] at hp
        obtain ⟨b0, b1⟩ := index_bounds m p.2 p.1 hwf hp
        have e : p.1 * m._layoutSize.X + p.2 = p.2 + p.1 * m._layoutSize.X := by ring
        rw [e]
        exact ⟨b0, b1, by rw [hlen]; exact b1⟩)
      (RollbackToCheckpoint_nodup_indices m)
  obtain ⟨m1, w1, tr⟩ := s1
  simp only at hrest hlen1 hgrid hcs hfil hsame
  have hlayout : m1._eventLayout = prev := by
    apply List.ext_getElem?
    intro n
    have hg := hgrid (n : Int)
    simp only [tileAt?, Int.natCast_nonneg, if_true, Int.toNat_ofNat] at hg
    by_cases hn : n < m._eventLayout.length
    · have hmem := RollbackToCheckpoint_mem_indices m (n : Int) (Int.natCast_nonneg _)
        (by
          obtain ⟨_, _, hl⟩ := hwf
          rw [hl] at hn
          omega) hwf
      rw [hg]
      simp only [hmem, if_true]
    · rw [List.getElem?_eq_none (by omega), List.getElem?_eq_none (by omega)]
  refine ⟨w1, tr, ?_, ?_, ?_⟩
  · unfold RollbackToCheckpoint
    unfold RollbackToCheckpoint.coords at hfold
    rw [hsnap]
    simp only
    rw [foldlM_nested, hfold]
    simp only
    rw [hrest]
    simp only [hlayout, hsnap]
  · rw [hcs]
    simp only [List.nil_append]
    rw [hfil]
    apply List.filterMap_congr
    intro p _
    have e : p.1 * m._layoutSize.X + p.2 = p.2 + p.1 * m._layoutSize.X := by ring
    rw [e]
    rfl
  · intro heq
    have := hsame (by
      intro p _
      rw [heq])
    simp only [Prod.mk.injEq] at this
    exact ⟨this.2.1, this.2.2⟩

/-- The snapshot `CreateCheckpointForRollback` takes of an allocated grid is the grid. -/
theorem CreateCheckpointForRollback_spec (m : EventMap) (hwf : m.WF) :
    CreateCheckpointForRollback m =
      some { m with _eventLayoutForRollback := some m._eventLayout } := by
  obtain ⟨hX, hY, hl⟩ := hwf
  have h0 : 0 ≤ m._layoutSize.X * m._layoutSize.Y := mul_nonneg hX hY
  unfold CreateCheckpointForRollback
  rw [if_pos ⟨h0, by omega⟩, ← hl, List.take_length]

/-! ## ProcessGenerators -/

theorem ProcessGenerators.step_inactive {φ : Type} (c : Consts) (h : ILevelHandler φ)
    (layout : List EventTile) (X : Int) (dt : ℚ) (g : GeneratorInfo) (w : φ) (tile : EventTile)
    (ht : tileAt? layout g.EventPos = some tile) (hA : tile.IsEventActive = false) :
    ProcessGenerators.step c h layout X dt g w =
      some ({ g with TimeLeft := g.TimeLeft - dt }, w, []) := by
  simp [ProcessGenerators.step, ht, hA]

theorem ProcessGenerators.step_live {φ : Type} (c : Consts) (h : ILevelHandler φ)
    (layout : List EventTile) (X : Int) (dt : ℚ) (g : GeneratorInfo) (w : φ) (tile : EventTile)
    (ht : tileAt? layout g.EventPos = some tile) (hA : tile.IsEventActive = true)
    (hL : g.noLiveActor h w = false) :
    ProcessGenerators.step c h layout X dt g w = some (g, w, []) := by
  simp [ProcessGenerators.step, ht, hA, hL]

theorem ProcessGenerators.step_recharging {φ : Type} (c : Consts) (h : ILevelHandler φ)
    (layout : List EventTile) (X : Int) (dt : ℚ) (g : GeneratorInfo) (w : φ) (tile : EventTile)
    (ht : tileAt? layout g.EventPos = some tile) (hA : tile.IsEventActive = true)
    (hL : g.noLiveActor h w = true) (hT : 0 < g.TimeLeft) :
    ProcessGenerators.step c h layout X dt g w =
      some ({ g with TimeLeft := g.TimeLeft - dt, SpawnedActor := none }, w, []) := by
  have hT1 : ¬ g.TimeLeft ≤ 0 := not_le.2 hT
  simp [ProcessGenerators.step, ht, hA, hL, hT1]

theorem ProcessGenerators.step_total {φ : Type} (c : Consts) (h : ILevelHandler φ)
    (layout : List EventTile) (X : Int) (dt : ℚ) (g : GeneratorInfo) (w : φ)
    (hb : 0 ≤ g.EventPos ∧ g.EventPos.toNat < layout.length) :
    ∃ r, ProcessGenerators.step c h layout X dt g w = some r := by
  obtain ⟨tile, ht⟩ := tileAt?_isSome_of_lt layout g.EventPos hb.1 hb.2
  simp only [ProcessGenerators.step, ht]
  split
  · exact ⟨_, rfl⟩
  · split
    · split
      · split <;> exact ⟨_, rfl⟩
      · exact ⟨_, rfl⟩
    · exact ⟨_, rfl⟩

theorem ProcessGenerators.loop_total {φ : Type} (c : Consts) (h : ILevelHandler φ)
    (layout : List EventTile) (X : Int) (dt : ℚ) (gs : List GeneratorInfo) :
    ∀ w : φ, (∀ g ∈ gs, 0 ≤ g.EventPos ∧ g.EventPos.toNat < layout.length) →
      ∃ r, ProcessGenerators.loop c h layout X dt gs w = some r ∧ r.1.length = gs.length := by
  induction gs with
  | nil => intro w _; exact ⟨_, rfl, rfl⟩
  | cons g gs ih =>
    intro w hb
    obtain ⟨r, hr⟩ := ProcessGenerators.step_total c h layout X dt g w
      (hb g (List.mem_cons_self _ _))
    obtain ⟨rs, hrs, hl⟩ := ih r.2.1 (fun g1 hg1 => hb g1 (List.mem_cons_of_mem _ hg1))
    refine ⟨(r.1 :: rs.1, rs.2.1, r.2.2 ++ rs.2.2), ?_, by simp [hl]⟩
    simp [ProcessGenerators.loop, hr, hrs]

/-- The loop of `ProcessGenerators` over `pre ++ g :: post` is the loop over `pre`, then the
step of `g` in the external state that loop leaves, then the loop over `post`. -/
theorem ProcessGenerators.loop_split {φ : Type} (c : Consts) (h : ILevelHandler φ)
    (layout : List EventTile) (X : Int) (dt : ℚ) (pre : List GeneratorInfo)
    (g : GeneratorInfo) (post : List GeneratorInfo) :
    ∀ (w : φ) (r : List GeneratorInfo × φ × List Call),
      ProcessGenerators.loop c h layout X dt (pre ++ g :: post) w = some r ↔
      ∃ rp rg rq, ProcessGenerators.loop c h layout X dt pre w = some rp ∧
        ProcessGenerators.step c h layout X dt g rp.2.1 = some rg ∧
        ProcessGenerators.loop c h layout X dt post rg.2.1 = some rq ∧
        r = (rp.1 ++ rg.1 :: rq.1, rq.2.1, rp.2.2 ++ (rg.2.2 ++ rq.2.2)) := by
  induction pre with
  | nil =>
    intro w r
    simp only [List.nil_append, ProcessGenerators.loop]
    constructor
    · intro hr
      cases hs : ProcessGenerators.step c h layout X dt g w with
      | none => simp [hs] at hr
      | some rg =>
        cases hq : ProcessGenerators.loop c h layout X dt post rg.2.1 with
        | none => simp [hs, hq] at hr
        | some rq =>
          simp only [hs, hq, Option.some.injEq] at hr
          exact ⟨([], w, []), rg, rq, rfl, hs, hq, by simp [← hr]⟩
    · rintro ⟨rp, rg, rq, hp, hs, hq, rfl⟩
      simp only [Option.some.injEq] at hp
      subst hp
      simp only at hs hq
      simp [hs, hq]
  | cons p pre ih =>
    intro w r
    simp only [List.cons_append, ProcessGenerators.loop, List.append_eq]
    cases hs0 : ProcessGenerators.step c h layout X dt p w with
    | none => simp
    | some r0 =>
      simp only
      constructor
      · intro hr
        cases hrest : ProcessGenerators.loop c h layout X dt (pre ++ g :: post) r0.2.1 with
        | none => simp [hrest] at hr
        | some rr =>
          obtain ⟨rp, rg, rq, hp, hs, hq, hrr⟩ := (ih r0.2.1 rr).1 hrest
          simp only [hrest, Option.some.injEq] at hr
          refine ⟨(r0.1 :: rp.1, rp.2.1, r0.2.2 ++ rp.2.2), rg, rq, by simp [hp], hs, hq, ?_⟩
          rw [← hr, hrr]
          simp
      · rintro ⟨rp, rg, rq, hp, hs, hq, rfl⟩
        cases hp0 : ProcessGenerators.loop c h layout X dt pre r0.2.1 with
        | none => simp [hp0] at hp
        | some rp0 =>
          simp only [hp0, Option.some.injEq] at hp
          subst hp
          simp only at hs hq
          have := (ih r0.2.1 (rp0.1 ++ rg.1 :: rq.1, rq.2.1, rp0.2.2 ++ (rg.2.2 ++ rq.2.2))).2
            ⟨rp0, rg, rq, hp0, hs, hq, rfl⟩
          simp [this]

theorem ProcessGenerators.loop_length {φ : Type} (c : Consts) (h : ILevelHandler φ)
    (layout : List EventTile) (X : Int) (dt : ℚ) (gs : List GeneratorInfo) :
    ∀ (w : φ) (r : List GeneratorInfo × φ × List Call),
      ProcessGenerators.loop c h layout X dt gs w = some r → r.1.length = gs.length := by
  induction gs with
  | nil =>
    intro w r hr
    simp only [ProcessGenerators.loop, Option.some.injEq] at hr
    rw [← hr]
  | cons g gs ih =>
    intro w r hr
    simp only [ProcessGenerators.loop] at hr
    cases hs : ProcessGenerators.step c h layout X dt g w with
    | none => simp [hs] at hr
    | some r0 =>
      cases hq : ProcessGenerators.loop c h layout X dt gs r0.2.1 with
      | none => simp [hs, hq] at hr
      | some rq =>
        simp only [hs, hq, Option.some.injEq] at hr
        rw [← hr]
        simp [ih r0.2.1 rq hq]

/-- The sample generator of C10: delay 2 at 60 frames per second gives a timer of 120. -/
theorem Sample.generator_delay_frames :
    Sample.generator.Delay * Sample.consts.FramesPerSecond = 120 := by
  norm_num [Sample.generator, Sample.consts]

theorem ProcessGenerators.step_spawn_only_if {φ : Type} (c : Consts) (h : ILevelHandler φ)
    (layout : List EventTile) (X : Int) (dt : ℚ) (g : GeneratorInfo) (w : φ)
    (r : GeneratorInfo × φ × List Call)
    (hstep : ProcessGenerators.step c h layout X dt g w = some r)
    (hk : ∃ k ∈ r.2.2, Call.isSpawn k = true) :
    ∃ tile, tileAt? layout g.EventPos = some tile ∧ tile.IsEventActive = true ∧
      g.noLiveActor h w = true ∧ g.TimeLeft ≤ 0 := by
  cases ht : tileAt? layout g.EventPos with
  | none => simp [ProcessGenerators.step, ht] at hstep
  | some tile =>
    refine ⟨tile, rfl, ?_⟩
    by_cases hA : tile.IsEventActive = true
    · cases hL : g.noLiveActor h w with
      | false =>
        rw [ProcessGenerators.step_live c h layout X dt g w tile ht hA hL] at hstep
        simp only [Option.some.injEq] at hstep
        subst hstep
        simp at hk
      | true =>
        by_cases hT : g.TimeLeft ≤ 0
        · exact ⟨hA, rfl, hT⟩
        · rw [ProcessGenerators.step_recharging c h layout X dt g w tile ht hA hL
            (not_le.1 hT)] at hstep
          simp only [Option.some.injEq] at hstep
          subst hstep
          simp at hk
    · have hA1 : tile.IsEventActive = false := by simpa using hA
      rw [ProcessGenerators.step_inactive c h layout X dt g w tile ht hA1] at hstep
      simp only [Option.some.injEq] at hstep
      subst hstep
      simp at hk

theorem ProcessGenerators.step_no_spawn {φ : Type} (c : Consts) (h : ILevelHandler φ)
    (layout : List EventTile) (X : Int) (dt : ℚ) (g : GeneratorInfo) (w : φ)
    (r : GeneratorInfo × φ × List Call)
    (hstep : ProcessGenerators.step c h layout X dt g w = some r)
    (hno : g.noLiveActor h w = false ∨ 0 < g.TimeLeft) :
    r.2.2 = [] ∧ r.1.EventPos = g.EventPos ∧
      (r.1.TimeLeft = g.TimeLeft ∨ r.1.TimeLeft = g.TimeLeft - dt) ∧
      (g.noLiveActor h w = false → r.1.SpawnedActor = g.SpawnedActor) ∧
      (∀ tile, tileAt? layout g.EventPos = some tile → tile.IsEventActive = true →
        g.noLiveActor h w = true →
        r.1.TimeLeft = g.TimeLeft - dt ∧ r.1.SpawnedActor = none) := by
  cases ht : tileAt? layout g.EventPos with
  | none => simp [ProcessGenerators.step, ht] at hstep
  | some tile =>
    by_cases hA : tile.IsEventActive = true
    · cases hL : g.noLiveActor h w with
      | false =>
        rw [ProcessGenerators.step_live c h layout X dt g w tile ht hA hL] at hstep
        simp only [Option.some.injEq] at hstep
        subst hstep
        exact ⟨rfl, rfl, Or.inl rfl, fun _ => rfl, fun _ _ _ hh => absurd hh (by simp)⟩
      | true =>
        have hT : 0 < g.TimeLeft := by
          rcases hno with hno | hno
          · rw [hL] at hno
            exact absurd hno (by simp)
          · exact hno
        rw [ProcessGenerators.step_recharging c h layout X dt g w tile ht hA hL hT] at hstep
        simp only [Option.some.injEq] at hstep
        subst hstep
        exact ⟨rfl, rfl, Or.inr rfl, fun hh => absurd hh (by simp), fun _ _ _ _ => ⟨rfl, rfl⟩⟩
    · have hA1 : tile.IsEventActive = false := by simpa using hA
      rw [ProcessGenerators.step_inactive c h layout X dt g w tile ht hA1] at hstep
      simp only [Option.some.injEq] at hstep
      subst hstep
      refine ⟨rfl, rfl, Or.inr rfl, fun _ => rfl, ?_⟩
      intro t1 ht1 hh
      simp only [Option.some.injEq] at ht1
      subst ht1
      exact absurd hh hA

theorem ProcessGenerators.ticks_alive {φ : Type} (c : Consts) (h : ILevelHandler φ) (X : Int)
    (dt : ℚ) (a : ActorRef) (lws : List (List EventTile × φ)) :
    ∀ (g : GeneratorInfo) (r : GeneratorInfo × List Call), g.SpawnedActor = some a →
      (∀ lw ∈ lws, 0 < h.GetHealth lw.2 a) →
      ProcessGenerators.ticks c h X dt lws g = some r →
      r.2 = [] ∧ r.1.SpawnedActor = some a := by
  induction lws with
  | nil =>
    intro g r ha _ hr
    simp only [ProcessGenerators.ticks, Option.some.injEq] at hr
    subst hr
    exact ⟨rfl, ha⟩
  | cons lw lws ih =>
    intro g r ha hall hr
    simp only [ProcessGenerators.ticks] at hr
    cases hs : ProcessGenerators.step c h lw.1 X dt g lw.2 with
    | none => simp [hs] at hr
    | some r0 =>
      cases hq : ProcessGenerators.ticks c h X dt lws r0.1 with
      | none => simp [hs, hq] at hr
      | some r1 =>
        simp only [hs, hq, Option.some.injEq] at hr
        subst hr
        have hL : g.noLiveActor h lw.2 = false := by
          simp [GeneratorInfo.noLiveActor, ha, hall lw (List.mem_cons_self _ _)]
        obtain ⟨e1, _, _, e4, _⟩ :=
          ProcessGenerators.step_no_spawn c h lw.1 X dt g lw.2 r0 hs (Or.inl hL)
        obtain ⟨i1, i2⟩ := ih r0.1 r1 (by rw [e4 hL, ha])
          (fun lw1 h1 => hall lw1 (List.mem_cons_of_mem _ h1)) hq
        exact ⟨by simp [e1, i1], i2⟩

theorem ProcessGenerators.ticks_countdown {φ : Type} (c : Consts) (h : ILevelHandler φ)
    (X : Int) (lws : List (List EventTile × φ)) :
    ∀ (g : GeneratorInfo) (r : GeneratorInfo × List Call),
      (lws.length : ℚ) ≤ g.TimeLeft →
      ProcessGenerators.ticks c h X 1 lws g = some r →
      r.2 = [] ∧ g.TimeLeft - lws.length ≤ r.1.TimeLeft ∧
      ((∀ lw ∈ lws, ∃ tile, tileAt? lw.1 g.EventPos = some tile ∧
          tile.IsEventActive = true ∧ ∀ a, g.SpawnedActor = some a → h.GetHealth lw.2 a ≤ 0) →
        r.1.TimeLeft = g.TimeLeft - lws.length) := by
  induction lws with
  | nil =>
    intro g r _ hr
    simp only [ProcessGenerators.ticks, Option.some.injEq] at hr
    subst hr
    simp
  | cons lw lws ih =>
    intro g r hlen hr
    simp only [ProcessGenerators.ticks] at hr
    simp only [List.length_cons, Nat.cast_add, Nat.cast_one] at hlen ⊢
    have hpos : 0 < g.TimeLeft := by
      have : (0 : ℚ) ≤ (lws.length : ℚ) := Nat.cast_nonneg _
      linarith
    cases hs : ProcessGenerators.step c h lw.1 X 1 g lw.2 with
    | none => simp [hs] at hr
    | some r0 =>
      cases hq : ProcessGenerators.ticks c h X 1 lws r0.1 with
      | none => simp [hs, hq] at hr
      | some r1 =>
        simp only [hs, hq, Option.some.injEq] at hr
        subst hr
        obtain ⟨e1, e2, e3, _, e5⟩ :=
          ProcessGenerators.step_no_spawn c h lw.1 X 1 g lw.2 r0 hs (Or.inr hpos)
        have hge : g.TimeLeft - 1 ≤ r0.1.TimeLeft := by
          rcases e3 with e3 | e3
          · rw [e3]; linarith
          · rw [e3]
        obtain ⟨i1, i2, i3⟩ := ih r0.1 r1 (by linarith) hq
        refine ⟨by simp [e1, i1], by linarith, ?_⟩
        intro hall
        obtain ⟨tile, ht, hA, hdead⟩ := hall lw (List.mem_cons_self _ _)
        have hL : g.noLiveActor h lw.2 = true := by
          unfold GeneratorInfo.noLiveActor
          cases ha : g.SpawnedActor with
          | none => rfl
          | some a => simp [hdead a ha]
        obtain ⟨f1, f2⟩ := e5 tile ht hA hL
        have := i3 (by
          intro lw1 h1
          obtain ⟨t1, ht1, hA1, _⟩ := hall lw1 (List.mem_cons_of_mem _ h1)
          refine ⟨t1, by rw [e2]; exact ht1, hA1, ?_⟩
          intro a ha
          rw [f2] at ha
          exact absurd ha (by simp))
        rw [this, f1]
        ring

/-- C11. A generator never spawns early. (1) In any tick of `ProcessGenerators`, for the
generator `g` of the table `pre ++ g :: post`, the part of the call log `g` produces contains
a factory call only if `g`'s cell is active, its spawned actor is absent or has health `≤ 0`
in the external state the loop reaches it with, and its `TimeLeft` is `≤ 0`. (2) Over any
number of ticks in each of which the spawned actor has health `> 0`, the generator makes no
call and keeps its reference. (3) With a unit time step, over any `k ≤ TimeLeft` ticks the
generator makes no call and its timer stays at or above `TimeLeft - k`; when in each of these
ticks its cell is active and it has no live actor the timer is exactly `TimeLeft - k`. -/
theorem ProcessGenerators_never_early {φ : Type} (c : Consts) (h : ILevelHandler φ) :
    (∀ (m : EventMap) (w : φ) (dt : ℚ) (pre : List GeneratorInfo) (g : GeneratorInfo)
        (post : List GeneratorInfo) (r : Run φ),
      m._generators = pre ++ g :: post → ProcessGenerators c h m w dt = some r →
      ∃ rp rg rq,
        ProcessGenerators.loop c h m._eventLayout m._layoutSize.X dt pre w = some rp ∧
        ProcessGenerators.step c h m._eventLayout m._layoutSize.X dt g rp.2.1 = some rg ∧
        ProcessGenerators.loop c h m._eventLayout m._layoutSize.X dt post rg.2.1 = some rq ∧
        r.2.2 = rp.2.2 ++ (rg.2.2 ++ rq.2.2) ∧
        ((∃ k ∈ rg.2.2, Call.isSpawn k = true) →
          ∃ tile, tileAt? m._eventLayout g.EventPos = some tile ∧
            tile.IsEventActive = true ∧ g.noLiveActor h rp.2.1 = true ∧ g.TimeLeft ≤ 0)) ∧
    (∀ (X : Int) (dt : ℚ) (a : ActorRef) (lws : List (List EventTile × φ))
        (g : GeneratorInfo) (r : GeneratorInfo × List Call),
      g.SpawnedActor = some a → (∀ lw ∈ lws, 0 < h.GetHealth lw.2 a) →
      ProcessGenerators.ticks c h X dt lws g = some r →
      r.2 = [] ∧ r.1.SpawnedActor = some a) ∧
    (∀ (X : Int) (lws : List (List EventTile × φ)) (g : GeneratorInfo)
        (r : GeneratorInfo × List Call),
      (lws.length : ℚ) ≤ g.TimeLeft →
      ProcessGenerators.ticks c h X 1 lws g = some r →
      r.2 = [] ∧ g.TimeLeft - lws.length ≤ r.1.TimeLeft ∧
      ((∀ lw ∈ lws, ∃ tile, tileAt? lw.1 g.EventPos = some tile ∧
          tile.IsEventActive = true ∧ ∀ a, g.SpawnedActor = some a → h.GetHealth lw.2 a ≤ 0) →
        r.1.TimeLeft = g.TimeLeft - lws.length)) := by
  refine ⟨?_, ?_, ?_⟩
  · intro m w dt pre g post r hgens hrun
    unfold ProcessGenerators at hrun
    rw [hgens] at hrun
    cases hl : ProcessGenerators.loop c h m._eventLayout m._layoutSize.X dt (pre ++ g :: post)
        w with
    | none => simp [hl] at hrun
    | some r1 =>
      simp only [hl, Option.some.injEq] at hrun
      obtain ⟨rp, rg, rq, hp, hs, hq, hr1⟩ :=
        (ProcessGenerators.loop_split c h _ _ dt pre g post w r1).1 hl
      refine ⟨rp, rg, rq, hp, hs, hq, ?_, ?_⟩
      · rw [← hrun, hr1]
      · exact ProcessGenerators.step_spawn_only_if c h _ _ dt g rp.2.1 rg hs
  · intro X dt a lws g r
    exact ProcessGenerators.ticks_alive c h X dt a lws g r
  · intro X lws g r
    exact ProcessGenerators.ticks_countdown c h X lws g r

/-! ### C13, C14, C15 -/

theorem StoreTileEvent_frame (m m1 : EventMap) (x y : Int) (k : EventType) (f : Nat)
    (p : Option Params) (hs : StoreTileEvent m x y k f p = some m1) :
    m1._layoutSize = m._layoutSize ∧ m1._eventLayout.length = m._eventLayout.length ∧
      m1._eventLayoutForRollback = m._eventLayoutForRollback ∧
      m1._generators = m._generators := by
  unfold StoreTileEvent at hs
  split at hs
  · simp only [Option.some.injEq] at hs
    subst hs
    exact ⟨rfl, rfl, rfl, rfl⟩
  · split at hs
    · exact absurd hs (by simp)
    · simp only [Option.some.injEq] at hs
      subst hs
      exact ⟨rfl, by simp [length_setTile], rfl, rfl⟩

theorem Deactivate_frame (m m1 : EventMap) (x y : Int) (hs : Deactivate m x y = some m1) :
    m1._layoutSize = m._layoutSize ∧ m1._eventLayout.length = m._eventLayout.length ∧
      m1._eventLayoutForRollback = m._eventLayoutForRollback ∧
      m1._generators = m._generators := by
  unfold Deactivate at hs
  split at hs
  · exact absurd hs (by simp)
  · simp only [Option.some.injEq] at hs
    subst hs
    exact ⟨rfl, rfl, rfl, rfl⟩
  · split at hs
    · exact absurd hs (by simp)
    · simp only [Option.some.injEq] at hs
      subst hs
      exact ⟨rfl, by simp [length_setTile], rfl, rfl⟩

theorem ResetGenerator_frame (m m1 : EventMap) (x y : Int)
    (hs : ResetGenerator m x y = some m1) :
    m1._layoutSize = m._layoutSize ∧ m1._eventLayout = m._eventLayout ∧
      m1._eventLayoutForRollback = m._eventLayoutForRollback ∧
      m1._generators.length = m._generators.length := by
  unfold ResetGenerator at hs
  split at hs
  · exact absurd hs (by simp)
  · simp only at hs
    split at hs
    · simp only [Option.some.injEq] at hs
      subst hs
      exact ⟨rfl, rfl, rfl, rfl⟩
    · simp only [Option.some.injEq] at hs
      subst hs
      exact ⟨rfl, rfl, rfl, by simp⟩

theorem ProcessGenerators_frame {φ : Type} (c : Consts) (h : ILevelHandler φ) (m : EventMap)
    (w : φ) (dt : ℚ) (r : Run φ) (hs : ProcessGenerators c h m w dt = some r) :
    r.1._layoutSize = m._layoutSize ∧ r.1._eventLayout = m._eventLayout ∧
      r.1._eventLayoutForRollback = m._eventLayoutForRollback ∧
      r.1._generators.length = m._generators.length := by
  unfold ProcessGenerators at hs
  cases hl : ProcessGenerators.loop c h m._eventLayout m._layoutSize.X dt m._generators w with
  | none => simp [hl] at hs
  | some r1 =>
    simp only [hl, Option.some.injEq] at hs
    subst hs
    exact ⟨rfl, rfl, rfl, ProcessGenerators.loop_length c h _ _ dt _ w r1 hl⟩

theorem ActivateEvents_frame {φ : Type} (c : Consts) (h : ILevelHandler φ) (m : EventMap)
    (w : φ) (tx1 ty1 tx2 ty2 : Int) (a : Bool) (r : Run φ) (hwf : m.WF)
    (hs : ActivateEvents c h m w tx1 ty1 tx2 ty2 a = some r) :
    r.1._layoutSize = m._layoutSize ∧ r.1._eventLayout.length = m._eventLayout.length ∧
      r.1._eventLayoutForRollback = m._eventLayoutForRollback ∧
      r.1._generators = m._generators := by
  obtain ⟨s1, hrun, hrest, hlen, _⟩ := ActivateEvents_run_spec c h m w tx1 ty1 tx2 ty2 a hwf
  rw [hrun] at hs
  simp only [Option.some.injEq] at hs
  subst hs
  refine ⟨?_, hlen, ?_, ?_⟩
  · rw [hrest]
  · rw [hrest]
  · rw [hrest]

/-- The calls between a capture and a rollback keep the allocation of the grid and the
snapshot. -/
theorem Op.mutation_frame {φ : Type} (c : Consts) (codec : VarintCodec) (h : ILevelHandler φ)
    (op : Op) (s s1 : EventMap × φ) (hm : op.isMutation = true) (hwf : s.1.WF)
    (hs : op.apply c codec h s = some s1) :
    s1.1.WF ∧ s1.1._layoutSize = s.1._layoutSize ∧
      s1.1._eventLayoutForRollback = s.1._eventLayoutForRollback := by
  have key : s1.1._layoutSize = s.1._layoutSize ∧
      s1.1._eventLayout.length = s.1._eventLayout.length ∧
      s1.1._eventLayoutForRollback = s.1._eventLayoutForRollback := by
    cases op with
    | StoreTileEvent x y k f p =>
      simp only [Op.apply, Option.map_eq_some'] at hs
      obtain ⟨m1, h1, rfl⟩ := hs
      obtain ⟨a, b, d, _⟩ := StoreTileEvent_frame _ _ _ _ _ _ _ h1
      exact ⟨a, b, d⟩
    | ActivateEvents tx1 ty1 tx2 ty2 a =>
      simp only [Op.apply, Option.map_eq_some'] at hs
      obtain ⟨r, h1, rfl⟩ := hs
      obtain ⟨a, b, d, _⟩ := ActivateEvents_frame c h _ _ _ _ _ _ _ r hwf h1
      exact ⟨a, b, d⟩
    | Deactivate x y =>
      simp only [Op.apply, Option.map_eq_some'] at hs
      obtain ⟨m1, h1, rfl⟩ := hs
      obtain ⟨a, b, d, _⟩ := Deactivate_frame _ _ _ _ h1
      exact ⟨a, b, d⟩
    | ResetGenerator x y =>
      simp only [Op.apply, Option.map_eq_some'] at hs
      obtain ⟨m1, h1, rfl⟩ := hs
      obtain ⟨a, b, d, _⟩ := ResetGenerator_frame _ _ _ _ h1
      exact ⟨a, by rw [b], d⟩
    | ProcessGenerators dt =>
      simp only [Op.apply, Option.map_eq_some'] at hs
      obtain ⟨r, h1, rfl⟩ := hs
      obtain ⟨a, b, d, _⟩ := ProcessGenerators_frame c h _ _ _ r h1
      exact ⟨a, by rw [b], d⟩
    | CreateCheckpointForRollback => simp [Op.isMutation] at hm
    | RollbackToCheckpoint => simp [Op.isMutation] at hm
    | ReadEvents st d => simp [Op.isMutation] at hm
    | InitializeFromStream src => simp [Op.isMutation] at hm
  refine ⟨?_, key.1, key.2.2⟩
  unfold EventMap.WF at hwf ⊢
  rw [key.1, key.2.1]
  exact hwf

theorem Op.mutations_frame {φ : Type} (c : Consts) (codec : VarintCodec) (h : ILevelHandler φ)
    (ops : List Op) :
    ∀ s s1 : EventMap × φ, (∀ op ∈ ops, op.isMutation = true) → s.1.WF →
      Op.applyAll c codec h ops s = some s1 →
      s1.1.WF ∧ s1.1._layoutSize = s.1._layoutSize ∧
        s1.1._eventLayoutForRollback = s.1._eventLayoutForRollback := by
  induction ops with
  | nil =>
    intro s s1 _ hwf hs
    simp only [Op.applyAll, List.foldlM_nil] at hs
    have : s = s1 := by simpa using hs
    subst this
    exact ⟨hwf, rfl, rfl⟩
  | cons op ops ih =>
    intro s s1 hall hwf hs
    simp only [Op.applyAll, List.foldlM_cons] at hs
    cases h1 : op.apply c codec h s with
    | none => simp [h1] at hs
    | some s2 =>
      rw [h1] at hs
      obtain ⟨a, b, d⟩ := Op.mutation_frame c codec h op s s2
        (hall op (List.mem_cons_self _ _)) hwf h1
      obtain ⟨a1, b1, d1⟩ := ih s2 s1 (fun o ho => hall o (List.mem_cons_of_mem _ ho)) a hs
      exact ⟨a1, by rw [b1, b], by rw [d1, d]⟩

/-- C13. Let `CreateCheckpointForRollback` capture an allocated grid `S` (overwriting any
earlier snapshot), and let any sequence of `ActivateEvents`, `Deactivate`, `StoreTileEvent`,
`ResetGenerator` and `ProcessGenerators` calls follow. Then `RollbackToCheckpoint` succeeds;
afterwards the live grid is `S` cell for cell (kind, flags, active, parameters), the snapshot
is still `S`, and every generator has `TimeLeft = 0`. -/
theorem RollbackToCheckpoint_restores {φ : Type} (c : Consts) (codec : VarintCodec)
    (h : ILevelHandler φ) (m0 m1 m2 : EventMap) (w w2 : φ) (ops : List Op) (hwf : m0.WF)
    (hcap : CreateCheckpointForRollback m0 = some m1)
    (hops : ∀ op ∈ ops, op.isMutation = true)
    (hrun : Op.applyAll c codec h ops (m1, w) = some (m2, w2)) :
    m1._eventLayoutForRollback = some m0._eventLayout ∧
    ∃ m3 w3 tr, RollbackToCheckpoint c h m2 w2 = some (m3, w3, tr) ∧
      m3._eventLayout = m0._eventLayout ∧
      m3._eventLayoutForRollback = some m0._eventLayout ∧
      (∀ g ∈ m3._generators, g.TimeLeft = 0) ∧
      m3._generators.length = m2._generators.length := by
  rw [CreateCheckpointForRollback_spec m0 hwf] at hcap
  simp only [Option.some.injEq] at hcap
  subst hcap
  have hwf1 : ({ m0 with _eventLayoutForRollback := some m0._eventLayout } : EventMap).WF := hwf
  obtain ⟨a, b, d⟩ := Op.mutations_frame c codec h ops _ _ hops hwf1 hrun
  simp only at a b d
  have hlen : m0._eventLayout.length = m2._eventLayout.length := by
    obtain ⟨_, _, e1⟩ := hwf
    obtain ⟨_, _, e2⟩ := a
    rw [e1, e2, b]
  obtain ⟨w3, tr, hroll, _, _⟩ :=
    RollbackToCheckpoint_run_spec c h m2 w2 m0._eventLayout a d hlen
  refine ⟨rfl, _, w3, tr, hroll, rfl, d, ?_, by simp⟩
  intro g hg
  simp only [List.mem_map] at hg
  obtain ⟨g0, _, rfl⟩ := hg
  rfl

theorem RollbackToCheckpoint_restores_witness :
    Sample.capturedMap._eventLayoutForRollback = some Sample.map._eventLayout ∧
    ∃ m3 w3 tr, RollbackToCheckpoint Sample.consts Sample.handler
        { Sample.activeMap with _eventLayoutForRollback := some Sample.map._eventLayout } 1 =
          some (m3, w3, tr) ∧
      m3._eventLayout = Sample.map._eventLayout ∧
      m3._eventLayoutForRollback = some Sample.map._eventLayout ∧
      (∀ g ∈ m3._generators, g.TimeLeft = 0) ∧
      m3._generators.length =
        ({ Sample.activeMap with _eventLayoutForRollback := some Sample.map._eventLayout } :
          EventMap)._generators.length :=
  RollbackToCheckpoint_restores Sample.consts Sample.noCodec Sample.handler Sample.map
    Sample.capturedMap
    { Sample.activeMap with _eventLayoutForRollback := some Sample.map._eventLayout } 0 1
    [Op.ActivateEvents 0 0 1 1 true] (by decide)
    (CreateCheckpointForRollback_spec Sample.map (by decide)) (by simp [Op.isMutation]) rfl

/-- C15. With no snapshot (`_eventLayoutForRollback == nullptr`, the state of an event map
on which `CreateCheckpointForRollback` was never called) `RollbackToCheckpoint` returns the
event map and the external state unchanged, generators included, and makes no call. -/
theorem RollbackToCheckpoint_without_snapshot {φ : Type} (c : Consts) (h : ILevelHandler φ)
    (m : EventMap) (w : φ) (hnone : m._eventLayoutForRollback = none) :
    RollbackToCheckpoint c h m w = some (m, w, []) := by
  simp [RollbackToCheckpoint, hnone]

theorem RollbackToCheckpoint_without_snapshot_witness :
    RollbackToCheckpoint Sample.consts Sample.handler Sample.map 0 =
      some (Sample.map, 0, []) :=
  RollbackToCheckpoint_without_snapshot Sample.consts Sample.handler Sample.map 0 rfl

theorem lor_land_self (a b : Nat) : (a ||| b) &&& a = a := by
  apply Nat.eq_of_testBit_eq
  intro i
  simp only [Nat.testBit_land, Nat.testBit_lor]
  cases a.testBit i <;> simp

theorem RollbackToCheckpoint_call?_filter_isSpawn (c : Consts) (x y : Int)
    (tile tilePrev : EventTile) :
    (RollbackToCheckpoint.call? c x y tile tilePrev).filter Call.isSpawn =
      RollbackToCheckpoint.spawnCall? c x y tile tilePrev := by
  unfold RollbackToCheckpoint.call? RollbackToCheckpoint.spawnCall?
  by_cases hP : tilePrev.IsEventActive = true
  · by_cases hT : tile.IsEventActive = false
    · by_cases hE : tilePrev.Event = EventType.Empty
      · simp [hE]
      · by_cases hG : tilePrev.Event = EventType.Generator
        · simp [hG]
        · by_cases hW : tilePrev.Event = EventType.AreaWeather
          · simp [hP, hT, hW, Option.filter, Call.isSpawn]
          · simp [hP, hT, hE, hG, hW, Option.filter, Call.isSpawn]
    · simp [hT]
  · simp [hP]

theorem RollbackToCheckpoint_call?_filter_isWeather (c : Consts) (x y : Int)
    (tile tilePrev : EventTile) :
    (RollbackToCheckpoint.call? c x y tile tilePrev).filter Call.isWeather =
      RollbackToCheckpoint.weatherCall? tile tilePrev := by
  unfold RollbackToCheckpoint.call? RollbackToCheckpoint.weatherCall?
  by_cases hP : tilePrev.IsEventActive = true
  · by_cases hT : tile.IsEventActive = false
    · by_cases hE : tilePrev.Event = EventType.Empty
      · simp [hE]
      · by_cases hG : tilePrev.Event = EventType.Generator
        · simp [hG]
        · by_cases hW : tilePrev.Event = EventType.AreaWeather
          · simp [hP, hT, hW, Option.filter, Call.isWeather]
          · simp [hP, hT, hE, hG, hW, Option.filter, Call.isWeather]
    · simp [hT]
  · simp [hP]

/-- C14. On an allocated grid with a snapshot of the same size, `RollbackToCheckpoint` visits
every tile once (`y` outer, `x` inner). The factory calls in its log are, in that order,
exactly one call for each cell that is active in the snapshot, inactive in the live grid just
before the rollback and whose snapshot kind is none of `Empty`, `Generator` and
`AreaWeather`, with the snapshot cell's kind, parameters and coordinates and with flags
`IsCreatedFromEventMap | EventFlags`, which carry the flag `IsCreatedFromEventMap`; the
weather calls are exactly one call `(params[0], params[1])` for each such cell of kind
`AreaWeather`. No other factory or weather call is made. -/
theorem RollbackToCheckpoint_calls {φ : Type} (c : Consts) (h : ILevelHandler φ)
    (m : EventMap) (w : φ) (prev : List EventTile) (hwf : m.WF)
    (hsnap : m._eventLayoutForRollback = some prev)
    (hlen : prev.length = m._eventLayout.length) :
    ∃ m1 w1 tr, RollbackToCheckpoint c h m w = some (m1, w1, tr) ∧
      (RollbackToCheckpoint.coords m).Nodup ∧
      (∀ x y, (y, x) ∈ RollbackToCheckpoint.coords m ↔ m.inGrid x y) ∧
      tr.filter Call.isSpawn = (RollbackToCheckpoint.coords m).filterMap (fun p =>
        (m.cell p.2 p.1).bind fun tile =>
          (tileAt? prev (p.2 + p.1 * m._layoutSize.X)).bind fun tilePrev =>
            RollbackToCheckpoint.spawnCall? c p.2 p.1 tile tilePrev) ∧
      tr.filter Call.isWeather = (RollbackToCheckpoint.coords m).filterMap (fun p =>
        (m.cell p.2 p.1).bind fun tile =>
          (tileAt? prev (p.2 + p.1 * m._layoutSize.X)).bind fun tilePrev =>
            RollbackToCheckpoint.weatherCall? tile tilePrev) ∧
      (∀ k ∈ tr, ∀ type params flags x y z, k = Call.SpawnEvent type params flags x y z →
        flags &&& c.IsCreatedFromEventMap = c.IsCreatedFromEventMap) := by
  obtain ⟨w1, tr, hrun, hcalls, _⟩ := RollbackToCheckpoint_run_spec c h m w prev hwf hsnap hlen
  have hspawn : tr.filter Call.isSpawn = (RollbackToCheckpoint.coords m).filterMap (fun p =>
      (m.cell p.2 p.1).bind fun tile =>
        (tileAt? prev (p.2 + p.1 * m._layoutSize.X)).bind fun tilePrev =>
          RollbackToCheckpoint.spawnCall? c p.2 p.1 tile tilePrev) := by
    rw [filter_of_filter_isSpawnOrWeather tr Call.isSpawn
      (fun k hk => by simp [Call.isSpawnOrWeather, hk]), hcalls, List.filter_filterMap]
    apply List.filterMap_congr
    intro p _
    cases m.cell p.2 p.1 with
    | none => rfl
    | some t =>
      cases tileAt? prev (p.2 + p.1 * m._layoutSize.X) with
      | none => rfl
      | some tp => exact RollbackToCheckpoint_call?_filter_isSpawn c p.2 p.1 t tp
  refine ⟨_, w1, tr, hrun, RollbackToCheckpoint_nodup_coords m,
    fun x y => RollbackToCheckpoint_mem_coords m (y, x), hspawn, ?_, ?_⟩
  · rw [filter_of_filter_isSpawnOrWeather tr Call.isWeather
      (fun k hk => by simp [Call.isSpawnOrWeather, hk]), hcalls, List.filter_filterMap]
    apply List.filterMap_congr
    intro p _
    cases m.cell p.2 p.1 with
    | none => rfl
    | some t =>
      cases tileAt? prev (p.2 + p.1 * m._layoutSize.X) with
      | none => rfl
      | some tp => exact RollbackToCheckpoint_call?_filter_isWeather c p.2 p.1 t tp
  · intro k hk type params flags x y z hkeq
    subst hkeq
    have hmem : Call.SpawnEvent type params flags x y z ∈ tr.filter Call.isSpawn :=
      List.mem_filter.2 ⟨hk, rfl⟩
    rw [hspawn, List.mem_filterMap] at hmem
    obtain ⟨p, _, hp⟩ := hmem
    cases hc : m.cell p.2 p.1 with
    | none => simp [hc] at hp
    | some t =>
      cases hq : tileAt? prev (p.2 + p.1 * m._layoutSize.X) with
      | none => simp [hc, hq] at hp
      | some tp =>
        simp only [hc, hq, Option.some_bind, RollbackToCheckpoint.spawnCall?] at hp
        split at hp
        · simp only [Option.some.injEq, Call.SpawnEvent.injEq] at hp
          rw [← hp.2.2.1]
          exact lor_land_self _ _
        · exact absurd hp (by simp)

theorem RollbackToCheckpoint_calls_witness :
    ∃ m1 w1 tr, RollbackToCheckpoint Sample.consts Sample.handler Sample.rolledMap 0 =
        some (m1, w1, tr) ∧
      (RollbackToCheckpoint.coords Sample.rolledMap).Nodup ∧
      (∀ x y, (y, x) ∈ RollbackToCheckpoint.coords Sample.rolledMap ↔
        Sample.rolledMap.inGrid x y) ∧
      tr.filter Call.isSpawn = (RollbackToCheckpoint.coords Sample.rolledMap).filterMap
        (fun p => (Sample.rolledMap.cell p.2 p.1).bind fun tile =>
          (tileAt? Sample.activeMap._eventLayout
            (p.2 + p.1 * Sample.rolledMap._layoutSize.X)).bind fun tilePrev =>
            RollbackToCheckpoint.spawnCall? Sample.consts p.2 p.1 tile tilePrev) ∧
      tr.filter Call.isWeather = (RollbackToCheckpoint.coords Sample.rolledMap).filterMap
        (fun p => (Sample.rolledMap.cell p.2 p.1).bind fun tile =>
          (tileAt? Sample.activeMap._eventLayout
            (p.2 + p.1 * Sample.rolledMap._layoutSize.X)).bind fun tilePrev =>
            RollbackToCheckpoint.weatherCall? tile tilePrev) ∧
      (∀ k ∈ tr, ∀ type params flags x y z, k = Call.SpawnEvent type params flags x y z →
        flags &&& Sample.consts.IsCreatedFromEventMap = Sample.consts.IsCreatedFromEventMap) :=
  RollbackToCheckpoint_calls Sample.consts Sample.handler Sample.rolledMap 0
    Sample.activeMap._eventLayout (by decide) rfl (by decide)

/-! ## ReadEvents -/

theorem StoreTileEvent_inGrid (m : EventMap) (x y : Int) (k : EventType) (f : Nat)
    (p : Option Params) (hwf : m.WF) (hin : m.inGrid x y) :
    ∃ prev, tileAt? m._eventLayout (x + y * m._layoutSize.X) = some prev ∧
      StoreTileEvent m x y k f p = some { m with
        _eventLayout := setTile m._eventLayout (x + y * m._layoutSize.X)
          { Event := k, EventFlags := f, EventParams := p.getD Params.zero,
            IsEventActive := decide (prev.Event = k) && prev.IsEventActive } } := by
  obtain ⟨prev, hprev⟩ := cell_isSome m x y hwf hin
  have hprev1 : tileAt? m._eventLayout (x + y * m._layoutSize.X) = some prev := hprev
  have hguard : ¬ (k = EventType.Empty ∧
      (x < 0 ∨ y < 0 ∨ x ≥ m._layoutSize.X ∨ y ≥ m._layoutSize.Y)) := by
    obtain ⟨a, b, c, d⟩ := hin
    intro hh
    omega
  refine ⟨prev, hprev1, ?_⟩
  simp only [StoreTileEvent, hguard, if_false, hprev1]
  cases p <;> rfl

theorem ReadEvents.readRecord_flags (s s1 : Stream) (r : ReadEvents.Record)
    (hr : ReadEvents.readRecord s = some (r, s1)) : r.eventFlags ≠ 0 := by
  unfold ReadEvents.readRecord at hr
  split at hr
  · exact absurd hr (by simp)
  · split at hr
    · exact absurd hr (by simp)
    · rename_i eventFlags s2 _
      split at hr
      · exact absurd hr (by simp)
      · split at hr
        · rename_i hbit
          split at hr
          · exact absurd hr (by simp)
          · simp only [Option.some.injEq, Prod.mk.injEq] at hr
            rw [← hr.1]
            simp only
            intro h0
            have h1 := congrArg (fun n => n.testBit 0) h0
            have h2 := congrArg (fun n => n.testBit 0) hbit
            simp [Nat.testBit_xor, Nat.testBit_land] at h1 h2
            omega
        · rename_i hbit
          simp only [Option.some.injEq, Prod.mk.injEq] at hr
          rw [← hr.1]
          simp only
          intro h0
          rw [h0] at hbit
          simp at hbit

theorem Params.readU32_writeU32 (p : Params) (v : Nat) (hv : v < 4294967296) :
    (p.writeU32 v).readU32 = v := by
  simp only [Params.readU32, Params.writeU32, Params.byte, List.cons_append, List.nil_append,
    List.getD_cons_zero, List.getD_cons_succ]
  omega

/-- One record stored by `ReadEvents` at an in-grid tile of an allocated grid: the step
succeeds, touches no cell but its own, writes no `Empty` kind, appends at most one generator,
linked to its cell, and is the identity for a record that fails the difficulty test. -/
theorem ReadEvents.store_spec (c : Consts) (bit : Nat) (x y : Int) (r : ReadEvents.Record)
    (m : EventMap) (log : List TileMapCall) (hwf : m.WF) (hin : m.inGrid x y)
    (hflags : r.eventFlags ≠ 0) :
    ∃ m1 log1, ReadEvents.store c bit x y r (m, log) = some (m1, log1) ∧
      m1._layoutSize = m._layoutSize ∧
      m1._eventLayoutForRollback = m._eventLayoutForRollback ∧
      m1._eventLayout.length = m._eventLayout.length ∧
      (∀ j : Int, j ≠ x + y * m._layoutSize.X →
        tileAt? m1._eventLayout j = tileAt? m._eventLayout j) ∧
      (∃ t1, tileAt? m1._eventLayout (x + y * m._layoutSize.X) = some t1 ∧
        (tileAt? m._eventLayout (x + y * m._layoutSize.X) = some t1 ∨
          t1.Event ≠ EventType.Empty)) ∧
      (m1._generators = m._generators ∨
        ∃ g t1, m1._generators = m._generators ++ [g] ∧
          g.EventPos = x + y * m._layoutSize.X ∧
          tileAt? m1._eventLayout (x + y * m._layoutSize.X) = some t1 ∧
          t1.Event = EventType.Generator ∧
          t1.EventParams = r.eventParams.writeU32 (m._generators.length % 4294967296)) ∧
      (ReadEvents.passes bit r.eventFlags = false →
        m1 = m ∧ log1 = log) := by
  obtain ⟨h0, h1⟩ := index_bounds m x y hwf hin
  obtain ⟨t0, ht0⟩ := tileAt?_isSome_of_lt _ _ h0 h1
  by_cases hgen : r.eventFlags &&& 0x02 ≠ 0
  · by_cases hok : c.toEventType r.eventType ≠ EventType.Empty ∧
        ReadEvents.passes bit r.eventFlags = true
    · have hwf1 : ({ m with _generators := m._generators ++
          [{ EventPos := x + y * m._layoutSize.X, Event := c.toEventType r.eventType,
             EventParams := r.eventParams, Delay := (r.generatorDelay : ℚ),
             TimeLeft := if r.generatorFlags &&& 0x01 ≠ 0 then (r.generatorDelay : ℚ) else 0,
             SpawnedActor := none }] } : EventMap).WF := hwf
      obtain ⟨prev, hprev, hst⟩ := StoreTileEvent_inGrid _ x y EventType.Generator
        (r.eventFlags &&& 0x04)
        (some (r.eventParams.writeU32 (m._generators.length % 4294967296))) hwf1 hin
      simp only at hprev hst
      have hstore : ReadEvents.store c bit x y r (m, log) = some
          ({ m with
            _eventLayout := setTile m._eventLayout (x + y * m._layoutSize.X)
              { Event := EventType.Generator, EventFlags := r.eventFlags &&& 0x04,
                EventParams := r.eventParams.writeU32 (m._generators.length % 4294967296),
                IsEventActive := decide (prev.Event = EventType.Generator) &&
                  prev.IsEventActive },
            _generators := m._generators ++
              [{ EventPos := x + y * m._layoutSize.X, Event := c.toEventType r.eventType,
                 EventParams := r.eventParams, Delay := (r.generatorDelay : ℚ),
                 TimeLeft :=
                   if r.generatorFlags &&& 0x01 ≠ 0 then (r.generatorDelay : ℚ) else 0,
                 SpawnedActor := none }] }, log) := by
        unfold ReadEvents.store
        dsimp only
        rw [if_pos hgen, if_pos hok, hst]
        rfl
      refine ⟨_, log, hstore, rfl, rfl, ?_, ?_, ?_, ?_, ?_⟩
      · simp [length_setTile]
      · intro j hj
        exact tileAt?_setTile_ne _ _ _ _ h0 (Ne.symm hj)
      · refine ⟨_, tileAt?_setTile_self _ _ _ h0 h1, Or.inr ?_⟩
        simp
      · exact Or.inr ⟨_, _, rfl, rfl, tileAt?_setTile_self _ _ _ h0 h1, rfl, rfl⟩
      · intro hp
        rw [hok.2] at hp
        exact absurd hp (by simp)
    · refine ⟨m, log, ?_, rfl, rfl, rfl, fun _ _ => rfl, ⟨t0, ht0, Or.inl ht0⟩, Or.inl rfl,
        fun _ => ⟨rfl, rfl⟩⟩
      unfold ReadEvents.store
      dsimp only
      rw [if_pos hgen, if_neg hok]
  · by_cases hp : ReadEvents.passes bit r.eventFlags = true
    · have hcond : r.eventFlags = 0 ∨ ReadEvents.passes bit r.eventFlags = true := Or.inr hp
      have hnp : ¬ ReadEvents.passes bit r.eventFlags = false := by simp [hp]
      unfold ReadEvents.store
      dsimp only
      rw [if_neg hgen, if_pos hcond]
      split
      · exact ⟨m, log, rfl, rfl, rfl, rfl, fun _ _ => rfl, ⟨t0, ht0, Or.inl ht0⟩, Or.inl rfl,
          fun hh => absurd hh hnp⟩
      · refine ⟨_, log, rfl, ?_, ?_, ?_, ?_, ?_, Or.inl ?_, fun hh => absurd hh hnp⟩
        all_goals (unfold AddSpawnPosition; split)
        all_goals first
          | rfl
          | exact fun _ _ => rfl
          | exact ⟨t0, ht0, Or.inl ht0⟩
      · exact ⟨_, log, rfl, rfl, rfl, rfl, fun _ _ => rfl, ⟨t0, ht0, Or.inl ht0⟩, Or.inl rfl,
          fun hh => absurd hh hnp⟩
      · rename_i kind hne1 hne2 hne3
        obtain ⟨prev, hprev, hst⟩ := StoreTileEvent_inGrid m x y (c.toEventType r.eventType)
          (r.eventFlags &&& 0x04) (some r.eventParams) hwf hin
        simp only [hst]
        refine ⟨_, _, rfl, rfl, rfl, ?_, ?_, ?_, Or.inl rfl, fun hh => absurd hh hnp⟩
        · simp [length_setTile]
        · intro j hj
          exact tileAt?_setTile_ne _ _ _ _ h0 (Ne.symm hj)
        · refine ⟨_, tileAt?_setTile_self _ _ _ h0 h1, Or.inr ?_⟩
          simp only [ne_eq]
          intro hE
          exact hne1 hE
    · have hcond : ¬ (r.eventFlags = 0 ∨ ReadEvents.passes bit r.eventFlags = true) := by
        rintro (hh | hh)
        · exact hflags hh
        · exact hp hh
      refine ⟨m, log, ?_, rfl, rfl, rfl, fun _ _ => rfl, ⟨t0, ht0, Or.inl ht0⟩, Or.inl rfl,
        fun _ => ⟨rfl, rfl⟩⟩
      unfold ReadEvents.store
      dsimp only
      rw [if_neg hgen, if_neg hcond]

theorem ReadEvents.storeAll_cons (c : Consts) (bit : Nat)
    (z : (Int × Int) × ReadEvents.Record) (Z : List ((Int × Int) × ReadEvents.Record))
    (st : EventMap × List TileMapCall) :
    ReadEvents.storeAll c bit (z :: Z) st =
      match ReadEvents.store c bit z.1.2 z.1.1 z.2 st with
      | none => none
      | some st1 => ReadEvents.storeAll c bit Z st1 := by
  simp only [ReadEvents.storeAll, List.foldlM_cons]
  cases ReadEvents.store c bit z.1.2 z.1.1 z.2 st <;> rfl

theorem ReadEvents.readRecords_length (n : Nat) :
    ∀ (s s1 : Stream) (rs : List ReadEvents.Record),
      ReadEvents.readRecords n s = some (rs, s1) →
      rs.length = n ∧ ∀ r ∈ rs, r.eventFlags ≠ 0 := by
  induction n with
  | zero =>
    intro s s1 rs hr
    simp only [ReadEvents.readRecords, Option.some.injEq, Prod.mk.injEq] at hr
    rw [← hr.1]
    simp
  | succ n ih =>
    intro s s1 rs hr
    simp only [ReadEvents.readRecords] at hr
    cases h1 : ReadEvents.readRecord s with
    | none => simp [h1] at hr
    | some p =>
      obtain ⟨r, s2⟩ := p
      cases h2 : ReadEvents.readRecords n s2 with
      | none => simp [h1, h2] at hr
      | some q =>
        obtain ⟨rs1, s3⟩ := q
        simp only [h1, h2, Option.some.injEq, Prod.mk.injEq] at hr
        obtain ⟨i1, i2⟩ := ih s2 s3 rs1 h2
        rw [← hr.1]
        refine ⟨by simp [i1], ?_⟩
        intro r1 hr1
        rcases List.mem_cons.1 hr1 with e | e
        · rw [e]
          exact ReadEvents.readRecord_flags s s2 r h1
        · exact i2 r1 e

/-- The on-grid loops of `ReadEvents` read the records of the visited tiles one after the
other and store each at its tile: reading and storing can be told apart. -/
theorem ReadEvents_fold_eq (c : Consts) (bit : Nat) (L : List (Int × Int)) :
    ∀ (m : EventMap) (s : Stream) (log : List TileMapCall),
      L.foldlM (fun st p => ReadEvents.tile c bit p.1 p.2 st) (m, s, log) =
        match ReadEvents.readRecords L.length s with
        | none => none
        | some (recs, s1) =>
          match ReadEvents.storeAll c bit (L.zip recs) (m, log) with
          | none => none
          | some st => some (st.1, s1, st.2) := by
  induction L with
  | nil =>
    intro m s log
    simp [ReadEvents.readRecords, ReadEvents.storeAll]
  | cons p L ih =>
    intro m s log
    rw [List.foldlM_cons]
    simp only [List.length_cons, ReadEvents.readRecords]
    cases h1 : ReadEvents.readRecord s with
    | none =>
      have e : ReadEvents.tile c bit p.1 p.2 (m, s, log) = none := by
        simp [ReadEvents.tile, h1]
      rw [e]
      rfl
    | some q =>
      obtain ⟨r, s2⟩ := q
      simp only
      cases h2 : ReadEvents.store c bit p.2 p.1 r (m, log) with
      | none =>
        have e : ReadEvents.tile c bit p.1 p.2 (m, s, log) = none := by
          simp [ReadEvents.tile, h1, h2]
        rw [e]
        simp only [Option.bind_eq_bind, Option.none_bind]
        cases h3 : ReadEvents.readRecords L.length s2 with
        | none => rfl
        | some q3 =>
          obtain ⟨rs, s3⟩ := q3
          simp [List.zip_cons_cons, ReadEvents.storeAll_cons, h2]
      | some st1 =>
        obtain ⟨m1, log1⟩ := st1
        have e : ReadEvents.tile c bit p.1 p.2 (m, s, log) = some (m1, s2, log1) := by
          simp [ReadEvents.tile, h1, h2]
        rw [e]
        simp only [Option.bind_eq_bind, Option.some_bind]
        rw [ih m1 s2 log1]
        cases h3 : ReadEvents.readRecords L.length s2 with
        | none => rfl
        | some q3 =>
          obtain ⟨rs, s3⟩ := q3
          simp [List.zip_cons_cons, ReadEvents.storeAll_cons, h2]

theorem mem_iff_tileAt? (l : List EventTile) (t : EventTile) :
    t ∈ l ↔ ∃ j : Int, tileAt? l j = some t := by
  rw [List.mem_iff_getElem?]
  constructor
  · rintro ⟨n, hn⟩
    exact ⟨(n : Int), by simp [tileAt?, hn]⟩
  · rintro ⟨j, hj⟩
    rw [tileAt?_eq_some_iff] at hj
    exact ⟨j.toNat, hj.2⟩

/-- The on-grid loops of `ReadEvents` over records for distinct in-grid tiles of an allocated
grid: they succeed; layout size, snapshot and the number of tiles stay; tiles that are not
listed stay; the cell invariant is kept; the generator table only grows, by at most one entry
per record; the cell of a record that fails the difficulty test stays; and leaving out the
records that fail the test gives the same result. -/
theorem ReadEvents.storeAll_spec (c : Consts) (bit : Nat) (X : Int)
    (Z : List ((Int × Int) × ReadEvents.Record)) :
    ∀ (m : EventMap) (log : List TileMapCall), m.WF → m._layoutSize.X = X →
      (∀ z ∈ Z, m.inGrid z.1.2 z.1.1) →
      (Z.map fun z => z.1.2 + z.1.1 * X).Nodup →
      (∀ z ∈ Z, z.2.eventFlags ≠ 0) →
      ∃ m1 log1, ReadEvents.storeAll c bit Z (m, log) = some (m1, log1) ∧
        m1._layoutSize = m._layoutSize ∧
        m1._eventLayoutForRollback = m._eventLayoutForRollback ∧
        m1._eventLayout.length = m._eventLayout.length ∧
        (∀ j : Int, (∀ z ∈ Z, j ≠ z.1.2 + z.1.1 * X) →
          tileAt? m1._eventLayout j = tileAt? m._eventLayout j) ∧
        ((∀ t ∈ m._eventLayout, t.EmptyOk) → ∀ t ∈ m1._eventLayout, t.EmptyOk) ∧
        (∃ gs, m1._generators = m._generators ++ gs ∧ gs.length ≤ Z.length) ∧
        (∀ z ∈ Z, ReadEvents.passes bit z.2.eventFlags = false →
          tileAt? m1._eventLayout (z.1.2 + z.1.1 * X) =
            tileAt? m._eventLayout (z.1.2 + z.1.1 * X)) ∧
        ReadEvents.storeAll c bit
          (Z.filter fun z => ReadEvents.passes bit z.2.eventFlags) (m, log) =
            some (m1, log1) := by
  induction Z with
  | nil =>
    intro m log _ _ _ _ _
    exact ⟨m, log, rfl, rfl, rfl, rfl, fun _ _ => rfl, fun hh => hh, ⟨[], by simp, by simp⟩,
      fun z hz => absurd hz (List.not_mem_nil _), rfl⟩
  | cons z Z ih =>
    intro m log hwf hX hin hnd hfl
    rw [List.map_cons, List.nodup_cons] at hnd
    obtain ⟨hzn, hnd1⟩ := hnd
    obtain ⟨ma, loga, hstore, a1, a2, a3, a4, ⟨ta, hta, hta2⟩, a6, a7⟩ :=
      ReadEvents.store_spec c bit z.1.2 z.1.1 z.2 m log hwf (hin z (List.mem_cons_self _ _))
        (hfl z (List.mem_cons_self _ _))
    rw [hX] at a4 hta hta2
    have hwfa : ma.WF := by
      unfold EventMap.WF at hwf ⊢
      rw [a1, a3]
      exact hwf
    obtain ⟨m1, log1, hrest, b1, b2, b3, b4, b5, ⟨gs, b6, b6l⟩, b7, b8⟩ :=
      ih ma loga hwfa (by rw [a1, hX])
        (by
          intro z1 hz1
          have := hin z1 (List.mem_cons_of_mem _ hz1)
          unfold EventMap.inGrid at this ⊢
          rw [a1]
          exact this)
        hnd1 (fun z1 hz1 => hfl z1 (List.mem_cons_of_mem _ hz1))
    have hne : ∀ z1 ∈ Z, z1.1.2 + z1.1.1 * X ≠ z.1.2 + z.1.1 * X := by
      intro z1 hz1 heq
      apply hzn
      rw [← heq]
      exact List.mem_map_of_mem (fun z => z.1.2 + z.1.1 * X) hz1
    refine ⟨m1, log1, ?_, by rw [b1, a1], by rw [b2, a2], by rw [b3, a3], ?_, ?_, ?_, ?_, ?_⟩
    · rw [ReadEvents.storeAll_cons, hstore]
      exact hrest
    · intro j hj
      rw [b4 j (fun z1 hz1 => hj z1 (List.mem_cons_of_mem _ hz1)),
        a4 j (hj z (List.mem_cons_self _ _))]
    · intro hE
      apply b5
      intro t ht
      rw [mem_iff_tileAt?] at ht
      obtain ⟨j, hj⟩ := ht
      by_cases hjz : j = z.1.2 + z.1.1 * X
      · rw [hjz, hta] at hj
        simp only [Option.some.injEq] at hj
        subst hj
        rcases hta2 with h1 | h1
        · exact hE _ ((mem_iff_tileAt? _ _).2 ⟨_, h1⟩)
        · intro h2
          exact absurd h2 h1
      · rw [a4 j hjz] at hj
        exact hE _ ((mem_iff_tileAt? _ _).2 ⟨_, hj⟩)
    · rcases a6 with e | ⟨g, t1, e, _⟩
      · exact ⟨gs, by rw [b6, e], by simp; omega⟩
      · exact ⟨g :: gs, by rw [b6, e]; simp, by simp; omega⟩
    · intro z1 hz1 hp
      rcases List.mem_cons.1 hz1 with e | e
      · subst e
        obtain ⟨e1, _⟩ := a7 hp
        rw [b4 _ (fun z2 hz2 => (hne z2 hz2).symm), e1]
      · rw [b7 z1 e hp, a4 _ (hne z1 e)]
    · rw [List.filter_cons]
      cases hp : ReadEvents.passes bit z.2.eventFlags with
      | false =>
        obtain ⟨e1, e2⟩ := a7 hp
        simp only [Bool.false_eq_true, if_false]
        rw [← e1, ← e2]
        exact b8
      | true =>
        simp only [if_true]
        rw [ReadEvents.storeAll_cons, hstore]
        exact b8

/-- The on-grid loops of `ReadEvents` keep the generator link: if it holds before, no
generator points at a tile still to be visited, and the table stays below `2^32` entries,
then it holds after. -/
theorem ReadEvents.storeAll_link (c : Consts) (bit : Nat) (X : Int)
    (Z : List ((Int × Int) × ReadEvents.Record)) :
    ∀ (m m1 : EventMap) (log log1 : List TileMapCall), m.WF → m._layoutSize.X = X →
      (∀ z ∈ Z, m.inGrid z.1.2 z.1.1) →
      (Z.map fun z => z.1.2 + z.1.1 * X).Nodup →
      (∀ z ∈ Z, z.2.eventFlags ≠ 0) →
      ReadEvents.storeAll c bit Z (m, log) = some (m1, log1) →
      m.LinkOn m._eventLayout →
      (∀ g ∈ m._generators, ∀ z ∈ Z, g.EventPos ≠ z.1.2 + z.1.1 * X) →
      m._generators.length + Z.length ≤ 4294967296 →
      m1.LinkOn m1._eventLayout := by
  induction Z with
  | nil =>
    intro m m1 log log1 _ _ _ _ _ hrun hlink _ _
    simp only [ReadEvents.storeAll, List.foldlM_nil] at hrun
    have : (m, log) = (m1, log1) := by simpa using hrun
    simp only [Prod.mk.injEq] at this
    rw [← this.1]
    exact hlink
  | cons z Z ih =>
    intro m m1 log log1 hwf hX hin hnd hfl hrun hlink hdis hcount
    rw [List.map_cons, List.nodup_cons] at hnd
    obtain ⟨hzn, hnd1⟩ := hnd
    have hinz := hin z (List.mem_cons_self _ _)
    obtain ⟨ma, loga, hstore, a1, a2, a3, a4, _, a6, _⟩ :=
      ReadEvents.store_spec c bit z.1.2 z.1.1 z.2 m log hwf hinz
        (hfl z (List.mem_cons_self _ _))
    rw [hX] at a4 a6
    rw [ReadEvents.storeAll_cons, hstore] at hrun
    have hwfa : ma.WF := by
      unfold EventMap.WF at hwf ⊢
      rw [a1, a3]
      exact hwf
    have hne : ∀ z1 ∈ Z, z1.1.2 + z1.1.1 * X ≠ z.1.2 + z.1.1 * X := by
      intro z1 hz1 heq
      apply hzn
      rw [← heq]
      exact List.mem_map_of_mem (fun z => z.1.2 + z.1.1 * X) hz1
    have hold : ∀ i g, m._generators[i]? = some g →
        ∃ x y t, ma.inGrid x y ∧ g.EventPos = x + y * ma._layoutSize.X ∧
          tileAt? ma._eventLayout g.EventPos = some t ∧ t.Event = EventType.Generator ∧
          t.EventParams.readU32 = i := by
      intro i g hg
      obtain ⟨x, y, t, h1, h2, h3, h4, h5⟩ := hlink i g hg
      refine ⟨x, y, t, ?_, by rw [a1]; exact h2, ?_, h4, h5⟩
      · unfold EventMap.inGrid at h1 ⊢
        rw [a1]
        exact h1
      · rw [a4 _ (hdis g (List.mem_iff_getElem?.2 ⟨i, hg⟩) z (List.mem_cons_self _ _))]
        exact h3
    apply ih ma m1 loga log1 hwfa (by rw [a1, hX])
      (by
        intro z1 hz1
        have := hin z1 (List.mem_cons_of_mem _ hz1)
        unfold EventMap.inGrid at this ⊢
        rw [a1]
        exact this)
      hnd1 (fun z1 hz1 => hfl z1 (List.mem_cons_of_mem _ hz1)) hrun
    · intro i g hg
      rcases a6 with e | ⟨gn, t1, e, e2, e3, e4, e5⟩
      · rw [e] at hg
        exact hold i g hg
      · rw [e] at hg
        by_cases hi : i < m._generators.length
        · rw [List.getElem?_append_left hi] at hg
          exact hold i g hg
        · have hi2 : i = m._generators.length := by
            have hlt := (List.getElem?_eq_some_iff.1 hg).1
            simp at hlt
            omega
          subst hi2
          simp at hg
          subst hg
          refine ⟨z.1.2, z.1.1, t1, ?_, by rw [a1, hX]; exact e2, by rw [e2]; exact e3, e4, ?_⟩
          · unfold EventMap.inGrid at hinz ⊢
            rw [a1]
            exact hinz
          · rw [e5, Params.readU32_writeU32 _ _ (Nat.mod_lt _ (by norm_num))]
            apply Nat.mod_eq_of_lt
            simp only [List.length_cons] at hcount
            omega
    · intro g hg z1 hz1
      rcases a6 with e | ⟨gn, t1, e, e2, _⟩
      · rw [e] at hg
        exact hdis g hg z1 (List.mem_cons_of_mem _ hz1)
      · rw [e, List.mem_append] at hg
        rcases hg with hg | hg
        · exact hdis g hg z1 (List.mem_cons_of_mem _ hz1)
        · simp only [List.mem_singleton] at hg
          rw [hg, e2]
          exact (hne z1 hz1).symm
    · rcases a6 with e | ⟨gn, t1, e, _⟩
      · rw [e]
        simp only [List.length_cons] at hcount
        omega
      · rw [e]
        simp only [List.length_cons, List.length_append, List.length_singleton,
          List.length_nil] at hcount ⊢
        omega

theorem length_intRange (a b : Int) : (intRange a b).length = (b + 1 - a).toNat := by
  simp [intRange]

theorem ReadEvents_coords_eq (m : EventMap) :
    ReadEvents.coords m = RollbackToCheckpoint.coords m := rfl

theorem length_pairs {α β : Type} (ys : List α) (xs : List β) :
    (ys.flatMap fun y => xs.map fun x => (y, x)).length = ys.length * xs.length := by
  induction ys with
  | nil => simp
  | cons y ys ih =>
    rw [List.flatMap_cons, List.length_append, ih, List.length_map, List.length_cons]
    ring

theorem toNat_mul_toNat (X Y : Int) (hX : 0 ≤ X) (hY : 0 ≤ Y) :
    Y.toNat * X.toNat = (X * Y).toNat := by
  obtain ⟨a, rfl⟩ := Int.eq_ofNat_of_zero_le hX
  obtain ⟨b, rfl⟩ := Int.eq_ofNat_of_zero_le hY
  have e : ((a : ℤ) * (b : ℤ)) = ((a * b : ℕ) : ℤ) := by push_cast; rfl
  rw [e]
  simp only [Int.toNat_ofNat]
  exact mul_comm b a

theorem ReadEvents.length_coords (m : EventMap) (hX : 0 ≤ m._layoutSize.X)
    (hY : 0 ≤ m._layoutSize.Y) :
    (ReadEvents.coords m).length = (m._layoutSize.X * m._layoutSize.Y).toNat := by
  unfold ReadEvents.coords
  rw [length_pairs, length_intRange, length_intRange]
  have e1 : (m._layoutSize.Y - 1 + 1 - 0).toNat = m._layoutSize.Y.toNat := by
    congr 1; ring
  have e2 : (m._layoutSize.X - 1 + 1 - 0).toNat = m._layoutSize.X.toNat := by
    congr 1; ring
  rw [e1, e2, toNat_mul_toNat _ _ hX hY]

theorem ReadEvents.fresh_WF (m : EventMap) (hX : 0 ≤ m._layoutSize.X)
    (hY : 0 ≤ m._layoutSize.Y) : (ReadEvents.fresh m).WF := by
  refine ⟨hX, hY, ?_⟩
  simp [ReadEvents.fresh]

/-- `ReadEvents` in stages: the records of the `X * Y` tiles are read one after the other,
stored at their tiles in row-major order on a freshly allocated grid, then the count of
off-grid records and the off-grid records are read. -/
theorem ReadEvents_eq (c : Consts) (codec : VarintCodec) (m : EventMap) (s : Stream)
    (difficulty : GameDifficulty) (hX : 0 ≤ m._layoutSize.X) (hY : 0 ≤ m._layoutSize.Y) :
    ReadEvents c codec m s difficulty =
      match ReadEvents.readRecords (m._layoutSize.X * m._layoutSize.Y).toNat s with
      | none => none
      | some (recs, s1) =>
        match ReadEvents.storeAll c (ReadEvents.difficultyBit difficulty)
            ((ReadEvents.coords m).zip recs) (ReadEvents.fresh m, []) with
        | none => none
        | some st =>
          match codec.ReadVariableUint32 s1 with
          | none => none
          | some (count, s2) =>
            match ReadEvents.offGrid codec count s2 with
            | none => none
            | some s3 => some (st.1, s3, st.2) := by
  have hneg : ¬ m._layoutSize.X * m._layoutSize.Y < 0 := not_lt.2 (mul_nonneg hX hY)
  have hfold := ReadEvents_fold_eq c (ReadEvents.difficultyBit difficulty) (ReadEvents.coords m)
    (ReadEvents.fresh m) s []
  rw [ReadEvents.length_coords m hX hY] at hfold
  unfold ReadEvents
  rw [if_neg hneg]
  dsimp only
  rw [foldlM_nested]
  unfold ReadEvents.coords ReadEvents.fresh at hfold ⊢
  rw [hfold]
  cases ReadEvents.readRecords (m._layoutSize.X * m._layoutSize.Y).toNat s with
  | none => rfl
  | some q =>
    obtain ⟨recs, s1⟩ := q
    dsimp only
    cases ReadEvents.storeAll c (ReadEvents.difficultyBit difficulty)
        (((intRange 0 (m._layoutSize.Y - 1)).flatMap fun y =>
          (intRange 0 (m._layoutSize.X - 1)).map fun x => (y, x)).zip recs)
        ({ m with
          _eventLayout :=
            List.replicate (m._layoutSize.X * m._layoutSize.Y).toNat EventTile.empty }, []) with
    | none => rfl
    | some st =>
      obtain ⟨m1, log⟩ := st
      rfl

theorem ReadEvents_stages (c : Consts) (codec : VarintCodec) (m : EventMap) (s : Stream)
    (difficulty : GameDifficulty) (hX : 0 ≤ m._layoutSize.X) (hY : 0 ≤ m._layoutSize.Y)
    (res : EventMap × Stream × List TileMapCall) :
    ReadEvents c codec m s difficulty = some res ↔
      ∃ recs s1 count s2,
        ReadEvents.readRecords (m._layoutSize.X * m._layoutSize.Y).toNat s = some (recs, s1) ∧
        ReadEvents.storeAll c (ReadEvents.difficultyBit difficulty)
          ((ReadEvents.coords m).zip recs) (ReadEvents.fresh m, []) = some (res.1, res.2.2) ∧
        codec.ReadVariableUint32 s1 = some (count, s2) ∧
        ReadEvents.offGrid codec count s2 = some res.2.1 := by
  rw [ReadEvents_eq c codec m s difficulty hX hY]
  obtain ⟨r1, r2, r3⟩ := res
  constructor
  · intro hr
    cases h1 : ReadEvents.readRecords (m._layoutSize.X * m._layoutSize.Y).toNat s with
    | none => simp [h1] at hr
    | some q =>
      obtain ⟨recs, s1⟩ := q
      cases h2 : ReadEvents.storeAll c (ReadEvents.difficultyBit difficulty)
          ((ReadEvents.coords m).zip recs) (ReadEvents.fresh m, []) with
      | none => simp [h1, h2] at hr
      | some st =>
        cases h3 : codec.ReadVariableUint32 s1 with
        | none => simp [h1, h2, h3] at hr
        | some q3 =>
          obtain ⟨count, s2⟩ := q3
          cases h4 : ReadEvents.offGrid codec count s2 with
          | none => simp [h1, h2, h3, h4] at hr
          | some s3 =>
            simp only [h1, h2, h3, h4, Option.some.injEq, Prod.mk.injEq] at hr
            obtain ⟨e1, e2, e3⟩ := hr
            refine ⟨recs, s1, count, s2, rfl, ?_, h3, ?_⟩
            · rw [← e1, ← e3]
              exact h2
            · rw [h4, e2]
  · rintro ⟨recs, s1, count, s2, h1, h2, h3, h4⟩
    simp only [h1, h2, h3, h4]

theorem ReadEvents.zip_facts (m : EventMap) (recs : List ReadEvents.Record)
    (hlen : recs.length = (ReadEvents.coords m).length)
    (hfl : ∀ r ∈ recs, r.eventFlags ≠ 0) :
    (∀ z ∈ (ReadEvents.coords m).zip recs, (ReadEvents.fresh m).inGrid z.1.2 z.1.1) ∧
    (((ReadEvents.coords m).zip recs).map fun z => z.1.2 + z.1.1 * m._layoutSize.X).Nodup ∧
    (∀ z ∈ (ReadEvents.coords m).zip recs, z.2.eventFlags ≠ 0) := by
  refine ⟨?_, ?_, ?_⟩
  · intro z hz
    have hz1 : z.1 ∈ ReadEvents.coords m := (List.of_mem_zip (a := z.1) (b := z.2) hz).1
    exact (RollbackToCheckpoint_mem_coords m z.1).1 hz1
  · have e : ((ReadEvents.coords m).zip recs).map (fun z => z.1.2 + z.1.1 * m._layoutSize.X) =
        (RollbackToCheckpoint.coords m).map (fun p => p.1 * m._layoutSize.X + p.2) := by
      have e1 : ((ReadEvents.coords m).zip recs).map (fun z => z.1.2 + z.1.1 * m._layoutSize.X)
          = (((ReadEvents.coords m).zip recs).map Prod.fst).map
              (fun p => p.1 * m._layoutSize.X + p.2) := by
        rw [List.map_map]
        apply List.map_congr_left
        intro z _
        simp only [Function.comp]
        ring
      rw [e1, List.map_fst_zip _ _ (le_of_eq hlen.symm)]
      rfl
    rw [e]
    exact RollbackToCheckpoint_nodup_indices m
  · intro z hz
    exact hfl z.2 (List.of_mem_zip (a := z.1) (b := z.2) hz).2

/-- What `ReadEvents` leaves behind, for a non-negative layout size: an allocated grid of the
same layout size on which the cell invariant holds, the snapshot as before, and the generator
table extended at its end. When the table was empty before and `X * Y ≤ 2^32`, the generator
link holds on the new grid. -/
theorem ReadEvents_result (c : Consts) (codec : VarintCodec) (m : EventMap) (s : Stream)
    (difficulty : GameDifficulty) (hX : 0 ≤ m._layoutSize.X) (hY : 0 ≤ m._layoutSize.Y)
    (res : EventMap × Stream × List TileMapCall)
    (hres : ReadEvents c codec m s difficulty = some res) :
    res.1.WF ∧ res.1._layoutSize = m._layoutSize ∧
      res.1._eventLayoutForRollback = m._eventLayoutForRollback ∧
      (∀ t ∈ res.1._eventLayout, t.EmptyOk) ∧
      (∃ gs, res.1._generators = m._generators ++ gs) ∧
      (m._generators = [] → m._layoutSize.X * m._layoutSize.Y ≤ 4294967296 →
        res.1.LinkOn res.1._eventLayout) := by
  obtain ⟨recs, s1, count, s2, h1, h2, _, _⟩ :=
    (ReadEvents_stages c codec m s difficulty hX hY res).1 hres
  obtain ⟨hl, hfl⟩ := ReadEvents.readRecords_length _ s s1 recs h1
  have hlen : recs.length = (ReadEvents.coords m).length := by
    rw [hl, ReadEvents.length_coords m hX hY]
  obtain ⟨f1, f2, f3⟩ := ReadEvents.zip_facts m recs hlen hfl
  have hwf := ReadEvents.fresh_WF m hX hY
  obtain ⟨m1, log1, hrun, a1, a2, a3, _, a5, ⟨gs, a6, _⟩, _, _⟩ :=
    ReadEvents.storeAll_spec c (ReadEvents.difficultyBit difficulty) m._layoutSize.X
      ((ReadEvents.coords m).zip recs) (ReadEvents.fresh m) [] hwf rfl f1 f2 f3
  rw [hrun] at h2
  simp only [Option.some.injEq, Prod.mk.injEq] at h2
  obtain ⟨e1, _⟩ := h2
  subst e1
  refine ⟨?_, a1, a2, ?_, ⟨gs, a6⟩, ?_⟩
  · unfold EventMap.WF at hwf ⊢
    rw [a1, a3]
    exact hwf
  · apply a5
    intro t ht
    simp only [ReadEvents.fresh, List.mem_replicate] at ht
    rw [ht.2]
    intro _
    exact ⟨rfl, rfl⟩
  · intro hg hsize
    apply ReadEvents.storeAll_link c (ReadEvents.difficultyBit difficulty) m._layoutSize.X
      ((ReadEvents.coords m).zip recs) (ReadEvents.fresh m) _ [] _ hwf rfl f1 f2 f3 hrun
    · intro i g hi
      simp [ReadEvents.fresh, hg] at hi
    · intro g hgm
      simp [ReadEvents.fresh, hg] at hgm
    · simp only [ReadEvents.fresh, hg, List.length_nil, zero_add]
      have : ((ReadEvents.coords m).zip recs).length = (ReadEvents.coords m).length := by
        rw [List.length_zip, hlen, min_self]
      rw [this, ReadEvents.length_coords m hX hY]
      omega

/-! ## InitializeFromStream and SerializeResumableToStream -/

theorem intRange_cons (a b : Int) (h : a ≤ b) : intRange a b = a :: intRange (a + 1) b := by
  unfold intRange
  have e : (b + 1 - a).toNat = (b + 1 - (a + 1)).toNat + 1 := by omega
  rw [e, List.range_succ_eq_map, List.map_cons, List.map_map]
  congr 1
  · simp
  · apply List.map_congr_left
    intro i _
    simp only [Function.comp, Nat.succ_eq_add_one, Nat.cast_add, Nat.cast_one]
    ring

theorem intRange_empty (a b : Int) (h : b < a) : intRange a b = [] := by
  unfold intRange
  have e : (b + 1 - a).toNat = 0 := by omega
  rw [e]
  rfl

theorem tileAt?_append_cons (done ts : List EventTile) (t : EventTile) :
    tileAt? (done ++ t :: ts) (done.length : Int) = some t := by
  unfold tileAt?
  rw [if_pos (by simp), Int.toNat_ofNat, List.getElem?_append_right (le_refl _)]
  simp

theorem setTile_append_cons (done ts : List EventTile) (t t1 : EventTile) :
    setTile (done ++ t :: ts) (done.length : Int) t1 = done ++ t1 :: ts := by
  simp [setTile]

/-- The loop of `InitializeFromStream` over the tiles `ts` that follow the tiles `done`: it
reads one record per tile and updates the tiles in order. -/
theorem InitializeFromStream_fold_eq (c : Consts) (codec : VarintCodec)
    (ts : List EventTile) :
    ∀ (done : List EventTile) (m : EventMap) (s : Stream), m._eventLayout = done ++ ts →
      (intRange (done.length : Int) ((done.length : Int) + (ts.length : Int) - 1)).foldlM
          (InitializeFromStream.tile c codec) (m, s) =
        match InitializeFromStream.records codec ts.length s with
        | none => none
        | some (recs, s1) =>
          some ({ m with
            _eventLayout := done ++ List.zipWith (InitializeFromStream.update c) ts recs },
            s1) := by
  induction ts with
  | nil =>
    intro done m s hm
    rw [intRange_empty _ _ (by simp)]
    simp only [List.foldlM_nil, List.length_nil, InitializeFromStream.records,
      List.zipWith_nil_left, List.append_nil]
    rw [List.append_nil] at hm
    rw [← hm]
    rfl
  | cons t ts ih =>
    intro done m s hm
    rw [intRange_cons _ _ (by simp; omega), List.foldlM_cons]
    simp only [List.length_cons, InitializeFromStream.records]
    have htile : tileAt? m._eventLayout (done.length : Int) = some t := by
      rw [hm]
      exact tileAt?_append_cons done ts t
    cases h1 : codec.ReadVariableUint32 s with
    | none =>
      have e : InitializeFromStream.tile c codec (m, s) (done.length : Int) = none := by
        simp [InitializeFromStream.tile, htile, h1]
      rw [e]
      rfl
    | some q1 =>
      obtain ⟨event, s1⟩ := q1
      cases h2 : codec.ReadVariableUint32 s1 with
      | none =>
        have e : InitializeFromStream.tile c codec (m, s) (done.length : Int) = none := by
          simp [InitializeFromStream.tile, htile, h1, h2]
        rw [e]
        simp [h2]
      | some q2 =>
        obtain ⟨flags, s2⟩ := q2
        cases h3 : Stream.ReadParams s2 with
        | none =>
          have e : InitializeFromStream.tile c codec (m, s) (done.length : Int) = none := by
            simp [InitializeFromStream.tile, htile, h1, h2, h3]
          rw [e]
          simp [h2, h3]
        | some q3 =>
          obtain ⟨params, s3⟩ := q3
          have e : InitializeFromStream.tile c codec (m, s) (done.length : Int) =
              some ({ m with
                _eventLayout := done ++
                  InitializeFromStream.update c t (event, flags, params) :: ts }, s3) := by
            simp only [InitializeFromStream.tile, htile, h1, h2, h3]
            rw [hm, setTile_append_cons]
            rfl
          rw [e]
          simp only [Option.bind_eq_bind, Option.some_bind]
          have hi := ih (done ++ [InitializeFromStream.update c t (event, flags, params)])
            { m with
              _eventLayout := done ++
                InitializeFromStream.update c t (event, flags, params) :: ts } s3
            (by simp)
          have e2 : ((done ++ [InitializeFromStream.update c t (event, flags, params)]).length
              : Int) = (done.length : Int) + 1 := by simp
          rw [e2] at hi
          have e3 : (done.length : Int) + 1 + (ts.length : Int) - 1 =
              (done.length : Int) + ((ts.length + 1 : Nat) : Int) - 1 := by
            push_cast; ring
          rw [e3] at hi
          rw [hi]
          simp only [h2, h3]
          cases InitializeFromStream.records codec ts.length s3 with
          | none => rfl
          | some q4 =>
            obtain ⟨rs, s4⟩ := q4
            simp

/-! ## The difficulty filter of `ReadEvents` -/

theorem ReadEvents.store_of_not_passes (c : Consts) (bit : Nat) (x y : Int)
    (r : ReadEvents.Record) (st : EventMap × List TileMapCall) (hfl : r.eventFlags ≠ 0)
    (hp : ReadEvents.passes bit r.eventFlags = false) :
    ReadEvents.store c bit x y r st = some st := by
  unfold ReadEvents.store
  simp [hfl, hp]

theorem tileAt?_replicate (n : Nat) (t : EventTile) (j : Int) (h0 : 0 ≤ j)
    (h1 : j < (n : Int)) : tileAt? (List.replicate n t) j = some t := by
  unfold tileAt?
  rw [if_pos h0]
  have : j.toNat < n := by omega
  simp [List.getElem?_replicate, this]

theorem ReadEvents.passes_iff (bit f : Nat) :
    ReadEvents.passes bit f = true ↔ f &&& (0x01 <<< bit) ≠ 0 ∧ f &&& 0x80 = 0 := by
  simp [ReadEvents.passes]

/-- C17. The difficulty bit `ReadEvents` selects is 4 for `Easy`, 6 for `Hard` and 5 for every
other difficulty. In a run of `ReadEvents` that returns, every on-grid record has a non-zero
flags value after it has been read, so none is accepted for an all-zero flags value; a record
whose flags fail the test "bit `d` set and bit `0x80` clear" changes nothing at whatever tile
it is stored (event map with its grid, generator, spawn point and warp target tables, and the
calls to the tile map), its cell is still the value-initialised `Empty` cell in the result,
and the result is the one obtained from the records that pass the test alone. -/
theorem ReadEvents_difficulty_filter (c : Consts) (codec : VarintCodec) (m : EventMap)
    (s : Stream) (difficulty : GameDifficulty) (hX : 0 ≤ m._layoutSize.X)
    (hY : 0 ≤ m._layoutSize.Y) (res : EventMap × Stream × List TileMapCall)
    (hres : ReadEvents c codec m s difficulty = some res) :
    (ReadEvents.difficultyBit GameDifficulty.Easy = 4 ∧
      ReadEvents.difficultyBit GameDifficulty.Hard = 6 ∧
      ∀ d, d ≠ GameDifficulty.Easy → d ≠ GameDifficulty.Hard →
        ReadEvents.difficultyBit d = 5) ∧
    (∀ f, ReadEvents.passes (ReadEvents.difficultyBit difficulty) f = true ↔
      f &&& (0x01 <<< ReadEvents.difficultyBit difficulty) ≠ 0 ∧ f &&& 0x80 = 0) ∧
    ∃ recs s1,
      ReadEvents.readRecords (m._layoutSize.X * m._layoutSize.Y).toNat s = some (recs, s1) ∧
      (∀ r ∈ recs, r.eventFlags ≠ 0) ∧
      (∀ r ∈ recs, ReadEvents.passes (ReadEvents.difficultyBit difficulty) r.eventFlags = false →
        ∀ x y st, ReadEvents.store c (ReadEvents.difficultyBit difficulty) x y r st = some st) ∧
      (∀ z ∈ (ReadEvents.coords m).zip recs,
        ReadEvents.passes (ReadEvents.difficultyBit difficulty) z.2.eventFlags = false →
          res.1.cell z.1.2 z.1.1 = some EventTile.empty) ∧
      ReadEvents.storeAll c (ReadEvents.difficultyBit difficulty)
        (((ReadEvents.coords m).zip recs).filter fun z =>
          ReadEvents.passes (ReadEvents.difficultyBit difficulty) z.2.eventFlags)
        (ReadEvents.fresh m, []) = some (res.1, res.2.2) := by
  refine ⟨⟨rfl, rfl, ?_⟩, fun f => ReadEvents.passes_iff _ f, ?_⟩
  · intro d h1 h2
    cases d
    · rfl
    · exact absurd rfl h1
    · rfl
    · exact absurd rfl h2
    · rfl
  obtain ⟨recs, s1, count, s2, h1, h2, _, _⟩ :=
    (ReadEvents_stages c codec m s difficulty hX hY res).1 hres
  obtain ⟨hl, hfl⟩ := ReadEvents.readRecords_length _ s s1 recs h1
  have hlen : recs.length = (ReadEvents.coords m).length := by
    rw [hl, ReadEvents.length_coords m hX hY]
  obtain ⟨f1, f2, f3⟩ := ReadEvents.zip_facts m recs hlen hfl
  have hwf := ReadEvents.fresh_WF m hX hY
  obtain ⟨m1, log1, hrun, a1, _, _, _, _, _, a7, a8⟩ :=
    ReadEvents.storeAll_spec c (ReadEvents.difficultyBit difficulty) m._layoutSize.X
      ((ReadEvents.coords m).zip recs) (ReadEvents.fresh m) [] hwf rfl f1 f2 f3
  rw [hrun] at h2
  simp only [Option.some.injEq, Prod.mk.injEq] at h2
  obtain ⟨e1, e2⟩ := h2
  refine ⟨recs, s1, h1, hfl, ?_, ?_, ?_⟩
  · intro r hr hp x y st
    exact ReadEvents.store_of_not_passes c _ x y r st (hfl r hr) hp
  · intro z hz hp
    have hz1 := a7 z hz hp
    have hin := f1 z hz
    have hb := index_bounds (ReadEvents.fresh m) z.1.2 z.1.1 hwf hin
    unfold EventMap.cell
    rw [← e1, a1]
    have hfr : (ReadEvents.fresh m)._layoutSize = m._layoutSize := rfl
    rw [hfr, hz1]
    have hlay : (ReadEvents.fresh m)._eventLayout =
        List.replicate (m._layoutSize.X * m._layoutSize.Y).toNat EventTile.empty := rfl
    rw [hlay]
    rw [hfr] at hb
    apply tileAt?_replicate
    · exact hb.1
    · have := hb.2
      rw [hlay, List.length_replicate] at this
      have h0 := hb.1
      omega
  · rw [← e1, ← e2]
    exact a8

theorem ReadEvents_difficulty_filter_witness :
    (ReadEvents.difficultyBit GameDifficulty.Easy = 4 ∧
      ReadEvents.difficultyBit GameDifficulty.Hard = 6 ∧
      ∀ d, d ≠ GameDifficulty.Easy → d ≠ GameDifficulty.Hard →
        ReadEvents.difficultyBit d = 5) ∧
    (∀ f, ReadEvents.passes (ReadEvents.difficultyBit GameDifficulty.Normal) f = true ↔
      f &&& (0x01 <<< ReadEvents.difficultyBit GameDifficulty.Normal) ≠ 0 ∧ f &&& 0x80 = 0) ∧
    ∃ recs s1,
      ReadEvents.readRecords (Sample.blank._layoutSize.X * Sample.blank._layoutSize.Y).toNat
        Sample.levelStream = some (recs, s1) ∧
      (∀ r ∈ recs, r.eventFlags ≠ 0) ∧
      (∀ r ∈ recs,
        ReadEvents.passes (ReadEvents.difficultyBit GameDifficulty.Normal) r.eventFlags = false →
        ∀ x y st, ReadEvents.store Sample.consts (ReadEvents.difficultyBit GameDifficulty.Normal)
          x y r st = some st) ∧
      (∀ z ∈ (ReadEvents.coords Sample.blank).zip recs,
        ReadEvents.passes (ReadEvents.difficultyBit GameDifficulty.Normal) z.2.eventFlags =
            false →
          Sample.loaded.cell z.1.2 z.1.1 = some EventTile.empty) ∧
      ReadEvents.storeAll Sample.consts (ReadEvents.difficultyBit GameDifficulty.Normal)
        (((ReadEvents.coords Sample.blank).zip recs).filter fun z =>
          ReadEvents.passes (ReadEvents.difficultyBit GameDifficulty.Normal) z.2.eventFlags)
        (ReadEvents.fresh Sample.blank, []) = some (Sample.loaded, []) :=
  ReadEvents_difficulty_filter Sample.consts Sample.codec Sample.blank Sample.levelStream
    GameDifficulty.Normal (by decide) (by decide) (Sample.loaded, [], []) rfl

/-! ## The record format of `ReadEvents` -/

/-- One record read by `ReadEvents`: two bytes of kind (low byte first), one byte of flags,
two generator bytes when flag `0x02` is set, sixteen parameter bytes when flag `0x01` is
clear; the rest of the stream follows. -/
theorem ReadEvents.readRecord_format (s s1 : Stream) (r : ReadEvents.Record)
    (h : ReadEvents.readRecord s = some (r, s1)) :
    ∃ k0 k1 f tail, s = k0 :: k1 :: f :: tail ∧
      r.eventType = k0 % 256 + 256 * (k1 % 256) ∧
      (if f % 256 &&& 0x02 ≠ 0 then 2 else 0) + (if f % 256 &&& 0x01 = 0 then 16 else 0) ≤
        tail.length ∧
      s1 = tail.drop
        ((if f % 256 &&& 0x02 ≠ 0 then 2 else 0) + (if f % 256 &&& 0x01 = 0 then 16 else 0)) ∧
      r.eventParams.bytes =
        (if f % 256 &&& 0x01 = 0 then
          ((tail.drop (if f % 256 &&& 0x02 ≠ 0 then 2 else 0)).take 16).map (fun b => b % 256)
        else List.replicate 16 0) ∧
      r.eventFlags = (if f % 256 &&& 0x01 = 0 then f % 256 ^^^ 0x01 else f % 256) ∧
      (r.generatorFlags, r.generatorDelay) =
        (if f % 256 &&& 0x02 ≠ 0 then (tail.getD 0 0 % 256, tail.getD 1 0 % 256) else (0, 0)) := by
  rcases s with _ | ⟨k0, _ | ⟨k1, _ | ⟨f, tail⟩⟩⟩
  · simp [ReadEvents.readRecord, Stream.ReadU16] at h
  · simp [ReadEvents.readRecord, Stream.ReadU16] at h
  · simp [ReadEvents.readRecord, Stream.ReadU16, Stream.ReadU8] at h
  refine ⟨k0, k1, f, tail, rfl, ?_⟩
  simp only [ReadEvents.readRecord, Stream.ReadU16, Stream.ReadU8] at h
  by_cases hg : f % 256 &&& 0x02 ≠ 0
  · rw [if_pos hg] at h
    rcases tail with _ | ⟨g0, _ | ⟨g1, t2⟩⟩
    · simp at h
    · simp at h
    simp only at h
    by_cases hp : f % 256 &&& 0x01 = 0
    · rw [if_pos hp] at h
      unfold Stream.ReadParams at h
      by_cases hl : 16 ≤ t2.length
      · rw [dif_pos hl] at h
        simp only [Option.some.injEq, Prod.mk.injEq] at h
        obtain ⟨e1, e2⟩ := h
        rw [← e1, ← e2]
        simp only [hg, hp, ne_eq, not_false_eq_true, if_true]
        simp [List.map_take]
        omega
      · rw [dif_neg hl] at h
        simp at h
    · rw [if_neg hp] at h
      simp only [Option.some.injEq, Prod.mk.injEq] at h
      obtain ⟨e1, e2⟩ := h
      rw [← e1, ← e2]
      simp only [hg, hp, ne_eq, not_false_eq_true, if_true, if_false]
      simp [Params.zero]
  · rw [if_neg hg] at h
    have hg0 : f % 256 &&& 0x02 = 0 := of_not_not hg
    simp only at h
    by_cases hp : f % 256 &&& 0x01 = 0
    · rw [if_pos hp] at h
      unfold Stream.ReadParams at h
      by_cases hl : 16 ≤ tail.length
      · rw [dif_pos hl] at h
        simp only [Option.some.injEq, Prod.mk.injEq] at h
        obtain ⟨e1, e2⟩ := h
        rw [← e1, ← e2]
        simp only [hg0, hp, ne_eq, not_true_eq_false, if_true, if_false]
        simp [List.map_take]
        omega
      · rw [dif_neg hl] at h
        simp at h
    · rw [if_neg hp] at h
      simp only [Option.some.injEq, Prod.mk.injEq] at h
      obtain ⟨e1, e2⟩ := h
      rw [← e1, ← e2]
      simp only [hg0, hp, ne_eq, not_true_eq_false, if_true, if_false]
      simp [Params.zero]

/-- A stream that holds the bytes of a record gives a record. -/
theorem ReadEvents.readRecord_total (k0 k1 f : Nat) (tail : Stream)
    (hlen : (if f % 256 &&& 0x02 ≠ 0 then 2 else 0) +
      (if f % 256 &&& 0x01 = 0 then 16 else 0) ≤ tail.length) :
    ∃ r, ReadEvents.readRecord (k0 :: k1 :: f :: tail) = some (r, tail.drop
      ((if f % 256 &&& 0x02 ≠ 0 then 2 else 0) + (if f % 256 &&& 0x01 = 0 then 16 else 0))) := by
  simp only [ReadEvents.readRecord, Stream.ReadU16, Stream.ReadU8]
  by_cases hg : f % 256 &&& 0x02 ≠ 0
  · rw [if_pos hg] at hlen
    rcases tail with _ | ⟨g0, _ | ⟨g1, t2⟩⟩
    · simp at hlen
    · simp only [List.length_cons, List.length_nil] at hlen
      omega
    by_cases hp : f % 256 &&& 0x01 = 0
    · rw [if_pos hp] at hlen
      have hl : 16 ≤ t2.length := by
        simp only [List.length_cons] at hlen
        omega
      unfold Stream.ReadParams
      simp only [hg, hp, ne_eq, not_false_eq_true, if_true, dif_pos hl]
      exact ⟨_, rfl⟩
    · simp only [hg, hp, ne_eq, not_false_eq_true, if_true, if_false]
      exact ⟨_, rfl⟩
  · have hg0 : f % 256 &&& 0x02 = 0 := of_not_not hg
    rw [if_neg hg] at hlen
    by_cases hp : f % 256 &&& 0x01 = 0
    · rw [if_pos hp] at hlen
      have hl : 16 ≤ tail.length := by omega
      unfold Stream.ReadParams
      simp only [hg0, hp, ne_eq, not_true_eq_false, if_true, if_false, dif_pos hl]
      exact ⟨_, rfl⟩
    · simp only [hg0, hp, ne_eq, not_true_eq_false, if_true, if_false]
      exact ⟨_, rfl⟩

theorem ReadEvents.offGrid_succ (codec : VarintCodec) (k : Nat) (t : Stream) :
    ReadEvents.offGrid codec (k + 1) t =
      (codec.ReadVariableUint32 t).bind fun a =>
        (codec.ReadVariableUint32 a.2).bind fun b =>
          (ReadEvents.readRecord b.2).bind fun r => ReadEvents.offGrid codec k r.2 := by
  simp only [ReadEvents.offGrid]
  cases codec.ReadVariableUint32 t with
  | none => rfl
  | some a =>
    simp only [Option.some_bind]
    cases codec.ReadVariableUint32 a.2 with
    | none => rfl
    | some b =>
      simp only [Option.some_bind]
      cases ReadEvents.readRecord b.2 with
      | none => rfl
      | some r => rfl

theorem ReadEvents.readRecords_succ (k : Nat) (t : Stream) :
    ReadEvents.readRecords (k + 1) t =
      (ReadEvents.readRecord t).bind fun a =>
        (ReadEvents.readRecords k a.2).map fun b => (a.1 :: b.1, b.2) := by
  simp only [ReadEvents.readRecords]
  cases ReadEvents.readRecord t with
  | none => rfl
  | some a =>
    simp only [Option.some_bind]
    cases ReadEvents.readRecords k a.2 with
    | none => rfl
    | some b => rfl

/-- C18. A run of `ReadEvents` that returns reads `X * Y` records one after the other from the
stream and stores them at the tiles in row-major order (`y` in the outer loop, `x` in the
inner loop) on a freshly allocated grid; each record takes two bytes of kind and one byte of
flags, two more bytes when `flags & 0x02` is set and sixteen more bytes when `flags & 0x01` is
clear, and its parameters are those sixteen bytes when `flags & 0x01` is clear and sixteen
zero bytes otherwise. The off-grid section that follows is a number, and for each of that many
records two numbers and a record of the same shape; it is read to its end, and the event map
and the tile map calls of the result are those of the on-grid records alone. -/
theorem ReadEvents_record_format (c : Consts) (codec : VarintCodec) (m : EventMap)
    (s : Stream) (difficulty : GameDifficulty) (hX : 0 ≤ m._layoutSize.X)
    (hY : 0 ≤ m._layoutSize.Y) (res : EventMap × Stream × List TileMapCall)
    (hres : ReadEvents c codec m s difficulty = some res) :
    (∃ recs s1 count s2,
      ReadEvents.readRecords (m._layoutSize.X * m._layoutSize.Y).toNat s = some (recs, s1) ∧
      recs.length = (m._layoutSize.X * m._layoutSize.Y).toNat ∧
      (ReadEvents.coords m).length = (m._layoutSize.X * m._layoutSize.Y).toNat ∧
      ReadEvents.coords m = ((intRange 0 (m._layoutSize.Y - 1)).flatMap fun y =>
        (intRange 0 (m._layoutSize.X - 1)).map fun x => (y, x)) ∧
      ReadEvents.storeAll c (ReadEvents.difficultyBit difficulty)
        ((ReadEvents.coords m).zip recs) (ReadEvents.fresh m, []) = some (res.1, res.2.2) ∧
      codec.ReadVariableUint32 s1 = some (count, s2) ∧
      ReadEvents.offGrid codec count s2 = some res.2.1) ∧
    (∀ k t, ReadEvents.readRecords (k + 1) t =
      (ReadEvents.readRecord t).bind fun a =>
        (ReadEvents.readRecords k a.2).map fun b => (a.1 :: b.1, b.2)) ∧
    (∀ t, ReadEvents.offGrid codec 0 t = some t) ∧
    (∀ k t, ReadEvents.offGrid codec (k + 1) t =
      (codec.ReadVariableUint32 t).bind fun a =>
        (codec.ReadVariableUint32 a.2).bind fun b =>
          (ReadEvents.readRecord b.2).bind fun r => ReadEvents.offGrid codec k r.2) ∧
    (∀ t t1 r, ReadEvents.readRecord t = some (r, t1) →
      ∃ k0 k1 f tail, t = k0 :: k1 :: f :: tail ∧
        r.eventType = k0 % 256 + 256 * (k1 % 256) ∧
        (if f % 256 &&& 0x02 ≠ 0 then 2 else 0) + (if f % 256 &&& 0x01 = 0 then 16 else 0) ≤
          tail.length ∧
        t1 = tail.drop
          ((if f % 256 &&& 0x02 ≠ 0 then 2 else 0) +
            (if f % 256 &&& 0x01 = 0 then 16 else 0)) ∧
        r.eventParams.bytes =
          (if f % 256 &&& 0x01 = 0 then
            ((tail.drop (if f % 256 &&& 0x02 ≠ 0 then 2 else 0)).take 16).map
              (fun b => b % 256)
          else List.replicate 16 0)) ∧
    (∀ k0 k1 f tail,
      (if f % 256 &&& 0x02 ≠ 0 then 2 else 0) + (if f % 256 &&& 0x01 = 0 then 16 else 0) ≤
          tail.length →
        ∃ r, ReadEvents.readRecord (k0 :: k1 :: f :: tail) = some (r, tail.drop
          ((if f % 256 &&& 0x02 ≠ 0 then 2 else 0) +
            (if f % 256 &&& 0x01 = 0 then 16 else 0)))) := by
  obtain ⟨recs, s1, count, s2, h1, h2, h3, h4⟩ :=
    (ReadEvents_stages c codec m s difficulty hX hY res).1 hres
  obtain ⟨hl, _⟩ := ReadEvents.readRecords_length _ s s1 recs h1
  refine ⟨⟨recs, s1, count, s2, h1, hl, ReadEvents.length_coords m hX hY, rfl, h2, h3, h4⟩,
    ReadEvents.readRecords_succ, fun _ => rfl, ReadEvents.offGrid_succ codec, ?_,
    ReadEvents.readRecord_total⟩
  intro t t1 r ht
  obtain ⟨k0, k1, f, tail, e1, e2, e3, e4, e5, _⟩ := ReadEvents.readRecord_format t t1 r ht
  exact ⟨k0, k1, f, tail, e1, e2, e3, e4, e5⟩

theorem ReadEvents_record_format_witness :
    ∃ recs s1 count s2,
      ReadEvents.readRecords (Sample.blank._layoutSize.X * Sample.blank._layoutSize.Y).toNat
        Sample.levelStream = some (recs, s1) ∧
      recs.length = (Sample.blank._layoutSize.X * Sample.blank._layoutSize.Y).toNat ∧
      (ReadEvents.coords Sample.blank).length =
        (Sample.blank._layoutSize.X * Sample.blank._layoutSize.Y).toNat ∧
      ReadEvents.coords Sample.blank =
        ((intRange 0 (Sample.blank._layoutSize.Y - 1)).flatMap fun y =>
          (intRange 0 (Sample.blank._layoutSize.X - 1)).map fun x => (y, x)) ∧
      ReadEvents.storeAll Sample.consts (ReadEvents.difficultyBit GameDifficulty.Normal)
        ((ReadEvents.coords Sample.blank).zip recs) (ReadEvents.fresh Sample.blank, []) =
          some (Sample.loaded, []) ∧
      Sample.codec.ReadVariableUint32 s1 = some (count, s2) ∧
      ReadEvents.offGrid Sample.codec count s2 = some [] :=
  (ReadEvents_record_format Sample.consts Sample.codec Sample.blank Sample.levelStream
    GameDifficulty.Normal (by decide) (by decide) (Sample.loaded, [], []) rfl).1

/-! ## GetEventByPosition -/

/-- C30. On an allocated grid `GetEventByPosition(x, y)` returns for every pair of integers,
without an access outside the grid. For `(x, y)` inside the grid it returns the stored kind
and points `*eventParams` at the parameters of that cell; outside the grid it leaves
`*eventParams` alone and returns `ModifierDeath` exactly when `y > height` and the pit type
is `InstantDeathPit`, and `Empty` otherwise, in particular for the row `y = height`. -/
theorem GetEventByPosition_total (m : EventMap) (x y : Int) (hwf : m.WF) :
    ∃ r, GetEventByPosition m x y = some r ∧
      (r.2.isSome ↔ m.inGrid x y) ∧
      (m.inGrid x y → ∃ tile, m.cell x y = some tile ∧
        r = (tile.Event, some tile.EventParams)) ∧
      (¬ m.inGrid x y →
        (r.1 = EventType.ModifierDeath ↔
          y > m._layoutSize.Y ∧ m._pitType = PitType.InstantDeathPit) ∧
        (¬ (y > m._layoutSize.Y ∧ m._pitType = PitType.InstantDeathPit) →
          r.1 = EventType.Empty)) ∧
      (y = m._layoutSize.Y → r = (EventType.Empty, none)) := by
  unfold GetEventByPosition
  by_cases hy : y > m._layoutSize.Y
  · rw [if_pos hy]
    have hnot : ¬ m.inGrid x y := by
      intro hin
      obtain ⟨_, _, _, h4⟩ := hin
      omega
    by_cases hp : m._pitType = PitType.InstantDeathPit
    · rw [if_pos hp]
      refine ⟨_, rfl, ?_, fun hin => absurd hin hnot, fun _ => ?_, fun he => ?_⟩
      · simp [hnot]
      · simp [hy, hp]
      · omega
    · rw [if_neg hp]
      refine ⟨_, rfl, ?_, fun hin => absurd hin hnot, fun _ => ?_, fun _ => rfl⟩
      · simp [hnot]
      · simp [hp]
  · rw [if_neg hy]
    by_cases hin : m.inGrid x y
    · obtain ⟨tile, htile⟩ := cell_isSome m x y hwf hin
      have hcond : x ≥ 0 ∧ y ≥ 0 ∧ y < m._layoutSize.Y ∧ x < m._layoutSize.X :=
        ⟨hin.1, hin.2.2.1, hin.2.2.2, hin.2.1⟩
      have htile1 : tileAt? m._eventLayout (x + y * m._layoutSize.X) = some tile := htile
      rw [if_pos hcond, htile1]
      refine ⟨_, rfl, ?_, fun _ => ⟨tile, htile, rfl⟩, fun hn => absurd hin hn, fun he => ?_⟩
      · simp [hin]
      · have := hin.2.2.2
        omega
    · have hcond : ¬ (x ≥ 0 ∧ y ≥ 0 ∧ y < m._layoutSize.Y ∧ x < m._layoutSize.X) := by
        intro hc
        exact hin ⟨hc.1, hc.2.2.2, hc.2.1, hc.2.2.1⟩
      rw [if_neg hcond]
      refine ⟨_, rfl, ?_, fun h => absurd h hin, fun _ => ?_, fun _ => rfl⟩
      · simp [hin]
      · simp [hy]

theorem GetEventByPosition_total_witness :
    ∃ r, GetEventByPosition Sample.map 1 0 = some r ∧
      (r.2.isSome ↔ Sample.map.inGrid 1 0) ∧
      (Sample.map.inGrid 1 0 → ∃ tile, Sample.map.cell 1 0 = some tile ∧
        r = (tile.Event, some tile.EventParams)) ∧
      (¬ Sample.map.inGrid 1 0 →
        (r.1 = EventType.ModifierDeath ↔
          0 > Sample.map._layoutSize.Y ∧ Sample.map._pitType = PitType.InstantDeathPit) ∧
        (¬ (0 > Sample.map._layoutSize.Y ∧
            Sample.map._pitType = PitType.InstantDeathPit) →
          r.1 = EventType.Empty)) ∧
      ((0 : Int) = Sample.map._layoutSize.Y → r = (EventType.Empty, none)) :=
  GetEventByPosition_total Sample.map 1 0 (by decide)

/-! ## GetWarpTarget -/

theorem GetWarpTarget.count_foldl (targets : List WarpTarget) (id : Nat) (n : Int) :
    targets.foldl (fun targetCount target =>
      if target.Id = id then targetCount + 1 else targetCount) n =
      n + ((targets.filter fun t => decide (t.Id = id)).length : Int) := by
  induction targets generalizing n with
  | nil => simp
  | cons t ts ih =>
    simp only [List.foldl_cons, ih, List.filter_cons]
    by_cases h : t.Id = id
    · simp [h]
      ring
    · simp [h]

theorem GetWarpTarget.count_eq (targets : List WarpTarget) (id : Nat) :
    GetWarpTarget.count targets id =
      ((targets.filter fun t => decide (t.Id = id)).length : Int) := by
  unfold GetWarpTarget.count
  rw [GetWarpTarget.count_foldl]
  simp

theorem GetWarpTarget.select_none (id : Nat) (targets : List WarpTarget) (k : Int)
    (h : ∀ t ∈ targets, t.Id ≠ id) : GetWarpTarget.select id targets k = (-1, -1) := by
  induction targets with
  | nil => rfl
  | cons t ts ih =>
    have h1 : t.Id ≠ id := h t (List.mem_cons_self _ _)
    simp only [GetWarpTarget.select, h1, ne_eq, not_false_eq_true, if_true]
    exact ih fun u hu => h u (List.mem_cons_of_mem _ hu)

theorem GetWarpTarget.select_nth (id : Nat) (targets : List WarpTarget) :
    ∀ (k : Nat) (t : WarpTarget),
      (targets.filter fun t => decide (t.Id = id))[k]? = some t →
      GetWarpTarget.select id targets (k : Int) = t.Pos := by
  induction targets with
  | nil =>
    intro k t h
    simp at h
  | cons u us ih =>
    intro k t h
    by_cases hu : u.Id = id
    · simp only [List.filter_cons, hu, decide_True, if_true] at h
      cases k with
      | zero =>
        simp only [List.getElem?_cons_zero, Option.some.injEq] at h
        subst h
        simp [GetWarpTarget.select, hu]
      | succ k =>
        simp only [List.getElem?_cons_succ] at h
        have e : ((k + 1 : Nat) : Int) - 1 = (k : Int) := by push_cast; ring
        have hne : ((k + 1 : Nat) : Int) ≠ 0 := by omega
        simp only [GetWarpTarget.select, hu, ne_eq, not_true_eq_false, if_false, hne, e]
        exact ih k t h
    · simp only [List.filter_cons, hu, decide_False] at h
      simp only [GetWarpTarget.select, hu, ne_eq, not_false_eq_true, if_true]
      exact ih k t (by simpa using h)

theorem GetSpawnPosition.count_zero (type : Nat) (points : List SpawnPoint)
    (h : ∀ t ∈ points, GetSpawnPosition.isFor type t = false) (n : Int) :
    points.foldl (fun targetCount target =>
      if GetSpawnPosition.isFor type target then targetCount + 1 else targetCount) n = n := by
  induction points with
  | nil => rfl
  | cons t ts ih =>
    simp only [List.foldl_cons, h t (List.mem_cons_self _ _), Bool.false_eq_true, if_false]
    exact ih fun u hu => h u (List.mem_cons_of_mem _ hu)

/-- C20. When no entry of the warp target table has the requested id, `GetWarpTarget`
returns the position `(-1, -1)`, but it does ask the random generator for a number from the
empty range `Next(0, 0)` first, whereas `GetSpawnPosition` with no matching spawn point
returns `(-1, -1)` without a request. When the generator answers `k` with `k` below the
number of matches, `GetWarpTarget` returns the position of match `k` in table order. -/
theorem GetWarpTarget_lookup {ρ : Type} (rnd : RandomGenerator ρ) (m : EventMap) (id : Nat)
    (r : ρ) (hnone : ∀ t ∈ m._warpTargets, t.Id ≠ id) :
    (GetWarpTarget rnd m id r).1 = (-1, -1) ∧
    (GetWarpTarget rnd m id r).2.2 = [(0, 0)] ∧
    (GetWarpTarget rnd m id r).2.1 = (rnd r 0 0).2 ∧
    (∀ type, (∀ t ∈ m._spawnPoints, GetSpawnPosition.isFor type t = false) →
      GetSpawnPosition rnd m type r = ((-1, -1), r, [])) ∧
    (∀ (m1 : EventMap) (k : Nat) (t : WarpTarget),
      (rnd r 0 (GetWarpTarget.count m1._warpTargets id)).1 = (k : Int) →
      (m1._warpTargets.filter fun t => decide (t.Id = id))[k]? = some t →
      (GetWarpTarget rnd m1 id r).1 = t.Pos ∧ t.Id = id ∧ t ∈ m1._warpTargets) := by
  have hcount : GetWarpTarget.count m._warpTargets id = 0 := by
    rw [GetWarpTarget.count_eq]
    have : (m._warpTargets.filter fun t => decide (t.Id = id)) = [] := by
      rw [List.filter_eq_nil_iff]
      intro t ht
      simpa using hnone t ht
    rw [this]
    rfl
  refine ⟨GetWarpTarget.select_none id _ _ hnone, ?_, ?_, ?_, ?_⟩
  · simp only [GetWarpTarget, hcount]
  · simp only [GetWarpTarget, hcount]
  · intro type hsp
    unfold GetSpawnPosition
    simp only [GetSpawnPosition.count_zero type m._spawnPoints hsp 0, gt_iff_lt, lt_self_iff_false,
      if_false]
  · intro m1 k t hk ht
    have hmem : t ∈ m1._warpTargets.filter fun t => decide (t.Id = id) :=
      List.mem_iff_getElem?.2 ⟨k, ht⟩
    rw [List.mem_filter] at hmem
    refine ⟨?_, by simpa using hmem.2, hmem.1⟩
    simp only [GetWarpTarget, hk]
    exact GetWarpTarget.select_nth id _ k t ht

theorem GetWarpTarget_lookup_witness :
    (GetWarpTarget Sample.random Sample.blank 7 0).1 = (-1, -1) ∧
    (GetWarpTarget Sample.random Sample.blank 7 0).2.2 = [(0, 0)] ∧
    (GetWarpTarget Sample.random Sample.blank 7 0).2.1 = (Sample.random 0 0 0).2 ∧
    (∀ type, (∀ t ∈ Sample.blank._spawnPoints, GetSpawnPosition.isFor type t = false) →
      GetSpawnPosition Sample.random Sample.blank type 0 = ((-1, -1), 0, [])) ∧
    (∀ (m1 : EventMap) (k : Nat) (t : WarpTarget),
      (Sample.random 0 0 (GetWarpTarget.count m1._warpTargets 7)).1 = (k : Int) →
      (m1._warpTargets.filter fun t => decide (t.Id = 7))[k]? = some t →
      (GetWarpTarget Sample.random m1 7 0).1 = t.Pos ∧ t.Id = 7 ∧ t ∈ m1._warpTargets) :=
  GetWarpTarget_lookup Sample.random Sample.blank 7 0
    (fun t ht => absurd ht (List.not_mem_nil t))

/-! ## The pair callback of `ResolveCollisions` -/

theorem land_two_pow_eq_iff (s i : Nat) : s &&& 2 ^ i = 2 ^ i ↔ s.testBit i = true := by
  constructor
  · intro h
    have := congrArg (fun n => n.testBit i) h
    simpa [Nat.testBit_two_pow] using this
  · intro h
    apply Nat.eq_of_testBit_eq
    intro k
    rw [Nat.testBit_and, Nat.testBit_two_pow]
    by_cases hk : i = k
    · subst hk
      simp [h]
    · simp [hk]

theorem pair_filter_bits (a b i j : Nat) (hij : i ≠ j) :
    (a ||| b) &&& (2 ^ i ||| 2 ^ j) = 2 ^ i ↔
      (a.testBit i = true ∨ b.testBit i = true) ∧ a.testBit j = false ∧ b.testBit j = false := by
  constructor
  · intro h
    have h1 := congrArg (fun n => n.testBit i) h
    have h2 := congrArg (fun n => n.testBit j) h
    simp only [Nat.testBit_and, Nat.testBit_or, Nat.testBit_two_pow] at h1 h2
    have hji : ¬ j = i := fun e => hij e.symm
    simp [hij, hji] at h1 h2
    exact ⟨h1, h2⟩
  · rintro ⟨h1, h2, h3⟩
    apply Nat.eq_of_testBit_eq
    intro k
    simp only [Nat.testBit_and, Nat.testBit_or, Nat.testBit_two_pow]
    by_cases hk : i = k
    · subst hk
      rcases h1 with h | h <;> simp [h]
    · by_cases hk2 : j = k
      · subst hk2
        simp [h2, h3, hk]
      · simp [hk, hk2]

/-- C23. With `CollideWithOtherActors` and `IsDestroyed` two distinct bits, the test
`((state(A) | state(B)) & (CollideWithOtherActors | IsDestroyed)) == CollideWithOtherActors`
holds exactly when `A` or `B` has `CollideWithOtherActors` and neither has `IsDestroyed`; for
a reported pair `OnPairAdded` calls a handler only if that holds and `A->IsCollidingWith(B)`,
and otherwise leaves the world and the call log as they are. -/
theorem OnPairAdded_filter {ω : Type} (c : Consts) (am : ActorMethods ω)
    (s : ω × List (ActorRef × ActorRef)) (actorA actorB : ActorRef) (i j : Nat)
    (hC : c.CollideWithOtherActors = 2 ^ i) (hD : c.IsDestroyed = 2 ^ j) (hij : i ≠ j) :
    ((am.GetState s.1 actorA ||| am.GetState s.1 actorB) &&&
        (c.CollideWithOtherActors ||| c.IsDestroyed) = c.CollideWithOtherActors ↔
      (am.GetState s.1 actorA &&& c.CollideWithOtherActors = c.CollideWithOtherActors ∨
        am.GetState s.1 actorB &&& c.CollideWithOtherActors = c.CollideWithOtherActors) ∧
      ¬ am.GetState s.1 actorA &&& c.IsDestroyed = c.IsDestroyed ∧
      ¬ am.GetState s.1 actorB &&& c.IsDestroyed = c.IsDestroyed) ∧
    ((ResolveCollisions.OnPairAdded c am s actorA actorB).2 ≠ s.2 →
      (am.GetState s.1 actorA &&& c.CollideWithOtherActors = c.CollideWithOtherActors ∨
        am.GetState s.1 actorB &&& c.CollideWithOtherActors = c.CollideWithOtherActors) ∧
      ¬ am.GetState s.1 actorA &&& c.IsDestroyed = c.IsDestroyed ∧
      ¬ am.GetState s.1 actorB &&& c.IsDestroyed = c.IsDestroyed ∧
      am.IsCollidingWith s.1 actorA actorB = true) ∧
    (¬ ((am.GetState s.1 actorA &&& c.CollideWithOtherActors = c.CollideWithOtherActors ∨
        am.GetState s.1 actorB &&& c.CollideWithOtherActors = c.CollideWithOtherActors) ∧
      ¬ am.GetState s.1 actorA &&& c.IsDestroyed = c.IsDestroyed ∧
      ¬ am.GetState s.1 actorB &&& c.IsDestroyed = c.IsDestroyed ∧
      am.IsCollidingWith s.1 actorA actorB = true) →
      ResolveCollisions.OnPairAdded c am s actorA actorB = s) := by
  have hbits : ((am.GetState s.1 actorA ||| am.GetState s.1 actorB) &&&
        (c.CollideWithOtherActors ||| c.IsDestroyed) = c.CollideWithOtherActors ↔
      (am.GetState s.1 actorA &&& c.CollideWithOtherActors = c.CollideWithOtherActors ∨
        am.GetState s.1 actorB &&& c.CollideWithOtherActors = c.CollideWithOtherActors) ∧
      ¬ am.GetState s.1 actorA &&& c.IsDestroyed = c.IsDestroyed ∧
      ¬ am.GetState s.1 actorB &&& c.IsDestroyed = c.IsDestroyed) := by
    rw [hC, hD, pair_filter_bits _ _ i j hij, land_two_pow_eq_iff, land_two_pow_eq_iff,
      land_two_pow_eq_iff, land_two_pow_eq_iff]
    simp
  refine ⟨hbits, ?_, ?_⟩
  · intro hne
    by_cases hf : (am.GetState s.1 actorA ||| am.GetState s.1 actorB) &&&
        (c.CollideWithOtherActors ||| c.IsDestroyed) = c.CollideWithOtherActors
    · obtain ⟨h1, h2, h3⟩ := hbits.1 hf
      refine ⟨h1, h2, h3, ?_⟩
      by_contra ho
      apply hne
      unfold ResolveCollisions.OnPairAdded
      rw [if_neg (not_not.2 hf), if_neg ho]
    · exfalso
      apply hne
      unfold ResolveCollisions.OnPairAdded
      rw [if_pos hf]
  · intro hnot
    unfold ResolveCollisions.OnPairAdded
    by_cases hf : (am.GetState s.1 actorA ||| am.GetState s.1 actorB) &&&
        (c.CollideWithOtherActors ||| c.IsDestroyed) = c.CollideWithOtherActors
    · obtain ⟨h1, h2, h3⟩ := hbits.1 hf
      have ho : ¬ am.IsCollidingWith s.1 actorA actorB = true := fun ho =>
        hnot ⟨h1, h2, h3, ho⟩
      rw [if_neg (not_not.2 hf), if_neg ho]
    · rw [if_pos hf]

theorem OnPairAdded_filter_witness :
    ((Sample.methods.GetState Sample.twoActors 0 ||| Sample.methods.GetState Sample.twoActors 1)
        &&& (Sample.consts.CollideWithOtherActors ||| Sample.consts.IsDestroyed) =
        Sample.consts.CollideWithOtherActors ↔
      (Sample.methods.GetState Sample.twoActors 0 &&& Sample.consts.CollideWithOtherActors =
          Sample.consts.CollideWithOtherActors ∨
        Sample.methods.GetState Sample.twoActors 1 &&& Sample.consts.CollideWithOtherActors =
          Sample.consts.CollideWithOtherActors) ∧
      ¬ Sample.methods.GetState Sample.twoActors 0 &&& Sample.consts.IsDestroyed =
        Sample.consts.IsDestroyed ∧
      ¬ Sample.methods.GetState Sample.twoActors 1 &&& Sample.consts.IsDestroyed =
        Sample.consts.IsDestroyed) ∧
    ((ResolveCollisions.OnPairAdded Sample.consts Sample.methods (Sample.twoActors, []) 0 1).2 ≠
        [] →
      (Sample.methods.GetState Sample.twoActors 0 &&& Sample.consts.CollideWithOtherActors =
          Sample.consts.CollideWithOtherActors ∨
        Sample.methods.GetState Sample.twoActors 1 &&& Sample.consts.CollideWithOtherActors =
          Sample.consts.CollideWithOtherActors) ∧
      ¬ Sample.methods.GetState Sample.twoActors 0 &&& Sample.consts.IsDestroyed =
        Sample.consts.IsDestroyed ∧
      ¬ Sample.methods.GetState Sample.twoActors 1 &&& Sample.consts.IsDestroyed =
        Sample.consts.IsDestroyed ∧
      Sample.methods.IsCollidingWith Sample.twoActors 0 1 = true) ∧
    (¬ ((Sample.methods.GetState Sample.twoActors 0 &&& Sample.consts.CollideWithOtherActors =
          Sample.consts.CollideWithOtherActors ∨
        Sample.methods.GetState Sample.twoActors 1 &&& Sample.consts.CollideWithOtherActors =
          Sample.consts.CollideWithOtherActors) ∧
      ¬ Sample.methods.GetState Sample.twoActors 0 &&& Sample.consts.IsDestroyed =
        Sample.consts.IsDestroyed ∧
      ¬ Sample.methods.GetState Sample.twoActors 1 &&& Sample.consts.IsDestroyed =
        Sample.consts.IsDestroyed ∧
      Sample.methods.IsCollidingWith Sample.twoActors 0 1 = true) →
      ResolveCollisions.OnPairAdded Sample.consts Sample.methods (Sample.twoActors, []) 0 1 =
        (Sample.twoActors, [])) :=
  OnPairAdded_filter Sample.consts Sample.methods (Sample.twoActors, []) 0 1 8 4 rfl rfl
    (by decide)

/-- C24. For a reported pair `(A, B)` that passes the flag test and for which
`A->IsCollidingWith(B)` holds, `OnPairAdded` calls `A`'s handler with `B` once, then `B`'s
handler with `A` once exactly when `A`'s handler returned `false`, and makes no other handler
call; the world afterwards is the one `B`'s handler leaves, whatever it returned, or the one
`A`'s handler leaves when that returned `true`. -/
theorem OnPairAdded_dispatch {ω : Type} (c : Consts) (am : ActorMethods ω)
    (s : ω × List (ActorRef × ActorRef)) (actorA actorB : ActorRef)
    (hf : (am.GetState s.1 actorA ||| am.GetState s.1 actorB) &&&
      (c.CollideWithOtherActors ||| c.IsDestroyed) = c.CollideWithOtherActors)
    (ho : am.IsCollidingWith s.1 actorA actorB = true) :
    ResolveCollisions.OnPairAdded c am s actorA actorB =
      (if (am.OnHandleCollision s.1 actorA actorB).1 = true then
          (am.OnHandleCollision s.1 actorA actorB).2
        else (am.OnHandleCollision (am.OnHandleCollision s.1 actorA actorB).2 actorB actorA).2,
       s.2 ++ (actorA, actorB) ::
        (if (am.OnHandleCollision s.1 actorA actorB).1 = true then []
          else [(actorB, actorA)])) := by
  unfold ResolveCollisions.OnPairAdded
  rw [if_neg (not_not.2 hf), if_pos ho]
  cases h : (am.OnHandleCollision s.1 actorA actorB).1
  · simp [h]
  · simp [h]

theorem OnPairAdded_dispatch_witness :
    ResolveCollisions.OnPairAdded Sample.consts Sample.methods (Sample.twoActors, []) 0 1 =
      (if (Sample.methods.OnHandleCollision Sample.twoActors 0 1).1 = true then
          (Sample.methods.OnHandleCollision Sample.twoActors 0 1).2
        else (Sample.methods.OnHandleCollision
          (Sample.methods.OnHandleCollision Sample.twoActors 0 1).2 1 0).2,
       [] ++ (0, 1) ::
        (if (Sample.methods.OnHandleCollision Sample.twoActors 0 1).1 = true then []
          else [(1, 0)])) :=
  OnPairAdded_dispatch Sample.consts Sample.methods (Sample.twoActors, []) 0 1 (by decide) rfl

/-! ## The solid object phase of `IsPositionEmpty` -/

/-- C25. For a candidate that is a solid object, not destroyed, and passes the
`ExcludeSimilar` and the above-only rule: if it is one-way and `params.Downwards` is `false`,
the callback returns `true` with the collider and the world as they were and no handler
called; if it is not one-way or `params.Downwards` is `true`, the callback calls the
querier's handler and, when that returns `false`, the candidate's handler, and it returns
`false` with the candidate as collider exactly when both returned `false`. When the broad
phase reports that candidate alone to a querier that collides with solid objects,
`IsPositionEmpty` returns what the callback leaves: non-empty exactly when the callback set
the collider. -/
theorem IsPositionEmpty_one_way {ω : Type} (c : Consts) (am : ActorMethods ω)
    (self actor : ActorRef) (Downwards : Bool) (s : QueryState ω)
    (hsolid : am.GetState s.1 actor &&& (c.IsSolidObject ||| c.IsDestroyed) = c.IsSolidObject)
    (hex : ¬ (am.GetState s.1 self &&& c.ExcludeSimilar = c.ExcludeSimilar ∧
      am.GetState s.1 actor &&& c.ExcludeSimilar = c.ExcludeSimilar))
    (hbelow : ¬ (am.GetState s.1 self &&& c.CollideWithSolidObjectsBelow =
        c.CollideWithSolidObjectsBelow ∧
      (am.AABBInner s.1 self).B >
        ((am.AABBInner s.1 actor).T + (am.AABBInner s.1 actor).B) * (1 / 2))) :
    (am.IsOneWay s.1 actor = some true → Downwards = false →
      IsPositionEmpty.callback c am self Downwards s actor = (true, s)) ∧
    (am.IsOneWay s.1 actor ≠ some true ∨ Downwards = true →
      IsPositionEmpty.callback c am self Downwards s actor =
        (if (am.OnHandleCollision s.1 self actor).1 = true then
          (true, (am.OnHandleCollision s.1 self actor).2, s.2.1, s.2.2 ++ [(self, actor)])
        else if (am.OnHandleCollision (am.OnHandleCollision s.1 self actor).2 actor self).1 =
            true then
          (true, (am.OnHandleCollision (am.OnHandleCollision s.1 self actor).2 actor self).2,
            s.2.1, s.2.2 ++ [(self, actor), (actor, self)])
        else
          (false, (am.OnHandleCollision (am.OnHandleCollision s.1 self actor).2 actor self).2,
            some actor, s.2.2 ++ [(self, actor), (actor, self)])) ∧
      ((IsPositionEmpty.callback c am self Downwards s actor).1 = false ↔
        (am.OnHandleCollision s.1 self actor).1 = false ∧
        (am.OnHandleCollision (am.OnHandleCollision s.1 self actor).2 actor self).1 = false) ∧
      ((IsPositionEmpty.callback c am self Downwards s actor).1 = false →
        (IsPositionEmpty.callback c am self Downwards s actor).2.2.1 = some actor)) ∧
    (∀ overlaps : ω → ActorRef → Bool, s.2 = (none, []) → self ≠ actor →
      am.GetState s.1 self &&& c.CollideWithSolidObjects = c.CollideWithSolidObjects →
      am.GetState s.1 actor &&& (c.CollideWithOtherActors ||| c.IsDestroyed) =
        c.CollideWithOtherActors →
      overlaps s.1 actor = true →
      IsPositionEmpty c am self Downwards true overlaps [actor] s.1 =
        ((IsPositionEmpty.callback c am self Downwards s actor).2.2.1.isNone,
          (IsPositionEmpty.callback c am self Downwards s actor).2) ∧
      ((IsPositionEmpty c am self Downwards true overlaps [actor] s.1).1 = false ↔
        (IsPositionEmpty.callback c am self Downwards s actor).1 = false)) := by
  have hcb : (am.IsOneWay s.1 actor ≠ some true ∨ Downwards = true) →
      IsPositionEmpty.callback c am self Downwards s actor =
        (if (am.OnHandleCollision s.1 self actor).1 = true then
          (true, (am.OnHandleCollision s.1 self actor).2, s.2.1, s.2.2 ++ [(self, actor)])
        else if (am.OnHandleCollision (am.OnHandleCollision s.1 self actor).2 actor self).1 =
            true then
          (true, (am.OnHandleCollision (am.OnHandleCollision s.1 self actor).2 actor self).2,
            s.2.1, s.2.2 ++ [(self, actor), (actor, self)])
        else
          (false, (am.OnHandleCollision (am.OnHandleCollision s.1 self actor).2 actor self).2,
            some actor, s.2.2 ++ [(self, actor), (actor, self)])) := by
    intro hway
    have hcond : am.IsOneWay s.1 actor = none ∨ am.IsOneWay s.1 actor = some false ∨
        Downwards = true := by
      rcases hway with h | h
      · cases hw : am.IsOneWay s.1 actor with
        | none => exact Or.inl rfl
        | some b =>
          cases b
          · exact Or.inr (Or.inl rfl)
          · exact absurd hw h
      · exact Or.inr (Or.inr h)
    unfold IsPositionEmpty.callback
    rw [if_neg (not_not.2 hsolid), if_neg hex, if_neg hbelow, if_pos hcond]
    cases h1 : (am.OnHandleCollision s.1 self actor).1
    · cases h2 : (am.OnHandleCollision (am.OnHandleCollision s.1 self actor).2 actor self).1
      · simp [h1, h2]
      · simp [h1, h2]
    · simp [h1]
  have hskip : am.IsOneWay s.1 actor = some true → Downwards = false →
      IsPositionEmpty.callback c am self Downwards s actor = (true, s) := by
    intro h1 h2
    have hcond : ¬ (am.IsOneWay s.1 actor = none ∨ am.IsOneWay s.1 actor = some false ∨
        Downwards = true) := by
      rw [h1, h2]
      simp
    unfold IsPositionEmpty.callback
    rw [if_neg (not_not.2 hsolid), if_neg hex, if_neg hbelow, if_neg hcond]
  have hcoll : (IsPositionEmpty.callback c am self Downwards s actor).1 = false →
      (IsPositionEmpty.callback c am self Downwards s actor).2.2.1 = some actor := by
    intro hfalse
    by_cases hway : am.IsOneWay s.1 actor ≠ some true ∨ Downwards = true
    · rw [hcb hway] at hfalse ⊢
      cases h1 : (am.OnHandleCollision s.1 self actor).1
      · cases h2 : (am.OnHandleCollision (am.OnHandleCollision s.1 self actor).2 actor self).1
        · simp [h1, h2]
        · simp [h1, h2] at hfalse
      · simp [h1] at hfalse
    · have h1 : am.IsOneWay s.1 actor = some true := by
        by_contra h
        exact hway (Or.inl h)
      have h2 : Downwards = false := by
        cases Downwards
        · rfl
        · exact absurd (Or.inr rfl) hway
      rw [hskip h1 h2] at hfalse
      exact absurd hfalse (by simp)
  refine ⟨hskip, fun hway => ⟨hcb hway, ?_, hcoll⟩, ?_⟩
  · rw [hcb hway]
    cases h1 : (am.OnHandleCollision s.1 self actor).1
    · cases h2 : (am.OnHandleCollision (am.OnHandleCollision s.1 self actor).2 actor self).1
      · simp [h1, h2]
      · simp [h1, h2]
    · simp [h1]
  · intro overlaps hs hne hcs hca hov
    have hs' : s = (s.1, none, []) := by
      rw [← hs]
    have hq : ¬ (self = actor ∨ am.GetState s.1 actor &&&
        (c.CollideWithOtherActors ||| c.IsDestroyed) ≠ c.CollideWithOtherActors) := by
      intro h
      rcases h with h | h
      · exact hne h
      · exact h hca
    have hrun : IsPositionEmpty c am self Downwards true overlaps [actor] s.1 =
        ((IsPositionEmpty.callback c am self Downwards s actor).2.2.1.isNone,
          (IsPositionEmpty.callback c am self Downwards s actor).2) := by
      unfold IsPositionEmpty
      simp only [Bool.not_true, Bool.false_eq_true, if_false, hcs, if_true,
        FindCollisionActorsByAABB, FindCollisionActorsByAABB.OnCollisionQuery, hq, hov]
      rw [← hs']
      cases (IsPositionEmpty.callback c am self Downwards s actor).1 <;> rfl
    refine ⟨hrun, ?_⟩
    rw [hrun]
    constructor
    · intro hnone
      by_contra htrue
      have ht : (IsPositionEmpty.callback c am self Downwards s actor).1 = true := by
        simpa using htrue
      by_cases hway : am.IsOneWay s.1 actor ≠ some true ∨ Downwards = true
      · rw [hcb hway] at ht hnone
        cases h1 : (am.OnHandleCollision s.1 self actor).1
        · cases h2 : (am.OnHandleCollision (am.OnHandleCollision s.1 self actor).2 actor self).1
          · simp [h1, h2] at ht
          · simp [h1, h2, hs] at hnone
        · simp [h1, hs] at hnone
      · have h1 : am.IsOneWay s.1 actor = some true := by
          by_contra h
          exact hway (Or.inl h)
        have h2 : Downwards = false := by
          cases Downwards
          · rfl
          · exact absurd (Or.inr rfl) hway
        rw [hskip h1 h2] at hnone
        simp [hs] at hnone
    · intro hfalse
      simp [hcoll hfalse]

theorem IsPositionEmpty_one_way_witness :
    IsPositionEmpty.callback Sample.consts Sample.methods 0 false (Sample.twoActors, none, [])
        1 = (false, (Sample.twoActors, some 1, [(0, 1), (1, 0)])) ∧
      IsPositionEmpty Sample.consts Sample.methods 0 false true (fun _ _ => true) [1]
        Sample.twoActors =
        ((IsPositionEmpty.callback Sample.consts Sample.methods 0 false
            (Sample.twoActors, none, []) 1).2.2.1.isNone,
          (IsPositionEmpty.callback Sample.consts Sample.methods 0 false
            (Sample.twoActors, none, []) 1).2) :=
  ⟨((IsPositionEmpty_one_way Sample.consts Sample.methods 0 1 false
      (Sample.twoActors, none, []) (by decide) (by decide)
      (by simp [Sample.methods, Sample.twoActors]; norm_num)).2.1 (Or.inl (by decide))).1,
    ((IsPositionEmpty_one_way Sample.consts Sample.methods 0 1 false
      (Sample.twoActors, none, []) (by decide) (by decide)
      (by simp [Sample.methods, Sample.twoActors]; norm_num)).2.2 (fun _ _ => true) rfl
      (by decide) (by decide) (by decide) rfl).1⟩

/-! ## The sweep of `ResolveCollisions` -/

theorem rotateLast_concat (l : List ActorRef) (x : ActorRef) :
    rotateLast (l ++ [x]) = x :: l := by
  simp [rotateLast]

theorem rotateLast_perm (r : List ActorRef) : (rotateLast r).Perm r := by
  rcases List.eq_nil_or_concat r with h | ⟨l, x, h⟩
  · rw [h]
    exact List.Perm.refl _
  · rw [h, List.concat_eq_append, rotateLast_concat]
    exact (List.perm_append_singleton x l).symm

theorem getElem?_set_other (objs : List ActorBase) (a b : ActorRef) (o : ActorBase)
    (h : b ≠ a) : (objs.set a o)[b]? = objs[b]? := by
  rw [List.getElem?_set_ne (fun e => h e.symm)]

theorem ResolveCollisions.sweepRest_spec (c : Consts) :
    ∀ (fuel : Nat) (rest : List ActorRef) (st : List ActorBase × DynamicTreeBroadPhase)
      (res : List ActorRef × List ActorBase × DynamicTreeBroadPhase),
      ResolveCollisions.sweepRest c fuel rest st = some res → rest.Nodup →
      res.1.Perm (rest.filter (ResolveCollisions.aliveIn c st.1)) ∧
      (∀ b, res.2.1[b]? =
        if b ∈ rest then (st.1[b]?).map (ActorBase.swept c) else st.1[b]?) ∧
      res.2.2.proxies = st.2.proxies.filter (fun p =>
        decide (∀ a ∈ rest, ResolveCollisions.evictedIn c st.1 a ≠ some p.1)) ∧
      ∃ L, res.2.2.calls = st.2.calls ++ L ∧
        L.Perm (rest.filterMap (ResolveCollisions.sweepCallIn c st.1)) := by
  intro fuel
  induction fuel with
  | zero =>
    intro rest st res h _
    simp [ResolveCollisions.sweepRest] at h
  | succ fuel ih =>
    intro rest st res h hnd
    cases rest with
    | nil =>
      simp only [ResolveCollisions.sweepRest, Option.some.injEq] at h
      subst h
      refine ⟨List.Perm.refl _, fun b => by simp, by simp, [], by simp, List.Perm.refl _⟩
    | cons a r =>
      have har : a ∉ r := (List.nodup_cons.1 hnd).1
      have hr : r.Nodup := (List.nodup_cons.1 hnd).2
      simp only [ResolveCollisions.sweepRest] at h
      cases ho : st.1[a]? with
      | none => simp [ho] at h
      | some actor =>
        simp only [ho] at h
        by_cases hD : actor.GetState c.IsDestroyed = true
        · simp only [hD, if_true] at h
          have hrot := rotateLast_perm r
          have hmem : ∀ b, b ∈ rotateLast r ↔ b ∈ r := fun b => hrot.mem_iff
          have halive : ResolveCollisions.aliveIn c st.1 a = false := by
            simp [ResolveCollisions.aliveIn, ho, hD]
          -- the state after the eviction agrees with the old one away from `a`
          have key : ∀ (st1 : List ActorBase × DynamicTreeBroadPhase) (Lc : List ProxyCall),
              (∀ b, b ≠ a → st1.1[b]? = st.1[b]?) →
              st1.1[a]? = some (ActorBase.swept c actor) →
              st1.2.proxies = st.2.proxies.filter (fun p =>
                decide (ResolveCollisions.evictedIn c st.1 a ≠ some p.1)) →
              st1.2.calls = st.2.calls ++ Lc →
              Lc = (ResolveCollisions.sweepCallIn c st.1 a).toList →
              ResolveCollisions.sweepRest c fuel (rotateLast r) st1 = some res →
              res.1.Perm ((a :: r).filter (ResolveCollisions.aliveIn c st.1)) ∧
              (∀ b, res.2.1[b]? =
                if b ∈ a :: r then (st.1[b]?).map (ActorBase.swept c) else st.1[b]?) ∧
              res.2.2.proxies = st.2.proxies.filter (fun p =>
                decide (∀ a' ∈ a :: r, ResolveCollisions.evictedIn c st.1 a' ≠ some p.1)) ∧
              ∃ L, res.2.2.calls = st.2.calls ++ L ∧
                L.Perm ((a :: r).filterMap (ResolveCollisions.sweepCallIn c st.1)) := by
            intro st1 Lc hother hself hprox hcalls hLc hrun
            obtain ⟨i1, i2, i3, L, i4, i5⟩ := ih _ st1 res hrun (hrot.nodup_iff.2 hr)
            have hal : ∀ b ∈ r, ResolveCollisions.aliveIn c st1.1 b =
                ResolveCollisions.aliveIn c st.1 b := by
              intro b hb
              have hne : b ≠ a := fun e => har (e ▸ hb)
              simp only [ResolveCollisions.aliveIn, hother b hne]
            have hev : ∀ b ∈ r, ResolveCollisions.evictedIn c st1.1 b =
                ResolveCollisions.evictedIn c st.1 b := by
              intro b hb
              have hne : b ≠ a := fun e => har (e ▸ hb)
              simp only [ResolveCollisions.evictedIn, hother b hne]
            have hcl : ∀ b ∈ r, ResolveCollisions.sweepCallIn c st1.1 b =
                ResolveCollisions.sweepCallIn c st.1 b := by
              intro b hb
              have hne : b ≠ a := fun e => har (e ▸ hb)
              simp only [ResolveCollisions.sweepCallIn, hother b hne]
            refine ⟨?_, ?_, ?_, ?_⟩
            · rw [List.filter_cons, halive]
              simp only [Bool.false_eq_true, if_false]
              refine i1.trans ((hrot.filter _).trans ?_)
              rw [List.filter_congr hal]
            · intro b
              rw [i2 b]
              by_cases hba : b = a
              · subst hba
                have : b ∉ rotateLast r := fun hb => har ((hmem b).1 hb)
                simp [this, hself, ho]
              · simp only [hmem b, List.mem_cons, hba, false_or, hother b hba]
            · rw [i3, hprox, List.filter_filter]
              apply List.filter_congr
              intro p _
              have e1 : (∀ a' ∈ rotateLast r, ResolveCollisions.evictedIn c st1.1 a' ≠ some p.1) ↔
                  (∀ a' ∈ r, ResolveCollisions.evictedIn c st.1 a' ≠ some p.1) := by
                constructor
                · intro hh b hb
                  rw [← hev b hb]
                  exact hh b ((hmem b).2 hb)
                · intro hh b hb
                  rw [hev b ((hmem b).1 hb)]
                  exact hh b ((hmem b).1 hb)
              simp only [List.mem_cons, forall_eq_or_imp, e1, Bool.decide_and, Bool.and_comm]
            · refine ⟨Lc ++ L, by rw [i4, hcalls, List.append_assoc], ?_⟩
              rw [List.filterMap_cons, hLc]
              have hperm : L.Perm (r.filterMap (ResolveCollisions.sweepCallIn c st.1)) := by
                refine i5.trans ((hrot.filterMap _).trans ?_)
                rw [List.filterMap_congr hcl]
              cases hc : ResolveCollisions.sweepCallIn c st.1 a with
              | none => simpa using hperm
              | some k => simpa using hperm
          cases hp : actor._collisionProxyID with
          | none =>
            simp only [hp] at h
            refine key st [] (fun _ _ => rfl) ?_ ?_ (by simp) ?_ h
            · rw [ho]
              congr 1
              simp only [ActorBase.swept, hD, if_true]
              cases actor
              simp only at hp
              simp [hp]
            · have : ResolveCollisions.evictedIn c st.1 a = none := by
                simp [ResolveCollisions.evictedIn, ho, ActorBase.evictedProxy?, hD, hp]
              simp [this]
            · simp [ResolveCollisions.sweepCallIn, ho, ActorBase.sweepCall?, hD, hp]
          | some id =>
            simp only [hp] at h
            have hlt : a < st.1.length := by
              rw [List.getElem?_eq_some_iff] at ho
              exact ho.1
            refine key (st.1.set a { actor with _collisionProxyID := none },
                st.2.DestroyProxy id) [ProxyCall.DestroyProxy id]
              (fun b hb => getElem?_set_other _ _ _ _ hb) ?_ ?_ rfl ?_ h
            · simp only [List.getElem?_set_self hlt, ActorBase.swept, hD, if_true]
            · have : ResolveCollisions.evictedIn c st.1 a = some id := by
                simp [ResolveCollisions.evictedIn, ho, ActorBase.evictedProxy?, hD, hp]
              simp only [DynamicTreeBroadPhase.DestroyProxy, this]
              apply List.filter_congr
              intro p _
              by_cases hpi : p.1 = id
              · simp [hpi]
              · have : ¬ id = p.1 := fun e => hpi e.symm
                simp [hpi, this]
            · simp [ResolveCollisions.sweepCallIn, ho, ActorBase.sweepCall?, hD, hp]
        · have hD' : actor.GetState c.IsDestroyed = false := by
            simpa using hD
          simp only [hD', Bool.false_eq_true, if_false] at h
          have halive : ResolveCollisions.aliveIn c st.1 a = true := by
            simp [ResolveCollisions.aliveIn, ho, hD']
          have hevA : ResolveCollisions.evictedIn c st.1 a = none := by
            simp [ResolveCollisions.evictedIn, ho, ActorBase.evictedProxy?, hD']
          -- the state after a kept actor agrees with the old one away from `a`
          have key : ∀ (st1 : List ActorBase × DynamicTreeBroadPhase) (Lc : List ProxyCall)
              (q : List ActorRef × List ActorBase × DynamicTreeBroadPhase),
              (∀ b, b ≠ a → st1.1[b]? = st.1[b]?) →
              st1.1[a]? = some (ActorBase.swept c actor) →
              st1.2.proxies = st.2.proxies →
              st1.2.calls = st.2.calls ++ Lc →
              Lc = (ResolveCollisions.sweepCallIn c st.1 a).toList →
              ResolveCollisions.sweepRest c fuel r st1 = some q →
              res = (a :: q.1, q.2) →
              res.1.Perm ((a :: r).filter (ResolveCollisions.aliveIn c st.1)) ∧
              (∀ b, res.2.1[b]? =
                if b ∈ a :: r then (st.1[b]?).map (ActorBase.swept c) else st.1[b]?) ∧
              res.2.2.proxies = st.2.proxies.filter (fun p =>
                decide (∀ a' ∈ a :: r, ResolveCollisions.evictedIn c st.1 a' ≠ some p.1)) ∧
              ∃ L, res.2.2.calls = st.2.calls ++ L ∧
                L.Perm ((a :: r).filterMap (ResolveCollisions.sweepCallIn c st.1)) := by
            intro st1 Lc q hother hself hprox hcalls hLc hrun hres
            obtain ⟨i1, i2, i3, L, i4, i5⟩ := ih _ st1 q hrun hr
            subst hres
            have hal : ∀ b ∈ r, ResolveCollisions.aliveIn c st1.1 b =
                ResolveCollisions.aliveIn c st.1 b := by
              intro b hb
              have hne : b ≠ a := fun e => har (e ▸ hb)
              simp only [ResolveCollisions.aliveIn, hother b hne]
            have hev : ∀ b ∈ r, ResolveCollisions.evictedIn c st1.1 b =
                ResolveCollisions.evictedIn c st.1 b := by
              intro b hb
              have hne : b ≠ a := fun e => har (e ▸ hb)
              simp only [ResolveCollisions.evictedIn, hother b hne]
            have hcl : ∀ b ∈ r, ResolveCollisions.sweepCallIn c st1.1 b =
                ResolveCollisions.sweepCallIn c st.1 b := by
              intro b hb
              have hne : b ≠ a := fun e => har (e ▸ hb)
              simp only [ResolveCollisions.sweepCallIn, hother b hne]
            refine ⟨?_, ?_, ?_, ?_⟩
            · rw [List.filter_cons, halive]
              simp only [if_true]
              refine List.Perm.cons a ?_
              rw [← List.filter_congr hal]
              exact i1
            · intro b
              simp only
              rw [i2 b]
              by_cases hba : b = a
              · subst hba
                simp [har, hself, ho]
              · simp only [List.mem_cons, hba, false_or, hother b hba]
            · simp only
              rw [i3, hprox]
              apply List.filter_congr
              intro p _
              have e1 : (∀ a' ∈ r, ResolveCollisions.evictedIn c st1.1 a' ≠ some p.1) ↔
                  (∀ a' ∈ r, ResolveCollisions.evictedIn c st.1 a' ≠ some p.1) := by
                constructor
                · intro hh b hb
                  rw [← hev b hb]
                  exact hh b hb
                · intro hh b hb
                  rw [hev b hb]
                  exact hh b hb
              simp [e1, hevA]
            · refine ⟨Lc ++ L, by simp only; rw [i4, hcalls, List.append_assoc], ?_⟩
              rw [List.filterMap_cons, hLc]
              have hperm : L.Perm (r.filterMap (ResolveCollisions.sweepCallIn c st.1)) := by
                rw [← List.filterMap_congr hcl]
                exact i5
              cases hc : ResolveCollisions.sweepCallIn c st.1 a with
              | none => simpa using hperm
              | some k => simpa using hperm
          by_cases hY : actor.GetState c.IsDirty = true
          · simp only [hY, if_true] at h
            cases hp : actor._collisionProxyID with
            | none =>
              simp only [hp] at h
              exact ih _ st res h hnd
            | some id =>
              simp only [hp, Option.map_eq_some'] at h
              obtain ⟨q, hq, hres⟩ := h
              have hlt : a < st.1.length := by
                rw [List.getElem?_eq_some_iff] at ho
                exact ho.1
              refine key (st.1.set a (actor.clearState c.IsDirty), st.2.MoveProxy id)
                [ProxyCall.MoveProxy id] q
                (fun b hb => getElem?_set_other _ _ _ _ hb) ?_ rfl rfl ?_ hq hres.symm
              · simp only [List.getElem?_set_self hlt, ActorBase.swept, hD', hY, hp,
                  Bool.false_eq_true, if_false, if_true]
              · simp [ResolveCollisions.sweepCallIn, ho, ActorBase.sweepCall?, hD', hY, hp]
          · have hY' : actor.GetState c.IsDirty = false := by
              simpa using hY
            simp only [hY', Bool.false_eq_true, if_false, Option.map_eq_some'] at h
            obtain ⟨q, hq, hres⟩ := h
            refine key st [] q (fun _ _ => rfl) ?_ rfl (by simp) ?_ hq hres.symm
            · simp only [ho, ActorBase.swept, hD', hY', Bool.false_eq_true, if_false]
            · simp [ResolveCollisions.sweepCallIn, ho, ActorBase.sweepCall?, hD', hY']

theorem eraseUnordered_eq (pre r : List ActorRef) (a : ActorRef) :
    eraseUnordered (pre ++ a :: r) pre.length = pre ++ rotateLast r := by
  rcases List.eq_nil_or_concat r with h | ⟨l, x, h⟩
  · subst h
    simp [eraseUnordered, rotateLast]
  · rw [h, List.concat_eq_append, rotateLast_concat]
    have e : pre ++ a :: (l ++ [x]) = (pre ++ a :: l) ++ [x] := by simp
    unfold eraseUnordered
    rw [e, List.getLast?_concat]
    simp only
    rw [← e, List.set_append_right _ _ (le_refl _)]
    simp only [Nat.sub_self, List.set_cons_zero]
    have e2 : pre ++ x :: (l ++ [x]) = (pre ++ x :: l) ++ [x] := by simp
    rw [e2, List.dropLast_concat]

theorem eraseUnordered_at (l : List ActorRef) (it : Nat) (a : ActorRef)
    (h : l[it]? = some a) :
    eraseUnordered l it = l.take it ++ rotateLast (l.drop (it + 1)) := by
  have hlt : it < l.length := by
    rw [List.getElem?_eq_some_iff] at h
    exact h.1
  have hsplit : l = l.take it ++ a :: l.drop (it + 1) := by
    rw [List.getElem?_eq_some_iff] at h
    obtain ⟨_, h2⟩ := h
    rw [← h2, List.getElem_cons_drop, List.take_append_drop]
  have hlen : (l.take it).length = it := by
    rw [List.length_take]
    omega
  conv_lhs => rw [hsplit]
  have := eraseUnordered_eq (l.take it) (l.drop (it + 1)) a
  rw [hlen] at this
  exact this

theorem ResolveCollisions.sweep_eq {ψ : Type} (c : Consts) :
    ∀ (fuel it : Nat) (w : LevelWorld ψ), it ≤ w._actors.length →
      ResolveCollisions.sweep c fuel it w =
        (ResolveCollisions.sweepRest c fuel (w._actors.drop it)
          (w.objects, w._collisions)).map fun q =>
            { w with _actors := w._actors.take it ++ q.1, objects := q.2.1,
                     _collisions := q.2.2 } := by
  intro fuel
  induction fuel with
  | zero =>
    intro it w _
    rfl
  | succ fuel ih =>
    intro it w hit
    cases h : w._actors[it]? with
    | none =>
      have hge : w._actors.length ≤ it := by
        rw [List.getElem?_eq_none_iff] at h
        exact h
      have hd : w._actors.drop it = [] := List.drop_eq_nil_of_le hge
      have ht : w._actors.take it = w._actors := List.take_of_length_le hge
      simp only [ResolveCollisions.sweep, h, hd, ResolveCollisions.sweepRest, Option.map_some',
        ht, List.append_nil]
    | some a =>
      have hlt : it < w._actors.length := by
        rw [List.getElem?_eq_some_iff] at h
        exact h.1
      have hd : w._actors.drop it = a :: w._actors.drop (it + 1) := by
        rw [List.getElem?_eq_some_iff] at h
        obtain ⟨_, h2⟩ := h
        rw [← h2, List.getElem_cons_drop]
      have hlen : (w._actors.take it).length = it := by
        rw [List.length_take]
        omega
      have htake : w._actors.take (it + 1) = w._actors.take it ++ [a] := by
        rw [List.take_succ, h]
        rfl
      simp only [ResolveCollisions.sweep, h, hd, ResolveCollisions.sweepRest]
      cases ho : w.objects[a]? with
      | none => rfl
      | some actor =>
        simp only
        by_cases hD : actor.GetState c.IsDestroyed = true
        · simp only [hD, if_true]
          have herase := eraseUnordered_at w._actors it a h
          cases hp : actor._collisionProxyID with
          | none =>
            simp only
            rw [ih it _ (by simp only [herase, List.length_append, hlen]; omega)]
            simp only [herase, List.drop_left' hlen, List.take_left' hlen]
          | some id =>
            simp only
            rw [ih it _ (by simp only [herase, List.length_append, hlen]; omega)]
            simp only [herase, List.drop_left' hlen, List.take_left' hlen]
        · simp only [hD, Bool.false_eq_true, if_false]
          by_cases hY : actor.GetState c.IsDirty = true
          · simp only [hY, if_true]
            cases hp : actor._collisionProxyID with
            | none =>
              simp only
              rw [ih it w hit, hd]
            | some id =>
              simp only
              rw [ih (it + 1) _ (by simpa using hlt)]
              simp only [Option.map_map, htake]
              congr 1
              funext q
              simp
          · simp only [hY, Bool.false_eq_true, if_false]
            rw [ih (it + 1) w (by omega)]
            simp only [Option.map_map, htake]
            congr 1
            funext q
            simp

theorem ActorBase.GetState_two_pow (o : ActorBase) (i : Nat) :
    o.GetState (2 ^ i) = o._state.testBit i := by
  unfold ActorBase.GetState
  cases h : o._state.testBit i
  · have : ¬ o._state &&& 2 ^ i = 2 ^ i := fun e => by
      rw [land_two_pow_eq_iff, h] at e
      exact absurd e (by simp)
    simpa using this
  · have : o._state &&& 2 ^ i = 2 ^ i := (land_two_pow_eq_iff _ _).2 h
    simpa using this

theorem ActorBase.GetState_clearState (o : ActorBase) (i j : Nat) :
    (o.clearState (2 ^ i)).GetState (2 ^ j) = (o.GetState (2 ^ j) && !decide (i = j)) := by
  rw [ActorBase.GetState_two_pow, ActorBase.GetState_two_pow]
  simp only [ActorBase.clearState, Nat.testBit_xor, Nat.testBit_and, Nat.testBit_two_pow]
  cases o._state.testBit j <;> by_cases h : i = j <;> simp [h]

theorem ActorBase.GetState_raiseState (o : ActorBase) (i j : Nat) :
    (o.raiseState (2 ^ i)).GetState (2 ^ j) = (o.GetState (2 ^ j) || decide (i = j)) := by
  rw [ActorBase.GetState_two_pow, ActorBase.GetState_two_pow]
  simp only [ActorBase.raiseState, Nat.testBit_or, Nat.testBit_two_pow]

theorem ResolveCollisions.sweepRest_total (c : Consts) :
    ∀ (fuel : Nat) (rest : List ActorRef) (st : List ActorBase × DynamicTreeBroadPhase),
      rest.length < fuel → (∀ a ∈ rest, a < st.1.length) →
      (∀ a ∈ rest, ∀ o, st.1[a]? = some o → ¬ o.dirtyWithoutProxy c) →
      ∃ res, ResolveCollisions.sweepRest c fuel rest st = some res := by
  intro fuel
  induction fuel with
  | zero =>
    intro rest st h _ _
    omega
  | succ fuel ih =>
    intro rest st hfuel hvalid hok
    cases rest with
    | nil => exact ⟨_, rfl⟩
    | cons a r =>
      have hlt : a < st.1.length := hvalid a (List.mem_cons_self _ _)
      have ho : st.1[a]? = some (st.1[a]) := List.getElem?_eq_getElem hlt
      generalize st.1[a] = actor at ho
      have hlen : r.length < fuel := by
        simp only [List.length_cons] at hfuel
        omega
      simp only [ResolveCollisions.sweepRest, ho]
      by_cases hD : actor.GetState c.IsDestroyed = true
      · simp only [hD, if_true]
        have hrot := rotateLast_perm r
        apply ih
        · rw [hrot.length_eq]
          exact hlen
        · intro b hb
          have hb' : b ∈ r := hrot.mem_iff.1 hb
          have := hvalid b (List.mem_cons_of_mem _ hb')
          cases actor._collisionProxyID with
          | none => exact this
          | some id => simpa using this
        · intro b hb o hbo
          have hb' : b ∈ r := hrot.mem_iff.1 hb
          cases hp : actor._collisionProxyID with
          | none =>
            simp only [hp] at hbo
            exact hok b (List.mem_cons_of_mem _ hb') o hbo
          | some id =>
            simp only [hp] at hbo
            by_cases hba : b = a
            · subst hba
              rw [List.getElem?_set_self hlt] at hbo
              simp only [Option.some.injEq] at hbo
              subst hbo
              intro hbad
              have := hbad.1
              simp only [ActorBase.GetState] at this hD
              rw [hD] at this
              exact absurd this (by simp)
            · rw [List.getElem?_set_ne (fun e => hba e.symm)] at hbo
              exact hok b (List.mem_cons_of_mem _ hb') o hbo
      · have hD' : actor.GetState c.IsDestroyed = false := by simpa using hD
        simp only [hD', Bool.false_eq_true, if_false]
        by_cases hY : actor.GetState c.IsDirty = true
        · simp only [hY, if_true]
          cases hp : actor._collisionProxyID with
          | none =>
            exact absurd ⟨hD', hY, hp⟩ (hok a (List.mem_cons_self _ _) actor ho)
          | some id =>
            simp only
            have : ∃ q, ResolveCollisions.sweepRest c fuel r
                (st.1.set a (actor.clearState c.IsDirty), st.2.MoveProxy id) = some q := by
              apply ih _ _ hlen
              · intro b hb
                simpa using hvalid b (List.mem_cons_of_mem _ hb)
              · intro b hb o hbo
                simp only at hbo
                by_cases hba : b = a
                · subst hba
                  rw [List.getElem?_set_self hlt] at hbo
                  simp only [Option.some.injEq] at hbo
                  subst hbo
                  intro hbad
                  have := hbad.2.2
                  simp only [ActorBase.clearState, hp] at this
                  exact absurd this (by simp)
                · rw [List.getElem?_set_ne (fun e => hba e.symm)] at hbo
                  exact hok b (List.mem_cons_of_mem _ hb) o hbo
            obtain ⟨q, hq⟩ := this
            exact ⟨_, by rw [hq]; rfl⟩
        · have hY' : actor.GetState c.IsDirty = false := by simpa using hY
          simp only [hY', Bool.false_eq_true, if_false]
          obtain ⟨q, hq⟩ := ih r st hlen (fun b hb => hvalid b (List.mem_cons_of_mem _ hb))
            (fun b hb => hok b (List.mem_cons_of_mem _ hb))
          exact ⟨_, by rw [hq]; rfl⟩

theorem ResolveCollisions.sweepRest_diverges (c : Consts) :
    ∀ (fuel : Nat) (rest : List ActorRef) (st : List ActorBase × DynamicTreeBroadPhase),
      (∃ a ∈ rest, ∃ o, st.1[a]? = some o ∧ o.dirtyWithoutProxy c) →
      ResolveCollisions.sweepRest c fuel rest st = none := by
  intro fuel
  induction fuel with
  | zero =>
    intro rest st _
    rfl
  | succ fuel ih =>
    intro rest st hbad
    obtain ⟨bad, hmem, ob, hob, hD, hY, hP⟩ := hbad
    cases rest with
    | nil => exact absurd hmem (List.not_mem_nil _)
    | cons a r =>
      simp only [ResolveCollisions.sweepRest]
      cases ho : st.1[a]? with
      | none => rfl
      | some actor =>
        simp only
        have hlt : a < st.1.length := by
          rw [List.getElem?_eq_some_iff] at ho
          exact ho.1
        by_cases hDa : actor.GetState c.IsDestroyed = true
        · simp only [hDa, if_true]
          have hne : bad ≠ a := by
            intro e
            rw [e, ho] at hob
            simp only [Option.some.injEq] at hob
            rw [hob, hD] at hDa
            exact absurd hDa (by simp)
          have hbr : bad ∈ r := by
            rcases List.mem_cons.1 hmem with e | e
            · exact absurd e hne
            · exact e
          apply ih
          refine ⟨bad, (rotateLast_perm r).mem_iff.2 hbr, ob, ?_, hD, hY, hP⟩
          cases actor._collisionProxyID with
          | none => exact hob
          | some id =>
            simp only
            rw [List.getElem?_set_ne (fun e => hne e.symm)]
            exact hob
        · have hDa' : actor.GetState c.IsDestroyed = false := by simpa using hDa
          simp only [hDa', Bool.false_eq_true, if_false]
          by_cases hYa : actor.GetState c.IsDirty = true
          · simp only [hYa, if_true]
            cases hp : actor._collisionProxyID with
            | none =>
              simp only
              exact ih _ st ⟨bad, hmem, ob, hob, hD, hY, hP⟩
            | some id =>
              simp only
              have hne : bad ≠ a := by
                intro e
                rw [e, ho] at hob
                simp only [Option.some.injEq] at hob
                rw [hob, hP] at hp
                exact absurd hp (by simp)
              have hbr : bad ∈ r := by
                rcases List.mem_cons.1 hmem with e | e
                · exact absurd e hne
                · exact e
              rw [ih r _ ⟨bad, hbr, ob, by
                simp only
                rw [List.getElem?_set_ne (fun e => hne e.symm)]
                exact hob, hD, hY, hP⟩]
              rfl
          · have hYa' : actor.GetState c.IsDirty = false := by simpa using hYa
            simp only [hYa', Bool.false_eq_true, if_false]
            have hne : bad ≠ a := by
              intro e
              rw [e, ho] at hob
              simp only [Option.some.injEq] at hob
              rw [hob, hY] at hYa'
              exact absurd hYa' (by simp)
            have hbr : bad ∈ r := by
              rcases List.mem_cons.1 hmem with e | e
              · exact absurd e hne
              · exact e
            rw [ih r st ⟨bad, hbr, ob, hob, hD, hY, hP⟩]
            rfl

/-- C21. With `IsDirty` and `IsDestroyed` single bits, on a list of distinct actors in
which no non-destroyed dirty actor lacks a proxy, the sweep loop ends within one iteration
per actor and one more. Afterwards `_actors` holds, in some order, exactly the actors that
were not flagged destroyed, none of them flagged destroyed; each actor object of the old list
has become `swept`: a destroyed one has its proxy handle set to null and, if it had a handle,
one `DestroyProxy` call for it, a surviving dirty one has its dirty flag cleared and one
`MoveProxy` call for its handle, any other is unchanged with no call; no other object
changes; the calls made on the spatial index are those calls, one per such actor, and the
index has lost the handles of the evicted actors and no other. -/
theorem ResolveCollisions_sweep {ψ : Type} (c : Consts) (w : LevelWorld ψ) (fuel i j : Nat)
    (hvalid : ∀ a ∈ w._actors, a < w.objects.length) (hnodup : w._actors.Nodup)
    (hok : ∀ a ∈ w._actors, ∀ o, w.objects[a]? = some o → ¬ o.dirtyWithoutProxy c)
    (hfuel : w._actors.length < fuel)
    (hY : c.IsDirty = 2 ^ i) (hD : c.IsDestroyed = 2 ^ j) :
    ∃ w1, ResolveCollisions.sweep c fuel 0 w = some w1 ∧
      w1._actors.Perm (w._actors.filter (LevelWorld.alive c w)) ∧
      (∀ a ∈ w1._actors, LevelWorld.alive c w1 a = true) ∧
      (∀ b, w1.objects[b]? =
        if b ∈ w._actors then (w.objects[b]?).map (ActorBase.swept c) else w.objects[b]?) ∧
      (∀ o : ActorBase, o.GetState c.IsDestroyed = true →
        (o.swept c)._collisionProxyID = none ∧ (o.swept c)._state = o._state ∧
        o.sweepCall? c = o._collisionProxyID.map ProxyCall.DestroyProxy) ∧
      (∀ (o : ActorBase) (id : Int), o.GetState c.IsDestroyed = false →
        o.GetState c.IsDirty = true → o._collisionProxyID = some id →
        (o.swept c).GetState c.IsDirty = false ∧
        (o.swept c).GetState c.IsDestroyed = false ∧
        (o.swept c)._collisionProxyID = some id ∧
        o.sweepCall? c = some (ProxyCall.MoveProxy id)) ∧
      (∀ o : ActorBase, o.GetState c.IsDestroyed = false → o.GetState c.IsDirty = false →
        o.swept c = o ∧ o.sweepCall? c = none) ∧
      w1._collisions.proxies = w._collisions.proxies.filter (fun p =>
        decide (∀ a ∈ w._actors, ResolveCollisions.evictedIn c w.objects a ≠ some p.1)) ∧
      ∃ L, w1._collisions.calls = w._collisions.calls ++ L ∧
        L.Perm (w._actors.filterMap (ResolveCollisions.sweepCallIn c w.objects)) := by
  obtain ⟨res, hres⟩ := ResolveCollisions.sweepRest_total c fuel w._actors
    (w.objects, w._collisions) hfuel hvalid hok
  obtain ⟨s1, s2, s3, L, s4, s5⟩ := ResolveCollisions.sweepRest_spec c fuel w._actors
    (w.objects, w._collisions) res hres hnodup
  have hrun := ResolveCollisions.sweep_eq c fuel 0 w (Nat.zero_le _)
  rw [List.drop_zero, hres] at hrun
  simp only [Option.map_some', List.take_zero, List.nil_append] at hrun
  have hdirty : ∀ (o : ActorBase) (id : Int), o.GetState c.IsDestroyed = false →
      o.GetState c.IsDirty = true → o._collisionProxyID = some id →
      (o.swept c).GetState c.IsDirty = false ∧
      (o.swept c).GetState c.IsDestroyed = false ∧
      (o.swept c)._collisionProxyID = some id ∧
      o.sweepCall? c = some (ProxyCall.MoveProxy id) := by
    intro o id h1 h2 h3
    have e : o.swept c = o.clearState c.IsDirty := by
      simp [ActorBase.swept, h1, h2, h3]
    rw [e]
    refine ⟨?_, ?_, ?_, ?_⟩
    · rw [hY, ActorBase.GetState_clearState]
      simp
    · rw [hY, hD, ActorBase.GetState_clearState, ← hD, h1]
      rfl
    · simpa [ActorBase.clearState] using h3
    · simp [ActorBase.sweepCall?, h1, h2, h3]
  refine ⟨_, hrun, s1, ?_, s2, ?_, hdirty, ?_, s3, L, s4, s5⟩
  · intro a ha
    have ha' : a ∈ w._actors.filter (ResolveCollisions.aliveIn c w.objects) :=
      s1.mem_iff.1 ha
    rw [List.mem_filter] at ha'
    obtain ⟨hmem, hal⟩ := ha'
    simp only [LevelWorld.alive, ResolveCollisions.aliveIn]
    have hs := s2 a
    simp only [hmem, if_true] at hs
    rw [hs]
    simp only [ResolveCollisions.aliveIn] at hal
    cases ho : w.objects[a]? with
    | none => simp [ho] at hal
    | some o =>
      simp only [ho, Bool.not_eq_true', Option.map_some'] at hal ⊢
      by_cases hd : o.GetState c.IsDirty = true
      · cases hp : o._collisionProxyID with
        | none => exact absurd ⟨hal, hd, hp⟩ (hok a hmem o ho)
        | some id => exact (hdirty o id hal hd hp).2.1
      · have hd' : o.GetState c.IsDirty = false := by simpa using hd
        simp [ActorBase.swept, hal, hd']
  · intro o ho
    simp [ActorBase.swept, ActorBase.sweepCall?, ho]
  · intro o h1 h2
    simp [ActorBase.swept, ActorBase.sweepCall?, h1, h2]

theorem ResolveCollisions_sweep_witness :
    ∃ w1, ResolveCollisions.sweep Sample.consts 4 0 Sample.sweepWorld = some w1 ∧
      w1._actors.Perm (Sample.sweepWorld._actors.filter
        (LevelWorld.alive Sample.consts Sample.sweepWorld)) ∧
      (∀ a ∈ w1._actors, LevelWorld.alive Sample.consts w1 a = true) ∧
      (∀ b, w1.objects[b]? =
        if b ∈ Sample.sweepWorld._actors then
          (Sample.sweepWorld.objects[b]?).map (ActorBase.swept Sample.consts)
        else Sample.sweepWorld.objects[b]?) ∧
      (∀ o : ActorBase, o.GetState Sample.consts.IsDestroyed = true →
        (o.swept Sample.consts)._collisionProxyID = none ∧
        (o.swept Sample.consts)._state = o._state ∧
        o.sweepCall? Sample.consts = o._collisionProxyID.map ProxyCall.DestroyProxy) ∧
      (∀ (o : ActorBase) (id : Int), o.GetState Sample.consts.IsDestroyed = false →
        o.GetState Sample.consts.IsDirty = true → o._collisionProxyID = some id →
        (o.swept Sample.consts).GetState Sample.consts.IsDirty = false ∧
        (o.swept Sample.consts).GetState Sample.consts.IsDestroyed = false ∧
        (o.swept Sample.consts)._collisionProxyID = some id ∧
        o.sweepCall? Sample.consts = some (ProxyCall.MoveProxy id)) ∧
      (∀ o : ActorBase, o.GetState Sample.consts.IsDestroyed = false →
        o.GetState Sample.consts.IsDirty = false →
        o.swept Sample.consts = o ∧ o.sweepCall? Sample.consts = none) ∧
      w1._collisions.proxies = Sample.sweepWorld._collisions.proxies.filter (fun p =>
        decide (∀ a ∈ Sample.sweepWorld._actors,
          ResolveCollisions.evictedIn Sample.consts Sample.sweepWorld.objects a ≠ some p.1)) ∧
      ∃ L, w1._collisions.calls = Sample.sweepWorld._collisions.calls ++ L ∧
        L.Perm (Sample.sweepWorld._actors.filterMap
          (ResolveCollisions.sweepCallIn Sample.consts Sample.sweepWorld.objects)) :=
  ResolveCollisions_sweep Sample.consts Sample.sweepWorld 4 6 4 (by decide) (by decide)
    (by
      intro a ha o ho hbad
      simp only [Sample.sweepWorld, List.mem_cons, List.mem_singleton, List.not_mem_nil,
        or_false] at ha
      rcases ha with rfl | rfl | rfl
      · simp only [Sample.sweepWorld, List.getElem?_cons_zero, Option.some.injEq] at ho
        subst ho
        exact absurd hbad.1 (by decide)
      · simp only [Sample.sweepWorld, List.getElem?_cons_succ, List.getElem?_cons_zero,
          Option.some.injEq] at ho
        subst ho
        exact absurd hbad.2.2 (by simp)
      · simp only [Sample.sweepWorld, List.getElem?_cons_succ, List.getElem?_cons_zero,
          Option.some.injEq] at ho
        subst ho
        exact absurd hbad.2.1 (by decide))
    (by decide) rfl rfl

/-- C22. When `_actors` holds a non-destroyed actor that is flagged dirty and has no
collision proxy, the sweep loop of `ResolveCollisions` does not end: whatever bound is put on
the number of iterations, the loop is still running when the bound is reached. The loop
reaches that actor and then evaluates `continue` without advancing the iterator. -/
theorem ResolveCollisions_sweep_missing_proxy {ψ : Type} (c : Consts) (w : LevelWorld ψ)
    (hbad : ∃ a ∈ w._actors, ∃ o, w.objects[a]? = some o ∧ o.dirtyWithoutProxy c) :
    (∀ a ∈ w._actors, a < w.objects.length) →
      ∀ fuel, ResolveCollisions.sweep c fuel 0 w = none := by
  intro _ fuel
  rw [ResolveCollisions.sweep_eq c fuel 0 w (Nat.zero_le _), List.drop_zero,
    ResolveCollisions.sweepRest_diverges c fuel w._actors (w.objects, w._collisions) hbad]
  rfl

theorem ResolveCollisions_sweep_missing_proxy_witness :
    CollisionOp.applyAll Sample.consts (LevelWorld.empty ())
        [CollisionOp.AddActor (Sample.actor 128), CollisionOp.MarkDirty 0] =
        some Sample.stuckWorld ∧
      ∀ fuel, ResolveCollisions.sweep Sample.consts fuel 0 Sample.stuckWorld = none :=
  ⟨rfl, ResolveCollisions_sweep_missing_proxy Sample.consts Sample.stuckWorld
    ⟨0, by decide, Sample.actor (128 ||| 64), rfl, rfl, rfl, rfl⟩ (by decide)⟩

/-! ## The proxy invariant -/

theorem foldl_max_ge_init (l : List Int) (init : Int) : init ≤ l.foldl max init := by
  induction l generalizing init with
  | nil => exact le_refl _
  | cons x xs ih =>
    simp only [List.foldl_cons]
    exact le_trans (le_max_left _ _) (ih _)

theorem foldl_max_ge_mem (l : List Int) (init x : Int) (h : x ∈ l) : x ≤ l.foldl max init := by
  induction l generalizing init with
  | nil => exact absurd h (List.not_mem_nil _)
  | cons y ys ih =>
    simp only [List.foldl_cons]
    rcases List.mem_cons.1 h with e | e
    · subst e
      exact le_trans (le_max_right _ _) (foldl_max_ge_init _ _)
    · exact ih _ e

theorem DynamicTreeBroadPhase.CreateProxy_fresh (t : DynamicTreeBroadPhase) (a : ActorRef) :
    (t.CreateProxy a).1 ∉ t.proxies.map Prod.fst := by
  intro h
  have := foldl_max_ge_mem _ (-1) _ h
  simp only [DynamicTreeBroadPhase.CreateProxy] at this
  omega

theorem ProxyInvariant_empty {ψ : Type} (c : Consts) (sp : ψ) :
    (LevelWorld.empty sp).ProxyInvariant c := by
  refine ⟨?_, ?_, ?_, ?_, ?_⟩ <;> simp [LevelWorld.empty]

theorem ProxyInvariant_AddActor_aux {ψ : Type} (c : Consts) (w : LevelWorld ψ) (o0 : ActorBase)
    (hnone : o0._collisionProxyID = none) (hinv : w.ProxyInvariant c) :
    (LevelHandler.AddActor c { w with objects := w.objects ++ [o0] }
      w.objects.length).ProxyInvariant c := by
  obtain ⟨h1, h2, h3, h4, h5⟩ := hinv
  have hn : w.objects.length ∉ w._actors := fun hm => absurd (h1 _ hm) (lt_irrefl _)
  have hget : (w.objects ++ [o0])[w.objects.length]? = some o0 := by simp
  have hold : ∀ b, b ∈ w._actors → (w.objects ++ [o0])[b]? = w.objects[b]? := by
    intro b hb
    rw [List.getElem?_append_left (h1 b hb)]
  unfold LevelHandler.AddActor
  simp only [hget]
  by_cases hf : o0.GetState c.ForceDisableCollisions = true
  · simp only [hf, Bool.not_true, Bool.false_eq_true, if_false]
    refine ⟨?_, ?_, h3, ?_, ?_⟩
    · intro a ha
      simp only [List.mem_append, List.mem_singleton] at ha
      show a < (w.objects ++ [o0]).length
      rw [List.length_append, List.length_singleton]
      rcases ha with ha | ha
      · exact Nat.lt_succ_of_lt (h1 a ha)
      · rw [ha]
        exact Nat.lt_succ_self _
    · exact List.Nodup.append h2 (List.nodup_singleton _) (by simpa using hn)
    · intro p hp
      obtain ⟨q1, o, q2, q3⟩ := h4 p hp
      exact ⟨List.mem_append_left _ q1, o, by simp only; rw [hold _ q1]; exact q2, q3⟩
    · intro a ha o ho
      simp only [List.mem_append, List.mem_singleton] at ha
      simp only at ho
      rcases ha with ha | ha
      · rw [hold a ha] at ho
        exact h5 a ha o ho
      · subst ha
        rw [hget] at ho
        simp only [Option.some.injEq] at ho
        subst ho
        exact ⟨fun hh => by rw [hf] at hh; exact absurd hh (by simp), fun _ => hnone⟩
  · have hf' : o0.GetState c.ForceDisableCollisions = false := by simpa using hf
    simp only [hf', Bool.not_false, if_true]
    have hfresh := DynamicTreeBroadPhase.CreateProxy_fresh w._collisions w.objects.length
    have hlt : w.objects.length < (w.objects ++ [o0]).length := by simp
    generalize hid : (w._collisions.CreateProxy w.objects.length).1 = id at hfresh ⊢
    have hprox : (w._collisions.CreateProxy w.objects.length).2.proxies =
        w._collisions.proxies ++ [(id, w.objects.length)] := by
      rw [← hid]
      rfl
    have hold2 : ∀ b, b ∈ w._actors →
        ((w.objects ++ [o0]).set w.objects.length { o0 with _collisionProxyID := some id })[b]? =
          w.objects[b]? := by
      intro b hb
      have hne : w.objects.length ≠ b := fun e => hn (e ▸ hb)
      rw [List.getElem?_set_ne hne, hold b hb]
    refine ⟨?_, ?_, ?_, ?_, ?_⟩
    · intro a ha
      simp only [List.mem_append, List.mem_singleton] at ha
      show a < ((w.objects ++ [o0]).set w.objects.length _).length
      rw [List.length_set, List.length_append, List.length_singleton]
      rcases ha with ha | ha
      · exact Nat.lt_succ_of_lt (h1 a ha)
      · rw [ha]
        exact Nat.lt_succ_self _
    · exact List.Nodup.append h2 (List.nodup_singleton _) (by simpa using hn)
    · show ((w._collisions.CreateProxy w.objects.length).2.proxies.map Prod.fst).Nodup
      rw [hprox, List.map_append]
      refine List.Nodup.append h3 (List.nodup_singleton _) ?_
      simpa using hfresh
    · intro p hp
      have hp' : p ∈ (w._collisions.CreateProxy w.objects.length).2.proxies := hp
      rw [hprox, List.mem_append, List.mem_singleton] at hp'
      rcases hp' with hp' | hp'
      · obtain ⟨q1, o, q2, q3⟩ := h4 p hp'
        exact ⟨List.mem_append_left _ q1, o, by simp only; rw [hold2 _ q1]; exact q2, q3⟩
      · subst hp'
        refine ⟨by simp, { o0 with _collisionProxyID := some id }, ?_, rfl⟩
        simp only
        rw [List.getElem?_set_self hlt]
    · intro a ha o ho
      simp only [List.mem_append, List.mem_singleton] at ha
      simp only at ho
      rcases ha with ha | ha
      · rw [hold2 a ha] at ho
        obtain ⟨q1, q2⟩ := h5 a ha o ho
        refine ⟨fun hh => ?_, q2⟩
        obtain ⟨id1, e1, e2⟩ := q1 hh
        refine ⟨id1, e1, ?_⟩
        show (id1, a) ∈ (w._collisions.CreateProxy w.objects.length).2.proxies
        rw [hprox]
        exact List.mem_append_left _ e2
      · subst ha
        rw [List.getElem?_set_self hlt] at ho
        simp only [Option.some.injEq] at ho
        subst ho
        refine ⟨fun _ => ⟨id, rfl, ?_⟩, fun hh => ?_⟩
        · show (id, w.objects.length) ∈ (w._collisions.CreateProxy w.objects.length).2.proxies
          rw [hprox]
          simp
        · have e : ({ o0 with _collisionProxyID := some id } : ActorBase).GetState
              c.ForceDisableCollisions = o0.GetState c.ForceDisableCollisions := rfl
          rw [e, hf'] at hh
          exact absurd hh (by simp)

/-- Raising a flag other than `ForceDisableCollisions` on one actor keeps the invariant. -/
theorem ProxyInvariant_raise {ψ : Type} (c : Consts) (w : LevelWorld ψ) (a : ActorRef)
    (i k : Nat) (hk : c.ForceDisableCollisions = 2 ^ k) (hik : i ≠ k)
    (hinv : w.ProxyInvariant c) :
    ({ w with objects := w.objects.modify (fun o => o.raiseState (2 ^ i)) a } :
      LevelWorld ψ).ProxyInvariant c := by
  obtain ⟨h1, h2, h3, h4, h5⟩ := hinv
  have hget : ∀ (b : Nat) (o1 : ActorBase), (w.objects.modify (fun o => o.raiseState (2 ^ i)) a)[b]? = some o1 →
      ∃ o, w.objects[b]? = some o ∧ o1._collisionProxyID = o._collisionProxyID ∧
        o1.GetState c.ForceDisableCollisions = o.GetState c.ForceDisableCollisions := by
    intro b o1 hb
    rw [List.getElem?_modify] at hb
    cases ho : w.objects[b]? with
    | none => simp [ho] at hb
    | some o =>
      refine ⟨o, rfl, ?_⟩
      by_cases hab : a = b
      · simp only [ho, hab, if_true, Option.map_eq_map, Option.map_some',
          Option.some.injEq] at hb
        subst hb
        refine ⟨rfl, ?_⟩
        rw [hk, ActorBase.GetState_raiseState]
        simp [hik]
      · simp only [ho, hab, if_false, Option.map_eq_map, Option.map_some',
          Option.some.injEq] at hb
        subst hb
        exact ⟨rfl, rfl⟩
  have hget2 : ∀ (b : Nat) (o : ActorBase), w.objects[b]? = some o →
      ∃ o1, (w.objects.modify (fun o => o.raiseState (2 ^ i)) a)[b]? = some o1 ∧
        o1._collisionProxyID = o._collisionProxyID := by
    intro b o hb
    rw [List.getElem?_modify, hb]
    by_cases hab : a = b
    · exact ⟨o.raiseState (2 ^ i),
        by simp only [hab, if_true, Option.map_eq_map, Option.map_some'], rfl⟩
    · exact ⟨o, by simp only [hab, if_false, Option.map_eq_map, Option.map_some'], rfl⟩
  refine ⟨?_, h2, h3, ?_, ?_⟩
  · intro b hb
    show b < (w.objects.modify _ a).length
    rw [List.length_modify]
    exact h1 b hb
  · intro p hp
    obtain ⟨q1, o, q2, q3⟩ := h4 p hp
    obtain ⟨o1, e1, e2⟩ := hget2 p.2 o q2
    exact ⟨q1, o1, e1, by rw [e2, q3]⟩
  · intro b hb o1 ho1
    obtain ⟨o, e1, e2, e3⟩ := hget b o1 ho1
    obtain ⟨q1, q2⟩ := h5 b hb o e1
    rw [e2, e3]
    exact ⟨q1, q2⟩

theorem proxies_pair_unique (l : List (Int × ActorRef)) (h : (l.map Prod.fst).Nodup)
    (id : Int) (a b : ActorRef) (ha : (id, a) ∈ l) (hb : (id, b) ∈ l) : a = b := by
  have := List.inj_on_of_nodup_map h ha hb rfl
  simpa using this

/-- A sweep that returns keeps the invariant and leaves no destroyed actor in the list. -/
theorem ProxyInvariant_sweep {ψ : Type} (c : Consts) (w w1 : LevelWorld ψ) (fuel i j k : Nat)
    (hY : c.IsDirty = 2 ^ i) (hD : c.IsDestroyed = 2 ^ j)
    (hk : c.ForceDisableCollisions = 2 ^ k) (hik : i ≠ k)
    (hinv : w.ProxyInvariant c) (hrun : ResolveCollisions.sweep c fuel 0 w = some w1) :
    w1.ProxyInvariant c ∧ ∀ a ∈ w1._actors, LevelWorld.alive c w1 a = true := by
  obtain ⟨h1, h2, h3, h4, h5⟩ := hinv
  rw [ResolveCollisions.sweep_eq c fuel 0 w (Nat.zero_le _), List.drop_zero] at hrun
  cases hres : ResolveCollisions.sweepRest c fuel w._actors (w.objects, w._collisions) with
  | none => simp [hres] at hrun
  | some res =>
    obtain ⟨s1, s2, s3, _⟩ := ResolveCollisions.sweepRest_spec c fuel w._actors
      (w.objects, w._collisions) res hres h2
    simp only [hres, Option.map_some', List.take_zero, List.nil_append,
      Option.some.injEq] at hrun
    subst hrun
    simp only at s1 s2 s3
    -- a surviving actor: its old object is alive, its new object is the swept one
    have hsurv : ∀ a ∈ res.1, a ∈ w._actors ∧ ∃ o, w.objects[a]? = some o ∧
        o.GetState c.IsDestroyed = false ∧ res.2.1[a]? = some (o.swept c) ∧
        (o.swept c)._collisionProxyID = o._collisionProxyID ∧
        (o.swept c).GetState c.ForceDisableCollisions = o.GetState c.ForceDisableCollisions ∧
        (o.swept c).GetState c.IsDestroyed = false := by
      intro a ha
      have ha' := s1.mem_iff.1 ha
      rw [List.mem_filter] at ha'
      obtain ⟨hmem, hal⟩ := ha'
      refine ⟨hmem, ?_⟩
      simp only [ResolveCollisions.aliveIn] at hal
      cases ho : w.objects[a]? with
      | none => simp [ho] at hal
      | some o =>
        simp only [ho, Bool.not_eq_true'] at hal
        have hs := s2 a
        simp only [hmem, if_true, ho, Option.map_some'] at hs
        refine ⟨o, rfl, hal, hs, ?_⟩
        by_cases hd : o.GetState c.IsDirty = true
        · cases hp : o._collisionProxyID with
          | none =>
            have e : o.swept c = o := by simp [ActorBase.swept, hal, hd, hp]
            rw [e]
            exact ⟨hp, rfl, hal⟩
          | some id =>
            have e : o.swept c = o.clearState c.IsDirty := by
              simp [ActorBase.swept, hal, hd, hp]
            rw [e]
            refine ⟨by simpa [ActorBase.clearState] using hp, ?_, ?_⟩
            · rw [hY, hk, ActorBase.GetState_clearState]
              simp [hik]
            · rw [hY, hD, ActorBase.GetState_clearState, ← hD, hal]
              rfl
        · have hd' : o.GetState c.IsDirty = false := by simpa using hd
          have e : o.swept c = o := by simp [ActorBase.swept, hal, hd']
          rw [e]
          exact ⟨rfl, rfl, hal⟩
    have hsub : ∀ a, a ∈ res.1 ↔ a ∈ w._actors ∧ ResolveCollisions.aliveIn c w.objects a = true := by
      intro a
      rw [s1.mem_iff, List.mem_filter]
    refine ⟨⟨?_, ?_, ?_, ?_, ?_⟩, ?_⟩
    · intro a ha
      obtain ⟨_, o, _, _, e, _⟩ := hsurv a ha
      show a < res.2.1.length
      rw [List.getElem?_eq_some_iff] at e
      exact e.1
    · exact s1.nodup_iff.2 (h2.filter _)
    · show (res.2.2.proxies.map Prod.fst).Nodup
      rw [s3]
      exact h3.sublist ((List.filter_sublist _).map _)
    · intro p hp
      have hp' : p ∈ res.2.2.proxies := hp
      rw [s3, List.mem_filter] at hp'
      obtain ⟨hpm, hev⟩ := hp'
      obtain ⟨q1, o, q2, q3⟩ := h4 p hpm
      have hev' := of_decide_eq_true hev p.2 q1
      have hal : o.GetState c.IsDestroyed = false := by
        by_contra hd
        have hd' : o.GetState c.IsDestroyed = true := by simpa using hd
        apply hev'
        simp [ResolveCollisions.evictedIn, q2, ActorBase.evictedProxy?, hd', q3]
      have hin : p.2 ∈ res.1 := by
        rw [hsub]
        exact ⟨q1, by simp [ResolveCollisions.aliveIn, q2, hal]⟩
      obtain ⟨_, o', e0, _, e1, e2, _⟩ := hsurv p.2 hin
      rw [q2] at e0
      simp only [Option.some.injEq] at e0
      subst e0
      exact ⟨hin, _, e1, by rw [e2, q3]⟩
    · intro a ha o1 ho1
      obtain ⟨hmem, o, e0, hal, e1, e2, e3, _⟩ := hsurv a ha
      have ho1' : res.2.1[a]? = some o1 := ho1
      rw [e1] at ho1'
      simp only [Option.some.injEq] at ho1'
      subst ho1'
      obtain ⟨q1, q2⟩ := h5 a hmem o e0
      rw [e2, e3]
      refine ⟨fun hh => ?_, q2⟩
      obtain ⟨id, f1, f2⟩ := q1 hh
      refine ⟨id, f1, ?_⟩
      show (id, a) ∈ res.2.2.proxies
      rw [s3, List.mem_filter]
      refine ⟨f2, decide_eq_true ?_⟩
      intro a' ha' hev
      -- an evicted actor holding `id` would be `a` itself
      simp only [ResolveCollisions.evictedIn] at hev
      cases ho' : w.objects[a']? with
      | none => simp [ho'] at hev
      | some o' =>
        simp only [ho', Option.some_bind, ActorBase.evictedProxy?] at hev
        by_cases hd : o'.GetState c.IsDestroyed = true
        · simp only [hd, if_true] at hev
          obtain ⟨r1, r2⟩ := h5 a' ha' o' ho'
          have hen : o'.GetState c.ForceDisableCollisions = false := by
            by_contra hne
            have : o'.GetState c.ForceDisableCollisions = true := by simpa using hne
            rw [r2 this] at hev
            exact absurd hev (by simp)
          obtain ⟨id', g1, g2⟩ := r1 hen
          rw [g1] at hev
          simp only [Option.some.injEq] at hev
          subst hev
          have := proxies_pair_unique _ h3 id' a a' f2 g2
          subst this
          rw [e0] at ho'
          simp only [Option.some.injEq] at ho'
          subst ho'
          rw [hal] at hd
          exact absurd hd (by simp)
        · simp [hd] at hev
    · intro a ha
      obtain ⟨_, o, _, _, e1, _, _, e4⟩ := hsurv a ha
      simp only [LevelWorld.alive, ResolveCollisions.aliveIn]
      have e1' : res.2.1[a]? = some (o.swept c) := e1
      simp [e1', e4]

/-- Under the invariant with no destroyed actor in the list, the handles of the index are in
one-to-one correspondence with the collision-enabled actors of the list. -/
theorem ProxyInvariant_count {ψ : Type} (c : Consts) (w : LevelWorld ψ)
    (hinv : w.ProxyInvariant c) (halive : ∀ a ∈ w._actors, LevelWorld.alive c w a = true) :
    (w._collisions.proxies.map Prod.snd).Perm
        (w._actors.filter fun a => LevelWorld.alive c w a && LevelWorld.collisionEnabled c w a) ∧
      w._collisions.proxies.length =
        (w._actors.filter fun a =>
          LevelWorld.alive c w a && LevelWorld.collisionEnabled c w a).length := by
  obtain ⟨h1, h2, h3, h4, h5⟩ := hinv
  have hperm : (w._collisions.proxies.map Prod.snd).Perm
      (w._actors.filter fun a =>
        LevelWorld.alive c w a && LevelWorld.collisionEnabled c w a) := by
    rw [List.perm_ext_iff_of_nodup]
    · intro a
      rw [List.mem_filter, List.mem_map]
      constructor
      · rintro ⟨p, hp, rfl⟩
        obtain ⟨q1, o, q2, q3⟩ := h4 p hp
        refine ⟨q1, ?_⟩
        rw [halive p.2 q1, Bool.true_and]
        simp only [LevelWorld.collisionEnabled, q2]
        obtain ⟨_, r2⟩ := h5 p.2 q1 o q2
        by_contra hne
        have : o.GetState c.ForceDisableCollisions = true := by simpa using hne
        rw [r2 this] at q3
        exact absurd q3 (by simp)
      · rintro ⟨ha, hen⟩
        rw [halive a ha, Bool.true_and] at hen
        simp only [LevelWorld.collisionEnabled] at hen
        cases ho : w.objects[a]? with
        | none => simp [ho] at hen
        | some o =>
          simp only [ho, Bool.not_eq_true'] at hen
          obtain ⟨id, _, f2⟩ := (h5 a ha o ho).1 hen
          exact ⟨(id, a), f2, rfl⟩
    · apply List.Nodup.map_on _ (List.Nodup.of_map _ h3)
      intro p hp q hq hpq
      obtain ⟨_, o, q2, q3⟩ := h4 p hp
      obtain ⟨_, o', q2', q3'⟩ := h4 q hq
      rw [hpq, q2'] at q2
      simp only [Option.some.injEq] at q2
      subst q2
      rw [q3'] at q3
      simp only [Option.some.injEq] at q3
      exact Prod.ext q3.symm hpq
    · exact h2.filter _
  refine ⟨hperm, ?_⟩
  rw [← hperm.length_eq, List.length_map]

theorem CollisionOp.apply_invariant {ψ : Type} (c : Consts) (i j k : Nat)
    (hY : c.IsDirty = 2 ^ i) (hD : c.IsDestroyed = 2 ^ j)
    (hk : c.ForceDisableCollisions = 2 ^ k) (hik : i ≠ k) (hjk : j ≠ k)
    (w w1 : LevelWorld ψ) (op : CollisionOp) (hinv : w.ProxyInvariant c)
    (hrun : CollisionOp.apply c w op = some w1) : w1.ProxyInvariant c := by
  cases op with
  | AddActor actor =>
    simp only [CollisionOp.apply, Option.some.injEq] at hrun
    rw [← hrun]
    exact ProxyInvariant_AddActor_aux c w _ rfl hinv
  | MarkDestroyed a =>
    simp only [CollisionOp.apply, Option.some.injEq] at hrun
    rw [← hrun, hD]
    exact ProxyInvariant_raise c w a j k hk hjk hinv
  | MarkDirty a =>
    simp only [CollisionOp.apply, Option.some.injEq] at hrun
    rw [← hrun, hY]
    exact ProxyInvariant_raise c w a i k hk hik hinv
  | Sweep fuel =>
    exact (ProxyInvariant_sweep c w w1 fuel i j k hY hD hk hik hinv hrun).1

theorem CollisionOp.applyAll_invariant {ψ : Type} (c : Consts) (i j k : Nat)
    (hY : c.IsDirty = 2 ^ i) (hD : c.IsDestroyed = 2 ^ j)
    (hk : c.ForceDisableCollisions = 2 ^ k) (hik : i ≠ k) (hjk : j ≠ k)
    (ops : List CollisionOp) :
    ∀ (w w1 : LevelWorld ψ), w.ProxyInvariant c → CollisionOp.applyAll c w ops = some w1 →
      w1.ProxyInvariant c := by
  induction ops with
  | nil =>
    intro w w1 hinv hrun
    simp only [CollisionOp.applyAll, List.foldlM_nil, Option.pure_def,
      Option.some.injEq] at hrun
    rw [← hrun]
    exact hinv
  | cons op ops ih =>
    intro w w1 hinv hrun
    simp only [CollisionOp.applyAll, List.foldlM_cons, Option.bind_eq_bind] at hrun
    cases h1 : CollisionOp.apply c w op with
    | none => simp [h1] at hrun
    | some w2 =>
      rw [h1, Option.some_bind] at hrun
      exact ih w2 w1 (CollisionOp.apply_invariant c i j k hY hD hk hik hjk w w2 op hinv h1) hrun

/-- C29. With `IsDirty`, `IsDestroyed` and `ForceDisableCollisions` single bits, the last one
distinct from the other two, start from a world without actors and run any sequence of
`AddActor` calls, flag changes to `IsDestroyed` or `IsDirty` and sweeps that ends with a
sweep. If the run returns, the proxy invariant holds and no actor of `_actors` is destroyed;
the handles of the spatial index correspond one to one to the actors of `_actors` that are
alive and collision-enabled, so their numbers are equal; each such actor holds a non-null
handle of the index; two distinct actors of the list never hold the same handle; every handle
belongs to an actor that is still in the list. A further sweep returns within one iteration
per actor and one more when no actor with collisions disabled is flagged dirty. -/
theorem ProxyInvariant_after_sweep {ψ : Type} (c : Consts) (sp : ψ) (ops : List CollisionOp)
    (fuel : Nat) (w1 : LevelWorld ψ) (i j k : Nat)
    (hY : c.IsDirty = 2 ^ i) (hD : c.IsDestroyed = 2 ^ j)
    (hk : c.ForceDisableCollisions = 2 ^ k) (hik : i ≠ k) (hjk : j ≠ k)
    (hrun : CollisionOp.applyAll c (LevelWorld.empty sp) (ops ++ [CollisionOp.Sweep fuel]) =
      some w1) :
    w1.ProxyInvariant c ∧
    (∀ a ∈ w1._actors, LevelWorld.alive c w1 a = true) ∧
    w1._collisions.proxies.length =
      (w1._actors.filter fun a =>
        LevelWorld.alive c w1 a && LevelWorld.collisionEnabled c w1 a).length ∧
    (w1._collisions.proxies.map Prod.snd).Perm
      (w1._actors.filter fun a =>
        LevelWorld.alive c w1 a && LevelWorld.collisionEnabled c w1 a) ∧
    (∀ a ∈ w1._actors, LevelWorld.collisionEnabled c w1 a = true →
      ∃ o id, w1.objects[a]? = some o ∧ o._collisionProxyID = some id ∧
        (id, a) ∈ w1._collisions.proxies) ∧
    (∀ a ∈ w1._actors, ∀ b ∈ w1._actors, ∀ (oa ob : ActorBase) (id : Int),
      w1.objects[a]? = some oa → w1.objects[b]? = some ob →
      oa._collisionProxyID = some id → ob._collisionProxyID = some id → a = b) ∧
    (∀ p ∈ w1._collisions.proxies, p.2 ∈ w1._actors) ∧
    ((∀ a ∈ w1._actors, ∀ o, w1.objects[a]? = some o → o.GetState c.IsDirty = true →
        o.GetState c.ForceDisableCollisions = false) →
      ∀ fuel2, w1._actors.length < fuel2 →
        ∃ w2, ResolveCollisions.sweep c fuel2 0 w1 = some w2) := by
  simp only [CollisionOp.applyAll, List.foldlM_append, List.foldlM_cons, List.foldlM_nil,
    Option.bind_eq_bind] at hrun
  cases h0 : List.foldlM (CollisionOp.apply c) (LevelWorld.empty sp) ops with
  | none => simp [h0] at hrun
  | some w0 =>
    rw [h0, Option.some_bind] at hrun
    have hinv0 : w0.ProxyInvariant c :=
      CollisionOp.applyAll_invariant c i j k hY hD hk hik hjk ops _ w0
        (ProxyInvariant_empty c sp) h0
    have hsweep : ResolveCollisions.sweep c fuel 0 w0 = some w1 := by
      cases hs : CollisionOp.apply c w0 (CollisionOp.Sweep fuel) with
      | none => simp [hs] at hrun
      | some w2 =>
        simp only [hs, Option.some_bind, Option.pure_def, Option.some.injEq] at hrun
        rw [← hrun]
        exact hs
    obtain ⟨hinv, halive⟩ := ProxyInvariant_sweep c w0 w1 fuel i j k hY hD hk hik hinv0 hsweep
    obtain ⟨hperm, hlen⟩ := ProxyInvariant_count c w1 hinv halive
    obtain ⟨h1, h2, h3, h4, h5⟩ := hinv
    have hholds : ∀ a ∈ w1._actors, ∀ (o : ActorBase) (id : Int), w1.objects[a]? = some o →
        o._collisionProxyID = some id → (id, a) ∈ w1._collisions.proxies := by
      intro a ha o id ho hp
      obtain ⟨q1, q2⟩ := h5 a ha o ho
      have hen : o.GetState c.ForceDisableCollisions = false := by
        by_contra hne
        have : o.GetState c.ForceDisableCollisions = true := by simpa using hne
        rw [q2 this] at hp
        exact absurd hp (by simp)
      obtain ⟨id1, e1, e2⟩ := q1 hen
      rw [hp] at e1
      simp only [Option.some.injEq] at e1
      rw [e1]
      exact e2
    refine ⟨⟨h1, h2, h3, h4, h5⟩, halive, hlen, hperm, ?_, ?_, fun p hp => (h4 p hp).1, ?_⟩
    · intro a ha hen
      simp only [LevelWorld.collisionEnabled] at hen
      cases ho : w1.objects[a]? with
      | none => simp [ho] at hen
      | some o =>
        simp only [ho, Bool.not_eq_true'] at hen
        obtain ⟨id, e1, e2⟩ := (h5 a ha o ho).1 hen
        exact ⟨o, id, rfl, e1, e2⟩
    · intro a ha b hb oa ob id hoa hob hpa hpb
      exact proxies_pair_unique _ h3 id a b (hholds a ha oa id hoa hpa)
        (hholds b hb ob id hob hpb)
    · intro hdirty fuel2 hf
      obtain ⟨res, hres⟩ := ResolveCollisions.sweepRest_total c fuel2 w1._actors
        (w1.objects, w1._collisions) hf h1 (by
          intro a ha o ho hbad
          have hen := hdirty a ha o ho hbad.2.1
          obtain ⟨id, e1, _⟩ := (h5 a ha o ho).1 hen
          rw [hbad.2.2] at e1
          exact absurd e1 (by simp))
      rw [ResolveCollisions.sweep_eq c fuel2 0 w1 (Nat.zero_le _), List.drop_zero, hres]
      exact ⟨_, rfl⟩

theorem ProxyInvariant_after_sweep_witness :
    Sample.afterSweep.ProxyInvariant Sample.consts ∧
    (∀ a ∈ Sample.afterSweep._actors, LevelWorld.alive Sample.consts Sample.afterSweep a = true) ∧
    Sample.afterSweep._collisions.proxies.length =
      (Sample.afterSweep._actors.filter fun a =>
        LevelWorld.alive Sample.consts Sample.afterSweep a &&
          LevelWorld.collisionEnabled Sample.consts Sample.afterSweep a).length ∧
    (Sample.afterSweep._collisions.proxies.map Prod.snd).Perm
      (Sample.afterSweep._actors.filter fun a =>
        LevelWorld.alive Sample.consts Sample.afterSweep a &&
          LevelWorld.collisionEnabled Sample.consts Sample.afterSweep a) ∧
    (∀ a ∈ Sample.afterSweep._actors,
      LevelWorld.collisionEnabled Sample.consts Sample.afterSweep a = true →
      ∃ o id, Sample.afterSweep.objects[a]? = some o ∧ o._collisionProxyID = some id ∧
        (id, a) ∈ Sample.afterSweep._collisions.proxies) ∧
    (∀ a ∈ Sample.afterSweep._actors, ∀ b ∈ Sample.afterSweep._actors,
      ∀ (oa ob : ActorBase) (id : Int),
      Sample.afterSweep.objects[a]? = some oa → Sample.afterSweep.objects[b]? = some ob →
      oa._collisionProxyID = some id → ob._collisionProxyID = some id → a = b) ∧
    (∀ p ∈ Sample.afterSweep._collisions.proxies, p.2 ∈ Sample.afterSweep._actors) ∧
    ((∀ a ∈ Sample.afterSweep._actors, ∀ o, Sample.afterSweep.objects[a]? = some o →
        o.GetState Sample.consts.IsDirty = true →
        o.GetState Sample.consts.ForceDisableCollisions = false) →
      ∀ fuel2, Sample.afterSweep._actors.length < fuel2 →
        ∃ w2, ResolveCollisions.sweep Sample.consts fuel2 0 Sample.afterSweep = some w2) :=
  ProxyInvariant_after_sweep Sample.consts ()
    [CollisionOp.AddActor (Sample.actor 0), CollisionOp.AddActor (Sample.actor 128),
      CollisionOp.MarkDestroyed 0] 3 Sample.afterSweep 6 4 7 rfl rfl rfl (by decide) (by decide)
    rfl

/-! ## The level controller: events and checkpoints -/

theorem foldlM_invariant {α β : Type} (f : β → α → Option β) (P : β → Prop)
    (hf : ∀ b a b1, P b → f b a = some b1 → P b1) :
    ∀ (l : List α) (b b1 : β), P b → l.foldlM f b = some b1 → P b1 := by
  intro l
  induction l with
  | nil =>
    intro b b1 hb h
    simp only [List.foldlM_nil, Option.pure_def, Option.some.injEq] at h
    rw [← h]
    exact hb
  | cons a l ih =>
    intro b b1 hb h
    simp only [List.foldlM_cons, Option.bind_eq_bind] at h
    cases h1 : f b a with
    | none => simp [h1] at h
    | some b2 =>
      rw [h1, Option.some_bind] at h
      exact ih b2 b1 (hf b a b2 hb h1) h

theorem ActivateEvents_tile_preserves {φ : Type} (c : Consts) (h : ILevelHandler φ)
    (Q : φ → Prop) (hQ : h.Preserves Q) (allowAsync : Bool) (x y : Int) (s s1 : Run φ)
    (hs : Q s.2.1) (hrun : ActivateEvents.tile c h allowAsync x y s = some s1) : Q s1.2.1 := by
  unfold ActivateEvents.tile at hrun
  simp only at hrun
  split at hrun
  · exact absurd hrun (by simp)
  · rename_i tile _
    split at hrun
    · split at hrun
      · simp only [Option.some.injEq] at hrun
        rw [← hrun]
        exact hQ.1 _ _ _ hs
      · split at hrun
        · have hsp := hQ.2 s.2.1 tile.Event tile.EventParams
            (if allowAsync = true then c.IsCreatedFromEventMap ||| tile.EventFlags ||| c.Async
              else c.IsCreatedFromEventMap ||| tile.EventFlags) x y c.SpritePlaneZ hs
          split at hrun
          · rename_i actor hact
            simp only [Option.some.injEq] at hrun
            rw [← hrun]
            exact hsp.2 actor hact
          · simp only [Option.some.injEq] at hrun
            rw [← hrun]
            exact hsp.1
        · simp only [Option.some.injEq] at hrun
          rw [← hrun]
          exact hs
    · simp only [Option.some.injEq] at hrun
      rw [← hrun]
      exact hs

theorem ActivateEvents_preserves {φ : Type} (c : Consts) (h : ILevelHandler φ)
    (Q : φ → Prop) (hQ : h.Preserves Q) (m : EventMap) (w : φ) (tx1 ty1 tx2 ty2 : Int)
    (allowAsync : Bool) (r : Run φ) (hw : Q w)
    (hrun : ActivateEvents c h m w tx1 ty1 tx2 ty2 allowAsync = some r) : Q r.2.1 := by
  unfold ActivateEvents at hrun
  simp only at hrun
  rw [foldlM_nested] at hrun
  exact foldlM_invariant _ (fun s : Run φ => Q s.2.1)
    (fun b a b1 hb hstep => ActivateEvents_tile_preserves c h Q hQ allowAsync a.1 a.2 b b1 hb hstep)
    _ _ _ hw hrun

theorem RollbackToCheckpoint_tile_preserves {φ : Type} (c : Consts) (h : ILevelHandler φ)
    (Q : φ → Prop) (hQ : h.Preserves Q) (prev : List EventTile) (y x : Int) (s s1 : Run φ)
    (hs : Q s.2.1) (hrun : RollbackToCheckpoint.tile c h prev y x s = some s1) :
    Q s1.2.1 := by
  unfold RollbackToCheckpoint.tile at hrun
  simp only at hrun
  split at hrun
  · rename_i tile tilePrev _ _
    split at hrun
    · split at hrun
      · simp only [Option.some.injEq] at hrun
        rw [← hrun]
        exact hQ.1 _ _ _ hs
      · split at hrun
        · have hsp := hQ.2 s.2.1 tilePrev.Event tilePrev.EventParams
            (c.IsCreatedFromEventMap ||| tilePrev.EventFlags) x y c.MainPlaneZ hs
          split at hrun
          · rename_i actor hact
            simp only [Option.some.injEq] at hrun
            rw [← hrun]
            exact hsp.2 actor hact
          · simp only [Option.some.injEq] at hrun
            rw [← hrun]
            exact hsp.1
        · simp only [Option.some.injEq] at hrun
          rw [← hrun]
          exact hs
    · simp only [Option.some.injEq] at hrun
      rw [← hrun]
      exact hs
  · exact absurd hrun (by simp)

theorem RollbackToCheckpoint_preserves {φ : Type} (c : Consts) (h : ILevelHandler φ)
    (Q : φ → Prop) (hQ : h.Preserves Q) (m : EventMap) (w : φ) (r : Run φ) (hw : Q w)
    (hrun : RollbackToCheckpoint c h m w = some r) : Q r.2.1 := by
  unfold RollbackToCheckpoint at hrun
  cases hp : m._eventLayoutForRollback with
  | none =>
    simp only [hp, Option.some.injEq] at hrun
    rw [← hrun]
    exact hw
  | some prev =>
    simp only [hp] at hrun
    rw [foldlM_nested] at hrun
    split at hrun
    · exact absurd hrun (by simp)
    · rename_i s hfold
      simp only [Option.some.injEq] at hrun
      rw [← hrun]
      have hq : Q s.2.1 := foldlM_invariant _ (fun s : Run φ => Q s.2.1)
        (fun b a b1 hb hstep =>
          RollbackToCheckpoint_tile_preserves c h Q hQ prev a.1 a.2 b b1 hb hstep)
        _ _ s hw hfold
      exact hq

theorem ProcessGenerators.step_preserves {φ : Type} (c : Consts) (h : ILevelHandler φ)
    (Q : φ → Prop) (hQ : h.Preserves Q) (layout : List EventTile) (X : Int) (dt : ℚ)
    (g : GeneratorInfo) (w : φ) (r : GeneratorInfo × φ × List Call) (hw : Q w)
    (hrun : ProcessGenerators.step c h layout X dt g w = some r) : Q r.2.1 := by
  unfold ProcessGenerators.step at hrun
  split at hrun
  · exact absurd hrun (by simp)
  · split at hrun
    · simp only [Option.some.injEq] at hrun
      rw [← hrun]
      exact hw
    · split at hrun
      · split at hrun
        · have hsp := hQ.2 w g.Event g.EventParams c.IsFromGenerator (Int.tmod g.EventPos X)
            (Int.tdiv g.EventPos X) c.SpritePlaneZ hw
          simp only at hrun
          split at hrun
          · rename_i actor hact
            simp only [Option.some.injEq] at hrun
            rw [← hrun]
            exact hsp.2 actor hact
          · simp only [Option.some.injEq] at hrun
            rw [← hrun]
            exact hsp.1
        · simp only [Option.some.injEq] at hrun
          rw [← hrun]
          exact hw
      · simp only [Option.some.injEq] at hrun
        rw [← hrun]
        exact hw

theorem ProcessGenerators.loop_preserves {φ : Type} (c : Consts) (h : ILevelHandler φ)
    (Q : φ → Prop) (hQ : h.Preserves Q) (layout : List EventTile) (X : Int) (dt : ℚ)
    (gs : List GeneratorInfo) :
    ∀ (w : φ) (r : List GeneratorInfo × φ × List Call), Q w →
      ProcessGenerators.loop c h layout X dt gs w = some r → Q r.2.1 := by
  induction gs with
  | nil =>
    intro w r hw hrun
    simp only [ProcessGenerators.loop, Option.some.injEq] at hrun
    rw [← hrun]
    exact hw
  | cons g gs ih =>
    intro w r hw hrun
    simp only [ProcessGenerators.loop] at hrun
    cases h1 : ProcessGenerators.step c h layout X dt g w with
    | none => simp [h1] at hrun
    | some r1 =>
      simp only [h1] at hrun
      cases h2 : ProcessGenerators.loop c h layout X dt gs r1.2.1 with
      | none => simp [h2] at hrun
      | some rs =>
        simp only [h2, Option.some.injEq] at hrun
        rw [← hrun]
        exact ih r1.2.1 rs (ProcessGenerators.step_preserves c h Q hQ layout X dt g w r1 hw h1) h2

theorem ProcessGenerators_preserves {φ : Type} (c : Consts) (h : ILevelHandler φ)
    (Q : φ → Prop) (hQ : h.Preserves Q) (m : EventMap) (w : φ) (dt : ℚ) (r : Run φ)
    (hw : Q w) (hrun : ProcessGenerators c h m w dt = some r) : Q r.2.1 := by
  unfold ProcessGenerators at hrun
  cases h1 : ProcessGenerators.loop c h m._eventLayout m._layoutSize.X dt m._generators w with
  | none => simp [h1] at hrun
  | some r1 =>
    simp only [h1, Option.some.injEq] at hrun
    rw [← hrun]
    exact ProcessGenerators.loop_preserves c h Q hQ _ _ _ _ w r1 hw h1

theorem LevelHandler.callbacks_keeps {ψ : Type} (c : Consts) (spawn : EventSpawner ψ)
    (objs0 : List ActorBase) :
    (LevelHandler.callbacks c spawn).Preserves (LevelWorld.Keeps objs0) := by
  refine ⟨fun w _ _ hw => hw, ?_⟩
  intro w type params flags x y z hw
  obtain ⟨hlen, hget⟩ := hw
  cases hsp : spawn w.spawner type params flags x y z with
  | mk oa sp =>
    cases oa with
    | none =>
      simp only [LevelHandler.callbacks, hsp]
      exact ⟨⟨hlen, hget⟩, fun actor hact => absurd hact (by simp)⟩
    | some o =>
      simp only [LevelHandler.callbacks, hsp]
      have hk : LevelWorld.Keeps objs0
          ({ w with spawner := sp, objects := w.objects ++ [o] } : LevelWorld ψ) := by
        refine ⟨?_, ?_⟩
        · show objs0.length ≤ (w.objects ++ [o]).length
          rw [List.length_append]
          exact Nat.le_add_right_of_le hlen
        · intro b hb
          show (w.objects ++ [o])[b]? = objs0[b]?
          rw [List.getElem?_append_left (Nat.lt_of_lt_of_le hb hlen)]
          exact hget b hb
      refine ⟨hk, ?_⟩
      intro actor hact
      simp only [Option.some.injEq] at hact
      subst hact
      unfold LevelHandler.AddActor
      simp only [List.getElem?_concat_length]
      split
      · refine ⟨?_, ?_⟩
        · show objs0.length ≤ ((w.objects ++ [o]).set w.objects.length _).length
          rw [List.length_set, List.length_append]
          exact Nat.le_add_right_of_le hlen
        · intro b hb
          show ((w.objects ++ [o]).set w.objects.length _)[b]? = objs0[b]?
          have hne : w.objects.length ≠ b := by
            intro e
            rw [← e] at hb
            exact absurd hlen (Nat.not_le.2 hb)
          rw [List.getElem?_set_ne hne, List.getElem?_append_left (Nat.lt_of_lt_of_le hb hlen)]
          exact hget b hb
      · exact hk

/-- `Deactivate` on an allocated grid: it returns, and only the tile at `(x, y)`, when that
is inside the grid, changes: its active bit is cleared unless its kind is `Empty`. -/
theorem Deactivate_spec (m : EventMap) (x y : Int) (hwf : m.WF) :
    ∃ m1, Deactivate m x y = some m1 ∧ m1 = { m with _eventLayout := m1._eventLayout } ∧
      m1._eventLayout.length = m._eventLayout.length ∧
      ∀ j : Int, tileAt? m1._eventLayout j =
        (tileAt? m._eventLayout j).map
          (fun t => if m.inGrid x y ∧ j = x + y * m._layoutSize.X then t.deactivated else t) := by
  unfold Deactivate HasEventByPosition
  by_cases hin : m.inGrid x y
  · have hcond : x ≥ 0 ∧ y ≥ 0 ∧ y < m._layoutSize.Y ∧ x < m._layoutSize.X :=
      ⟨hin.1, hin.2.2.1, hin.2.2.2, hin.2.1⟩
    obtain ⟨t, ht⟩ := cell_isSome m x y hwf hin
    have ht1 : tileAt? m._eventLayout (x + y * m._layoutSize.X) = some t := ht
    have hb := tileAt?_lt_of_some _ _ _ ht1
    rw [if_pos hcond, ht1]
    by_cases hE : t.Event = EventType.Empty
    · have hbne : (t.Event != EventType.Empty) = false := by simp [hE]
      simp only [hbne]
      refine ⟨m, rfl, rfl, rfl, ?_⟩
      intro j
      cases hj : tileAt? m._eventLayout j with
      | none => rfl
      | some tj =>
        simp only [Option.map_some', Option.some.injEq]
        by_cases hjx : j = x + y * m._layoutSize.X
        · rw [hjx, ht1] at hj
          simp only [Option.some.injEq] at hj
          subst hj
          simp [hin, hjx, EventTile.deactivated, hE]
        · simp [hjx]
    · have hbne : (t.Event != EventType.Empty) = true := by simpa using hE
      simp only [hbne, ht1]
      refine ⟨_, rfl, rfl, length_setTile _ _ _, ?_⟩
      intro j
      simp only
      by_cases hjx : j = x + y * m._layoutSize.X
      · rw [hjx, tileAt?_setTile_self _ _ _ hb.1 hb.2, ht1]
        simp [hin, EventTile.deactivated, hE]
      · rw [tileAt?_setTile_ne _ _ _ _ hb.1 (fun e => hjx e.symm)]
        cases tileAt? m._eventLayout j with
        | none => rfl
        | some tj => simp [hjx]
  · have hcond : ¬ (x ≥ 0 ∧ y ≥ 0 ∧ y < m._layoutSize.Y ∧ x < m._layoutSize.X) := by
      intro hc
      exact hin ⟨hc.1, hc.2.2.2, hc.2.1, hc.2.2.1⟩
    rw [if_neg hcond]
    refine ⟨m, rfl, rfl, rfl, ?_⟩
    intro j
    cases tileAt? m._eventLayout j with
    | none => rfl
    | some tj => simp [hin]

/-- `ResetGenerator` for a tile inside an allocated grid returns and touches the generator
table only. -/
theorem ResetGenerator_spec (m : EventMap) (x y : Int) (hwf : m.WF) (hin : m.inGrid x y) :
    ∃ m1, ResetGenerator m x y = some m1 ∧ m1 = { m with _generators := m1._generators } ∧
      m1._generators.length = m._generators.length := by
  obtain ⟨t, ht⟩ := cell_isSome m x y hwf hin
  have ht1 : tileAt? m._eventLayout (x + y * m._layoutSize.X) = some t := ht
  unfold ResetGenerator
  rw [ht1]
  simp only
  split
  · exact ⟨m, rfl, rfl, rfl⟩
  · exact ⟨_, rfl, rfl, by simp⟩

/-- The bookkeeping for one actor on an allocated grid, the origin tile of an actor from a
generator being inside the grid: it returns; the grid changes at the origin tile only, whose
active bit is cleared unless its kind is `Empty`. -/
theorem LevelHandler.releaseTile_spec (c : Consts) (em : EventMap) (o : ActorBase)
    (hwf : em.WF)
    (hgen : o._state &&& c.IsFromGenerator = c.IsFromGenerator →
      em.inGrid o._originTile.X o._originTile.Y) :
    ∃ em1, LevelHandler.releaseTile c em o = some em1 ∧ em1.WF ∧
      em1._layoutSize = em._layoutSize ∧
      em1._eventLayoutForRollback = em._eventLayoutForRollback ∧
      em1._generators.length = em._generators.length ∧
      ∀ j : Int, tileAt? em1._eventLayout j =
        (tileAt? em._eventLayout j).map
          (fun t => if em.inGrid o._originTile.X o._originTile.Y ∧
            j = o._originTile.X + o._originTile.Y * em._layoutSize.X then t.deactivated
            else t) := by
  have hfin : ∀ em0 : EventMap, em0.WF → em0._layoutSize = em._layoutSize →
      em0._eventLayout = em._eventLayout →
      em0._eventLayoutForRollback = em._eventLayoutForRollback →
      em0._generators.length = em._generators.length →
      ∃ em1, Deactivate em0 o._originTile.X o._originTile.Y = some em1 ∧ em1.WF ∧
        em1._layoutSize = em._layoutSize ∧
        em1._eventLayoutForRollback = em._eventLayoutForRollback ∧
        em1._generators.length = em._generators.length ∧
        ∀ j : Int, tileAt? em1._eventLayout j =
          (tileAt? em._eventLayout j).map
            (fun t => if em.inGrid o._originTile.X o._originTile.Y ∧
              j = o._originTile.X + o._originTile.Y * em._layoutSize.X then t.deactivated
              else t) := by
    intro em0 hwf0 hsz hlay hsnap hgl
    obtain ⟨em1, h1, h2, h3, h4⟩ := Deactivate_spec em0 o._originTile.X o._originTile.Y hwf0
    have e1 : em1._layoutSize = em0._layoutSize := by rw [h2]
    have e2 : em1._eventLayoutForRollback = em0._eventLayoutForRollback := by rw [h2]
    have e3 : em1._generators = em0._generators := by rw [h2]
    refine ⟨em1, h1, ?_, by rw [e1, hsz], by rw [e2, hsnap], by rw [e3, hgl], ?_⟩
    · unfold EventMap.WF at hwf0 ⊢
      rw [e1, h3]
      exact hwf0
    · intro j
      rw [h4 j, hlay, hsz]
      have : em0.inGrid o._originTile.X o._originTile.Y ↔
          em.inGrid o._originTile.X o._originTile.Y := by
        unfold EventMap.inGrid
        rw [hsz]
      simp only [this]
  unfold LevelHandler.releaseTile
  by_cases hg : o._state &&& c.IsFromGenerator = c.IsFromGenerator
  · obtain ⟨em0, g1, g2, g3⟩ := ResetGenerator_spec em _ _ hwf (hgen hg)
    rw [if_pos hg, g1]
    simp only
    apply hfin em0
    · unfold EventMap.WF at hwf ⊢
      rw [g2]
      exact hwf
    · rw [g2]
    · rw [g2]
    · rw [g2]
    · exact g3
  · rw [if_neg hg]
    simp only
    exact hfin em hwf rfl rfl rfl rfl

theorem EventTile.deactivated_deactivated (t : EventTile) :
    t.deactivated.deactivated = t.deactivated := by
  unfold EventTile.deactivated
  by_cases h : t.Event = EventType.Empty
  · simp [h]
  · simp [h]

theorem any_congr_mem {α : Type} (l : List α) (f g : α → Bool)
    (h : ∀ x ∈ l, f x = g x) : l.any f = l.any g := by
  induction l with
  | nil => rfl
  | cons x xs ih =>
    simp only [List.any_cons]
    rw [h x (List.mem_cons_self _ _), ih fun y hy => h y (List.mem_cons_of_mem _ hy)]

theorem LevelHandler.releaseAll_cons (c : Consts) (em : EventMap) (o : ActorBase)
    (os : List ActorBase) :
    LevelHandler.releaseAll c em (o :: os) =
      (LevelHandler.releaseTile c em o).bind fun em1 => LevelHandler.releaseAll c em1 os := by
  simp [LevelHandler.releaseAll, List.foldlM_cons]

/-- An actor loop of the level controller over distinct actors on an allocated grid, the
origin tiles of released actors from a generator being inside the grid: the loop returns;
each listed actor that `mark` selects is flagged `IsDestroyed` and no other object changes;
the event map is the one left by releasing the tiles of the selected actors in list order;
a tile changes only if it is released, and then its active bit is cleared. -/
theorem LevelHandler.actorLoop_spec (c : Consts) (mark release : ActorBase → Bool)
    (L : List ActorRef) :
    ∀ (em : EventMap) (objs : List ActorBase), em.WF → L.Nodup →
      (∀ a ∈ L, a < objs.length) →
      (∀ a ∈ L, ∀ o, objs[a]? = some o → mark o = true → release o = true →
        o._state &&& c.IsFromGenerator = c.IsFromGenerator →
        em.inGrid o._originTile.X o._originTile.Y) →
      ∃ em1 objs1, L.foldlM (LevelHandler.actorStep c mark release) (em, objs) =
          some (em1, objs1) ∧
        em1.WF ∧ em1._layoutSize = em._layoutSize ∧
        em1._eventLayoutForRollback = em._eventLayoutForRollback ∧
        em1._generators.length = em._generators.length ∧
        objs1.length = objs.length ∧
        (∀ b, objs1[b]? = if b ∈ L then (objs[b]?).map (fun o =>
          if mark o then { o with _state := o._state ||| c.IsDestroyed } else o)
          else objs[b]?) ∧
        LevelHandler.releaseAll c em (LevelHandler.releasedActors mark release objs L) =
          some em1 ∧
        ∀ j : Int, tileAt? em1._eventLayout j =
          (tileAt? em._eventLayout j).map (fun t =>
            if LevelHandler.releasedAt mark release em objs L j then t.deactivated else t) := by
  induction L with
  | nil =>
    intro em objs hwf _ _ _
    refine ⟨em, objs, rfl, hwf, rfl, rfl, rfl, rfl, fun b => by simp, rfl, ?_⟩
    intro j
    cases tileAt? em._eventLayout j with
    | none => rfl
    | some t => simp [LevelHandler.releasedAt]
  | cons a L ih =>
    intro em objs hwf hnd hvalid hgrid
    have haL : a ∉ L := (List.nodup_cons.1 hnd).1
    have hL : L.Nodup := (List.nodup_cons.1 hnd).2
    have hlt : a < objs.length := hvalid a (List.mem_cons_self _ _)
    have ho : objs[a]? = some (objs[a]) := List.getElem?_eq_getElem hlt
    generalize objs[a] = o at ho
    -- what remains to show once the step at `a` is known
    have key : ∀ (em' : EventMap) (objs' : List ActorBase) (sel : Bool),
        LevelHandler.actorStep c mark release (em, objs) a = some (em', objs') →
        sel = (mark o && release o) →
        (if sel then LevelHandler.releaseTile c em o else some em) = some em' →
        em'.WF → em'._layoutSize = em._layoutSize →
        em'._eventLayoutForRollback = em._eventLayoutForRollback →
        em'._generators.length = em._generators.length →
        objs'.length = objs.length →
        (∀ b, b ≠ a → objs'[b]? = objs[b]?) →
        objs'[a]? = some (if mark o then { o with _state := o._state ||| c.IsDestroyed }
          else o) →
        (∀ j : Int, tileAt? em'._eventLayout j =
          (tileAt? em._eventLayout j).map (fun t =>
            if sel && decide (em.inGrid o._originTile.X o._originTile.Y) &&
              decide (j = o._originTile.X + o._originTile.Y * em._layoutSize.X)
            then t.deactivated else t)) →
        ∃ em1 objs1, (a :: L).foldlM (LevelHandler.actorStep c mark release) (em, objs) =
            some (em1, objs1) ∧
          em1.WF ∧ em1._layoutSize = em._layoutSize ∧
          em1._eventLayoutForRollback = em._eventLayoutForRollback ∧
          em1._generators.length = em._generators.length ∧
          objs1.length = objs.length ∧
          (∀ b, objs1[b]? = if b ∈ a :: L then (objs[b]?).map (fun o =>
            if mark o then { o with _state := o._state ||| c.IsDestroyed } else o)
            else objs[b]?) ∧
          LevelHandler.releaseAll c em (LevelHandler.releasedActors mark release objs (a :: L)) =
            some em1 ∧
          ∀ j : Int, tileAt? em1._eventLayout j =
            (tileAt? em._eventLayout j).map (fun t =>
              if LevelHandler.releasedAt mark release em objs (a :: L) j then t.deactivated
              else t) := by
      intro em' objs' sel hstep hsel hrel hwf' hsz hsnap hgl hlen hother hself htile
      have hsame : ∀ b ∈ L, objs'[b]? = objs[b]? := fun b hb =>
        hother b (fun e => haL (e ▸ hb))
      obtain ⟨em1, objs1, i1, i2, i3, i4, i5, i6, i7, i8, i9⟩ := ih em' objs' hwf' hL
        (fun b hb => by rw [hlen]; exact hvalid b (List.mem_cons_of_mem _ hb))
        (fun b hb o' ho' hm hr hg => by
          rw [hsame b hb] at ho'
          have := hgrid b (List.mem_cons_of_mem _ hb) o' ho' hm hr hg
          unfold EventMap.inGrid at this ⊢
          rw [hsz]
          exact this)
      have hacts : LevelHandler.releasedActors mark release objs' L =
          LevelHandler.releasedActors mark release objs L := by
        unfold LevelHandler.releasedActors
        apply List.filterMap_congr
        intro b hb
        rw [hsame b hb]
      have hat : ∀ j, LevelHandler.releasedAt mark release em' objs' L j =
          LevelHandler.releasedAt mark release em objs L j := by
        intro j
        unfold LevelHandler.releasedAt
        apply any_congr_mem
        intro b hb
        simp only [hsame b hb, EventMap.inGrid, hsz]
      refine ⟨em1, objs1, ?_, i2, by rw [i3, hsz], by rw [i4, hsnap], by rw [i5, hgl],
        by rw [i6, hlen], ?_, ?_, ?_⟩
      · rw [List.foldlM_cons, hstep]
        exact i1
      · intro b
        rw [i7 b]
        by_cases hba : b = a
        · subst hba
          simp [haL, hself, ho]
        · simp only [List.mem_cons, hba, false_or, hother b hba]
      · have i8' : LevelHandler.releaseAll c em'
            (LevelHandler.releasedActors mark release objs L) = some em1 := by
          rw [← hacts]
          exact i8
        have hcons : LevelHandler.releasedActors mark release objs (a :: L) =
            if (mark o && release o) = true then
              o :: LevelHandler.releasedActors mark release objs L
            else LevelHandler.releasedActors mark release objs L := by
          unfold LevelHandler.releasedActors
          rw [List.filterMap_cons, ho]
          cases hs : (mark o && release o) <;> simp [Option.filter, hs]
        rw [hcons]
        cases hs : (mark o && release o) with
        | false =>
          rw [hs] at hsel
          subst hsel
          simp only [Bool.false_eq_true, if_false, Option.some.injEq] at hrel ⊢
          rw [hrel]
          exact i8'
        | true =>
          rw [hs] at hsel
          subst hsel
          simp only [if_true] at hrel ⊢
          rw [LevelHandler.releaseAll_cons, hrel, Option.some_bind]
          exact i8'
      · intro j
        rw [i9 j, htile j, hat j]
        cases tileAt? em._eventLayout j with
        | none => rfl
        | some t =>
          simp only [Option.map_some', Option.some.injEq]
          have hra : LevelHandler.releasedAt mark release em objs (a :: L) j =
              ((sel && decide (em.inGrid o._originTile.X o._originTile.Y) &&
                decide (j = o._originTile.X + o._originTile.Y * em._layoutSize.X)) ||
                LevelHandler.releasedAt mark release em objs L j) := by
            simp only [LevelHandler.releasedAt, List.any_cons, ho, hsel]
          rw [hra]
          cases (sel && decide (em.inGrid o._originTile.X o._originTile.Y) &&
              decide (j = o._originTile.X + o._originTile.Y * em._layoutSize.X)) <;>
            cases LevelHandler.releasedAt mark release em objs L j <;>
            simp [EventTile.deactivated_deactivated]
    by_cases hm : mark o = true
    · by_cases hr : release o = true
      · obtain ⟨em', r1, r2, r3, r4, r5, r6⟩ := LevelHandler.releaseTile_spec c em o hwf
          (fun hg => hgrid a (List.mem_cons_self _ _) o ho hm hr hg)
        refine key em' (objs.set a { o with _state := o._state ||| c.IsDestroyed }) true ?_
          (by simp [hm, hr]) (by simpa using r1) r2 r3 r4 r5 (by simp)
          (fun b hb => by rw [List.getElem?_set_ne (fun e => hb e.symm)])
          (by rw [List.getElem?_set_self hlt]; simp [hm]) ?_
        · simp only [LevelHandler.actorStep, ho, hm, hr, if_true, r1]
        · intro j
          rw [r6 j]
          cases tileAt? em._eventLayout j with
          | none => rfl
          | some t => simp
      · have hr' : release o = false := by simpa using hr
        refine key em (objs.set a { o with _state := o._state ||| c.IsDestroyed }) false ?_
          (by simp [hr']) rfl hwf rfl rfl rfl (by simp)
          (fun b hb => by rw [List.getElem?_set_ne (fun e => hb e.symm)])
          (by rw [List.getElem?_set_self hlt]; simp [hm]) ?_
        · simp only [LevelHandler.actorStep, ho, hm, hr', if_true, Bool.false_eq_true, if_false]
        · intro j
          cases tileAt? em._eventLayout j with
          | none => rfl
          | some t => simp
    · have hm' : mark o = false := by simpa using hm
      refine key em objs false ?_ (by simp [hm']) rfl hwf rfl rfl rfl rfl (fun _ _ => rfl)
        (by rw [ho]; simp [hm']) ?_
      · simp only [LevelHandler.actorStep, ho, hm', Bool.false_eq_true, if_false]
      · intro j
        cases tileAt? em._eventLayout j with
        | none => rfl
        | some t => simp

theorem foldlM_total {α β : Type} (f : β → α → Option β) (P : β → Prop)
    (hf : ∀ b a, P b → ∃ b1, f b a = some b1 ∧ P b1) :
    ∀ (l : List α) (b : β), P b → ∃ b1, l.foldlM f b = some b1 ∧ P b1 := by
  intro l
  induction l with
  | nil =>
    intro b hb
    exact ⟨b, rfl, hb⟩
  | cons a l ih =>
    intro b hb
    obtain ⟨b2, h1, h2⟩ := hf b a hb
    obtain ⟨b1, h3, h4⟩ := ih b2 h2
    exact ⟨b1, by rw [List.foldlM_cons, h1]; exact h3, h4⟩

theorem ResetGenerator_positions (m m1 : EventMap) (x y : Int)
    (hs : ResetGenerator m x y = some m1) :
    m1._generators.map (fun g => g.EventPos) = m._generators.map (fun g => g.EventPos) := by
  unfold ResetGenerator at hs
  split at hs
  · exact absurd hs (by simp)
  · simp only at hs
    split at hs
    · simp only [Option.some.injEq] at hs
      rw [← hs]
    · simp only [Option.some.injEq] at hs
      rw [← hs]
      simp only
      apply List.ext_getElem?
      intro n
      simp only [List.getElem?_map, List.getElem?_modify]
      cases m._generators[n]? with
      | none => rfl
      | some g =>
        simp only [Option.map_eq_map, Option.map_some']
        split <;> rfl

theorem LevelHandler.releaseTile_positions (c : Consts) (em em1 : EventMap) (o : ActorBase)
    (hs : LevelHandler.releaseTile c em o = some em1) :
    em1._generators.map (fun g => g.EventPos) = em._generators.map (fun g => g.EventPos) := by
  unfold LevelHandler.releaseTile at hs
  split at hs
  · exact absurd hs (by simp)
  · rename_i em0 h0
    rw [(Deactivate_frame em0 em1 _ _ hs).2.2.2]
    split at h0
    · exact ResetGenerator_positions em em0 _ _ h0
    · simp only [Option.some.injEq] at h0
      rw [h0]

theorem LevelHandler.actorStep_positions (c : Consts) (mark release : ActorBase → Bool)
    (s s1 : EventMap × List ActorBase) (a : ActorRef)
    (hs : LevelHandler.actorStep c mark release s a = some s1) :
    s1.1._generators.map (fun g => g.EventPos) = s.1._generators.map (fun g => g.EventPos) := by
  unfold LevelHandler.actorStep at hs
  split at hs
  · exact absurd hs (by simp)
  · split at hs
    · split at hs
      · exact absurd hs (by simp)
      · rename_i em h0
        simp only [Option.some.injEq] at hs
        rw [← hs]
        simp only
        split at h0
        · exact LevelHandler.releaseTile_positions c _ _ _ h0
        · simp only [Option.some.injEq] at h0
          rw [h0]
    · simp only [Option.some.injEq] at hs
      rw [hs]

theorem LevelHandler.actorLoop_positions (c : Consts) (mark release : ActorBase → Bool)
    (L : List ActorRef) (s s1 : EventMap × List ActorBase)
    (hs : L.foldlM (LevelHandler.actorStep c mark release) s = some s1) :
    s1.1._generators.map (fun g => g.EventPos) = s.1._generators.map (fun g => g.EventPos) :=
  foldlM_invariant _
    (fun t : EventMap × List ActorBase =>
      t.1._generators.map (fun g => g.EventPos) = s.1._generators.map (fun g => g.EventPos))
    (fun b a b1 hb hstep =>
      (LevelHandler.actorStep_positions c mark release b b1 a hstep).trans hb) L s s1 rfl hs

theorem LevelHandler.ProcessEvents_actor_eq (c : Consts) (playerZones : List (AABBi × AABBi)) :
    LevelHandler.ProcessEvents.actor c playerZones =
      LevelHandler.actorStep c (LevelHandler.ProcessEvents.deactivates c playerZones)
        (fun _ => true) := by
  funext s a
  unfold LevelHandler.ProcessEvents.actor LevelHandler.actorStep
    LevelHandler.ProcessEvents.deactivates
  cases s.2[a]? with
  | none => rfl
  | some actor =>
    simp only
    by_cases h1 : actor._state &&& (c.IsCreatedFromEventMap ||| c.IsFromGenerator) ≠ 0
    · simp only [h1, ne_eq, not_false_eq_true, if_true, decide_True, Bool.true_and]
    · simp only [h1, if_false, decide_False, Bool.false_and, Bool.false_eq_true]

theorem LevelHandler.RollbackToCheckpoint_actor_eq (c : Consts) (checkpointFrames : ℚ) :
    LevelHandler.RollbackToCheckpoint.actor c checkpointFrames =
      LevelHandler.actorStep c (LevelHandler.RollbackToCheckpoint.purges c checkpointFrames)
        (ActorBase.fromEventMap c) := by
  funext s a
  unfold LevelHandler.RollbackToCheckpoint.actor LevelHandler.actorStep
    LevelHandler.RollbackToCheckpoint.purges ActorBase.fromEventMap
  cases s.2[a]? with
  | none => rfl
  | some actor =>
    simp only
    by_cases h1 : actor._spawnFrames > checkpointFrames ∧
        ¬ (actor._state &&& c.PreserveOnRollback = c.PreserveOnRollback)
    · have h1' : (decide (actor._spawnFrames > checkpointFrames) &&
          !decide (actor._state &&& c.PreserveOnRollback = c.PreserveOnRollback)) = true := by
        simp [h1.1, h1.2]
      rw [if_pos h1, if_pos h1']
      by_cases h2 : actor._state &&& (c.IsCreatedFromEventMap ||| c.IsFromGenerator) ≠ 0
      · simp only [h2, ne_eq, not_false_eq_true, if_true, decide_True]
      · simp only [h2, if_false, decide_False, Bool.false_eq_true]
    · have h1' : ¬ (decide (actor._spawnFrames > checkpointFrames) &&
          !decide (actor._state &&& c.PreserveOnRollback = c.PreserveOnRollback)) = true := by
        intro hh
        apply h1
        simpa using hh
      rw [if_neg h1, if_neg h1']

theorem LevelWorld.Keeps_refl {ψ : Type} (w : LevelWorld ψ) : LevelWorld.Keeps w.objects w :=
  ⟨le_refl _, fun _ _ => rfl⟩

theorem generators_inGrid_of_positions (gs gs0 : List GeneratorInfo) (n : Nat)
    (hpos : gs.map (fun g => g.EventPos) = gs0.map (fun g => g.EventPos))
    (h0 : ∀ g ∈ gs0, 0 ≤ g.EventPos ∧ g.EventPos.toNat < n) :
    ∀ g ∈ gs, 0 ≤ g.EventPos ∧ g.EventPos.toNat < n := by
  intro g hg
  have : g.EventPos ∈ gs.map (fun g => g.EventPos) := List.mem_map_of_mem _ hg
  rw [hpos, List.mem_map] at this
  obtain ⟨g0, hg0, e⟩ := this
  rw [← e]
  exact h0 g0 hg0

/-- The activation loop of `ProcessEvents` over the players' primary rectangles, on an
allocated grid: it returns; the grid keeps its size, the snapshot and the generator table
stay, each tile stays or becomes active; the actor objects `objs0` stay. -/
theorem LevelHandler.ProcessEvents.activate_spec {ψ : Type} (c : Consts)
    (spawn : EventSpawner ψ) (objs0 : List ActorBase) (zones : List (AABBi × AABBi))
    (em : EventMap) (w : LevelWorld ψ) (hwf : em.WF) (hk : LevelWorld.Keeps objs0 w) :
    ∃ r : Run (LevelWorld ψ),
      zones.foldlM (fun (r : Run (LevelWorld ψ)) z =>
        match ActivateEvents c (LevelHandler.callbacks c spawn) r.1 r.2.1 z.1.L z.1.T z.1.R
            z.1.B true with
        | none => none
        | some r1 => some (r1.1, r1.2.1, r.2.2 ++ r1.2.2)) (em, w, []) = some r ∧
      r.1.WF ∧ r.1._layoutSize = em._layoutSize ∧
      r.1._eventLayoutForRollback = em._eventLayoutForRollback ∧
      r.1._generators = em._generators ∧ LevelWorld.Keeps objs0 r.2.1 ∧
      ∀ (j : Int) (t : EventTile), tileAt? em._eventLayout j = some t →
        ∃ t1, tileAt? r.1._eventLayout j = some t1 ∧ (t1 = t ∨ t1 = t.activated) := by
  have := foldlM_total
    (fun (r : Run (LevelWorld ψ)) (z : AABBi × AABBi) =>
      match ActivateEvents c (LevelHandler.callbacks c spawn) r.1 r.2.1 z.1.L z.1.T z.1.R
          z.1.B true with
      | none => none
      | some r1 => some (r1.1, r1.2.1, r.2.2 ++ r1.2.2))
    (fun r : Run (LevelWorld ψ) => r.1.WF ∧ r.1._layoutSize = em._layoutSize ∧
      r.1._eventLayoutForRollback = em._eventLayoutForRollback ∧
      r.1._generators = em._generators ∧ LevelWorld.Keeps objs0 r.2.1 ∧
      ∀ (j : Int) (t : EventTile), tileAt? em._eventLayout j = some t →
        ∃ t1, tileAt? r.1._eventLayout j = some t1 ∧ (t1 = t ∨ t1 = t.activated))
    (by
      intro r z hr
      obtain ⟨p1, p2, p3, p4, p5, p6⟩ := hr
      obtain ⟨s1, q1, q2, q3, q4, _, _⟩ := ActivateEvents_run_spec c
        (LevelHandler.callbacks c spawn) r.1 r.2.1 z.1.L z.1.T z.1.R z.1.B true p1
      have hkeep := ActivateEvents_preserves c (LevelHandler.callbacks c spawn)
        (LevelWorld.Keeps objs0) (LevelHandler.callbacks_keeps c spawn objs0) r.1 r.2.1
        z.1.L z.1.T z.1.R z.1.B true s1 p5 q1
      have e1 : s1.1._layoutSize = r.1._layoutSize := by rw [q2]
      have e2 : s1.1._eventLayoutForRollback = r.1._eventLayoutForRollback := by rw [q2]
      have e3 : s1.1._generators = r.1._generators := by rw [q2]
      refine ⟨(s1.1, s1.2.1, r.2.2 ++ s1.2.2), by simp only [q1], ?_, by rw [e1, p2],
        by rw [e2, p3], by rw [e3, p4], hkeep, ?_⟩
      · unfold EventMap.WF at p1 ⊢
        simp only
        rw [e1, q3]
        exact p1
      · intro j t ht
        obtain ⟨t1, f1, f2⟩ := p6 j t ht
        simp only
        rw [q4 j, f1]
        simp only [Option.map_some']
        split
        · refine ⟨_, rfl, Or.inr ?_⟩
          rcases f2 with f2 | f2
          · rw [f2]
          · rw [f2, EventTile.activated_activated]
        · exact ⟨_, rfl, f2⟩)
    zones (em, w, []) ⟨hwf, rfl, rfl, rfl, hk, fun j t ht => ⟨t, ht, Or.inl rfl⟩⟩
  obtain ⟨r, h1, h2⟩ := this
  exact ⟨r, h1, h2⟩

theorem ProcessGenerators_total {φ : Type} (c : Consts) (h : ILevelHandler φ) (m : EventMap)
    (w : φ) (dt : ℚ)
    (hgens : ∀ g ∈ m._generators, 0 ≤ g.EventPos ∧ g.EventPos.toNat < m._eventLayout.length) :
    ∃ r, ProcessGenerators c h m w dt = some r := by
  obtain ⟨r, hr, _⟩ := ProcessGenerators.loop_total c h m._eventLayout m._layoutSize.X dt
    m._generators w hgens
  exact ⟨_, by unfold ProcessGenerators; rw [hr]⟩

/-- `ProcessEvents` on an allocated grid with distinct actors, the origin tiles of actors
from a generator and the generators' tiles being inside the grid: it returns; the frame
counters and the players stay; a checkpoint has been created when there is a player; each
actor the loop visits and `deactivates` selects is flagged `IsDestroyed`, no other object
that existed before changes; the event map after the actor loop is the one left by releasing
the tiles of the selected actors, in which a tile changes only if it is released; after that
each tile stays or becomes active. -/
theorem LevelHandler.ProcessEvents_spec {ψ : Type} (c : Consts) (spawn : EventSpawner ψ)
    (lh : LevelHandler ψ) (dt : ℚ) (hwf : lh._eventMap.WF) (hnd : lh.world._actors.Nodup)
    (hvalid : ∀ a ∈ lh.world._actors, a < lh.world.objects.length)
    (hgrid : ∀ a ∈ lh.world._actors, ∀ o, lh.world.objects[a]? = some o →
      o._state &&& c.IsFromGenerator = c.IsFromGenerator →
      lh._eventMap.inGrid o._originTile.X o._originTile.Y)
    (hgens : ∀ g ∈ lh._eventMap._generators,
      0 ≤ g.EventPos ∧ g.EventPos.toNat < lh._eventMap._eventLayout.length) :
    ∃ lh1 em1, LevelHandler.ProcessEvents c spawn lh dt = some lh1 ∧
      lh1._elapsedFrames = lh._elapsedFrames ∧ lh1._checkpointFrames = lh._checkpointFrames ∧
      lh1._players = lh._players ∧
      lh1._checkpointCreated = (lh._checkpointCreated || !lh._players.isEmpty) ∧
      lh1._eventMap.WF ∧ lh1._eventMap._layoutSize = lh._eventMap._layoutSize ∧
      lh1._eventMap._eventLayoutForRollback =
        (if (!lh._players.isEmpty && !lh._checkpointCreated) = true then
          some lh1._eventMap._eventLayout
        else lh._eventMap._eventLayoutForRollback) ∧
      (∀ b, b < lh.world.objects.length → lh1.world.objects[b]? =
        if b ∈ LevelHandler.ProcessEvents.visited lh then
          (lh.world.objects[b]?).map (fun o =>
            if LevelHandler.ProcessEvents.deactivates c
                (lh._players.map (LevelHandler.ProcessEvents.zones c)) o then
              { o with _state := o._state ||| c.IsDestroyed }
            else o)
        else lh.world.objects[b]?) ∧
      LevelHandler.releaseAll c lh._eventMap
        (LevelHandler.releasedActors
          (LevelHandler.ProcessEvents.deactivates c
            (lh._players.map (LevelHandler.ProcessEvents.zones c)))
          (fun _ => true) lh.world.objects (LevelHandler.ProcessEvents.visited lh)) = some em1 ∧
      (∀ j : Int, tileAt? em1._eventLayout j =
        (tileAt? lh._eventMap._eventLayout j).map (fun t =>
          if LevelHandler.releasedAt
              (LevelHandler.ProcessEvents.deactivates c
                (lh._players.map (LevelHandler.ProcessEvents.zones c)))
              (fun _ => true) lh._eventMap lh.world.objects
              (LevelHandler.ProcessEvents.visited lh) j then t.deactivated
          else t)) ∧
      (∀ (j : Int) (t : EventTile), tileAt? em1._eventLayout j = some t →
        ∃ t1, tileAt? lh1._eventMap._eventLayout j = some t1 ∧
          (t1 = t ∨ t1 = t.activated)) := by
  -- the generator tick at the end
  have tail : ∀ (em2 : EventMap) (w2 : LevelWorld ψ) (objs1 : List ActorBase), em2.WF →
      em2._generators.map (fun g => g.EventPos) =
        lh._eventMap._generators.map (fun g => g.EventPos) →
      em2._eventLayout.length = lh._eventMap._eventLayout.length →
      LevelWorld.Keeps objs1 w2 →
      ∃ r, ProcessGenerators c (LevelHandler.callbacks c spawn) em2 w2 dt = some r ∧
        r.1._layoutSize = em2._layoutSize ∧ r.1._eventLayout = em2._eventLayout ∧
        r.1._eventLayoutForRollback = em2._eventLayoutForRollback ∧
        LevelWorld.Keeps objs1 r.2.1 := by
    intro em2 w2 objs1 _ hpos hlen hk
    obtain ⟨r, hr⟩ := ProcessGenerators_total c (LevelHandler.callbacks c spawn) em2 w2 dt
      (by
        rw [hlen]
        exact generators_inGrid_of_positions _ _ _ hpos hgens)
    obtain ⟨f1, f2, f3, _⟩ := ProcessGenerators_frame c _ em2 w2 dt r hr
    exact ⟨r, hr, f1, f2, f3, ProcessGenerators_preserves c _ _
      (LevelHandler.callbacks_keeps c spawn objs1) em2 w2 dt r hk hr⟩
  by_cases hp : lh._players.isEmpty = true
  · obtain ⟨r, hr, f1, f2, f3, f4⟩ := tail lh._eventMap lh.world lh.world.objects hwf rfl rfl
      (LevelWorld.Keeps_refl _)
    have hvis : LevelHandler.ProcessEvents.visited lh = [] := by
      simp [LevelHandler.ProcessEvents.visited, hp]
    refine ⟨{ lh with _eventMap := r.1, world := r.2.1 }, lh._eventMap, ?_, rfl, rfl, rfl, ?_,
      ?_, f1, ?_, ?_, ?_, ?_, ?_⟩
    · unfold LevelHandler.ProcessEvents
      simp only [hp, Bool.not_true, Bool.false_eq_true, if_false, hr]
    · simp [hp]
    · unfold EventMap.WF at hwf ⊢
      simp only
      rw [f1, f2]
      exact hwf
    · simp only [hp, Bool.not_true, Bool.false_and, Bool.false_eq_true, if_false]
      exact f3
    · intro b hb
      simp only [hvis, List.not_mem_nil, if_false]
      exact f4.2 b hb
    · rw [hvis]
      rfl
    · intro j
      rw [hvis]
      cases tileAt? lh._eventMap._eventLayout j with
      | none => rfl
      | some t => simp [LevelHandler.releasedAt]
    · intro j t ht
      simp only
      rw [f2]
      exact ⟨t, ht, Or.inl rfl⟩
  · have hp' : lh._players.isEmpty = false := by simpa using hp
    have hvis : LevelHandler.ProcessEvents.visited lh = lh.world._actors := by
      simp [LevelHandler.ProcessEvents.visited, hp']
    rw [hvis]
    obtain ⟨em1, objs1, a1, a2, a3, a4, a5, a6, a7, a8, a9⟩ := LevelHandler.actorLoop_spec c
      (LevelHandler.ProcessEvents.deactivates c
        (lh._players.map (LevelHandler.ProcessEvents.zones c)))
      (fun _ => true) lh.world._actors lh._eventMap lh.world.objects hwf hnd hvalid
      (fun a ha o ho _ _ hg => hgrid a ha o ho hg)
    have hpos1 := LevelHandler.actorLoop_positions c _ _ _ _ _ a1
    simp only at hpos1
    have hlen1 : em1._eventLayout.length = lh._eventMap._eventLayout.length := by
      have h1 := a2.2.2
      have h2 := hwf.2.2
      rw [h1, h2, a3]
    obtain ⟨r, b1, b2, b3, b4, b5, b6, b7⟩ := LevelHandler.ProcessEvents.activate_spec c spawn
      objs1 (lh._players.map (LevelHandler.ProcessEvents.zones c)) em1
      ({ lh.world with objects := objs1 } : LevelWorld ψ) a2
      ⟨le_refl _, fun _ _ => rfl⟩
    have hlenr : r.1._eventLayout.length = lh._eventMap._eventLayout.length := by
      have h1 := b2.2.2
      have h2 := hwf.2.2
      rw [h1, h2, b3, a3]
    have hobjs : ∀ (w3 : LevelWorld ψ), LevelWorld.Keeps objs1 w3 →
        ∀ b, b < lh.world.objects.length → w3.objects[b]? =
          if b ∈ lh.world._actors then
            (lh.world.objects[b]?).map (fun o =>
              if LevelHandler.ProcessEvents.deactivates c
                  (lh._players.map (LevelHandler.ProcessEvents.zones c)) o then
                { o with _state := o._state ||| c.IsDestroyed }
              else o)
          else lh.world.objects[b]? := by
      intro w3 hk b hb
      rw [hk.2 b (by rw [a6]; exact hb)]
      exact a7 b
    by_cases hc : lh._checkpointCreated = true
    · obtain ⟨q, hq, f1, f2, f3, f4⟩ := tail r.1 r.2.1 objs1 b2 (by rw [b5, hpos1]) hlenr b6
      refine ⟨{ lh with _eventMap := q.1, world := q.2.1 }, em1, ?_, rfl, rfl, rfl, ?_, ?_,
        by simp only; rw [f1, b3, a3], ?_, hobjs _ f4, a8, a9, ?_⟩
      · unfold LevelHandler.ProcessEvents LevelHandler.ProcessEvents.withPlayers
        simp only [hp', Bool.not_false, if_true]
        rw [← LevelHandler.ProcessEvents_actor_eq] at a1
        simp only [a1, b1, hc, Bool.not_true, Bool.false_eq_true, if_false, hq]
      · simp [hc]
      · unfold EventMap.WF at b2 ⊢
        simp only
        rw [f1, f2]
        exact b2
      · simp only [hc, Bool.not_true, Bool.and_false, Bool.false_eq_true, if_false]
        rw [f3, b4, a4]
      · intro j t ht
        simp only
        rw [f2]
        exact b7 j t ht
    · have hc' : lh._checkpointCreated = false := by simpa using hc
      have hcp := CreateCheckpointForRollback_spec r.1 b2
      obtain ⟨q, hq, f1, f2, f3, f4⟩ := tail
        { r.1 with _eventLayoutForRollback := some r.1._eventLayout } r.2.1 objs1
        (by unfold EventMap.WF at b2 ⊢; exact b2) (by simp only; rw [b5, hpos1]) hlenr b6
      refine ⟨{ lh with _eventMap := q.1, world := q.2.1, _checkpointCreated := true }, em1,
        ?_, rfl, rfl, rfl, ?_, ?_, by simp only; rw [f1]; simp only; rw [b3, a3], ?_,
        hobjs _ f4, a8, a9, ?_⟩
      · unfold LevelHandler.ProcessEvents LevelHandler.ProcessEvents.withPlayers
        simp only [hp', Bool.not_false, if_true]
        rw [← LevelHandler.ProcessEvents_actor_eq] at a1
        simp only [a1, b1, hc', hcp, Bool.not_false, if_true, hq]
      · simp [hc', hp']
      · unfold EventMap.WF at b2 ⊢
        simp only
        rw [f1, f2]
        exact b2
      · simp only [hp', hc', Bool.not_false, Bool.and_self, if_true]
        rw [f3, f2]
      · intro j t ht
        simp only
        rw [f2]
        exact b7 j t ht

theorem LevelHandler.ProcessEvents.deactivates_iff (c : Consts)
    (playerZones : List (AABBi × AABBi)) (o : ActorBase) :
    LevelHandler.ProcessEvents.deactivates c playerZones o = true ↔
      o._state &&& (c.IsCreatedFromEventMap ||| c.IsFromGenerator) ≠ 0 ∧
      (∀ z ∈ playerZones, c.Contains z.2 o._originTile = false) ∧
      o.OnTileDeactivated = true := by
  simp [LevelHandler.ProcessEvents.deactivates, and_assoc]

theorem LevelHandler.releasedAt_false_of_inside (c : Consts)
    (playerZones : List (AABBi × AABBi)) (em : EventMap) (objs : List ActorBase)
    (L : List ActorRef) (tile : Vector2i) (hin : em.inGrid tile.X tile.Y)
    (hz : ∃ z ∈ playerZones, c.Contains z.2 tile = true) :
    LevelHandler.releasedAt (LevelHandler.ProcessEvents.deactivates c playerZones)
      (fun _ => true) em objs L (tile.X + tile.Y * em._layoutSize.X) = false := by
  unfold LevelHandler.releasedAt
  rw [List.any_eq_false]
  intro a _
  cases ho : objs[a]? with
  | none => simp
  | some o =>
    simp only
    by_contra hne
    have hne' : (LevelHandler.ProcessEvents.deactivates c playerZones o && true &&
        decide (em.inGrid o._originTile.X o._originTile.Y) &&
        decide (tile.X + tile.Y * em._layoutSize.X =
          o._originTile.X + o._originTile.Y * em._layoutSize.X)) = true := by
      simpa using hne
    simp only [Bool.and_true, Bool.and_eq_true, decide_eq_true_eq] at hne'
    obtain ⟨⟨hd, hino⟩, hidx⟩ := hne'
    obtain ⟨e1, e2⟩ := index_inj em._layoutSize.X tile.X tile.Y o._originTile.X o._originTile.Y
      hin.1 hin.2.1 hino.1 hino.2.1 hidx
    have heq : o._originTile = tile := by
      cases htile : tile with
      | mk tx ty =>
        cases hot : o._originTile with
        | mk ox oy =>
          rw [htile, hot] at e1 e2
          simp only at e1 e2
          rw [e1, e2]
    obtain ⟨z, hz1, hz2⟩ := hz
    have := ((LevelHandler.ProcessEvents.deactivates_iff c playerZones o).1 hd).2.1 z hz1
    rw [heq, hz2] at this
    exact absurd this (by simp)

theorem LevelHandler.RollbackToCheckpoint.purges_iff (c : Consts) (checkpointFrames : ℚ)
    (o : ActorBase) :
    LevelHandler.RollbackToCheckpoint.purges c checkpointFrames o = true ↔
      o._spawnFrames > checkpointFrames ∧
      ¬ o._state &&& c.PreserveOnRollback = c.PreserveOnRollback := by
  simp [LevelHandler.RollbackToCheckpoint.purges]

/-- `LevelHandler::RollbackToCheckpoint` on an allocated grid with distinct actors, the origin
tiles of actors from a generator being inside the grid and a snapshot, if there is one, having
the size of the grid: it returns; the frame counter becomes the checkpoint frame; each actor
`purges` selects is flagged `IsDestroyed`, no other object that existed before changes; the
event map is the one `EventMap::RollbackToCheckpoint` gives on the map left by releasing the
tiles of the selected actors that were created from the event map or a generator. -/
theorem LevelHandler.RollbackToCheckpoint_spec {ψ : Type} (c : Consts)
    (spawn : EventSpawner ψ) (lh : LevelHandler ψ) (hwf : lh._eventMap.WF)
    (hnd : lh.world._actors.Nodup)
    (hvalid : ∀ a ∈ lh.world._actors, a < lh.world.objects.length)
    (hgrid : ∀ a ∈ lh.world._actors, ∀ o, lh.world.objects[a]? = some o →
      o._state &&& c.IsFromGenerator = c.IsFromGenerator →
      lh._eventMap.inGrid o._originTile.X o._originTile.Y)
    (hsnap : ∀ prev, lh._eventMap._eventLayoutForRollback = some prev →
      prev.length = lh._eventMap._eventLayout.length) :
    ∃ lh1 em1 objs1 tr, LevelHandler.RollbackToCheckpoint c spawn lh = some lh1 ∧
      lh1._elapsedFrames = lh._checkpointFrames ∧
      lh1._checkpointFrames = lh._checkpointFrames ∧
      lh1._checkpointCreated = lh._checkpointCreated ∧
      LevelHandler.releaseAll c lh._eventMap
        (LevelHandler.releasedActors
          (LevelHandler.RollbackToCheckpoint.purges c lh._checkpointFrames)
          (ActorBase.fromEventMap c) lh.world.objects lh.world._actors) = some em1 ∧
      (∀ j : Int, tileAt? em1._eventLayout j =
        (tileAt? lh._eventMap._eventLayout j).map (fun t =>
          if LevelHandler.releasedAt
              (LevelHandler.RollbackToCheckpoint.purges c lh._checkpointFrames)
              (ActorBase.fromEventMap c) lh._eventMap lh.world.objects lh.world._actors j
          then t.deactivated else t)) ∧
      (∀ b, objs1[b]? =
        if b ∈ lh.world._actors then
          (lh.world.objects[b]?).map (fun o =>
            if LevelHandler.RollbackToCheckpoint.purges c lh._checkpointFrames o then
              { o with _state := o._state ||| c.IsDestroyed }
            else o)
        else lh.world.objects[b]?) ∧
      Jazz2.RollbackToCheckpoint c (LevelHandler.callbacks c spawn) em1
        { lh.world with objects := objs1 } = some (lh1._eventMap, lh1.world, tr) ∧
      (∀ b, b < lh.world.objects.length → lh1.world.objects[b]? = objs1[b]?) ∧
      lh1._eventMap =
        (match lh._eventMap._eventLayoutForRollback with
          | none => em1
          | some prev => { em1 with
              _eventLayout := prev,
              _generators := em1._generators.map (fun g => { g with TimeLeft := 0 }) }) := by
  obtain ⟨em1, objs1, a1, a2, a3, a4, _, a6, a7, a8, a9⟩ := LevelHandler.actorLoop_spec c
    (LevelHandler.RollbackToCheckpoint.purges c lh._checkpointFrames)
    (ActorBase.fromEventMap c) lh.world._actors lh._eventMap lh.world.objects hwf hnd hvalid
    (fun a ha o ho _ _ hg => hgrid a ha o ho hg)
  rw [← LevelHandler.RollbackToCheckpoint_actor_eq] at a1
  have hlen1 : em1._eventLayout.length = lh._eventMap._eventLayout.length := by
    have h1 := a2.2.2
    have h2 := hwf.2.2
    rw [h1, h2, a3]
  have hrb : ∃ r : Run (LevelWorld ψ),
      Jazz2.RollbackToCheckpoint c (LevelHandler.callbacks c spawn) em1
        ({ lh.world with objects := objs1 } : LevelWorld ψ) = some r ∧
      r.1 = (match lh._eventMap._eventLayoutForRollback with
          | none => em1
          | some prev => { em1 with
              _eventLayout := prev,
              _generators := em1._generators.map (fun g => { g with TimeLeft := 0 }) }) := by
    cases hs : lh._eventMap._eventLayoutForRollback with
    | none =>
      refine ⟨(em1, ({ lh.world with objects := objs1 } : LevelWorld ψ), []), ?_, rfl⟩
      unfold Jazz2.RollbackToCheckpoint
      rw [a4, hs]
    | some prev =>
      obtain ⟨w1, tr, q1, _, _⟩ := RollbackToCheckpoint_run_spec c
        (LevelHandler.callbacks c spawn) em1
        ({ lh.world with objects := objs1 } : LevelWorld ψ) prev a2 (by rw [a4, hs])
        (by rw [hlen1]; exact hsnap prev hs)
      exact ⟨_, q1, rfl⟩
  obtain ⟨r, hr, hr1⟩ := hrb
  have hkeep := RollbackToCheckpoint_preserves c (LevelHandler.callbacks c spawn)
    (LevelWorld.Keeps objs1) (LevelHandler.callbacks_keeps c spawn objs1) em1
    ({ lh.world with objects := objs1 } : LevelWorld ψ) r ⟨le_refl _, fun _ _ => rfl⟩ hr
  refine ⟨{ lh with _eventMap := r.1, world := r.2.1, _elapsedFrames := lh._checkpointFrames },
    em1, objs1, r.2.2, ?_, rfl, rfl, rfl, a8, a9, a7, hr, ?_, hr1⟩
  · unfold LevelHandler.RollbackToCheckpoint
    simp only [LevelHandler.IsLocalSession, if_true, a1, hr]
  · intro b hb
    exact hkeep.2 b (by rw [a6]; exact hb)

theorem LevelHandler.ProcessEvents_frames {ψ : Type} (c : Consts) (spawn : EventSpawner ψ)
    (lh lh1 : LevelHandler ψ) (dt : ℚ)
    (h : LevelHandler.ProcessEvents c spawn lh dt = some lh1) :
    lh1._elapsedFrames = lh._elapsedFrames ∧ lh1._checkpointFrames = lh._checkpointFrames := by
  unfold LevelHandler.ProcessEvents at h
  split at h
  · exact absurd h (by simp)
  · split at h
    · exact absurd h (by simp)
    · simp only [Option.some.injEq] at h
      rw [← h]
      exact ⟨rfl, rfl⟩

theorem LevelHandler.RollbackToCheckpoint_frames {ψ : Type} (c : Consts)
    (spawn : EventSpawner ψ) (lh lh1 : LevelHandler ψ)
    (h : LevelHandler.RollbackToCheckpoint c spawn lh = some lh1) :
    lh1._elapsedFrames = lh._checkpointFrames := by
  unfold LevelHandler.RollbackToCheckpoint at h
  simp only [LevelHandler.IsLocalSession, if_true] at h
  split at h
  · exact absurd h (by simp)
  · split at h
    · exact absurd h (by simp)
    · simp only [Option.some.injEq] at h
      rw [← h]

/-- C28. In a local session, on an allocated grid with distinct actors, the origin tiles of
actors from a generator being inside the grid and a snapshot, if there is one, having the size
of the grid, `LevelHandler::RollbackToCheckpoint` returns. An actor of `_actors` is flagged
`IsDestroyed` exactly when `purges` selects it, that is when its spawn frame is greater than
the checkpoint frame and it has no `PreserveOnRollback`; any other actor object is as before.
The tiles of the purged actors that were created from the event map or a generator are
released in list order, a release being `ResetGenerator` when the actor is from a generator,
then `Deactivate`. After that the event map is rolled back by
`EventMap::RollbackToCheckpoint`, and the frame counter is the checkpoint frame. -/
theorem LevelHandler_rollback_purge {ψ : Type} (c : Consts) (spawn : EventSpawner ψ)
    (lh : LevelHandler ψ) (hwf : lh._eventMap.WF) (hnd : lh.world._actors.Nodup)
    (hvalid : ∀ a ∈ lh.world._actors, a < lh.world.objects.length)
    (hgrid : ∀ a ∈ lh.world._actors, ∀ o, lh.world.objects[a]? = some o →
      o._state &&& c.IsFromGenerator = c.IsFromGenerator →
      lh._eventMap.inGrid o._originTile.X o._originTile.Y)
    (hsnap : ∀ prev, lh._eventMap._eventLayoutForRollback = some prev →
      prev.length = lh._eventMap._eventLayout.length) :
    ∃ lh1 em1 objs1 tr, LevelHandler.RollbackToCheckpoint c spawn lh = some lh1 ∧
      lh.IsLocalSession = true ∧
      (∀ o, LevelHandler.RollbackToCheckpoint.purges c lh._checkpointFrames o = true ↔
        o._spawnFrames > lh._checkpointFrames ∧
        ¬ o._state &&& c.PreserveOnRollback = c.PreserveOnRollback) ∧
      (∀ o, ActorBase.fromEventMap c o = true ↔
        o._state &&& (c.IsCreatedFromEventMap ||| c.IsFromGenerator) ≠ 0) ∧
      (∀ a ∈ lh.world._actors, ∀ o, lh.world.objects[a]? = some o →
        lh1.world.objects[a]? = some
          (if LevelHandler.RollbackToCheckpoint.purges c lh._checkpointFrames o then
            { o with _state := o._state ||| c.IsDestroyed }
          else o)) ∧
      LevelHandler.releaseAll c lh._eventMap
        (LevelHandler.releasedActors
          (LevelHandler.RollbackToCheckpoint.purges c lh._checkpointFrames)
          (ActorBase.fromEventMap c) lh.world.objects lh.world._actors) = some em1 ∧
      (∀ (em : EventMap) (o : ActorBase), LevelHandler.releaseTile c em o =
        (if o._state &&& c.IsFromGenerator = c.IsFromGenerator then
          ResetGenerator em o._originTile.X o._originTile.Y else some em).bind
          fun em0 => Deactivate em0 o._originTile.X o._originTile.Y) ∧
      Jazz2.RollbackToCheckpoint c (LevelHandler.callbacks c spawn) em1
        { lh.world with objects := objs1 } = some (lh1._eventMap, lh1.world, tr) ∧
      lh1._elapsedFrames = lh._checkpointFrames ∧
      lh1._checkpointFrames = lh._checkpointFrames := by
  obtain ⟨lh1, em1, objs1, tr, h1, h2, h3, _, h5, _, h7, h8, h9, _⟩ :=
    LevelHandler.RollbackToCheckpoint_spec c spawn lh hwf hnd hvalid hgrid hsnap
  refine ⟨lh1, em1, objs1, tr, h1, rfl,
    LevelHandler.RollbackToCheckpoint.purges_iff c lh._checkpointFrames, ?_, ?_, h5, ?_, h8,
    h2, h3⟩
  · intro o
    simp [ActorBase.fromEventMap]
  · intro a ha o ho
    rw [h9 a (hvalid a ha), h7 a]
    simp only [ha, if_true, ho, Option.map_some']
  · intro em o
    unfold LevelHandler.releaseTile
    cases (if o._state &&& c.IsFromGenerator = c.IsFromGenerator then
      ResetGenerator em o._originTile.X o._originTile.Y else some em) <;> rfl

theorem LevelHandler_rollback_purge_witness :
    ∃ lh1, LevelHandler.RollbackToCheckpoint Sample.consts Sample.spawner Sample.farLevel =
        some lh1 ∧
      lh1.world.objects[0]? = some
        { Sample.actor (1 ||| 16) with _originTile := ⟨100, 100⟩, _spawnFrames := 3 } ∧
      lh1.world.objects[1]? = some { Sample.actor 1 with _spawnFrames := 1 } ∧
      lh1._elapsedFrames = 2 := by
  obtain ⟨lh1, em1, objs1, tr, h1, _, _, _, h5, _, _, _, h9, _⟩ :=
    LevelHandler_rollback_purge Sample.consts Sample.spawner Sample.farLevel (by decide)
      (by decide) (by decide)
      (by
        intro a ha o ho hg
        simp only [Sample.farLevel, List.mem_cons, List.mem_singleton, List.not_mem_nil,
          or_false] at ha
        rcases ha with rfl | rfl
        · simp only [Sample.farLevel, List.getElem?_cons_zero, Option.some.injEq] at ho
          subst ho
          exact absurd hg (by decide)
        · simp only [Sample.farLevel, List.getElem?_cons_succ, List.getElem?_cons_zero,
            Option.some.injEq] at ho
          subst ho
          exact absurd hg (by decide))
      (by
        intro prev hp
        exact absurd hp (by simp [Sample.farLevel, Sample.activeMap, Sample.map]))
  have a0 := h5 0 (by decide)
    { Sample.actor 1 with _originTile := ⟨100, 100⟩, _spawnFrames := 3 } rfl
  have a1 := h5 1 (by decide) { Sample.actor 1 with _spawnFrames := 1 } rfl
  refine ⟨lh1, h1, ?_, ?_, h9⟩
  · rw [a0]
    have : LevelHandler.RollbackToCheckpoint.purges Sample.consts
        Sample.farLevel._checkpointFrames
        { Sample.actor 1 with _originTile := ⟨100, 100⟩, _spawnFrames := 3 } = true := by
      simp [LevelHandler.RollbackToCheckpoint.purges, Sample.farLevel, Sample.actor,
        Sample.consts]
      norm_num
    rw [this]
    rfl
  · rw [a1]
    have : LevelHandler.RollbackToCheckpoint.purges Sample.consts
        Sample.farLevel._checkpointFrames { Sample.actor 1 with _spawnFrames := 1 } = false := by
      simp [LevelHandler.RollbackToCheckpoint.purges, Sample.farLevel, Sample.actor,
        Sample.consts]
    rw [this]
    rfl

/-- C1. On an allocated grid, `CreateCheckpointForRollback` followed at once by
`RollbackToCheckpoint` returns, leaves every cell of the grid as it was and leaves the outer
world untouched with an empty call log, so the actor factory is not called. At the level
controller, `SetCheckpoint` records the frame counter and a rollback right after it puts the
frame counter and the grid back to their values at `SetCheckpoint`. The automatic snapshot in
`ProcessEvents` does not record the frame counter: a rollback after it sets the frame counter
to the unchanged `_checkpointFrames`, which is the frame counter of the snapshot exactly when
the two were equal at that call. -/
theorem checkpoint_round_trip {φ ψ : Type} (c : Consts) (h : ILevelHandler φ) (m : EventMap)
    (w : φ) (spawn : EventSpawner ψ) (lh : LevelHandler ψ) (hm : m.WF)
    (hwf : lh._eventMap.WF) (hnd : lh.world._actors.Nodup)
    (hvalid : ∀ a ∈ lh.world._actors, a < lh.world.objects.length)
    (hgrid : ∀ a ∈ lh.world._actors, ∀ o, lh.world.objects[a]? = some o →
      o._state &&& c.IsFromGenerator = c.IsFromGenerator →
      lh._eventMap.inGrid o._originTile.X o._originTile.Y) :
    (∃ m1 m2, CreateCheckpointForRollback m = some m1 ∧
      m1._eventLayout = m._eventLayout ∧
      RollbackToCheckpoint c h m1 w = some (m2, w, []) ∧
      m2._eventLayout = m._eventLayout) ∧
    (∃ lh1 lh2, lh.SetCheckpoint = some lh1 ∧
      lh1._checkpointFrames = lh._elapsedFrames ∧
      lh1._eventMap._eventLayoutForRollback = some lh._eventMap._eventLayout ∧
      LevelHandler.RollbackToCheckpoint c spawn lh1 = some lh2 ∧
      lh2._elapsedFrames = lh._elapsedFrames ∧
      lh2._eventMap._eventLayout = lh._eventMap._eventLayout) ∧
    (∀ dt lh1 lh2, LevelHandler.ProcessEvents c spawn lh dt = some lh1 →
      LevelHandler.RollbackToCheckpoint c spawn lh1 = some lh2 →
      lh1._checkpointFrames = lh._checkpointFrames ∧
      lh1._elapsedFrames = lh._elapsedFrames ∧
      lh2._elapsedFrames = lh._checkpointFrames ∧
      (lh2._elapsedFrames = lh1._elapsedFrames ↔ lh._elapsedFrames = lh._checkpointFrames)) := by
  refine ⟨?_, ?_, ?_⟩
  · obtain ⟨w1, tr, hr, _, hsame⟩ := RollbackToCheckpoint_run_spec c h
      { m with _eventLayoutForRollback := some m._eventLayout } w m._eventLayout hm rfl rfl
    obtain ⟨e1, e2⟩ := hsame rfl
    subst e1 e2
    exact ⟨_, _, CreateCheckpointForRollback_spec m hm, rfl, hr, rfl⟩
  · have hset : lh.SetCheckpoint = some
        { lh with _checkpointFrames := lh._elapsedFrames,
                  _eventMap := { lh._eventMap with
                    _eventLayoutForRollback := some lh._eventMap._eventLayout } } := by
      unfold LevelHandler.SetCheckpoint
      simp only [LevelHandler.IsLocalSession, if_true, LevelHandler.GetElapsedFrames,
        CreateCheckpointForRollback_spec lh._eventMap hwf]
    obtain ⟨lh2, em1, objs1, tr, h1, h2, _, _, _, _, _, _, _, h10⟩ :=
      LevelHandler.RollbackToCheckpoint_spec c spawn
        { lh with _checkpointFrames := lh._elapsedFrames,
                  _eventMap := { lh._eventMap with
                    _eventLayoutForRollback := some lh._eventMap._eventLayout } }
        hwf hnd hvalid hgrid
        (by
          intro prev hp
          simp only [Option.some.injEq] at hp
          rw [← hp])
    refine ⟨_, lh2, hset, rfl, rfl, h1, h2, ?_⟩
    rw [h10]
  · intro dt lh1 lh2 h1 h2
    obtain ⟨e1, e2⟩ := LevelHandler.ProcessEvents_frames c spawn lh lh1 dt h1
    have e3 := LevelHandler.RollbackToCheckpoint_frames c spawn lh1 lh2 h2
    rw [e2] at e3
    refine ⟨e2, e1, e3, ?_⟩
    rw [e3, e1]
    exact eq_comm

theorem checkpoint_round_trip_witness :
    (∃ m1 m2, CreateCheckpointForRollback Sample.activeMap = some m1 ∧
      m1._eventLayout = Sample.activeMap._eventLayout ∧
      RollbackToCheckpoint Sample.consts Sample.handler m1 7 = some (m2, 7, []) ∧
      m2._eventLayout = Sample.activeMap._eventLayout) ∧
    (∃ lh1 lh2, Sample.farLevel.SetCheckpoint = some lh1 ∧
      lh1._checkpointFrames = 5 ∧
      LevelHandler.RollbackToCheckpoint Sample.consts Sample.spawner lh1 = some lh2 ∧
      lh2._elapsedFrames = 5 ∧
      lh2._eventMap._eventLayout = Sample.activeMap._eventLayout) := by
  have key := checkpoint_round_trip Sample.consts Sample.handler Sample.activeMap 7
    Sample.spawner Sample.farLevel (by decide) (by decide) (by decide) (by decide)
    (by
      intro a ha o ho hg
      simp only [Sample.farLevel, List.mem_cons, List.mem_singleton, List.not_mem_nil,
        or_false] at ha
      rcases ha with rfl | rfl
      · simp only [Sample.farLevel, List.getElem?_cons_zero, Option.some.injEq] at ho
        subst ho
        exact absurd hg (by decide)
      · simp only [Sample.farLevel, List.getElem?_cons_succ, List.getElem?_cons_zero,
          Option.some.injEq] at ho
        subst ho
        exact absurd hg (by decide))
  obtain ⟨k1, ⟨lh1, lh2, a1, a2, _, a4, a5, a6⟩, _⟩ := key
  exact ⟨k1, lh1, lh2, a1, a2, a4, a5, a6⟩

/-- One frame into a level the first `ProcessEvents` takes the automatic snapshot while the
frame counter is 1; the rollback that follows sets the frame counter to 0. -/
theorem checkpoint_frames_counterexample :
    ∃ lh1 lh2, Sample.level._checkpointCreated = false ∧ Sample.level._elapsedFrames = 1 ∧
      LevelHandler.ProcessEvents Sample.consts Sample.spawner Sample.level 1 = some lh1 ∧
      lh1._checkpointCreated = true ∧
      lh1._eventMap._eventLayoutForRollback = some lh1._eventMap._eventLayout ∧
      lh1._elapsedFrames = 1 ∧
      LevelHandler.RollbackToCheckpoint Sample.consts Sample.spawner lh1 = some lh2 ∧
      lh2._elapsedFrames = 0 ∧ lh2._eventMap._eventLayout = lh1._eventMap._eventLayout :=
  ⟨_, _, rfl, rfl, rfl, rfl, rfl, rfl, rfl, rfl, rfl⟩

theorem ProcessGenerators.step_timeLeft {φ : Type} (c : Consts) (h : ILevelHandler φ)
    (layout : List EventTile) (X : Int) (dt : ℚ) (g : GeneratorInfo) (w : φ)
    (rg : GeneratorInfo × φ × List Call) (hdt : 0 ≤ dt)
    (hs : ProcessGenerators.step c h layout X dt g w = some rg) :
    rg.1.TimeLeft ≤ g.TimeLeft ∨
      ∃ tile, tileAt? layout g.EventPos = some tile ∧ tile.IsEventActive = true ∧
        g.noLiveActor h w = true ∧ g.TimeLeft ≤ 0 ∧
        rg.1.TimeLeft = g.Delay * c.FramesPerSecond ∧
        rg.1.SpawnedActor = (h.SpawnEvent w g.Event g.EventParams c.IsFromGenerator
          (Int.tmod g.EventPos X) (Int.tdiv g.EventPos X) c.SpritePlaneZ).1 := by
  unfold ProcessGenerators.step at hs
  cases ht : tileAt? layout g.EventPos with
  | none => simp [ht] at hs
  | some tile =>
    simp only [ht] at hs
    cases hA : tile.IsEventActive with
    | false =>
      simp only [hA, Bool.not_false, if_true, Option.some.injEq] at hs
      rw [← hs]
      left
      simp only
      linarith
    | true =>
      simp only [hA, Bool.not_true, Bool.false_eq_true, if_false] at hs
      cases hL : g.noLiveActor h w with
      | false =>
        simp only [hL, Bool.false_eq_true, if_false, Option.some.injEq] at hs
        rw [← hs]
        left
        exact le_refl _
      | true =>
        simp only [hL, if_true] at hs
        by_cases hT : g.TimeLeft ≤ 0
        · right
          refine ⟨tile, rfl, hA, rfl, hT, ?_⟩
          simp only [hT, if_true] at hs
          split at hs <;>
          · simp only [Option.some.injEq] at hs
            rw [← hs]
            exact ⟨rfl, rfl⟩
        · simp only [hT, if_false, Option.some.injEq] at hs
          rw [← hs]
          left
          simp only
          linarith

theorem ProcessGenerators.loop_at {φ : Type} (c : Consts) (h : ILevelHandler φ)
    (layout : List EventTile) (X : Int) (dt : ℚ) (gs : List GeneratorInfo) :
    ∀ (w : φ) (r : List GeneratorInfo × φ × List Call),
      ProcessGenerators.loop c h layout X dt gs w = some r →
      ∀ (i : Nat) (g : GeneratorInfo), gs[i]? = some g →
        ∃ wi rg, ProcessGenerators.step c h layout X dt g wi = some rg ∧
          r.1[i]? = some rg.1 := by
  induction gs with
  | nil =>
    intro w r _ i g hg
    simp at hg
  | cons g0 gs ih =>
    intro w r hr i g hg
    simp only [ProcessGenerators.loop] at hr
    cases hs : ProcessGenerators.step c h layout X dt g0 w with
    | none => simp [hs] at hr
    | some r0 =>
      cases hq : ProcessGenerators.loop c h layout X dt gs r0.2.1 with
      | none => simp [hs, hq] at hr
      | some rq =>
        simp only [hs, hq, Option.some.injEq] at hr
        rw [← hr]
        cases i with
        | zero =>
          simp only [List.getElem?_cons_zero, Option.some.injEq] at hg
          subst hg
          exact ⟨w, r0, hs, by simp⟩
        | succ i =>
          simp only [List.getElem?_cons_succ] at hg
          obtain ⟨wi, rg, h1, h2⟩ := ih r0.2.1 rq hq i g hg
          exact ⟨wi, rg, h1, by simpa using h2⟩

theorem ActivateEvents_generators {φ : Type} (c : Consts) (h : ILevelHandler φ)
    (m : EventMap) (w : φ) (tx1 ty1 tx2 ty2 : Int) (a : Bool) (r : Run φ)
    (hs : ActivateEvents c h m w tx1 ty1 tx2 ty2 a = some r) :
    r.1._generators = m._generators ∧ r.1._layoutSize = m._layoutSize ∧
      r.1._eventLayoutForRollback = m._eventLayoutForRollback := by
  unfold ActivateEvents at hs
  refine foldlM_invariant _ (fun s : Run φ => s.1._generators = m._generators ∧
    s.1._layoutSize = m._layoutSize ∧
    s.1._eventLayoutForRollback = m._eventLayoutForRollback) ?_ _ _ _ ⟨rfl, rfl, rfl⟩ hs
  intro b x b1 hb hx
  refine foldlM_invariant _ (fun s : Run φ => s.1._generators = m._generators ∧
    s.1._layoutSize = m._layoutSize ∧
    s.1._eventLayoutForRollback = m._eventLayoutForRollback) ?_ _ _ _ hb hx
  intro s y s1 hs0 hy
  unfold ActivateEvents.tile at hy
  simp only at hy
  split at hy
  · exact absurd hy (by simp)
  · split at hy
    · split at hy
      · simp only [Option.some.injEq] at hy
        rw [← hy]
        exact hs0
      · split at hy
        · split at hy <;>
          · simp only [Option.some.injEq] at hy
            rw [← hy]
            exact hs0
        · simp only [Option.some.injEq] at hy
          rw [← hy]
          exact hs0
    · simp only [Option.some.injEq] at hy
      rw [← hy]
      exact hs0

theorem RollbackToCheckpoint_generators {φ : Type} (c : Consts) (h : ILevelHandler φ)
    (m : EventMap) (w : φ) (r : Run φ) (hs : RollbackToCheckpoint c h m w = some r) :
    (r.1._generators = m._generators ∨
      r.1._generators = m._generators.map (fun g => { g with TimeLeft := 0 })) ∧
      r.1._layoutSize = m._layoutSize ∧
      r.1._eventLayoutForRollback = m._eventLayoutForRollback := by
  unfold RollbackToCheckpoint at hs
  cases hp : m._eventLayoutForRollback with
  | none =>
    simp only [hp, Option.some.injEq] at hs
    rw [← hs]
    exact ⟨Or.inl rfl, rfl, hp⟩
  | some prev =>
    simp only [hp] at hs
    cases hf : (intRange 0 (m._layoutSize.Y - 1)).foldlM
        (fun s y => (intRange 0 (m._layoutSize.X - 1)).foldlM
          (fun s x => RollbackToCheckpoint.tile c h prev y x s) s) (m, w, []) with
    | none => simp [hf] at hs
    | some s0 =>
      simp only [hf, Option.some.injEq] at hs
      have key : s0.1._generators = m._generators ∧ s0.1._layoutSize = m._layoutSize ∧
          s0.1._eventLayoutForRollback = m._eventLayoutForRollback := by
        refine foldlM_invariant _ (fun s : Run φ => s.1._generators = m._generators ∧
          s.1._layoutSize = m._layoutSize ∧
          s.1._eventLayoutForRollback = m._eventLayoutForRollback) ?_ _ _ _ ⟨rfl, rfl, rfl⟩ hf
        intro b y b1 hb hy
        refine foldlM_invariant _ (fun s : Run φ => s.1._generators = m._generators ∧
          s.1._layoutSize = m._layoutSize ∧
          s.1._eventLayoutForRollback = m._eventLayoutForRollback) ?_ _ _ _ hb hy
        intro s x s1 hs0 hx
        unfold RollbackToCheckpoint.tile at hx
        simp only at hx
        split at hx
        · split at hx
          · split at hx
            · simp only [Option.some.injEq] at hx
              rw [← hx]
              exact hs0
            · split at hx
              · split at hx <;>
                · simp only [Option.some.injEq] at hx
                  rw [← hx]
                  exact hs0
              · simp only [Option.some.injEq] at hx
                rw [← hx]
                exact hs0
          · simp only [Option.some.injEq] at hx
            rw [← hx]
            exact hs0
        · exact absurd hx (by simp)
      rw [← hs]
      simp [key.1, key.2.1, key.2.2, hp]


theorem ReadEvents.store_generators (c : Consts) (bit : Nat) (x y : Int)
    (r : ReadEvents.Record) (s s1 : EventMap × List TileMapCall)
    (hs : ReadEvents.store c bit x y r s = some s1) :
    ∃ gs, s1.1._generators = s.1._generators ++ gs := by
  unfold ReadEvents.store at hs
  simp only at hs
  split at hs
  · split at hs
    · split at hs
      · exact absurd hs (by simp)
      · rename_i m1 hst
        simp only [Option.some.injEq] at hs
        rw [← hs]
        obtain ⟨_, _, _, e⟩ := StoreTileEvent_frame _ _ _ _ _ _ _ hst
        exact ⟨_, e⟩
    · simp only [Option.some.injEq] at hs
      rw [← hs]
      exact ⟨[], by simp⟩
  · split at hs
    · split at hs
      · simp only [Option.some.injEq] at hs
        rw [← hs]
        exact ⟨[], by simp⟩
      · simp only [Option.some.injEq] at hs
        rw [← hs]
        refine ⟨[], ?_⟩
        unfold AddSpawnPosition
        split <;> simp
      · simp only [Option.some.injEq] at hs
        rw [← hs]
        exact ⟨[], by simp [AddWarpTarget]⟩
      · split at hs
        · exact absurd hs (by simp)
        · rename_i m1 hst
          simp only [Option.some.injEq] at hs
          rw [← hs]
          obtain ⟨_, _, _, e⟩ := StoreTileEvent_frame _ _ _ _ _ _ _ hst
          exact ⟨[], by simp [e]⟩
    · simp only [Option.some.injEq] at hs
      rw [← hs]
      exact ⟨[], by simp⟩

theorem ReadEvents_generators (c : Consts) (codec : VarintCodec) (m : EventMap) (s : Stream)
    (d : GameDifficulty) (res : EventMap × Stream × List TileMapCall)
    (hres : ReadEvents c codec m s d = some res) :
    ∃ gs, res.1._generators = m._generators ++ gs := by
  unfold ReadEvents at hres
  split at hres
  · exact absurd hres (by simp)
  · simp only at hres
    split at hres
    · exact absurd hres (by simp)
    · rename_i m1 s1 log hf
      have key : ∃ gs, m1._generators = m._generators ++ gs := by
        have := foldlM_invariant _
          (fun st : EventMap × Stream × List TileMapCall =>
            ∃ gs, st.1._generators = m._generators ++ gs) ?_ _ _ _ ⟨[], by simp⟩ hf
        · exact this
        · intro b y b1 hb hy
          refine foldlM_invariant _
            (fun st : EventMap × Stream × List TileMapCall =>
              ∃ gs, st.1._generators = m._generators ++ gs) ?_ _ _ _ hb hy
          intro st x st1 hst hx
          unfold ReadEvents.tile at hx
          split at hx
          · exact absurd hx (by simp)
          · split at hx
            · exact absurd hx (by simp)
            · rename_i r sa m2 log2 hstore
              simp only [Option.some.injEq] at hx
              rw [← hx]
              obtain ⟨gs, hgs⟩ := hst
              obtain ⟨gs1, hgs1⟩ := ReadEvents.store_generators c _ _ _ _ _ _ hstore
              simp only at hgs1
              exact ⟨gs ++ gs1, by rw [hgs1, hgs, List.append_assoc]⟩
      split at hres
      · exact absurd hres (by simp)
      · split at hres
        · exact absurd hres (by simp)
        · simp only [Option.some.injEq] at hres
          rw [← hres]
          exact key

theorem InitializeFromStream_generators (c : Consts) (codec : VarintCodec) (m : EventMap)
    (src : Stream) (res : EventMap × Stream)
    (hres : InitializeFromStream c codec m src = some res) :
    res.1._generators = m._generators ∧ res.1._layoutSize = m._layoutSize ∧
      res.1._eventLayoutForRollback = m._eventLayoutForRollback := by
  unfold InitializeFromStream at hres
  split at hres
  · exact absurd hres (by simp)
  · split at hres
    · refine foldlM_invariant _ (fun s : EventMap × Stream =>
        s.1._generators = m._generators ∧ s.1._layoutSize = m._layoutSize ∧
        s.1._eventLayoutForRollback = m._eventLayoutForRollback) ?_ _ _ _ ⟨rfl, rfl, rfl⟩ hres
      intro b i b1 hb hi
      unfold InitializeFromStream.tile at hi
      split at hi
      · exact absurd hi (by simp)
      · split at hi
        · exact absurd hi (by simp)
        · split at hi
          · exact absurd hi (by simp)
          · split at hi
            · exact absurd hi (by simp)
            · simp only [Option.some.injEq] at hi
              rw [← hi]
              exact hb
    · simp only [Option.some.injEq] at hres
      rw [← hres]
      exact ⟨rfl, rfl, rfl⟩

/-- C3. Let an operation of `EventMap` return (a `ProcessGenerators` tick with a time step
`≥ 0`). Every generator of the table is still at its index afterwards, and its `TimeLeft` is
less than or equal to the one before, or the operation was `ResetGenerator` or
`RollbackToCheckpoint` and `TimeLeft` is 0, or the operation was a `ProcessGenerators` tick
that found the generator ready in some external state `w` of the tick (its cell active, no
live spawned actor, `TimeLeft ≤ 0`) and `TimeLeft` is `Delay × FramesPerSecond`, whatever
the factory returned: the spawned actor is the factory's result, which may be absent. -/
theorem Generator_monotonicity {φ : Type} (c : Consts) (codec : VarintCodec)
    (h : ILevelHandler φ) (op : Op) (s s1 : EventMap × φ)
    (hdt : ∀ dt, op = Op.ProcessGenerators dt → 0 ≤ dt)
    (hop : op.apply c codec h s = some s1) (i : Nat) (g : GeneratorInfo)
    (hg : s.1._generators[i]? = some g) :
    ∃ g1, s1.1._generators[i]? = some g1 ∧
      (g1.TimeLeft ≤ g.TimeLeft ∨
        (((∃ tx ty, op = Op.ResetGenerator tx ty) ∨ op = Op.RollbackToCheckpoint) ∧
          g1.TimeLeft = 0) ∨
        ∃ dt w tile, op = Op.ProcessGenerators dt ∧
          tileAt? s.1._eventLayout g.EventPos = some tile ∧ tile.IsEventActive = true ∧
          g.noLiveActor h w = true ∧ g.TimeLeft ≤ 0 ∧
          g1.TimeLeft = g.Delay * c.FramesPerSecond ∧
          g1.SpawnedActor = (h.SpawnEvent w g.Event g.EventParams c.IsFromGenerator
            (Int.tmod g.EventPos s.1._layoutSize.X) (Int.tdiv g.EventPos s.1._layoutSize.X)
            c.SpritePlaneZ).1) := by
  cases op with
  | StoreTileEvent x y k f p =>
    simp only [Op.apply, Option.map_eq_some'] at hop
    obtain ⟨m1, h1, rfl⟩ := hop
    obtain ⟨_, _, _, e⟩ := StoreTileEvent_frame _ _ _ _ _ _ _ h1
    exact ⟨g, by simp only [e, hg], Or.inl (le_refl _)⟩
  | ActivateEvents tx1 ty1 tx2 ty2 a =>
    simp only [Op.apply, Option.map_eq_some'] at hop
    obtain ⟨r, h1, rfl⟩ := hop
    obtain ⟨e, _⟩ := ActivateEvents_generators c h _ _ _ _ _ _ _ r h1
    exact ⟨g, by simp only [e, hg], Or.inl (le_refl _)⟩
  | Deactivate x y =>
    simp only [Op.apply, Option.map_eq_some'] at hop
    obtain ⟨m1, h1, rfl⟩ := hop
    obtain ⟨_, _, _, e⟩ := Deactivate_frame _ _ _ _ h1
    exact ⟨g, by simp only [e, hg], Or.inl (le_refl _)⟩
  | ResetGenerator tx ty =>
    simp only [Op.apply, Option.map_eq_some'] at hop
    obtain ⟨m1, h1, rfl⟩ := hop
    unfold ResetGenerator at h1
    split at h1
    · exact absurd h1 (by simp)
    · simp only at h1
      split at h1
      · simp only [Option.some.injEq] at h1
        rw [← h1]
        exact ⟨g, hg, Or.inl (le_refl _)⟩
      · simp only [Option.some.injEq] at h1
        rw [← h1]
        simp only [List.getElem?_modify, hg, Option.map_eq_map, Option.map_some']
        refine ⟨_, rfl, ?_⟩
        split
        · exact Or.inr (Or.inl ⟨Or.inl ⟨tx, ty, rfl⟩, rfl⟩)
        · exact Or.inl (le_refl _)
  | ProcessGenerators dt =>
    simp only [Op.apply, Option.map_eq_some'] at hop
    obtain ⟨r, h1, rfl⟩ := hop
    unfold Jazz2.ProcessGenerators at h1
    cases hl : ProcessGenerators.loop c h s.1._eventLayout s.1._layoutSize.X dt
        s.1._generators s.2 with
    | none => simp [hl] at h1
    | some r1 =>
      simp only [hl, Option.some.injEq] at h1
      rw [← h1]
      obtain ⟨wi, rg, hstep, hidx⟩ := ProcessGenerators.loop_at c h _ _ dt _ _ r1 hl i g hg
      refine ⟨rg.1, hidx, ?_⟩
      rcases ProcessGenerators.step_timeLeft c h _ _ dt g wi rg (hdt dt rfl) hstep with
        hle | ⟨tile, a1, a2, a3, a4, a5, a6⟩
      · exact Or.inl hle
      · exact Or.inr (Or.inr ⟨dt, wi, tile, rfl, a1, a2, a3, a4, a5, a6⟩)
  | CreateCheckpointForRollback =>
    simp only [Op.apply, Option.map_eq_some'] at hop
    obtain ⟨m1, h1, rfl⟩ := hop
    unfold Jazz2.CreateCheckpointForRollback at h1
    split at h1
    · simp only [Option.some.injEq] at h1
      rw [← h1]
      exact ⟨g, hg, Or.inl (le_refl _)⟩
    · exact absurd h1 (by simp)
  | RollbackToCheckpoint =>
    simp only [Op.apply, Option.map_eq_some'] at hop
    obtain ⟨r, h1, rfl⟩ := hop
    obtain ⟨e | e, _⟩ := RollbackToCheckpoint_generators c h _ _ r h1
    · exact ⟨g, by simp only [e, hg], Or.inl (le_refl _)⟩
    · refine ⟨{ g with TimeLeft := 0 }, by simp [e, hg], Or.inr (Or.inl ⟨Or.inr rfl, rfl⟩)⟩
  | ReadEvents st d =>
    simp only [Op.apply, Option.map_eq_some'] at hop
    obtain ⟨r, h1, rfl⟩ := hop
    obtain ⟨gs, e⟩ := ReadEvents_generators c codec _ _ _ r h1
    refine ⟨g, ?_, Or.inl (le_refl _)⟩
    simp only [e]
    rw [List.getElem?_append_left (List.getElem?_eq_some_iff.1 hg).1]
    exact hg
  | InitializeFromStream src =>
    simp only [Op.apply, Option.map_eq_some'] at hop
    obtain ⟨r, h1, rfl⟩ := hop
    obtain ⟨e, _⟩ := InitializeFromStream_generators c codec _ _ r h1
    exact ⟨g, by simp only [e, hg], Or.inl (le_refl _)⟩


theorem Generator_monotonicity_witness :
    ∃ s1 g1, Op.apply Sample.consts Sample.noCodec Sample.handler (Op.ProcessGenerators 1)
        (Sample.activeMap, 0) = some s1 ∧
      s1.1._generators[0]? = some g1 ∧ g1.TimeLeft = 120 ∧ g1.SpawnedActor = some 0 := by
  have hrun : Op.apply Sample.consts Sample.noCodec Sample.handler (Op.ProcessGenerators 1)
      (Sample.activeMap, 0) =
      some ({ Sample.activeMap with
        _generators := [{ Sample.generator with
          TimeLeft := Sample.generator.Delay * Sample.consts.FramesPerSecond,
          SpawnedActor := some 0 }] }, 1) := rfl
  obtain ⟨g1, h1, h2⟩ := Generator_monotonicity Sample.consts Sample.noCodec Sample.handler
    (Op.ProcessGenerators 1) (Sample.activeMap, 0) _
    (by
      intro dt hdt
      simp only [Op.ProcessGenerators.injEq] at hdt
      rw [← hdt]
      norm_num)
    hrun 0 Sample.generator rfl
  refine ⟨_, g1, hrun, h1, ?_⟩
  simp only [List.getElem?_cons_zero, Option.some.injEq] at h1
  rw [← h1]
  exact ⟨Sample.generator_delay_frames, rfl⟩

/-- With a factory that returns no actor, a tick of `ProcessGenerators` on the active sample
map raises the timer of the ready generator from 0 to 120. -/
theorem Generator_monotonicity_counterexample :
    ∃ s1 g1, Op.apply Sample.consts Sample.noCodec Sample.failingHandler
        (Op.ProcessGenerators 1) (Sample.activeMap, 0) = some s1 ∧
      Sample.activeMap._generators[0]? = some Sample.generator ∧
      s1.1._generators[0]? = some g1 ∧
      (∀ w k p f x y z, (Sample.failingHandler.SpawnEvent w k p f x y z).1 = none) ∧
      g1.SpawnedActor = none ∧ Sample.generator.TimeLeft = 0 ∧ g1.TimeLeft = 120 ∧
      ¬ g1.TimeLeft ≤ Sample.generator.TimeLeft :=
  ⟨_, { Sample.generator with
      TimeLeft := Sample.generator.Delay * Sample.consts.FramesPerSecond },
    rfl, rfl, rfl, fun _ _ _ _ _ _ _ => rfl, rfl, rfl, Sample.generator_delay_frames,
    by simp [Sample.generator, Sample.consts]⟩

theorem mem_setTile (l : List EventTile) (i : Int) (t u : EventTile)
    (hu : u ∈ setTile l i t) : u = t ∨ u ∈ l := by
  unfold setTile at hu
  rcases List.mem_or_eq_of_mem_set hu with h | h
  · exact Or.inr h
  · exact Or.inl h

theorem mem_of_tileAt? (l : List EventTile) (j : Int) (t : EventTile)
    (h : tileAt? l j = some t) : t ∈ l :=
  (mem_iff_tileAt? l t).2 ⟨j, h⟩

theorem StoreTileEvent_emptyOk (m m1 : EventMap) (x y : Int) (k : EventType) (f : Nat)
    (p : Option Params) (hguard : k = EventType.Empty → ∀ q, p = some q → q = Params.zero)
    (hinv : ∀ t ∈ m._eventLayout, t.EmptyOk)
    (hs : StoreTileEvent m x y k f p = some m1) : ∀ t ∈ m1._eventLayout, t.EmptyOk := by
  unfold StoreTileEvent at hs
  split at hs
  · simp only [Option.some.injEq] at hs
    rw [← hs]
    exact hinv
  · split at hs
    · exact absurd hs (by simp)
    · rename_i prev hprev
      simp only [Option.some.injEq] at hs
      rw [← hs]
      intro t ht
      rcases mem_setTile _ _ _ _ ht with rfl | h
      · intro hk
        simp only at hk
        have hp := hinv prev (mem_of_tileAt? _ _ _ hprev)
        constructor
        · simp only [Bool.and_eq_false_imp, beq_iff_eq]
          intro he
          rw [hk] at he
          exact (hp he).1
        · cases p with
          | none => rfl
          | some q => exact hguard hk q rfl
      · exact hinv t h

theorem ActivateEvents_emptyOk {φ : Type} (c : Consts) (h : ILevelHandler φ)
    (m : EventMap) (w : φ) (tx1 ty1 tx2 ty2 : Int) (a : Bool) (r : Run φ)
    (hinv : ∀ t ∈ m._eventLayout, t.EmptyOk)
    (hs : ActivateEvents c h m w tx1 ty1 tx2 ty2 a = some r) :
    ∀ t ∈ r.1._eventLayout, t.EmptyOk := by
  unfold ActivateEvents at hs
  refine foldlM_invariant _ (fun s : Run φ => ∀ t ∈ s.1._eventLayout, t.EmptyOk) ?_ _ _ _
    hinv hs
  intro b x b1 hb hx
  refine foldlM_invariant _ (fun s : Run φ => ∀ t ∈ s.1._eventLayout, t.EmptyOk) ?_ _ _ _
    hb hx
  intro s y s1 hs0 hy
  unfold ActivateEvents.tile at hy
  simp only at hy
  split at hy
  · exact absurd hy (by simp)
  · rename_i tile htile
    split at hy
    · rename_i hcond
      simp only [Bool.and_eq_true, Bool.not_eq_true', bne_iff_ne, ne_eq] at hcond
      have key : ∀ t ∈ setTile s.1._eventLayout (x + y * s.1._layoutSize.X)
          { tile with IsEventActive := true }, t.EmptyOk := by
        intro t ht
        rcases mem_setTile _ _ _ _ ht with rfl | h1
        · intro he
          exact absurd he hcond.2
        · exact hs0 t h1
      split at hy
      · simp only [Option.some.injEq] at hy
        rw [← hy]
        exact key
      · split at hy
        · split at hy <;>
          · simp only [Option.some.injEq] at hy
            rw [← hy]
            exact key
        · simp only [Option.some.injEq] at hy
          rw [← hy]
          exact key
    · simp only [Option.some.injEq] at hy
      rw [← hy]
      exact hs0

theorem Deactivate_emptyOk (m m1 : EventMap) (x y : Int)
    (hinv : ∀ t ∈ m._eventLayout, t.EmptyOk) (hs : Deactivate m x y = some m1) :
    ∀ t ∈ m1._eventLayout, t.EmptyOk := by
  unfold Deactivate at hs
  split at hs
  · exact absurd hs (by simp)
  · simp only [Option.some.injEq] at hs
    rw [← hs]
    exact hinv
  · split at hs
    · exact absurd hs (by simp)
    · rename_i tile htile
      simp only [Option.some.injEq] at hs
      rw [← hs]
      intro t ht
      rcases mem_setTile _ _ _ _ ht with rfl | h1
      · intro he
        exact ⟨rfl, (hinv tile (mem_of_tileAt? _ _ _ htile) he).2⟩
      · exact hinv t h1

theorem RollbackToCheckpoint_row_emptyOk {φ : Type} (c : Consts) (h : ILevelHandler φ)
    (prev : List EventTile) (hpr : ∀ t ∈ prev, t.EmptyOk) (y : Int) (xs : List Int)
    (b b1 : Run φ) (hb : ∀ t ∈ b.1._eventLayout, t.EmptyOk)
    (hy : xs.foldlM (fun s x => RollbackToCheckpoint.tile c h prev y x s) b = some b1) :
    ∀ t ∈ b1.1._eventLayout, t.EmptyOk := by
  refine foldlM_invariant _ (fun s : Run φ => ∀ t ∈ s.1._eventLayout, t.EmptyOk) ?_ _ _ _
    hb hy
  intro s x s1 hs0 hx
  unfold RollbackToCheckpoint.tile at hx
  simp only at hx
  split at hx
  · rename_i tile tilePrev htile htp
    have hok := hpr tilePrev (mem_of_tileAt? _ _ _ htp)
    have key1 : ∀ t ∈ setTile s.1._eventLayout (y * s.1._layoutSize.X + x) tilePrev,
        t.EmptyOk := by
      intro t ht
      rcases mem_setTile _ _ _ _ ht with rfl | h1
      · exact hok
      · exact hs0 t h1
    split at hx
    · rename_i hcond
      simp only [Bool.and_eq_true, Bool.not_eq_true', bne_iff_ne, ne_eq] at hcond
      have key : ∀ t ∈ setTile s.1._eventLayout (y * s.1._layoutSize.X + x)
          { tilePrev with IsEventActive := true }, t.EmptyOk := by
        intro t ht
        rcases mem_setTile _ _ _ _ ht with rfl | h1
        · intro he
          exact absurd he hcond.2
        · exact hs0 t h1
      split at hx
      · simp only [Option.some.injEq] at hx
        rw [← hx]
        exact key
      · split at hx
        · split at hx <;>
          · simp only [Option.some.injEq] at hx
            rw [← hx]
            exact key
        · simp only [Option.some.injEq] at hx
          rw [← hx]
          exact key
    · simp only [Option.some.injEq] at hx
      rw [← hx]
      exact key1
  · exact absurd hx (by simp)

theorem RollbackToCheckpoint_emptyOk {φ : Type} (c : Consts) (h : ILevelHandler φ)
    (m : EventMap) (w : φ) (r : Run φ) (hinv : ∀ t ∈ m._eventLayout, t.EmptyOk)
    (hprev : ∀ prev, m._eventLayoutForRollback = some prev → ∀ t ∈ prev, t.EmptyOk)
    (hs : RollbackToCheckpoint c h m w = some r) : ∀ t ∈ r.1._eventLayout, t.EmptyOk := by
  unfold RollbackToCheckpoint at hs
  cases hp : m._eventLayoutForRollback with
  | none =>
    simp only [hp, Option.some.injEq] at hs
    rw [← hs]
    exact hinv
  | some prev =>
    simp only [hp] at hs
    have hpr := hprev prev hp
    cases hf : (intRange 0 (m._layoutSize.Y - 1)).foldlM
        (fun s y => (intRange 0 (m._layoutSize.X - 1)).foldlM
          (fun s x => RollbackToCheckpoint.tile c h prev y x s) s) (m, w, []) with
    | none => simp [hf] at hs
    | some s0 =>
      simp only [hf, Option.some.injEq] at hs
      rw [← hs]
      have hq : ∀ t ∈ s0.1._eventLayout, t.EmptyOk := by
        refine foldlM_invariant _ (fun s : Run φ => ∀ t ∈ s.1._eventLayout, t.EmptyOk) ?_ _ _ _
          hinv hf
        intro b y b1 hb hy
        exact RollbackToCheckpoint_row_emptyOk c h prev hpr y _ b b1 hb hy
      exact hq


theorem ReadEvents.store_emptyOk (c : Consts) (bit : Nat) (x y : Int)
    (r : ReadEvents.Record) (s s1 : EventMap × List TileMapCall)
    (hinv : ∀ t ∈ s.1._eventLayout, t.EmptyOk)
    (hs : ReadEvents.store c bit x y r s = some s1) :
    (∀ t ∈ s1.1._eventLayout, t.EmptyOk) ∧
      s1.1._eventLayoutForRollback = s.1._eventLayoutForRollback := by
  unfold ReadEvents.store at hs
  simp only at hs
  split at hs
  · split at hs
    · split at hs
      · exact absurd hs (by simp)
      · rename_i m1 hst
        simp only [Option.some.injEq] at hs
        rw [← hs]
        obtain ⟨_, _, e, _⟩ := StoreTileEvent_frame _ _ _ _ _ _ _ hst
        refine ⟨StoreTileEvent_emptyOk _ m1 x y EventType.Generator _ _
          (fun hk => absurd hk (by decide)) ?_ hst, e⟩
        exact hinv
    · simp only [Option.some.injEq] at hs
      rw [← hs]
      exact ⟨hinv, rfl⟩
  · split at hs
    · split at hs
      · simp only [Option.some.injEq] at hs
        rw [← hs]
        exact ⟨hinv, rfl⟩
      · simp only [Option.some.injEq] at hs
        rw [← hs]
        unfold AddSpawnPosition
        split
        · exact ⟨hinv, rfl⟩
        · exact ⟨hinv, rfl⟩
      · simp only [Option.some.injEq] at hs
        rw [← hs]
        exact ⟨hinv, rfl⟩
      · rename_i hne _ _
        split at hs
        · exact absurd hs (by simp)
        · rename_i m1 hst
          simp only [Option.some.injEq] at hs
          rw [← hs]
          obtain ⟨_, _, e, _⟩ := StoreTileEvent_frame _ _ _ _ _ _ _ hst
          exact ⟨StoreTileEvent_emptyOk _ _ _ _ _ _ _ (fun hk => absurd hk hne) hinv hst, e⟩
    · simp only [Option.some.injEq] at hs
      rw [← hs]
      exact ⟨hinv, rfl⟩

theorem ReadEvents_emptyOk (c : Consts) (codec : VarintCodec) (m : EventMap) (s : Stream)
    (d : GameDifficulty) (res : EventMap × Stream × List TileMapCall)
    (hres : ReadEvents c codec m s d = some res) :
    (∀ t ∈ res.1._eventLayout, t.EmptyOk) ∧
      res.1._eventLayoutForRollback = m._eventLayoutForRollback := by
  unfold ReadEvents at hres
  split at hres
  · exact absurd hres (by simp)
  · simp only at hres
    split at hres
    · exact absurd hres (by simp)
    · rename_i m1 s1 log hf
      have key : (∀ t ∈ m1._eventLayout, t.EmptyOk) ∧
          m1._eventLayoutForRollback = m._eventLayoutForRollback := by
        have := foldlM_invariant _
          (fun st : EventMap × Stream × List TileMapCall =>
            (∀ t ∈ st.1._eventLayout, t.EmptyOk) ∧
              st.1._eventLayoutForRollback = m._eventLayoutForRollback) ?_ _ _ _ ?_ hf
        · exact this
        · intro b y b1 hb hy
          refine foldlM_invariant _
            (fun st : EventMap × Stream × List TileMapCall =>
              (∀ t ∈ st.1._eventLayout, t.EmptyOk) ∧
                st.1._eventLayoutForRollback = m._eventLayoutForRollback) ?_ _ _ _ hb hy
          intro st x st1 hst hx
          unfold ReadEvents.tile at hx
          split at hx
          · exact absurd hx (by simp)
          · split at hx
            · exact absurd hx (by simp)
            · rename_i r sa m2 log2 hstore
              simp only [Option.some.injEq] at hx
              rw [← hx]
              obtain ⟨e1, e2⟩ := ReadEvents.store_emptyOk c _ _ _ _ _ _ hst.1 hstore
              exact ⟨e1, by rw [e2]; exact hst.2⟩
        · refine ⟨?_, rfl⟩
          intro t ht
          simp only [List.mem_replicate] at ht
          rw [ht.2]
          intro _
          exact ⟨rfl, rfl⟩
      split at hres
      · exact absurd hres (by simp)
      · split at hres
        · exact absurd hres (by simp)
        · simp only [Option.some.injEq] at hres
          rw [← hres]
          exact key

theorem mem_zipWith_elim {α β γ : Type} (f : α → β → γ) (z : γ) :
    ∀ (l : List α) (r : List β), z ∈ List.zipWith f l r → ∃ a ∈ l, ∃ b ∈ r, z = f a b := by
  intro l
  induction l with
  | nil =>
    intro r hz
    simp at hz
  | cons a l ih =>
    intro r hz
    cases r with
    | nil => simp at hz
    | cons b r =>
      simp only [List.zipWith_cons_cons, List.mem_cons] at hz
      rcases hz with rfl | hz
      · exact ⟨a, List.mem_cons_self _ _, b, List.mem_cons_self _ _, rfl⟩
      · obtain ⟨a1, ha1, b1, hb1, e⟩ := ih r hz
        exact ⟨a1, List.mem_cons_of_mem _ ha1, b1, List.mem_cons_of_mem _ hb1, e⟩

theorem InitializeFromStream_emptyOk (c : Consts) (codec : VarintCodec) (m : EventMap)
    (src : Stream) (res : EventMap × Stream) (hwf : m.WF)
    (hinact : ∀ t ∈ m._eventLayout, t.IsEventActive = false)
    (hrec : ∀ n s1 recs rest, codec.ReadVariableInt32 src = some (n, s1) →
      InitializeFromStream.records codec m._eventLayout.length s1 = some (recs, rest) →
      ∀ r ∈ recs, c.toEventType (r.1 % 65536) = EventType.Empty → r.2.2 = Params.zero)
    (hinv : ∀ t ∈ m._eventLayout, t.EmptyOk)
    (hres : InitializeFromStream c codec m src = some res) :
    ∀ t ∈ res.1._eventLayout, t.EmptyOk := by
  unfold InitializeFromStream at hres
  split at hres
  · exact absurd hres (by simp)
  · rename_i n s1 hread
    split at hres
    · rename_i hn
      obtain ⟨hX, hY, hl⟩ := hwf
      have h0 : 0 ≤ m._layoutSize.X * m._layoutSize.Y := mul_nonneg hX hY
      have hrange : n - 1 =
          ((([] : List EventTile).length : Nat) : Int) + (m._eventLayout.length : Int) - 1 := by
        rw [hl, hn]
        simp only [List.length_nil, Nat.cast_zero, zero_add]
        rw [Int.toNat_of_nonneg h0]
      have hfold := InitializeFromStream_fold_eq c codec m._eventLayout [] m s1 (by simp)
      rw [hrange] at hres
      simp only [List.length_nil, Nat.cast_zero] at hres hfold
      rw [hfold] at hres
      cases hrecs : InitializeFromStream.records codec m._eventLayout.length s1 with
      | none => simp [hrecs] at hres
      | some pr =>
        obtain ⟨recs, rest⟩ := pr
        simp only [hrecs, Option.some.injEq] at hres
        rw [← hres]
        intro t ht
        simp only [List.nil_append] at ht
        obtain ⟨a, ha, b, hb, rfl⟩ := mem_zipWith_elim _ _ _ _ ht
        intro he
        exact ⟨hinact a ha, hrec n s1 recs rest hread hrecs b hb he⟩
    · simp only [Option.some.injEq] at hres
      rw [← hres]
      exact hinv

/-- C4. The cell invariant (kind `Empty` implies inactive and all sixteen parameter bytes
zero, on the live grid and on the snapshot) holds for a newly constructed event map and is
kept by every operation of `EventMap` that returns, `ReadEvents` included, with two
provisos: a `StoreTileEvent` of kind `Empty` passes no parameter block other than zeros, and
`InitializeFromStream` runs on an allocated grid that has no active cell with a stream in
which every record of kind `Empty` has an all-zero parameter block. -/
theorem EmptyInvariant_preserved {φ : Type} (c : Consts) (codec : VarintCodec)
    (h : ILevelHandler φ) (op : Op) (s s1 : EventMap × φ)
    (hstore : ∀ x y f q, op = Op.StoreTileEvent x y EventType.Empty f (some q) →
      q = Params.zero)
    (hinit : ∀ src, op = Op.InitializeFromStream src →
      s.1.WF ∧ (∀ t ∈ s.1._eventLayout, t.IsEventActive = false) ∧
      ∀ n st recs rest, codec.ReadVariableInt32 src = some (n, st) →
        InitializeFromStream.records codec s.1._eventLayout.length st = some (recs, rest) →
        ∀ r ∈ recs, c.toEventType (r.1 % 65536) = EventType.Empty → r.2.2 = Params.zero)
    (hinv : s.1.EmptyInvariant) (hop : op.apply c codec h s = some s1) :
    (EventMap.new s.1._layoutSize).EmptyInvariant ∧ s1.1.EmptyInvariant := by
  refine ⟨⟨fun t ht => absurd ht (List.not_mem_nil t), fun prev hp => absurd hp (by
    simp [EventMap.new])⟩, ?_⟩
  obtain ⟨hlive, hsnap⟩ := hinv
  cases op with
  | StoreTileEvent x y k f p =>
    simp only [Op.apply, Option.map_eq_some'] at hop
    obtain ⟨m1, h1, rfl⟩ := hop
    obtain ⟨_, _, e, _⟩ := StoreTileEvent_frame _ _ _ _ _ _ _ h1
    refine ⟨StoreTileEvent_emptyOk _ _ _ _ _ _ _ ?_ hlive h1, by rw [e]; exact hsnap⟩
    intro hk q hq
    subst hk hq
    exact hstore x y f q rfl
  | ActivateEvents tx1 ty1 tx2 ty2 a =>
    simp only [Op.apply, Option.map_eq_some'] at hop
    obtain ⟨r, h1, rfl⟩ := hop
    obtain ⟨_, _, e⟩ := ActivateEvents_generators c h _ _ _ _ _ _ _ r h1
    exact ⟨ActivateEvents_emptyOk c h _ _ _ _ _ _ _ r hlive h1, by rw [e]; exact hsnap⟩
  | Deactivate x y =>
    simp only [Op.apply, Option.map_eq_some'] at hop
    obtain ⟨m1, h1, rfl⟩ := hop
    obtain ⟨_, _, e, _⟩ := Deactivate_frame _ _ _ _ h1
    exact ⟨Deactivate_emptyOk _ _ _ _ hlive h1, by rw [e]; exact hsnap⟩
  | ResetGenerator tx ty =>
    simp only [Op.apply, Option.map_eq_some'] at hop
    obtain ⟨m1, h1, rfl⟩ := hop
    obtain ⟨_, e1, e2, _⟩ := ResetGenerator_frame _ _ _ _ h1
    exact ⟨by rw [e1]; exact hlive, by rw [e2]; exact hsnap⟩
  | ProcessGenerators dt =>
    simp only [Op.apply, Option.map_eq_some'] at hop
    obtain ⟨r, h1, rfl⟩ := hop
    obtain ⟨_, e1, e2, _⟩ := ProcessGenerators_frame c h _ _ _ r h1
    exact ⟨by rw [e1]; exact hlive, by rw [e2]; exact hsnap⟩
  | CreateCheckpointForRollback =>
    simp only [Op.apply, Option.map_eq_some'] at hop
    obtain ⟨m1, h1, rfl⟩ := hop
    unfold Jazz2.CreateCheckpointForRollback at h1
    split at h1
    · simp only [Option.some.injEq] at h1
      rw [← h1]
      refine ⟨hlive, ?_⟩
      intro prev hp t ht
      simp only [Option.some.injEq] at hp
      rw [← hp] at ht
      exact hlive t (List.mem_of_mem_take ht)
    · exact absurd h1 (by simp)
  | RollbackToCheckpoint =>
    simp only [Op.apply, Option.map_eq_some'] at hop
    obtain ⟨r, h1, rfl⟩ := hop
    obtain ⟨_, _, e⟩ := RollbackToCheckpoint_generators c h _ _ r h1
    exact ⟨RollbackToCheckpoint_emptyOk c h _ _ r hlive hsnap h1, by rw [e]; exact hsnap⟩
  | ReadEvents st d =>
    simp only [Op.apply, Option.map_eq_some'] at hop
    obtain ⟨r, h1, rfl⟩ := hop
    obtain ⟨e1, e2⟩ := ReadEvents_emptyOk c codec _ _ _ r h1
    exact ⟨e1, by rw [e2]; exact hsnap⟩
  | InitializeFromStream src =>
    simp only [Op.apply, Option.map_eq_some'] at hop
    obtain ⟨r, h1, rfl⟩ := hop
    obtain ⟨g1, g2, g3⟩ := hinit src rfl
    obtain ⟨_, _, e⟩ := InitializeFromStream_generators c codec _ _ r h1
    exact ⟨InitializeFromStream_emptyOk c codec _ _ r g1 g2 g3 hlive h1,
      by rw [e]; exact hsnap⟩

theorem EmptyInvariant_preserved_witness :
    (EventMap.new ⟨2, 2⟩).EmptyInvariant ∧ Sample.loaded.EmptyInvariant :=
  EmptyInvariant_preserved Sample.consts Sample.codec Sample.handler
    (Op.ReadEvents Sample.levelStream GameDifficulty.Normal) (Sample.blank, 0)
    (Sample.loaded, 0) (fun _ _ _ _ e => by simp at e) (fun _ e => by simp at e)
    ⟨fun t ht => absurd ht (List.not_mem_nil t), fun prev hp => absurd hp (by
      simp [Sample.blank, EventMap.new])⟩ rfl


/-- Two runs that break the cell invariant on the sample map. `StoreTileEvent` of kind
`Empty` with a parameter block that starts with 3 leaves an `Empty` cell with that block.
`InitializeFromStream` of four `Empty` records over the activated sample map leaves `Empty`
cells that are still active. -/
theorem EmptyInvariant_counterexample :
    (Sample.map.EmptyInvariant ∧
      ∃ s1, Op.apply Sample.consts Sample.codec Sample.handler
          (Op.StoreTileEvent 1 1 EventType.Empty 0 (some (Sample.params 3 0)))
          (Sample.map, 0) = some s1 ∧
        s1.1.cell 1 1 = some ⟨EventType.Empty, 0, Sample.params 3 0, false⟩ ∧
        ¬ s1.1.EmptyInvariant) ∧
    (Sample.activeMap.EmptyInvariant ∧
      ∃ s1, Op.apply Sample.consts Sample.codec Sample.handler
          (Op.InitializeFromStream Sample.emptyStream) (Sample.activeMap, 0) = some s1 ∧
        s1.1.cell 0 0 = some ⟨EventType.Empty, 0, Params.zero, true⟩ ∧
        ¬ s1.1.EmptyInvariant) := by
  refine ⟨⟨⟨by decide, fun prev hp => absurd hp (by simp [Sample.map])⟩, _, rfl, rfl, ?_⟩,
    ⟨⟨by decide, fun prev hp => absurd hp (by simp [Sample.activeMap, Sample.map])⟩, _, rfl,
      rfl, ?_⟩⟩
  · intro hinv
    have := hinv.1 ⟨EventType.Empty, 0, Sample.params 3 0, false⟩ (by decide) rfl
    exact absurd this.2 (by decide)
  · intro hinv
    have := hinv.1 ⟨EventType.Empty, 0, Params.zero, true⟩ (by decide) rfl
    exact absurd this.1 (by decide)

theorem LinkOn_congr (m m1 : EventMap) (l l1 : List EventTile)
    (hsz : m1._layoutSize = m._layoutSize)
    (hpos : m1._generators.map (fun g => g.EventPos) = m._generators.map (fun g => g.EventPos))
    (htiles : ∀ j t, tileAt? l j = some t →
      ∃ t1, tileAt? l1 j = some t1 ∧ t1.Event = t.Event ∧ t1.EventParams = t.EventParams)
    (hl : m.LinkOn l) : m1.LinkOn l1 := by
  intro i g1 hg1
  have h1 : (m1._generators.map (fun g => g.EventPos))[i]? = some g1.EventPos := by
    rw [List.getElem?_map, hg1]
    rfl
  rw [hpos, List.getElem?_map] at h1
  cases hg : m._generators[i]? with
  | none => simp [hg] at h1
  | some g =>
    simp only [hg, Option.map_some', Option.some.injEq] at h1
    obtain ⟨x, y, t, a1, a2, a3, a4, a5⟩ := hl i g hg
    rw [h1] at a2 a3
    obtain ⟨t1, b1, b2, b3⟩ := htiles _ t a3
    refine ⟨x, y, t1, ?_, ?_, b1, by rw [b2, a4], by rw [b3, a5]⟩
    · unfold EventMap.inGrid at a1 ⊢
      rw [hsz]
      exact a1
    · rw [hsz]
      exact a2

theorem ProcessGenerators.step_pos {φ : Type} (c : Consts) (h : ILevelHandler φ)
    (layout : List EventTile) (X : Int) (dt : ℚ) (g : GeneratorInfo) (w : φ)
    (rg : GeneratorInfo × φ × List Call)
    (hs : ProcessGenerators.step c h layout X dt g w = some rg) :
    rg.1.EventPos = g.EventPos := by
  unfold ProcessGenerators.step at hs
  split at hs
  · exact absurd hs (by simp)
  · split at hs
    · simp only [Option.some.injEq] at hs
      rw [← hs]
    · split at hs
      · split at hs
        · simp only at hs
          split at hs <;>
          · simp only [Option.some.injEq] at hs
            rw [← hs]
        · simp only [Option.some.injEq] at hs
          rw [← hs]
      · simp only [Option.some.injEq] at hs
        rw [← hs]

theorem ProcessGenerators_positions {φ : Type} (c : Consts) (h : ILevelHandler φ)
    (m : EventMap) (w : φ) (dt : ℚ) (r : Run φ) (hs : ProcessGenerators c h m w dt = some r) :
    r.1._generators.map (fun g => g.EventPos) = m._generators.map (fun g => g.EventPos) := by
  unfold ProcessGenerators at hs
  cases hl : ProcessGenerators.loop c h m._eventLayout m._layoutSize.X dt m._generators w with
  | none => simp [hl] at hs
  | some r1 =>
    simp only [hl, Option.some.injEq] at hs
    rw [← hs]
    simp only
    have hlen := ProcessGenerators.loop_length c h _ _ dt _ w r1 hl
    apply List.ext_getElem?
    intro i
    rw [List.getElem?_map, List.getElem?_map]
    cases hg : m._generators[i]? with
    | none =>
      rw [List.getElem?_eq_none_iff] at hg
      rw [List.getElem?_eq_none_iff.2 (by rw [hlen]; exact hg)]
    | some g =>
      obtain ⟨wi, rg, h1, h2⟩ := ProcessGenerators.loop_at c h _ _ dt _ w r1 hl i g hg
      rw [h2]
      simp only [Option.map_some', Option.some.injEq]
      exact ProcessGenerators.step_pos c h _ _ dt g wi rg h1

theorem Op.keepsLink_linked {φ : Type} (c : Consts) (codec : VarintCodec)
    (h : ILevelHandler φ) (op : Op) (s s1 : EventMap × φ) (hk : op.keepsLink = true)
    (hl : s.1.Linked) (hop : op.apply c codec h s = some s1) : s1.1.Linked := by
  obtain ⟨hwf, hsnap, hlive, hprev⟩ := hl
  cases op with
  | StoreTileEvent x y k f p => simp [Op.keepsLink] at hk
  | ReadEvents st d => simp [Op.keepsLink] at hk
  | InitializeFromStream src => simp [Op.keepsLink] at hk
  | ActivateEvents tx1 ty1 tx2 ty2 a =>
    simp only [Op.apply, Option.map_eq_some'] at hop
    obtain ⟨r, h1, rfl⟩ := hop
    obtain ⟨r1, hrun, hrest, hlen, htile, _⟩ :=
      ActivateEvents_run_spec c h s.1 s.2 tx1 ty1 tx2 ty2 a hwf
    rw [hrun] at h1
    simp only [Option.some.injEq] at h1
    subst h1
    simp only
    have e1 : r1.1._layoutSize = s.1._layoutSize := by rw [hrest]
    have e2 : r1.1._generators = s.1._generators := by rw [hrest]
    have e3 : r1.1._eventLayoutForRollback = s.1._eventLayoutForRollback := by rw [hrest]
    refine ⟨?_, ?_, ?_, ?_⟩
    · unfold EventMap.WF at hwf ⊢
      rw [e1, hlen]
      exact hwf
    · intro prev hp
      rw [e3] at hp
      rw [hlen]
      exact hsnap prev hp
    · refine LinkOn_congr s.1 r1.1 _ _ e1 (by rw [e2]) ?_ hlive
      intro j t ht
      rw [htile j, ht]
      simp only [Option.map_some', Option.some.injEq, exists_eq_left']
      split
      · unfold EventTile.activated
        split <;> exact ⟨rfl, rfl⟩
      · exact ⟨rfl, rfl⟩
    · intro prev hp
      rw [e3] at hp
      exact LinkOn_congr s.1 r1.1 _ _ e1 (by rw [e2]) (fun j t ht => ⟨t, ht, rfl, rfl⟩)
        (hprev prev hp)
  | Deactivate x y =>
    simp only [Op.apply, Option.map_eq_some'] at hop
    obtain ⟨m1, h1, rfl⟩ := hop
    obtain ⟨m2, hrun, hrest, hlen, htile⟩ := Deactivate_spec s.1 x y hwf
    rw [hrun] at h1
    simp only [Option.some.injEq] at h1
    subst h1
    simp only
    have e1 : m2._layoutSize = s.1._layoutSize := by rw [hrest]
    have e2 : m2._generators = s.1._generators := by rw [hrest]
    have e3 : m2._eventLayoutForRollback = s.1._eventLayoutForRollback := by rw [hrest]
    refine ⟨?_, ?_, ?_, ?_⟩
    · unfold EventMap.WF at hwf ⊢
      rw [e1, hlen]
      exact hwf
    · intro prev hp
      rw [e3] at hp
      rw [hlen]
      exact hsnap prev hp
    · refine LinkOn_congr s.1 m2 _ _ e1 (by rw [e2]) ?_ hlive
      intro j t ht
      rw [htile j, ht]
      simp only [Option.map_some', Option.some.injEq, exists_eq_left']
      split
      · unfold EventTile.deactivated
        split <;> exact ⟨rfl, rfl⟩
      · exact ⟨rfl, rfl⟩
    · intro prev hp
      rw [e3] at hp
      exact LinkOn_congr s.1 m2 _ _ e1 (by rw [e2]) (fun j t ht => ⟨t, ht, rfl, rfl⟩)
        (hprev prev hp)
  | ResetGenerator tx ty =>
    simp only [Op.apply, Option.map_eq_some'] at hop
    obtain ⟨m1, h1, rfl⟩ := hop
    obtain ⟨e1, e2, e3, _⟩ := ResetGenerator_frame _ _ _ _ h1
    have e4 := ResetGenerator_positions _ _ _ _ h1
    simp only
    refine ⟨?_, ?_, ?_, ?_⟩
    · unfold EventMap.WF at hwf ⊢
      rw [e1, e2]
      exact hwf
    · intro prev hp
      rw [e3] at hp
      rw [e2]
      exact hsnap prev hp
    · rw [e2]
      exact LinkOn_congr s.1 m1 _ _ e1 e4 (fun j t ht => ⟨t, ht, rfl, rfl⟩) hlive
    · intro prev hp
      rw [e3] at hp
      exact LinkOn_congr s.1 m1 _ _ e1 e4 (fun j t ht => ⟨t, ht, rfl, rfl⟩) (hprev prev hp)
  | ProcessGenerators dt =>
    simp only [Op.apply, Option.map_eq_some'] at hop
    obtain ⟨r, h1, rfl⟩ := hop
    obtain ⟨e1, e2, e3, _⟩ := ProcessGenerators_frame c h _ _ _ r h1
    have e4 := ProcessGenerators_positions c h _ _ _ r h1
    simp only
    refine ⟨?_, ?_, ?_, ?_⟩
    · unfold EventMap.WF at hwf ⊢
      rw [e1, e2]
      exact hwf
    · intro prev hp
      rw [e3] at hp
      rw [e2]
      exact hsnap prev hp
    · rw [e2]
      exact LinkOn_congr s.1 r.1 _ _ e1 e4 (fun j t ht => ⟨t, ht, rfl, rfl⟩) hlive
    · intro prev hp
      rw [e3] at hp
      exact LinkOn_congr s.1 r.1 _ _ e1 e4 (fun j t ht => ⟨t, ht, rfl, rfl⟩) (hprev prev hp)
  | CreateCheckpointForRollback =>
    simp only [Op.apply, Option.map_eq_some'] at hop
    obtain ⟨m1, h1, rfl⟩ := hop
    rw [CreateCheckpointForRollback_spec s.1 hwf] at h1
    simp only [Option.some.injEq] at h1
    subst h1
    refine ⟨hwf, ?_, hlive, ?_⟩
    · intro prev hp
      simp only [Option.some.injEq] at hp
      rw [← hp]
    · intro prev hp
      simp only [Option.some.injEq] at hp
      rw [← hp]
      exact hlive
  | RollbackToCheckpoint =>
    simp only [Op.apply, Option.map_eq_some'] at hop
    obtain ⟨r, h1, rfl⟩ := hop
    cases hp : s.1._eventLayoutForRollback with
    | none =>
      rw [show Jazz2.RollbackToCheckpoint c h s.1 s.2 = some (s.1, s.2, []) from by simp [Jazz2.RollbackToCheckpoint, hp]] at h1
      simp only [Option.some.injEq] at h1
      subst h1
      exact ⟨hwf, hsnap, hlive, hprev⟩
    | some prev =>
      obtain ⟨w1, tr, hrun, _, _⟩ :=
        RollbackToCheckpoint_run_spec c h s.1 s.2 prev hwf hp (hsnap prev hp)
      rw [hrun] at h1
      simp only [Option.some.injEq] at h1
      subst h1
      simp only
      have hpos : (s.1._generators.map (fun g => ({ g with TimeLeft := 0 } : GeneratorInfo))).map
          (fun g => g.EventPos) = s.1._generators.map (fun g => g.EventPos) := by
        rw [List.map_map]
        rfl
      refine ⟨?_, ?_, ?_, ?_⟩
      · unfold EventMap.WF at hwf ⊢
        simp only
        rw [hsnap prev hp]
        exact hwf
      · intro prev1 hp1
        simp only [hp, Option.some.injEq] at hp1
        rw [← hp1]
      · exact LinkOn_congr s.1 _ _ _ rfl hpos (fun j t ht => ⟨t, ht, rfl, rfl⟩) (hprev prev hp)
      · intro prev1 hp1
        simp only [hp, Option.some.injEq] at hp1
        rw [← hp1]
        exact LinkOn_congr s.1 _ _ _ rfl hpos (fun j t ht => ⟨t, ht, rfl, rfl⟩)
          (hprev prev hp)


/-- C16. After `ReadEvents` on a new event map (no generators, no snapshot, layout sizes
`≥ 0` with at most `2^32` tiles) the grid is allocated and every entry `i` of the generator
table has an `EventPos` that is the linear index `x + y * width` of an in-grid cell whose kind
is `Generator` and whose first four parameter bytes hold `i`. On an allocated grid whose
snapshot, if any, has the size of the grid, this link (on the live grid and on the snapshot)
is kept by every `ActivateEvents`, `Deactivate`, `ProcessGenerators`, `ResetGenerator`,
`CreateCheckpointForRollback` and `RollbackToCheckpoint` that returns. -/
theorem GeneratorLink_invariant {φ : Type} (c : Consts) (codec : VarintCodec)
    (h : ILevelHandler φ) :
    (∀ (m : EventMap) (st : Stream) (d : GameDifficulty)
      (res : EventMap × Stream × List TileMapCall),
      0 ≤ m._layoutSize.X → 0 ≤ m._layoutSize.Y →
      m._layoutSize.X * m._layoutSize.Y ≤ 4294967296 → m._generators = [] →
      m._eventLayoutForRollback = none → ReadEvents c codec m st d = some res →
      res.1.Linked ∧
        ∀ i g, res.1._generators[i]? = some g →
          ∃ x y t, res.1.inGrid x y ∧ g.EventPos = x + y * res.1._layoutSize.X ∧
            tileAt? res.1._eventLayout g.EventPos = some t ∧
            t.Event = EventType.Generator ∧ t.EventParams.readU32 = i) ∧
    (∀ (op : Op) (s s1 : EventMap × φ), op.keepsLink = true → s.1.Linked →
      op.apply c codec h s = some s1 → s1.1.Linked) := by
  refine ⟨?_, fun op s s1 hk hl hop => Op.keepsLink_linked c codec h op s s1 hk hl hop⟩
  intro m st d res hX hY hsize hgen hsnap hres
  obtain ⟨a1, _, a3, _, _, a6⟩ := ReadEvents_result c codec m st d hX hY res hres
  have hlink := a6 hgen hsize
  refine ⟨⟨a1, ?_, hlink, ?_⟩, hlink⟩
  · intro prev hp
    rw [a3, hsnap] at hp
    exact absurd hp (by simp)
  · intro prev hp
    rw [a3, hsnap] at hp
    exact absurd hp (by simp)

theorem GeneratorLink_invariant_witness :
    Sample.loaded.Linked ∧
      ∃ s1, Op.apply Sample.consts Sample.codec Sample.handler (Op.ActivateEvents 0 0 1 1 true)
          (Sample.loaded, 0) = some s1 ∧
        s1.1.cell 0 1 = some ⟨EventType.Generator, 0, Params.zero.writeU32 0, true⟩ ∧
        s1.1.Linked := by
  have key := GeneratorLink_invariant Sample.consts Sample.codec Sample.handler
  have hl := (key.1 Sample.blank Sample.levelStream GameDifficulty.Normal
    (Sample.loaded, [], []) (by decide) (by decide) (by decide) rfl rfl rfl).1
  exact ⟨hl, _, rfl, rfl, key.2 (Op.ActivateEvents 0 0 1 1 true) (Sample.loaded, 0) _ rfl hl rfl⟩

theorem mapM_tileAt? (ts : List EventTile) :
    ∀ done : List EventTile,
      (intRange (done.length : Int) ((done.length : Int) + (ts.length : Int) - 1)).mapM
        (fun i => tileAt? (done ++ ts) i) = some ts := by
  induction ts with
  | nil =>
    intro done
    rw [intRange_empty _ _ (by simp)]
    rfl
  | cons t ts ih =>
    intro done
    rw [intRange_cons _ _ (by simp only [List.length_cons, Nat.cast_add, Nat.cast_one]; omega)]
    have h1 : tileAt? (done ++ t :: ts) (done.length : Int) = some t :=
      tileAt?_append_cons done ts t
    have h2 := ih (done ++ [t])
    simp only [List.length_append, List.length_singleton, Nat.cast_add, Nat.cast_one,
      List.append_assoc, List.singleton_append] at h2
    have e : (done.length : Int) + ((t :: ts).length : Int) - 1 =
        (done.length : Int) + 1 + (ts.length : Int) - 1 := by
      simp only [List.length_cons, Nat.cast_add, Nat.cast_one]
      ring
    rw [e, List.mapM_cons, h1, h2]
    rfl

theorem Stream.ReadParams_append (p : Params) (rest : Stream) :
    Stream.ReadParams (p.bytes ++ rest) = some (p, rest) := by
  obtain ⟨bytes, hlen, hlt⟩ := p
  unfold Stream.ReadParams
  have h16 : 16 ≤ (bytes ++ rest).length := by
    rw [List.length_append, hlen]
    omega
  rw [dif_pos h16]
  simp only [Option.some.injEq, Prod.mk.injEq, Params.mk.injEq]
  constructor
  · rw [← hlen, List.take_left' rfl]
    have e : bytes.map (fun b => b % 256) = bytes.map id :=
      List.map_congr_left (fun b hb => Nat.mod_eq_of_lt (hlt b hb))
    rw [e, List.map_id]
  · rw [← hlen, List.drop_left' rfl]


theorem SerializeResumableToStream_eq (c : Consts) (codec : VarintCodec) (m : EventMap)
    (fromCheckpoint : Bool) :
    SerializeResumableToStream c codec m fromCheckpoint =
      match (intRange 0 (m._layoutSize.X * m._layoutSize.Y - 1)).mapM
          (fun i => tileAt? (SerializeResumableToStream.source m fromCheckpoint) i) with
      | none => none
      | some tiles =>
        some (codec.WriteVariableInt32 (m._layoutSize.X * m._layoutSize.Y) ++
          tiles.flatMap (SerializeResumableToStream.tile c codec)) := by
  cases fromCheckpoint <;> cases hp : m._eventLayoutForRollback <;>
    simp only [SerializeResumableToStream, SerializeResumableToStream.source, hp]

theorem InitializeFromStream.records_serialized (c : Consts) (codec : VarintCodec)
    (hcodec : ∀ v rest, v < 4294967296 →
      codec.ReadVariableUint32 (codec.WriteVariableUint32 v ++ rest) = some (v, rest))
    (rest : Stream) (ts : List EventTile)
    (hts : ∀ t ∈ ts, c.fromEventType t.Event < 4294967296 ∧ t.EventFlags < 4294967296) :
    InitializeFromStream.records codec ts.length
        (ts.flatMap (SerializeResumableToStream.tile c codec) ++ rest) =
      some (ts.map (SerializeResumableToStream.record c), rest) := by
  induction ts with
  | nil => simp [InitializeFromStream.records]
  | cons t ts ih =>
    obtain ⟨h1, h2⟩ := hts t (List.mem_cons_self _ _)
    have e : (t :: ts).flatMap (SerializeResumableToStream.tile c codec) ++ rest =
        codec.WriteVariableUint32 (c.fromEventType t.Event) ++
          (codec.WriteVariableUint32 t.EventFlags ++
            (t.EventParams.bytes ++
              (ts.flatMap (SerializeResumableToStream.tile c codec) ++ rest))) := by
      simp [List.flatMap_cons, SerializeResumableToStream.tile, List.append_assoc]
    rw [e]
    simp only [List.length_cons, InitializeFromStream.records, hcodec _ _ h1, hcodec _ _ h2,
      Stream.ReadParams_append, ih (fun u hu => hts u (List.mem_cons_of_mem _ hu)),
      List.map_cons, SerializeResumableToStream.record]

theorem zipWith_update_record (c : Consts) (src : List EventTile)
    (hsrc : ∀ t ∈ src, c.toEventType (c.fromEventType t.Event % 65536) = t.Event) :
    ∀ ml : List EventTile,
      List.zipWith (InitializeFromStream.update c) ml
          (src.map (SerializeResumableToStream.record c)) =
        List.zipWith (fun t0 t => { t with IsEventActive := t0.IsEventActive }) ml src := by
  induction src with
  | nil =>
    intro ml
    simp
  | cons t src ih =>
    intro ml
    cases ml with
    | nil => simp
    | cons t0 ml =>
      simp only [List.map_cons, List.zipWith_cons_cons, List.cons.injEq]
      refine ⟨?_, ih (fun u hu => hsrc u (List.mem_cons_of_mem _ hu)) ml⟩
      simp only [InitializeFromStream.update, SerializeResumableToStream.record,
        hsrc t (List.mem_cons_self _ _)]

theorem zipWith_same_active (src : List EventTile) :
    ∀ ml : List EventTile, ml.map (fun t => t.IsEventActive) =
        src.map (fun t => t.IsEventActive) →
      List.zipWith (fun (t0 t : EventTile) => { t with IsEventActive := t0.IsEventActive })
        ml src = src := by
  induction src with
  | nil =>
    intro ml _
    simp
  | cons t src ih =>
    intro ml h
    cases ml with
    | nil => simp at h
    | cons t0 ml =>
      simp only [List.map_cons, List.cons.injEq] at h
      simp only [List.zipWith_cons_cons, List.cons.injEq]
      exact ⟨by rw [h.1], ih ml h.2⟩

/-- C19. Let `G` and `m` be allocated event maps of the same layout size with fewer than
`2^31` tiles, let the grid `src` that `SerializeResumableToStream` writes (the snapshot of `G`
when `fromCheckpoint` is set and `G` has one, the live grid of `G` otherwise) have the size of
the grid, let the codec read back what it writes and the kind numbers and flags of `src` fit
their casts. Then `SerializeResumableToStream` returns bytes, and `InitializeFromStream` on
`m` consumes exactly these bytes and leaves a grid that has, cell by cell in index order, the
kind, flags and sixteen parameter bytes of `src` and the active state of the cell of `m`
it overwrites: the active state is neither written nor read. The grid equals `src` when the
active states of `m` are those of `src`. -/
theorem Resumable_round_trip (c : Consts) (codec : VarintCodec) (G m : EventMap)
    (fromCheckpoint : Bool) (rest : Stream) (hG : G.WF) (hm : m.WF)
    (hsize : m._layoutSize = G._layoutSize)
    (hlen : (SerializeResumableToStream.source G fromCheckpoint).length =
      G._eventLayout.length)
    (hcodec : ∀ v rest, v < 4294967296 →
      codec.ReadVariableUint32 (codec.WriteVariableUint32 v ++ rest) = some (v, rest))
    (hcodecInt : ∀ rest, codec.ReadVariableInt32
      (codec.WriteVariableInt32 (G._layoutSize.X * G._layoutSize.Y) ++ rest) =
        some (G._layoutSize.X * G._layoutSize.Y, rest))
    (hfit : ∀ t ∈ SerializeResumableToStream.source G fromCheckpoint,
      c.fromEventType t.Event < 65536 ∧ c.toEventType (c.fromEventType t.Event) = t.Event ∧
        t.EventFlags < 4294967296) :
    (∀ prev, fromCheckpoint = true → G._eventLayoutForRollback = some prev →
      SerializeResumableToStream.source G fromCheckpoint = prev) ∧
    (fromCheckpoint = false ∨ G._eventLayoutForRollback = none →
      SerializeResumableToStream.source G fromCheckpoint = G._eventLayout) ∧
    ∃ bytes m1, SerializeResumableToStream c codec G fromCheckpoint = some bytes ∧
      bytes = codec.WriteVariableInt32 (G._layoutSize.X * G._layoutSize.Y) ++
        (SerializeResumableToStream.source G fromCheckpoint).flatMap (fun t =>
          codec.WriteVariableUint32 (c.fromEventType t.Event) ++
            codec.WriteVariableUint32 t.EventFlags ++ t.EventParams.bytes) ∧
      InitializeFromStream c codec m (bytes ++ rest) = some (m1, rest) ∧
      m1 = { m with _eventLayout := m1._eventLayout } ∧
      m1._eventLayout = List.zipWith
        (fun t0 t => { t with IsEventActive := t0.IsEventActive }) m._eventLayout
        (SerializeResumableToStream.source G fromCheckpoint) ∧
      (m._eventLayout.map (fun t => t.IsEventActive) =
          (SerializeResumableToStream.source G fromCheckpoint).map (fun t => t.IsEventActive) →
        m1._eventLayout = SerializeResumableToStream.source G fromCheckpoint) := by
  refine ⟨?_, ?_, ?_⟩
  · intro prev hf hp
    simp [SerializeResumableToStream.source, hf, hp]
  · intro hcase
    unfold SerializeResumableToStream.source
    rcases hcase with hf | hp
    · rw [hf]
    · rw [hp]
      cases fromCheckpoint <;> rfl
  · obtain ⟨hX, hY, hl⟩ := hG
    obtain ⟨_, _, hlm⟩ := hm
    have h0 : 0 ≤ G._layoutSize.X * G._layoutSize.Y := mul_nonneg hX hY
    have hn : G._layoutSize.X * G._layoutSize.Y - 1 =
        ((([] : List EventTile).length : Nat) : Int) +
          ((SerializeResumableToStream.source G fromCheckpoint).length : Int) - 1 := by
      rw [hlen, hl]
      simp only [List.length_nil, Nat.cast_zero, zero_add]
      rw [Int.toNat_of_nonneg h0]
    have hmap := mapM_tileAt? (SerializeResumableToStream.source G fromCheckpoint) []
    rw [← hn] at hmap
    simp only [List.length_nil, Nat.cast_zero, List.nil_append] at hmap
    have hser : SerializeResumableToStream c codec G fromCheckpoint =
        some (codec.WriteVariableInt32 (G._layoutSize.X * G._layoutSize.Y) ++
          (SerializeResumableToStream.source G fromCheckpoint).flatMap
            (SerializeResumableToStream.tile c codec)) := by
      rw [SerializeResumableToStream_eq, hmap]
    have hmlen : m._eventLayout.length =
        (SerializeResumableToStream.source G fromCheckpoint).length := by
      rw [hlen, hlm, hl, hsize]
    have hrecs := InitializeFromStream.records_serialized c codec hcodec rest
      (SerializeResumableToStream.source G fromCheckpoint)
      (fun t ht => ⟨lt_trans (hfit t ht).1 (by norm_num), (hfit t ht).2.2⟩)
    have hfold := InitializeFromStream_fold_eq c codec m._eventLayout [] m
      ((SerializeResumableToStream.source G fromCheckpoint).flatMap
        (SerializeResumableToStream.tile c codec) ++ rest) (by simp)
    rw [hmlen, hrecs] at hfold
    simp only [List.length_nil, Nat.cast_zero, List.nil_append] at hfold
    have hzip := zipWith_update_record c (SerializeResumableToStream.source G fromCheckpoint)
      (fun t ht => by rw [Nat.mod_eq_of_lt (hfit t ht).1]; exact (hfit t ht).2.1)
      m._eventLayout
    rw [hzip] at hfold
    have hinit : InitializeFromStream c codec m
        ((codec.WriteVariableInt32 (G._layoutSize.X * G._layoutSize.Y) ++
          (SerializeResumableToStream.source G fromCheckpoint).flatMap
            (SerializeResumableToStream.tile c codec)) ++ rest) =
        (intRange 0 (0 + ((SerializeResumableToStream.source G fromCheckpoint).length : Int)
          - 1)).foldlM (InitializeFromStream.tile c codec)
          (m, (SerializeResumableToStream.source G fromCheckpoint).flatMap
            (SerializeResumableToStream.tile c codec) ++ rest) := by
      unfold InitializeFromStream
      rw [List.append_assoc, hcodecInt]
      simp only
      rw [if_pos (by rw [hsize]), hn]
      simp only [List.length_nil, Nat.cast_zero]
    rw [hfold] at hinit
    exact ⟨_, _, hser, rfl, hinit, rfl, rfl, fun hact => zipWith_same_active _ _ hact⟩


theorem Sample.readVar_writeVar (k : Nat) :
    ∀ (v : Nat) (rest : Stream), v < 128 ^ (k + 1) →
      Sample.readVar (k + 1) (Sample.writeVar (k + 1) v ++ rest) = some (v, rest) := by
  induction k with
  | zero =>
    intro v rest hv
    have h : v < 128 := by simpa using hv
    have h1 : v % 256 = v := Nat.mod_eq_of_lt (by omega)
    simp [Sample.writeVar, Sample.readVar, h, h1]
  | succ k ih =>
    intro v rest hv
    by_cases h : v < 128
    · have h1 : v % 256 = v := Nat.mod_eq_of_lt (by omega)
      simp [Sample.writeVar, Sample.readVar, h, h1]
    · have hv1 : v / 128 < 128 ^ (k + 1) := by
        rw [Nat.div_lt_iff_lt_mul (by norm_num)]
        rw [pow_succ] at hv
        exact hv
      have h1 : (128 + v % 128) % 256 = 128 + v % 128 := Nat.mod_eq_of_lt (by omega)
      have h2 : ¬ 128 + v % 128 < 128 := by omega
      rw [Sample.writeVar, if_neg h, List.cons_append, Sample.readVar, h1, if_neg h2,
        ih (v / 128) rest hv1]
      simp only [Option.some.injEq, Prod.mk.injEq, and_true]
      omega

theorem Sample.codec_law (v : Nat) (rest : Stream) (hv : v < 4294967296) :
    Sample.codec.ReadVariableUint32 (Sample.codec.WriteVariableUint32 v ++ rest) =
      some (v, rest) := by
  simp only [Sample.codec, Nat.mod_eq_of_lt hv]
  rw [Sample.readVar_writeVar 4 v rest (lt_trans hv (by norm_num))]
  simp [Nat.mod_eq_of_lt hv]

theorem Resumable_round_trip_witness :
    ∃ bytes m1, SerializeResumableToStream Sample.consts Sample.codec Sample.activeMap false =
        some bytes ∧
      InitializeFromStream Sample.consts Sample.codec Sample.map (bytes ++ [7]) =
        some (m1, [7]) ∧
      m1._eventLayout = Sample.map._eventLayout := by
  obtain ⟨_, _, bytes, m1, h1, _, h3, _, h5, _⟩ :=
    Resumable_round_trip Sample.consts Sample.codec Sample.activeMap Sample.map false [7]
      (by decide) (by decide) rfl rfl Sample.codec_law
      (fun rest => by
        have e : Sample.activeMap._layoutSize.X * Sample.activeMap._layoutSize.Y = 4 := by
          decide
        rw [e]
        simp [Sample.codec, Sample.writeVar, Sample.readVar])
      (by decide)
  refine ⟨bytes, m1, h1, h3, ?_⟩
  rw [h5]
  rfl

/-- The bytes written for the activated sample map, read back into the sample map with the
same cells not yet active, give a grid whose cell `(0, 0)` is inactive although it is active
in the grid that was written. -/
theorem Resumable_round_trip_counterexample :
    ∃ bytes m1, SerializeResumableToStream Sample.consts Sample.codec Sample.activeMap false =
        some bytes ∧
      Sample.map._layoutSize = Sample.activeMap._layoutSize ∧
      InitializeFromStream Sample.consts Sample.codec Sample.map bytes = some (m1, []) ∧
      Sample.activeMap.cell 0 0 = some { Sample.gem with IsEventActive := true } ∧
      m1.cell 0 0 = some Sample.gem ∧
      m1._eventLayout ≠ Sample.activeMap._eventLayout :=
  ⟨_, _, rfl, rfl, rfl, rfl, rfl, by decide⟩

/-! ## Single precision arithmetic: the generator timers and the centre test -/

theorem Binary32.ProcessGenerators.step_inactive32 {φ : Type} (c : Consts) (h : ILevelHandler φ)
    (layout : List EventTile) (X : Int) (dt : ℚ) (g : GeneratorInfo) (w : φ) (tile : EventTile)
    (ht : tileAt? layout g.EventPos = some tile) (hA : tile.IsEventActive = false) :
    Binary32.ProcessGenerators.step c h layout X dt g w =
      some ({ g with TimeLeft := Binary32.sub g.TimeLeft dt }, w, []) := by
  simp [Binary32.ProcessGenerators.step, ht, hA]


theorem Binary32.ProcessGenerators.step_live32 {φ : Type} (c : Consts) (h : ILevelHandler φ)
    (layout : List EventTile) (X : Int) (dt : ℚ) (g : GeneratorInfo) (w : φ) (tile : EventTile)
    (ht : tileAt? layout g.EventPos = some tile) (hA : tile.IsEventActive = true)
    (hL : g.noLiveActor h w = false) :
    Binary32.ProcessGenerators.step c h layout X dt g w = some (g, w, []) := by
  simp [Binary32.ProcessGenerators.step, ht, hA, hL]


theorem Binary32.ProcessGenerators.step_recharging32 {φ : Type} (c : Consts) (h : ILevelHandler φ)
    (layout : List EventTile) (X : Int) (dt : ℚ) (g : GeneratorInfo) (w : φ) (tile : EventTile)
    (ht : tileAt? layout g.EventPos = some tile) (hA : tile.IsEventActive = true)
    (hL : g.noLiveActor h w = true) (hT : 0 < g.TimeLeft) :
    Binary32.ProcessGenerators.step c h layout X dt g w =
      some ({ g with TimeLeft := Binary32.sub g.TimeLeft dt, SpawnedActor := none }, w, []) := by
  have hT1 : ¬ g.TimeLeft ≤ 0 := not_le.2 hT
  simp [Binary32.ProcessGenerators.step, ht, hA, hL, hT1]


theorem Binary32.ProcessGenerators.step_total32 {φ : Type} (c : Consts) (h : ILevelHandler φ)
    (layout : List EventTile) (X : Int) (dt : ℚ) (g : GeneratorInfo) (w : φ)
    (hb : 0 ≤ g.EventPos ∧ g.EventPos.toNat < layout.length) :
    ∃ r, Binary32.ProcessGenerators.step c h layout X dt g w = some r := by
  obtain ⟨tile, ht⟩ := tileAt?_isSome_of_lt layout g.EventPos hb.1 hb.2
  simp only [Binary32.ProcessGenerators.step, ht]
  split
  · exact ⟨_, rfl⟩
  · split
    · split
      · split <;> exact ⟨_, rfl⟩
      · exact ⟨_, rfl⟩
    · exact ⟨_, rfl⟩


theorem Binary32.ProcessGenerators.loop_total32 {φ : Type} (c : Consts) (h : ILevelHandler φ)
    (layout : List EventTile) (X : Int) (dt : ℚ) (gs : List GeneratorInfo) :
    ∀ w : φ, (∀ g ∈ gs, 0 ≤ g.EventPos ∧ g.EventPos.toNat < layout.length) →
      ∃ r, Binary32.ProcessGenerators.loop c h layout X dt gs w = some r ∧ r.1.length = gs.length := by
  induction gs with
  | nil => intro w _; exact ⟨_, rfl, rfl⟩
  | cons g gs ih =>
    intro w hb
    obtain ⟨r, hr⟩ := Binary32.ProcessGenerators.step_total32 c h layout X dt g w
      (hb g (List.mem_cons_self _ _))
    obtain ⟨rs, hrs, hl⟩ := ih r.2.1 (fun g1 hg1 => hb g1 (List.mem_cons_of_mem _ hg1))
    refine ⟨(r.1 :: rs.1, rs.2.1, r.2.2 ++ rs.2.2), ?_, by simp [hl]⟩
    simp [Binary32.ProcessGenerators.loop, hr, hrs]


/-- The loop of `Binary32.ProcessGenerators` over `pre ++ g :: post` is the loop over `pre`, then the
step of `g` in the external state that loop leaves, then the loop over `post`. -/
theorem Binary32.ProcessGenerators.loop_split32 {φ : Type} (c : Consts) (h : ILevelHandler φ)
    (layout : List EventTile) (X : Int) (dt : ℚ) (pre : List GeneratorInfo)
    (g : GeneratorInfo) (post : List GeneratorInfo) :
    ∀ (w : φ) (r : List GeneratorInfo × φ × List Call),
      Binary32.ProcessGenerators.loop c h layout X dt (pre ++ g :: post) w = some r ↔
      ∃ rp rg rq, Binary32.ProcessGenerators.loop c h layout X dt pre w = some rp ∧
        Binary32.ProcessGenerators.step c h layout X dt g rp.2.1 = some rg ∧
        Binary32.ProcessGenerators.loop c h layout X dt post rg.2.1 = some rq ∧
        r = (rp.1 ++ rg.1 :: rq.1, rq.2.1, rp.2.2 ++ (rg.2.2 ++ rq.2.2)) := by
  induction pre with
  | nil =>
    intro w r
    simp only [List.nil_append, Binary32.ProcessGenerators.loop]
    constructor
    · intro hr
      cases hs : Binary32.ProcessGenerators.step c h layout X dt g w with
      | none => simp [hs] at hr
      | some rg =>
        cases hq : Binary32.ProcessGenerators.loop c h layout X dt post rg.2.1 with
        | none => simp [hs, hq] at hr
        | some rq =>
          simp only [hs, hq, Option.some.injEq] at hr
          exact ⟨([], w, []), rg, rq, rfl, hs, hq, by simp [← hr]⟩
    · rintro ⟨rp, rg, rq, hp, hs, hq, rfl⟩
      simp only [Option.some.injEq] at hp
      subst hp
      simp only at hs hq
      simp [hs, hq]
  | cons p pre ih =>
    intro w r
    simp only [List.cons_append, Binary32.ProcessGenerators.loop, List.append_eq]
    cases hs0 : Binary32.ProcessGenerators.step c h layout X dt p w with
    | none => simp
    | some r0 =>
      simp only
      constructor
      · intro hr
        cases hrest : Binary32.ProcessGenerators.loop c h layout X dt (pre ++ g :: post) r0.2.1 with
        | none => simp [hrest] at hr
        | some rr =>
          obtain ⟨rp, rg, rq, hp, hs, hq, hrr⟩ := (ih r0.2.1 rr).1 hrest
          simp only [hrest, Option.some.injEq] at hr
          refine ⟨(r0.1 :: rp.1, rp.2.1, r0.2.2 ++ rp.2.2), rg, rq, by simp [hp], hs, hq, ?_⟩
          rw [← hr, hrr]
          simp
      · rintro ⟨rp, rg, rq, hp, hs, hq, rfl⟩
        cases hp0 : Binary32.ProcessGenerators.loop c h layout X dt pre r0.2.1 with
        | none => simp [hp0] at hp
        | some rp0 =>
          simp only [hp0, Option.some.injEq] at hp
          subst hp
          simp only at hs hq
          have := (ih r0.2.1 (rp0.1 ++ rg.1 :: rq.1, rq.2.1, rp0.2.2 ++ (rg.2.2 ++ rq.2.2))).2
            ⟨rp0, rg, rq, hp0, hs, hq, rfl⟩
          simp [this]


/-- A tick of `Binary32.ProcessGenerators` seen from one generator `g` of the table
`pre ++ g :: post`: once the loop over `pre` and the step of `g` are known, the tick succeeds
and its result is assembled from them and from the loop over `post`. -/
theorem Binary32.ProcessGenerators.at_generator32 {φ : Type} (c : Consts) (h : ILevelHandler φ)
    (m : EventMap) (w : φ) (dt : ℚ) (pre : List GeneratorInfo) (g : GeneratorInfo)
    (post : List GeneratorInfo) (rp : List GeneratorInfo × φ × List Call)
    (rg : GeneratorInfo × φ × List Call) (hin : m.GeneratorsInGrid)
    (hgens : m._generators = pre ++ g :: post)
    (hpre : Binary32.ProcessGenerators.loop c h m._eventLayout m._layoutSize.X dt pre w = some rp)
    (hstep : Binary32.ProcessGenerators.step c h m._eventLayout m._layoutSize.X dt g rp.2.1 = some rg) :
    ∃ rq, Binary32.ProcessGenerators.loop c h m._eventLayout m._layoutSize.X dt post rg.2.1 = some rq ∧
      rq.1.length = post.length ∧
      Binary32.ProcessGenerators c h m w dt =
        some ({ m with _generators := rp.1 ++ rg.1 :: rq.1 }, rq.2.1,
          rp.2.2 ++ (rg.2.2 ++ rq.2.2)) := by
  obtain ⟨rq, hq, hlen⟩ := Binary32.ProcessGenerators.loop_total32 c h m._eventLayout m._layoutSize.X dt
    post rg.2.1 (by
      intro g1 hg1
      apply hin
      rw [hgens]
      simp [hg1])
  refine ⟨rq, hq, hlen, ?_⟩
  have := (Binary32.ProcessGenerators.loop_split32 c h m._eventLayout m._layoutSize.X dt pre g post w
    (rp.1 ++ rg.1 :: rq.1, rq.2.1, rp.2.2 ++ (rg.2.2 ++ rq.2.2))).2 ⟨rp, rg, rq, hpre, hstep, hq, rfl⟩
  simp [Binary32.ProcessGenerators, hgens, this]


theorem Binary32.ProcessGenerators.loop_length32 {φ : Type} (c : Consts) (h : ILevelHandler φ)
    (layout : List EventTile) (X : Int) (dt : ℚ) (gs : List GeneratorInfo) :
    ∀ (w : φ) (r : List GeneratorInfo × φ × List Call),
      Binary32.ProcessGenerators.loop c h layout X dt gs w = some r → r.1.length = gs.length := by
  induction gs with
  | nil =>
    intro w r hr
    simp only [Binary32.ProcessGenerators.loop, Option.some.injEq] at hr
    rw [← hr]
  | cons g gs ih =>
    intro w r hr
    simp only [Binary32.ProcessGenerators.loop] at hr
    cases hs : Binary32.ProcessGenerators.step c h layout X dt g w with
    | none => simp [hs] at hr
    | some r0 =>
      cases hq : Binary32.ProcessGenerators.loop c h layout X dt gs r0.2.1 with
      | none => simp [hs, hq] at hr
      | some rq =>
        simp only [hs, hq, Option.some.injEq] at hr
        rw [← hr]
        simp [ih r0.2.1 rq hq]



/-- The halving count is the integer logarithm: `2 ^ k ≤ n < 2 ^ (k + 1)`. -/
theorem Binary32.log2_bounds (fuel : Nat) : ∀ n : Nat, n ≤ fuel → 1 ≤ n →
    2 ^ Binary32.log2 fuel n ≤ n ∧ n < 2 ^ (Binary32.log2 fuel n + 1) := by
  induction fuel with
  | zero =>
    intro n h0 h1
    omega
  | succ fuel ih =>
    intro n hn h1
    unfold Binary32.log2
    by_cases h2 : n < 2
    · rw [if_pos h2]
      have : n = 1 := by omega
      subst this
      exact ⟨by norm_num, by norm_num⟩
    · rw [if_neg h2]
      obtain ⟨ha, hb⟩ := ih (n / 2) (by omega) (by omega)
      constructor
      · rw [pow_succ]
        omega
      · rw [pow_succ]
        omega

/-- The exponent of a non-zero number: `2 ^ e ≤ |q| < 2 ^ (e + 1)`. -/
theorem Binary32.exponent_bounds (q : ℚ) (hq : q ≠ 0) :
    (2 : ℚ) ^ Binary32.exponent q ≤ |q| ∧ |q| < (2 : ℚ) ^ (Binary32.exponent q + 1) := by
  have hN : 1 ≤ q.num.natAbs := by
    have : q.num ≠ 0 := Rat.num_ne_zero.2 hq
    have := Int.natAbs_pos.2 this
    omega
  have hD : 1 ≤ q.den := q.den_pos
  obtain ⟨a1, a2⟩ := Binary32.log2_bounds q.num.natAbs q.num.natAbs (le_refl _) hN
  obtain ⟨b1, b2⟩ := Binary32.log2_bounds q.den q.den (le_refl _) hD
  have habs : |q| = (q.num.natAbs : ℚ) / (q.den : ℚ) := by
    conv_lhs => rw [← Rat.num_div_den q]
    rw [abs_div, Nat.abs_cast]
    congr 1
    rw [← Int.cast_abs]
    exact (Nat.cast_natAbs _).symm
  have hDpos : (0 : ℚ) < (q.den : ℚ) := by exact_mod_cast q.den_pos
  have a1q : (2 : ℚ) ^ Binary32.log2 q.num.natAbs q.num.natAbs ≤ (q.num.natAbs : ℚ) := by
    exact_mod_cast a1
  have a2q : (q.num.natAbs : ℚ) < (2 : ℚ) ^ (Binary32.log2 q.num.natAbs q.num.natAbs + 1) := by
    exact_mod_cast a2
  have b1q : (2 : ℚ) ^ Binary32.log2 q.den q.den ≤ (q.den : ℚ) := by
    exact_mod_cast b1
  have b2q : (q.den : ℚ) < (2 : ℚ) ^ (Binary32.log2 q.den q.den + 1) := by
    exact_mod_cast b2
  have two_pos : (0 : ℚ) < 2 := by norm_num
  have two_ne : (2 : ℚ) ≠ 0 := by norm_num
  have hup : |q| < (2 : ℚ) ^ ((Binary32.log2 q.num.natAbs q.num.natAbs : Int) -
      (Binary32.log2 q.den q.den : Int) + 1) := by
    rw [habs, div_lt_iff₀ hDpos]
    have e : (2 : ℚ) ^ ((Binary32.log2 q.num.natAbs q.num.natAbs : Int) -
        (Binary32.log2 q.den q.den : Int) + 1) * (2 : ℚ) ^ Binary32.log2 q.den q.den =
        (2 : ℚ) ^ (Binary32.log2 q.num.natAbs q.num.natAbs + 1) := by
      rw [← zpow_natCast, ← zpow_natCast, ← zpow_add₀ two_ne]
      congr 1
      push_cast
      ring
    have hp : (0 : ℚ) < (2 : ℚ) ^ ((Binary32.log2 q.num.natAbs q.num.natAbs : Int) -
        (Binary32.log2 q.den q.den : Int) + 1) := zpow_pos two_pos _
    calc (q.num.natAbs : ℚ) < (2 : ℚ) ^ (Binary32.log2 q.num.natAbs q.num.natAbs + 1) := a2q
      _ = _ := e.symm
      _ ≤ _ := mul_le_mul_of_nonneg_left b1q hp.le
  have hlo : (2 : ℚ) ^ ((Binary32.log2 q.num.natAbs q.num.natAbs : Int) -
      (Binary32.log2 q.den q.den : Int) - 1) < |q| := by
    rw [habs, lt_div_iff₀ hDpos]
    have e : (2 : ℚ) ^ ((Binary32.log2 q.num.natAbs q.num.natAbs : Int) -
        (Binary32.log2 q.den q.den : Int) - 1) * (2 : ℚ) ^ (Binary32.log2 q.den q.den + 1) =
        (2 : ℚ) ^ Binary32.log2 q.num.natAbs q.num.natAbs := by
      rw [← zpow_natCast, ← zpow_natCast, ← zpow_add₀ two_ne]
      congr 1
      push_cast
      ring
    have hp : (0 : ℚ) < (2 : ℚ) ^ ((Binary32.log2 q.num.natAbs q.num.natAbs : Int) -
        (Binary32.log2 q.den q.den : Int) - 1) := zpow_pos two_pos _
    calc _ < (2 : ℚ) ^ ((Binary32.log2 q.num.natAbs q.num.natAbs : Int) -
          (Binary32.log2 q.den q.den : Int) - 1) *
          (2 : ℚ) ^ (Binary32.log2 q.den q.den + 1) := mul_lt_mul_of_pos_left b2q hp
      _ = _ := e
      _ ≤ _ := a1q
  unfold Binary32.exponent
  simp only
  split
  · rename_i h
    exact ⟨h, hup⟩
  · rename_i h
    refine ⟨hlo.le, ?_⟩
    rw [sub_add_cancel]
    exact not_le.1 h


/-- The significand of the rounding of a number in the normal range has 24 bits:
`2 ^ 23 ≤ significand ≤ 2 ^ 24`, the upper bound being the carry into the next binade. -/
theorem Binary32.significand_bounds (q : ℚ) (hq : q ≠ 0) (hn : -126 ≤ Binary32.exponent q) :
    2 ^ 23 ≤ Binary32.significand q ∧ Binary32.significand q ≤ 2 ^ 24 := by
  obtain ⟨h1, h2⟩ := Binary32.exponent_bounds q hq
  have hu : Binary32.ulpExponent q = Binary32.exponent q - 23 := by
    unfold Binary32.ulpExponent
    rw [max_eq_left hn]
  have two_pos : (0 : ℚ) < 2 := by norm_num
  have two_ne : (2 : ℚ) ≠ 0 := by norm_num
  have hp : (0 : ℚ) < (2 : ℚ) ^ (Binary32.exponent q - 23) := zpow_pos two_pos _
  have e1 : (2 : ℚ) ^ Binary32.exponent q =
      (2 : ℚ) ^ (23 : Nat) * (2 : ℚ) ^ (Binary32.exponent q - 23) := by
    rw [← zpow_natCast, ← zpow_add₀ two_ne]
    congr 1
    push_cast
    ring
  have e2 : (2 : ℚ) ^ (Binary32.exponent q + 1) =
      (2 : ℚ) ^ (24 : Nat) * (2 : ℚ) ^ (Binary32.exponent q - 23) := by
    rw [← zpow_natCast, ← zpow_add₀ two_ne]
    congr 1
    push_cast
    ring
  have s1 : (2 : ℚ) ^ (23 : Nat) ≤ |q| / (2 : ℚ) ^ (Binary32.exponent q - 23) := by
    rw [le_div_iff₀ hp, ← e1]
    exact h1
  have s2 : |q| / (2 : ℚ) ^ (Binary32.exponent q - 23) < (2 : ℚ) ^ (24 : Nat) := by
    rw [div_lt_iff₀ hp, ← e2]
    exact h2
  have f1 : (2 : Int) ^ 23 ≤ ⌊|q| / (2 : ℚ) ^ (Binary32.exponent q - 23)⌋ := by
    apply Int.le_floor.2
    push_cast
    exact s1
  have f2 : ⌊|q| / (2 : ℚ) ^ (Binary32.exponent q - 23)⌋ < (2 : Int) ^ 24 := by
    apply Int.floor_lt.2
    push_cast
    exact s2
  unfold Binary32.significand
  simp only [hu]
  split
  · exact ⟨f1, f2.le⟩
  · split
    · constructor <;> omega
    · split
      · exact ⟨f1, f2.le⟩
      · constructor <;> omega

/-- The value `Binary32.round` gives is within half a unit in the last place of the number
rounded. -/
theorem Binary32.round_error (q : ℚ) :
    |Binary32.round q - q| ≤ (2 : ℚ) ^ Binary32.ulpExponent q / 2 := by
  have hp : (0 : ℚ) < (2 : ℚ) ^ Binary32.ulpExponent q := zpow_pos (by norm_num) _
  have hfl := Int.floor_le (|q| / (2 : ℚ) ^ Binary32.ulpExponent q)
  have hlt := Int.lt_floor_add_one (|q| / (2 : ℚ) ^ Binary32.ulpExponent q)
  have hsig : |(Binary32.significand q : ℚ) - |q| / (2 : ℚ) ^ Binary32.ulpExponent q| ≤ 1 / 2 := by
    unfold Binary32.significand
    simp only
    rw [abs_le]
    split
    · constructor <;> linarith
    · split
      · push_cast
        constructor <;> linarith
      · split
        · constructor <;> linarith
        · push_cast
          constructor <;> linarith
  have hq : |q| = |q| / (2 : ℚ) ^ Binary32.ulpExponent q * (2 : ℚ) ^ Binary32.ulpExponent q := by
    field_simp
  have key : |Binary32.round q - q| =
      |(Binary32.significand q : ℚ) - |q| / (2 : ℚ) ^ Binary32.ulpExponent q| *
        (2 : ℚ) ^ Binary32.ulpExponent q := by
    unfold Binary32.round
    by_cases hneg : q < 0
    · rw [if_pos hneg]
      have e : -1 * (Binary32.significand q : ℚ) * (2 : ℚ) ^ Binary32.ulpExponent q - q =
          -(((Binary32.significand q : ℚ) - |q| / (2 : ℚ) ^ Binary32.ulpExponent q) *
            (2 : ℚ) ^ Binary32.ulpExponent q) := by
        have h2 : |q| / (2 : ℚ) ^ Binary32.ulpExponent q * (2 : ℚ) ^ Binary32.ulpExponent q =
            -q := by
          rw [← hq, abs_of_neg hneg]
        linear_combination (-1 : ℚ) * h2
      rw [e, abs_neg, abs_mul, abs_of_pos hp]
    · rw [if_neg hneg]
      have e : 1 * (Binary32.significand q : ℚ) * (2 : ℚ) ^ Binary32.ulpExponent q - q =
          ((Binary32.significand q : ℚ) - |q| / (2 : ℚ) ^ Binary32.ulpExponent q) *
            (2 : ℚ) ^ Binary32.ulpExponent q := by
        have h2 : |q| / (2 : ℚ) ^ Binary32.ulpExponent q * (2 : ℚ) ^ Binary32.ulpExponent q =
            q := by
          rw [← hq, abs_of_nonneg (not_lt.1 hneg)]
        linear_combination h2
      rw [e, abs_mul, abs_of_pos hp]
  rw [key]
  calc |(Binary32.significand q : ℚ) - |q| / (2 : ℚ) ^ Binary32.ulpExponent q| *
        (2 : ℚ) ^ Binary32.ulpExponent q
      ≤ 1 / 2 * (2 : ℚ) ^ Binary32.ulpExponent q :=
        mul_le_mul_of_nonneg_right hsig (le_of_lt hp)
    _ = (2 : ℚ) ^ Binary32.ulpExponent q / 2 := by ring

/-- C12. In a tick of `ProcessGenerators`, with the timers computed in `float` as the code
computes them, a generator `g` of the table `pre ++ g :: post` that does not spawn changes as
follows, the grid and everything but the generator table staying as they were: (a) cell
inactive: `TimeLeft` becomes the `float` difference `TimeLeft - dt`, the binary32 number
nearest to the exact difference, and the spawned-actor reference is kept, whatever the
actor's health; (b) cell active and actor present with health `> 0`: `g` is unchanged;
(c) cell active, no live actor and `TimeLeft > 0`: `TimeLeft` becomes the `float` difference
`TimeLeft - dt` and the reference is cleared. In all three cases `g` makes no call. The
`float` difference is within half a unit in the last place of the exact one. -/
theorem ProcessGenerators_not_spawning {φ : Type} (c : Consts) (h : ILevelHandler φ)
    (m : EventMap) (w : φ) (dt : ℚ) (pre : List GeneratorInfo) (g : GeneratorInfo)
    (post : List GeneratorInfo) (rp : List GeneratorInfo × φ × List Call) (tile : EventTile)
    (hin : m.GeneratorsInGrid) (hgens : m._generators = pre ++ g :: post)
    (hpre : Binary32.ProcessGenerators.loop c h m._eventLayout m._layoutSize.X dt pre w =
      some rp)
    (htile : tileAt? m._eventLayout g.EventPos = some tile) :
    ∃ (g1 : GeneratorInfo) (rq : List GeneratorInfo × φ × List Call),
      Binary32.ProcessGenerators.loop c h m._eventLayout m._layoutSize.X dt post rp.2.1 =
        some rq ∧
      (¬ (tile.IsEventActive = true ∧ g.noLiveActor h rp.2.1 = true ∧ g.TimeLeft ≤ 0) →
        Binary32.ProcessGenerators c h m w dt =
          some ({ m with _generators := rp.1 ++ g1 :: rq.1 }, rq.2.1, rp.2.2 ++ rq.2.2)) ∧
      rp.1.length = pre.length ∧ rq.1.length = post.length ∧
      (tile.IsEventActive = false → Binary32.inRange (g.TimeLeft - dt) →
        g1 = { g with TimeLeft := Binary32.sub g.TimeLeft dt }) ∧
      (tile.IsEventActive = true → (∃ a, g.SpawnedActor = some a ∧ 0 < h.GetHealth rp.2.1 a) →
        g1 = g) ∧
      (tile.IsEventActive = true → g.noLiveActor h rp.2.1 = true → 0 < g.TimeLeft →
        Binary32.inRange (g.TimeLeft - dt) →
        g1 = { g with TimeLeft := Binary32.sub g.TimeLeft dt, SpawnedActor := none }) ∧
      Binary32.sub g.TimeLeft dt = Binary32.round (g.TimeLeft - dt) ∧
      |Binary32.sub g.TimeLeft dt - (g.TimeLeft - dt)| ≤
        (2 : ℚ) ^ Binary32.ulpExponent (g.TimeLeft - dt) / 2 := by
  have hmain : ∃ (g1 : GeneratorInfo) (rq : List GeneratorInfo × φ × List Call),
      Binary32.ProcessGenerators.loop c h m._eventLayout m._layoutSize.X dt post rp.2.1 =
        some rq ∧
      (¬ (tile.IsEventActive = true ∧ g.noLiveActor h rp.2.1 = true ∧ g.TimeLeft ≤ 0) →
        Binary32.ProcessGenerators c h m w dt =
          some ({ m with _generators := rp.1 ++ g1 :: rq.1 }, rq.2.1, rp.2.2 ++ rq.2.2)) ∧
      rp.1.length = pre.length ∧ rq.1.length = post.length ∧
      (tile.IsEventActive = false →
        g1 = { g with TimeLeft := Binary32.sub g.TimeLeft dt }) ∧
      (tile.IsEventActive = true → (∃ a, g.SpawnedActor = some a ∧ 0 < h.GetHealth rp.2.1 a) →
        g1 = g) ∧
      (tile.IsEventActive = true → g.noLiveActor h rp.2.1 = true → 0 < g.TimeLeft →
        g1 = { g with TimeLeft := Binary32.sub g.TimeLeft dt, SpawnedActor := none }) := by
    have hlenp := Binary32.ProcessGenerators.loop_length32 c h _ _ dt pre w rp hpre
    have hlive : (∃ a, g.SpawnedActor = some a ∧ 0 < h.GetHealth rp.2.1 a) →
        g.noLiveActor h rp.2.1 = false := by
      rintro ⟨a, ha, hh⟩
      simp [GeneratorInfo.noLiveActor, ha, hh]
    obtain ⟨rq0, hq0, hlq0⟩ := Binary32.ProcessGenerators.loop_total32 c h m._eventLayout m._layoutSize.X dt
      post rp.2.1 (by
        intro g1 hg1
        apply hin
        rw [hgens]
        simp [hg1])
    by_cases hA : tile.IsEventActive = true
    · cases hL : g.noLiveActor h rp.2.1 with
      | false =>
        have hstep := Binary32.ProcessGenerators.step_live32 c h m._eventLayout m._layoutSize.X dt g
          rp.2.1 tile htile hA hL
        obtain ⟨rq, hq, hlen, hrun⟩ :=
          Binary32.ProcessGenerators.at_generator32 c h m w dt pre g post rp _ hin hgens hpre hstep
        refine ⟨g, rq, hq, fun _ => by simpa using hrun, hlenp, hlen, ?_, fun _ _ => rfl, ?_⟩
        · intro hh
          rw [hA] at hh
          exact absurd hh (by simp)
        · intro _ hh
          exact absurd hh (by simp)
      | true =>
        by_cases hT : g.TimeLeft ≤ 0
        · refine ⟨g, rq0, hq0, fun hh => absurd ⟨hA, rfl, hT⟩ hh, hlenp, hlq0, ?_, ?_, ?_⟩
          · intro hh
            rw [hA] at hh
            exact absurd hh (by simp)
          · intro _ hh
            simp [hlive hh] at hL
          · intro _ _ hh
            exact absurd hT (not_le.2 hh)
        · have hstep := Binary32.ProcessGenerators.step_recharging32 c h m._eventLayout m._layoutSize.X dt g
            rp.2.1 tile htile hA hL (not_le.1 hT)
          obtain ⟨rq, hq, hlen, hrun⟩ :=
            Binary32.ProcessGenerators.at_generator32 c h m w dt pre g post rp _ hin hgens hpre hstep
          refine ⟨_, rq, hq, fun _ => by simpa using hrun, hlenp, hlen, ?_, ?_,
            fun _ _ _ => rfl⟩
          · intro hh
            rw [hA] at hh
            exact absurd hh (by simp)
          · intro _ hh
            simp [hlive hh] at hL
    · have hA1 : tile.IsEventActive = false := by simpa using hA
      have hstep := Binary32.ProcessGenerators.step_inactive32 c h m._eventLayout m._layoutSize.X dt g
        rp.2.1 tile htile hA1
      obtain ⟨rq, hq, hlen, hrun⟩ :=
        Binary32.ProcessGenerators.at_generator32 c h m w dt pre g post rp _ hin hgens hpre hstep
      refine ⟨_, rq, hq, fun _ => by simpa using hrun, hlenp, hlen, fun _ => rfl, ?_, ?_⟩
      · intro hh
        exact absurd hh hA
      · intro hh
        exact absurd hh hA
  obtain ⟨g1, rq, k1, k2, k3, k4, k5, k6, k7⟩ := hmain
  exact ⟨g1, rq, k1, k2, k3, k4, fun a _ => k5 a, k6, fun a b d _ => k7 a b d, rfl,
    Binary32.round_error _⟩


theorem ProcessGenerators_not_spawning_witness :
    ∃ (g1 : GeneratorInfo) (rq : List GeneratorInfo × Nat × List Call),
      Binary32.ProcessGenerators.loop Sample.consts Sample.handler Sample.map._eventLayout
        Sample.map._layoutSize.X (1 / 2) [] 0 = some rq ∧
      Binary32.ProcessGenerators Sample.consts Sample.handler Sample.map 0 (1 / 2) =
        some ({ Sample.map with _generators := [g1] }, 0, []) ∧
      g1 = { Sample.generator with TimeLeft := Binary32.sub Sample.generator.TimeLeft (1 / 2) } ∧
      Binary32.sub Sample.generator.TimeLeft (1 / 2) = -(1 / 2) := by
  obtain ⟨g1, rq, k1, k2, _, k4, k5, _⟩ :=
    ProcessGenerators_not_spawning Sample.consts Sample.handler Sample.map 0 (1 / 2) []
      Sample.generator [] ([], 0, []) Sample.generatorTile (by decide) rfl rfl (by decide)
  have hrq : rq = ([], 0, []) := by
    have e : Binary32.ProcessGenerators.loop Sample.consts Sample.handler
        Sample.map._eventLayout Sample.map._layoutSize.X (1 / 2) [] 0 = some ([], 0, []) := rfl
    rw [e] at k1
    exact (Option.some.inj k1).symm
  have hg := k5 rfl (by decide!)
  have hrun := k2 (by decide)
  rw [hrq] at hrun
  exact ⟨g1, rq, k1, hrun, hg, by decide!⟩

/-- A tick with `dt = 0.1f` on the sample map, whose generator cell is inactive, with the
timer at 1: the timer after the tick is the `float` 7549747 / 8388608, which is not the exact
difference 120795955 / 134217728. Both operands are binary32 numbers. -/
theorem ProcessGenerators_not_spawning_counterexample :
    ∃ r g1, Binary32.ProcessGenerators Sample.consts Sample.handler
        { Sample.map with _generators := [{ Sample.generator with TimeLeft := 1 }] } 0
        (13421773 / 134217728) = some r ∧
      Sample.map.cell 1 0 = some Sample.generatorTile ∧
      Sample.generatorTile.IsEventActive = false ∧
      r.1._generators = [g1] ∧ g1.SpawnedActor = none ∧
      g1.TimeLeft = 7549747 / 8388608 ∧
      (1 : ℚ) - 13421773 / 134217728 = 120795955 / 134217728 ∧
      g1.TimeLeft ≠ 1 - 13421773 / 134217728 ∧
      Binary32.round 1 = 1 ∧ Binary32.round (13421773 / 134217728) = 13421773 / 134217728 :=
  ⟨_, { Sample.generator with TimeLeft := Binary32.sub 1 (13421773 / 134217728) }, rfl, rfl,
    rfl, rfl, rfl, by decide!, by norm_num, by decide!, by decide!, by decide!⟩


/-- C26. For a querier with `CollideWithSolidObjectsBelow` and a candidate that is a solid
object, not destroyed, and passes the `ExcludeSimilar` rule (`y` grows downwards), with the
candidate's vertical centre computed as the code computes it, in `float`:
`(AABBInner.T + AABBInner.B) * 0.5f`. The callback skips the candidate, returning `true` with
the state as it was, when that centre is above the querier's inner bottom (centre `<`
querier `AABBInner.B`); when the centre is at or below the querier's inner bottom the
candidate is not skipped by this rule: unless it is one-way with `params.Downwards` false,
the querier's handler is called for it. The `float` sum and the `float` product are each
within half a unit in the last place of the exact ones. -/
theorem IsPositionEmpty_above_only {ω : Type} (c : Consts) (am : ActorMethods ω)
    (self actor : ActorRef) (Downwards : Bool) (s : QueryState ω)
    (hsolid : am.GetState s.1 actor &&& (c.IsSolidObject ||| c.IsDestroyed) = c.IsSolidObject)
    (hex : ¬ (am.GetState s.1 self &&& c.ExcludeSimilar = c.ExcludeSimilar ∧
      am.GetState s.1 actor &&& c.ExcludeSimilar = c.ExcludeSimilar))
    (habove : am.GetState s.1 self &&& c.CollideWithSolidObjectsBelow =
      c.CollideWithSolidObjectsBelow) :
    (Binary32.inRange ((am.AABBInner s.1 actor).T + (am.AABBInner s.1 actor).B) →
      Binary32.mul (Binary32.add (am.AABBInner s.1 actor).T (am.AABBInner s.1 actor).B)
        (1 / 2) < (am.AABBInner s.1 self).B →
      Binary32.IsPositionEmpty.callback c am self Downwards s actor = (true, s)) ∧
    (Binary32.inRange ((am.AABBInner s.1 actor).T + (am.AABBInner s.1 actor).B) →
      (am.AABBInner s.1 self).B ≤
        Binary32.mul (Binary32.add (am.AABBInner s.1 actor).T (am.AABBInner s.1 actor).B)
          (1 / 2) →
      (am.IsOneWay s.1 actor ≠ some true ∨ Downwards = true) →
      ∃ rest, (Binary32.IsPositionEmpty.callback c am self Downwards s actor).2.2.2 =
        s.2.2 ++ (self, actor) :: rest) ∧
    |Binary32.add (am.AABBInner s.1 actor).T (am.AABBInner s.1 actor).B -
        ((am.AABBInner s.1 actor).T + (am.AABBInner s.1 actor).B)| ≤
      (2 : ℚ) ^ Binary32.ulpExponent
        ((am.AABBInner s.1 actor).T + (am.AABBInner s.1 actor).B) / 2 ∧
    |Binary32.mul (Binary32.add (am.AABBInner s.1 actor).T (am.AABBInner s.1 actor).B) (1 / 2) -
        Binary32.add (am.AABBInner s.1 actor).T (am.AABBInner s.1 actor).B / 2| ≤
      (2 : ℚ) ^ Binary32.ulpExponent
        (Binary32.add (am.AABBInner s.1 actor).T (am.AABBInner s.1 actor).B * (1 / 2)) / 2 := by
  refine ⟨?_, ?_, Binary32.round_error _, ?_⟩
  · intro _ hlt
    have hcond : am.GetState s.1 self &&& c.CollideWithSolidObjectsBelow =
          c.CollideWithSolidObjectsBelow ∧
        (am.AABBInner s.1 self).B >
          Binary32.mul (Binary32.add (am.AABBInner s.1 actor).T (am.AABBInner s.1 actor).B)
            (1 / 2) := ⟨habove, hlt⟩
    unfold Binary32.IsPositionEmpty.callback
    rw [if_neg (not_not.2 hsolid), if_neg hex, if_pos hcond]
  · intro _ hle hway
    have hcond : ¬ (am.GetState s.1 self &&& c.CollideWithSolidObjectsBelow =
          c.CollideWithSolidObjectsBelow ∧
        (am.AABBInner s.1 self).B >
          Binary32.mul (Binary32.add (am.AABBInner s.1 actor).T (am.AABBInner s.1 actor).B)
            (1 / 2)) := by
      intro h
      exact absurd h.2 (not_lt.2 hle)
    have hone : am.IsOneWay s.1 actor = none ∨ am.IsOneWay s.1 actor = some false ∨
        Downwards = true := by
      rcases hway with h | h
      · cases hw : am.IsOneWay s.1 actor with
        | none => exact Or.inl rfl
        | some b =>
          cases b
          · exact Or.inr (Or.inl rfl)
          · exact absurd hw h
      · exact Or.inr (Or.inr h)
    unfold Binary32.IsPositionEmpty.callback
    rw [if_neg (not_not.2 hsolid), if_neg hex, if_neg hcond, if_pos hone]
    cases h1 : (am.OnHandleCollision s.1 self actor).1
    · cases h2 : (am.OnHandleCollision (am.OnHandleCollision s.1 self actor).2 actor self).1
      · exact ⟨[(actor, self)], by simp [h1, h2]⟩
      · exact ⟨[(actor, self)], by simp [h1, h2]⟩
    · exact ⟨[], by simp [h1]⟩
  · have e : Binary32.add (am.AABBInner s.1 actor).T (am.AABBInner s.1 actor).B / 2 =
        Binary32.add (am.AABBInner s.1 actor).T (am.AABBInner s.1 actor).B * (1 / 2) := by
      ring
    rw [e]
    exact Binary32.round_error _

theorem IsPositionEmpty_above_only_witness :
    Binary32.mul (Binary32.add (Sample.methods.AABBInner Sample.stackedActors 1).T
      (Sample.methods.AABBInner Sample.stackedActors 1).B) (1 / 2) = 20 ∧
    (Sample.methods.AABBInner Sample.stackedActors 0).B = 30 ∧
    Binary32.IsPositionEmpty.callback Sample.consts Sample.methods 0 false
      (Sample.stackedActors, none, []) 1 = (true, (Sample.stackedActors, none, [])) ∧
    ((Sample.methods.AABBInner Sample.tieActors 1).T +
      (Sample.methods.AABBInner Sample.tieActors 1).B) / 2 <
        (Sample.methods.AABBInner Sample.tieActors 0).B ∧
    Binary32.mul (Binary32.add (Sample.methods.AABBInner Sample.tieActors 1).T
      (Sample.methods.AABBInner Sample.tieActors 1).B) (1 / 2) =
        (Sample.methods.AABBInner Sample.tieActors 0).B ∧
    ∃ rest, (Binary32.IsPositionEmpty.callback Sample.consts Sample.methods 0 false
      (Sample.tieActors, none, []) 1).2.2.2 = [] ++ (0, 1) :: rest := by
  have k1 := IsPositionEmpty_above_only Sample.consts Sample.methods 0 1 false
    (Sample.stackedActors, none, []) (by decide) (by decide) (by decide)
  have k2 := IsPositionEmpty_above_only Sample.consts Sample.methods 0 1 false
    (Sample.tieActors, none, []) (by decide) (by decide) (by decide)
  exact ⟨by decide!, by decide!, k1.1 (by decide!) (by decide!), by decide!, by decide!,
    k2.2.1 (by decide!) (by decide!) (Or.inl (by decide))⟩

/-- The querier's inner box ends at `y = 10` and the solid candidate's centre, exact and in
`float`, is at `y = 20`, below it; the querier collides with solid objects below it only. The
callback does not skip the candidate: it calls both handlers and reports the candidate as the
collider. -/
theorem IsPositionEmpty_above_only_counterexample :
    Sample.methods.GetState Sample.twoActors 0 &&& Sample.consts.CollideWithSolidObjectsBelow =
        Sample.consts.CollideWithSolidObjectsBelow ∧
      (Sample.methods.AABBInner Sample.twoActors 0).B = 10 ∧
      ((Sample.methods.AABBInner Sample.twoActors 1).T +
        (Sample.methods.AABBInner Sample.twoActors 1).B) / 2 = 20 ∧
      Binary32.mul (Binary32.add (Sample.methods.AABBInner Sample.twoActors 1).T
        (Sample.methods.AABBInner Sample.twoActors 1).B) (1 / 2) = 20 ∧
      Binary32.IsPositionEmpty.callback Sample.consts Sample.methods 0 false
        (Sample.twoActors, none, []) 1 = (false, (Sample.twoActors, some 1, [(0, 1), (1, 0)])) :=
  ⟨by decide, by decide!, by decide!, by decide!, by decide!⟩

/-! ## Deactivation of far actors in `ProcessEvents` -/

theorem LevelHandler.ProcessEvents.activate_outside {ψ : Type} (c : Consts)
    (spawn : EventSpawner ψ) (zones : List (AABBi × AABBi)) :
    ∀ (r r1 : Run (LevelWorld ψ)), r.1.WF →
      zones.foldlM (fun (r : Run (LevelWorld ψ)) z =>
        match ActivateEvents c (LevelHandler.callbacks c spawn) r.1 r.2.1 z.1.L z.1.T z.1.R
            z.1.B true with
        | none => none
        | some r1 => some (r1.1, r1.2.1, r.2.2 ++ r1.2.2)) r = some r1 →
      ∀ x y : Int, r.1.inGrid x y →
        (∀ z ∈ zones, ¬ (z.1.L ≤ x ∧ x ≤ z.1.R ∧ z.1.T ≤ y ∧ y ≤ z.1.B)) →
        tileAt? r1.1._eventLayout (x + y * r.1._layoutSize.X) =
          tileAt? r.1._eventLayout (x + y * r.1._layoutSize.X) := by
  induction zones with
  | nil =>
    intro r r1 _ hf x y _ _
    simp only [List.foldlM_nil, Option.pure_def, Option.some.injEq] at hf
    rw [hf]
  | cons z zs ih =>
    intro r r1 hwf hf x y hin hout
    obtain ⟨s1, q1, q2, q3, q4, _, _⟩ := ActivateEvents_run_spec c
      (LevelHandler.callbacks c spawn) r.1 r.2.1 z.1.L z.1.T z.1.R z.1.B true hwf
    simp only [List.foldlM_cons, q1, Option.bind_eq_bind, Option.some_bind] at hf
    have e1 : s1.1._layoutSize = r.1._layoutSize := by rw [q2]
    have hwf1 : s1.1.WF := by
      unfold EventMap.WF at hwf ⊢
      rw [e1, q3]
      exact hwf
    have hin1 : s1.1.inGrid x y := by
      unfold EventMap.inGrid at hin ⊢
      rw [e1]
      exact hin
    have := ih (s1.1, s1.2.1, r.2.2 ++ s1.2.2) r1 hwf1 hf x y hin1
      (fun z1 hz1 => hout z1 (List.mem_cons_of_mem _ hz1))
    simp only [e1] at this
    rw [this, q4]
    have hnot : x + y * r.1._layoutSize.X ∉
        (ActivateEvents.coords r.1 z.1.L z.1.T z.1.R z.1.B).map
          (fun p => p.1 + p.2 * r.1._layoutSize.X) := by
      rw [ActivateEvents_mem_indices r.1 z.1.L z.1.T z.1.R z.1.B x y hin]
      exact hout z (List.mem_cons_self _ _)
    simp only [hnot, if_false]
    cases tileAt? r.1._eventLayout (x + y * r.1._layoutSize.X) <;> rfl


theorem LevelHandler.releaseTile_generators (c : Consts) (em em1 : EventMap) (o : ActorBase)
    (hrel : LevelHandler.releaseTile c em o = some em1) :
    (∀ (idx : Nat) (g : GeneratorInfo), em._generators[idx]? = some g →
      em1._generators[idx]? = some g ∨
        em1._generators[idx]? = some { g with TimeLeft := 0, SpawnedActor := none }) ∧
    (o._state &&& c.IsFromGenerator = c.IsFromGenerator →
      ∀ t, em.cell o._originTile.X o._originTile.Y = some t →
        ∀ g, em._generators[t.EventParams.readU32]? = some g →
          em1._generators[t.EventParams.readU32]? =
            some { g with TimeLeft := 0, SpawnedActor := none }) := by
  unfold LevelHandler.releaseTile at hrel
  by_cases hg : o._state &&& c.IsFromGenerator = c.IsFromGenerator
  · simp only [hg, if_true] at hrel
    cases hr : ResetGenerator em o._originTile.X o._originTile.Y with
    | none => simp [hr] at hrel
    | some em0 =>
      simp only [hr] at hrel
      obtain ⟨_, _, _, e⟩ := Deactivate_frame _ _ _ _ hrel
      rw [e]
      unfold ResetGenerator at hr
      cases ht : tileAt? em._eventLayout (o._originTile.X + o._originTile.Y * em._layoutSize.X)
        with
      | none => simp [ht] at hr
      | some t0 =>
        simp only [ht] at hr
        split at hr
        · rename_i hge
          simp only [Option.some.injEq] at hr
          rw [← hr]
          refine ⟨fun idx g hidx => Or.inl hidx, ?_⟩
          intro _ t htc g hgt
          have e0 : t = t0 := by
            unfold EventMap.cell at htc
            rw [ht] at htc
            exact (Option.some.inj htc).symm
          rw [e0] at hgt
          have := (List.getElem?_eq_some_iff.1 hgt).1
          omega
        · simp only [Option.some.injEq] at hr
          rw [← hr]
          constructor
          · intro idx g hidx
            simp only [List.getElem?_modify, hidx, Option.map_eq_map, Option.map_some']
            split
            · exact Or.inr rfl
            · exact Or.inl rfl
          · intro _ t htc g hgt
            have e0 : t = t0 := by
              unfold EventMap.cell at htc
              rw [ht] at htc
              exact (Option.some.inj htc).symm
            rw [e0] at hgt ⊢
            simp only [List.getElem?_modify, hgt, Option.map_eq_map, Option.map_some', if_true]
  · simp only [hg, if_false] at hrel
    obtain ⟨_, _, _, e⟩ := Deactivate_frame _ _ _ _ hrel
    rw [e]
    exact ⟨fun idx g hidx => Or.inl hidx, fun h => absurd h hg⟩

theorem LevelHandler.releaseAll_generators (c : Consts) (os : List ActorBase) :
    ∀ (em em1 : EventMap), em.WF →
      (∀ o ∈ os, o._state &&& c.IsFromGenerator = c.IsFromGenerator →
        em.inGrid o._originTile.X o._originTile.Y) →
      LevelHandler.releaseAll c em os = some em1 →
      ∀ (idx : Nat) (g : GeneratorInfo), em._generators[idx]? = some g →
        (em1._generators[idx]? = some g ∨
          em1._generators[idx]? = some { g with TimeLeft := 0, SpawnedActor := none }) ∧
        ((∃ o ∈ os, o._state &&& c.IsFromGenerator = c.IsFromGenerator ∧
            ∃ t, em.cell o._originTile.X o._originTile.Y = some t ∧
              t.EventParams.readU32 = idx) →
          em1._generators[idx]? = some { g with TimeLeft := 0, SpawnedActor := none }) := by
  induction os with
  | nil =>
    intro em em1 _ _ hrel idx g hg
    simp only [LevelHandler.releaseAll, List.foldlM_nil, Option.pure_def,
      Option.some.injEq] at hrel
    rw [← hrel]
    exact ⟨Or.inl hg, fun ⟨o, ho, _⟩ => absurd ho (List.not_mem_nil o)⟩
  | cons o os ih =>
    intro em em1 hwf hgrid hrel idx g hg
    rw [LevelHandler.releaseAll_cons] at hrel
    obtain ⟨em0, h0, hwf0, hsz, _, _, htile⟩ := LevelHandler.releaseTile_spec c em o hwf
      (hgrid o (List.mem_cons_self _ _))
    rw [h0, Option.some_bind] at hrel
    obtain ⟨g1, g2⟩ := LevelHandler.releaseTile_generators c em em0 o h0
    have hgrid0 : ∀ o1 ∈ os, o1._state &&& c.IsFromGenerator = c.IsFromGenerator →
        em0.inGrid o1._originTile.X o1._originTile.Y := by
      intro o1 ho1 hf
      have := hgrid o1 (List.mem_cons_of_mem _ ho1) hf
      unfold EventMap.inGrid at this ⊢
      rw [hsz]
      exact this
    have hcell : ∀ x y t, em.cell x y = some t →
        ∃ t1, em0.cell x y = some t1 ∧ t1.EventParams = t.EventParams := by
      intro x y t ht
      unfold EventMap.cell at ht ⊢
      rw [hsz, htile, ht]
      simp only [Option.map_some', Option.some.injEq, exists_eq_left']
      split
      · unfold EventTile.deactivated
        split <;> rfl
      · rfl
    have hhit : (∃ o1 ∈ os, o1._state &&& c.IsFromGenerator = c.IsFromGenerator ∧
        ∃ t, em.cell o1._originTile.X o1._originTile.Y = some t ∧
          t.EventParams.readU32 = idx) →
        ∃ o1 ∈ os, o1._state &&& c.IsFromGenerator = c.IsFromGenerator ∧
          ∃ t, em0.cell o1._originTile.X o1._originTile.Y = some t ∧
            t.EventParams.readU32 = idx := by
      rintro ⟨o1, ho1, hf, t, ht, hi⟩
      obtain ⟨t1, ht1, hp1⟩ := hcell _ _ t ht
      exact ⟨o1, ho1, hf, t1, ht1, by rw [hp1]; exact hi⟩
    rcases g1 idx g hg with hsame | hreset
    · obtain ⟨i1, i2⟩ := ih em0 em1 hwf0 hgrid0 hrel idx g hsame
      refine ⟨i1, ?_⟩
      rintro ⟨o1, ho1, hf, t, ht, hi⟩
      rcases List.mem_cons.1 ho1 with rfl | hmem
      · have := g2 hf t ht g (by rw [hi]; exact hg)
        rw [hi] at this
        obtain ⟨j1, _⟩ := ih em0 em1 hwf0 hgrid0 hrel idx _ this
        rcases j1 with j1 | j1
        · exact j1
        · exact j1
      · exact i2 (hhit ⟨o1, hmem, hf, t, ht, hi⟩)
    · obtain ⟨i1, _⟩ := ih em0 em1 hwf0 hgrid0 hrel idx _ hreset
      have hfin : em1._generators[idx]? =
          some { g with TimeLeft := 0, SpawnedActor := none } := by
        rcases i1 with i1 | i1
        · exact i1
        · exact i1
      exact ⟨Or.inr hfin, fun _ => hfin⟩


/-- C27. A pass of `ProcessEvents` with at least one player, on an allocated grid with
distinct actors, the origin tiles of actors from a generator and the generators' tiles being
inside the grid, `Contains` holding at least for the points strictly inside a rectangle,
returns. Each player's primary rectangle is `[tx - R, tx + R] × [ty - R, ty + R]` and the
secondary one is that widened by 4 tiles. An actor of `_actors` is flagged `IsDestroyed` by
the pass exactly when `deactivates` selects it: it was created from the event map or a
generator, its origin tile is in no player's secondary rectangle, and its
`OnTileDeactivated` returned `true`; any other actor object is as before. The actor loop of
the pass leaves the event map `em1` that releasing the tiles of exactly the selected actors
gives, in list order, a release being `ResetGenerator` when the actor is from a generator,
then `Deactivate`; the pass goes on from `em1` with `ActivateEvents` on the primary
rectangles and `ProcessGenerators`, which give the event map of the result. In the result
the origin tile of a selected actor has its active bit cleared, and after the actor loop the
table entry its tile names, when the actor is from a generator, has timer 0 and no actor. An
actor whose origin tile is in some player's secondary rectangle is left as it was, and its
tile, when active before, is active after the pass. -/
theorem ProcessEvents_deactivation {ψ : Type} (c : Consts) (spawn : EventSpawner ψ)
    (lh : LevelHandler ψ) (dt : ℚ) (hwf : lh._eventMap.WF) (hnd : lh.world._actors.Nodup)
    (hvalid : ∀ a ∈ lh.world._actors, a < lh.world.objects.length)
    (hgrid : ∀ a ∈ lh.world._actors, ∀ o, lh.world.objects[a]? = some o →
      o._state &&& c.IsFromGenerator = c.IsFromGenerator →
      lh._eventMap.inGrid o._originTile.X o._originTile.Y)
    (hgens : ∀ g ∈ lh._eventMap._generators,
      0 ≤ g.EventPos ∧ g.EventPos.toNat < lh._eventMap._eventLayout.length)
    (hcont : ∀ (b : AABBi) (p : Vector2i), b.L < p.X → p.X < b.R → b.T < p.Y → p.Y < b.B →
      c.Contains b p = true)
    (hplayers : lh._players.isEmpty = false) :
    ∃ lh1 em1 objs1 r tr, LevelHandler.ProcessEvents c spawn lh dt = some lh1 ∧
      (∀ pos ∈ lh._players,
        (LevelHandler.ProcessEvents.zones c pos).1 =
          ⟨Int.tdiv (truncToInt pos.1) c.DefaultTileSize - c.ActivateTileRange,
            Int.tdiv (truncToInt pos.2) c.DefaultTileSize - c.ActivateTileRange,
            Int.tdiv (truncToInt pos.1) c.DefaultTileSize + c.ActivateTileRange,
            Int.tdiv (truncToInt pos.2) c.DefaultTileSize + c.ActivateTileRange⟩ ∧
        (LevelHandler.ProcessEvents.zones c pos).2 =
          ⟨(LevelHandler.ProcessEvents.zones c pos).1.L - 4,
            (LevelHandler.ProcessEvents.zones c pos).1.T - 4,
            (LevelHandler.ProcessEvents.zones c pos).1.R + 4,
            (LevelHandler.ProcessEvents.zones c pos).1.B + 4⟩) ∧
      (∀ o, LevelHandler.ProcessEvents.deactivates c
          (lh._players.map (LevelHandler.ProcessEvents.zones c)) o = true ↔
        o._state &&& (c.IsCreatedFromEventMap ||| c.IsFromGenerator) ≠ 0 ∧
        (∀ z ∈ lh._players.map (LevelHandler.ProcessEvents.zones c),
          c.Contains z.2 o._originTile = false) ∧
        o.OnTileDeactivated = true) ∧
      (∀ a ∈ lh.world._actors, ∀ o, lh.world.objects[a]? = some o →
        lh1.world.objects[a]? = some
          (if LevelHandler.ProcessEvents.deactivates c
              (lh._players.map (LevelHandler.ProcessEvents.zones c)) o then
            { o with _state := o._state ||| c.IsDestroyed }
          else o)) ∧
      lh.world._actors.foldlM (LevelHandler.ProcessEvents.actor c
          (lh._players.map (LevelHandler.ProcessEvents.zones c)))
        (lh._eventMap, lh.world.objects) = some (em1, objs1) ∧
      LevelHandler.releaseAll c lh._eventMap
        (LevelHandler.releasedActors
          (LevelHandler.ProcessEvents.deactivates c
            (lh._players.map (LevelHandler.ProcessEvents.zones c)))
          (fun _ => true) lh.world.objects lh.world._actors) = some em1 ∧
      (∀ (em : EventMap) (o : ActorBase), LevelHandler.releaseTile c em o =
        (if o._state &&& c.IsFromGenerator = c.IsFromGenerator then
          ResetGenerator em o._originTile.X o._originTile.Y else some em).bind
          fun em0 => Deactivate em0 o._originTile.X o._originTile.Y) ∧
      (lh._players.map (LevelHandler.ProcessEvents.zones c)).foldlM
        (fun (r : Run (LevelWorld ψ)) z =>
          match ActivateEvents c (LevelHandler.callbacks c spawn) r.1 r.2.1 z.1.L z.1.T z.1.R
              z.1.B true with
          | none => none
          | some r1 => some (r1.1, r1.2.1, r.2.2 ++ r1.2.2))
        (em1, { lh.world with objects := objs1 }, []) = some r ∧
      ProcessGenerators c (LevelHandler.callbacks c spawn)
        (if lh._checkpointCreated = true then r.1
          else { r.1 with _eventLayoutForRollback := some r.1._eventLayout })
        r.2.1 dt = some (lh1._eventMap, lh1.world, tr) ∧
      (∀ a ∈ lh.world._actors, ∀ o, lh.world.objects[a]? = some o →
        LevelHandler.ProcessEvents.deactivates c
          (lh._players.map (LevelHandler.ProcessEvents.zones c)) o = true →
        lh._eventMap.inGrid o._originTile.X o._originTile.Y →
        ∀ t, lh._eventMap.cell o._originTile.X o._originTile.Y = some t →
          em1.cell o._originTile.X o._originTile.Y = some t.deactivated ∧
          lh1._eventMap.cell o._originTile.X o._originTile.Y = some t.deactivated ∧
          (o._state &&& c.IsFromGenerator = c.IsFromGenerator →
            ∀ g, lh._eventMap._generators[t.EventParams.readU32]? = some g →
              em1._generators[t.EventParams.readU32]? =
                some { g with TimeLeft := 0, SpawnedActor := none })) ∧
      (∀ a ∈ lh.world._actors, ∀ o, lh.world.objects[a]? = some o →
        (∃ z ∈ lh._players.map (LevelHandler.ProcessEvents.zones c),
          c.Contains z.2 o._originTile = true) →
        lh1.world.objects[a]? = some o ∧
        (lh._eventMap.inGrid o._originTile.X o._originTile.Y →
          ∀ t, lh._eventMap.cell o._originTile.X o._originTile.Y = some t →
            t.IsEventActive = true →
            ∃ t1, lh1._eventMap.cell o._originTile.X o._originTile.Y = some t1 ∧
              t1.IsEventActive = true)) := by
  obtain ⟨lh1, em1, h1, _, _, _, _, _, h7, _, h9, h10, h11, h12⟩ :=
    LevelHandler.ProcessEvents_spec c spawn lh dt hwf hnd hvalid hgrid hgens
  have hvis : LevelHandler.ProcessEvents.visited lh = lh.world._actors := by
    simp [LevelHandler.ProcessEvents.visited, hplayers]
  rw [hvis] at h9 h10 h11
  -- the actor loop and the activation of the pass
  obtain ⟨em1', objs1, a1, a2, a3, _, _, _, _, a8, _⟩ := LevelHandler.actorLoop_spec c
    (LevelHandler.ProcessEvents.deactivates c
      (lh._players.map (LevelHandler.ProcessEvents.zones c)))
    (fun _ => true) lh.world._actors lh._eventMap lh.world.objects hwf hnd hvalid
    (fun a ha o ho _ _ hg => hgrid a ha o ho hg)
  have hem : em1' = em1 := by
    rw [a8] at h10
    exact Option.some.inj h10
  subst hem
  rw [← LevelHandler.ProcessEvents_actor_eq] at a1
  obtain ⟨r, b1, b2, b3, _, _, _, _⟩ := LevelHandler.ProcessEvents.activate_spec c spawn
    objs1 (lh._players.map (LevelHandler.ProcessEvents.zones c)) em1'
    ({ lh.world with objects := objs1 } : LevelWorld ψ) a2 ⟨le_refl _, fun _ _ => rfl⟩
  have hchain : ∃ tr, ProcessGenerators c (LevelHandler.callbacks c spawn)
      (if lh._checkpointCreated = true then r.1
        else { r.1 with _eventLayoutForRollback := some r.1._eventLayout })
      r.2.1 dt = some (lh1._eventMap, lh1.world, tr) := by
    have hPE := h1
    unfold LevelHandler.ProcessEvents LevelHandler.ProcessEvents.withPlayers at hPE
    simp only [hplayers, Bool.not_false, if_true, a1, b1] at hPE
    by_cases hc : lh._checkpointCreated = true
    · simp only [hc, Bool.not_true, Bool.false_eq_true, if_false, if_true] at hPE ⊢
      cases hq : ProcessGenerators c (LevelHandler.callbacks c spawn) r.1 r.2.1 dt with
      | none => simp [hq] at hPE
      | some q =>
        simp only [hq, Option.some.injEq] at hPE
        rw [← hPE]
        exact ⟨q.2.2, rfl⟩
    · have hc' : lh._checkpointCreated = false := by simpa using hc
      simp only [hc', Bool.not_false, if_true, CreateCheckpointForRollback_spec r.1 b2,
        Bool.false_eq_true, if_false] at hPE ⊢
      cases hq : ProcessGenerators c (LevelHandler.callbacks c spawn)
          { r.1 with _eventLayoutForRollback := some r.1._eventLayout } r.2.1 dt with
      | none => simp [hq] at hPE
      | some q =>
        simp only [hq, Option.some.injEq] at hPE
        rw [← hPE]
        exact ⟨q.2.2, rfl⟩
  obtain ⟨tr, hgen⟩ := hchain
  have hlay : lh1._eventMap._eventLayout = r.1._eventLayout := by
    obtain ⟨_, f2, _, _⟩ := ProcessGenerators_frame c _ _ _ dt _ hgen
    rw [f2]
    split <;> rfl
  have hobj : ∀ a ∈ lh.world._actors, ∀ o, lh.world.objects[a]? = some o →
      lh1.world.objects[a]? = some
        (if LevelHandler.ProcessEvents.deactivates c
            (lh._players.map (LevelHandler.ProcessEvents.zones c)) o then
          { o with _state := o._state ||| c.IsDestroyed }
        else o) := by
    intro a ha o ho
    rw [h9 a (hvalid a ha)]
    simp only [ha, if_true, ho, Option.map_some']
  refine ⟨lh1, em1', objs1, r, tr, h1, fun pos _ => ⟨rfl, rfl⟩,
    LevelHandler.ProcessEvents.deactivates_iff c _, hobj, a1, h10, ?_, b1, hgen, ?_, ?_⟩
  · intro em o
    unfold LevelHandler.releaseTile
    cases (if o._state &&& c.IsFromGenerator = c.IsFromGenerator then
      ResetGenerator em o._originTile.X o._originTile.Y else some em) <;> rfl
  · intro a ha o ho hd hin t ht
    have ht' : tileAt? lh._eventMap._eventLayout
        (o._originTile.X + o._originTile.Y * lh._eventMap._layoutSize.X) = some t := ht
    have hra : LevelHandler.releasedAt
        (LevelHandler.ProcessEvents.deactivates c
          (lh._players.map (LevelHandler.ProcessEvents.zones c)))
        (fun _ => true) lh._eventMap lh.world.objects lh.world._actors
        (o._originTile.X + o._originTile.Y * lh._eventMap._layoutSize.X) = true := by
      unfold LevelHandler.releasedAt
      rw [List.any_eq_true]
      exact ⟨a, ha, by simp [ho, hd, hin]⟩
    have hem1 : em1'.cell o._originTile.X o._originTile.Y = some t.deactivated := by
      unfold EventMap.cell
      rw [a3, h11, ht']
      simp only [Option.map_some', Option.some.injEq]
      rw [hra]
      rfl
    refine ⟨hem1, ?_, ?_⟩
    · have hin1 : em1'.inGrid o._originTile.X o._originTile.Y := by
        unfold EventMap.inGrid at hin ⊢
        rw [a3]
        exact hin
      have hout := LevelHandler.ProcessEvents.activate_outside c spawn
        (lh._players.map (LevelHandler.ProcessEvents.zones c))
        (em1', ({ lh.world with objects := objs1 } : LevelWorld ψ), []) r a2 b1
        o._originTile.X o._originTile.Y hin1
        (by
          intro z hz hrect
          have hsel := ((LevelHandler.ProcessEvents.deactivates_iff c _ o).1 hd).2.1 z hz
          rw [List.mem_map] at hz
          obtain ⟨pos, _, rfl⟩ := hz
          have := hcont (LevelHandler.ProcessEvents.zones c pos).2 o._originTile
            (by simp only [LevelHandler.ProcessEvents.zones] at hrect ⊢; omega)
            (by simp only [LevelHandler.ProcessEvents.zones] at hrect ⊢; omega)
            (by simp only [LevelHandler.ProcessEvents.zones] at hrect ⊢; omega)
            (by simp only [LevelHandler.ProcessEvents.zones] at hrect ⊢; omega)
          rw [this] at hsel
          exact absurd hsel (by simp))
      unfold EventMap.cell at hem1 ⊢
      rw [h7, hlay]
      simp only at hout
      rw [a3] at hout hem1
      rw [hout]
      exact hem1
    · intro hfg g hg
      have hmem : o ∈ LevelHandler.releasedActors
          (LevelHandler.ProcessEvents.deactivates c
            (lh._players.map (LevelHandler.ProcessEvents.zones c)))
          (fun _ => true) lh.world.objects lh.world._actors := by
        unfold LevelHandler.releasedActors
        rw [List.mem_filterMap]
        exact ⟨a, ha, by simp [ho, hd]⟩
      refine (LevelHandler.releaseAll_generators c _ lh._eventMap em1' hwf ?_ h10 _ g hg).2
        ⟨o, hmem, hfg, t, ht, rfl⟩
      intro o1 ho1 hf1
      unfold LevelHandler.releasedActors at ho1
      rw [List.mem_filterMap] at ho1
      obtain ⟨a1', ha1, hfil⟩ := ho1
      cases hoa : lh.world.objects[a1']? with
      | none => simp [hoa] at hfil
      | some o2 =>
        rw [hoa] at hfil
        simp only [Option.filter] at hfil
        split at hfil
        · simp only [Option.some.injEq] at hfil
          rw [← hfil]
          rw [← hfil] at hf1
          exact hgrid a1' ha1 o2 hoa hf1
        · exact absurd hfil (by simp)
  · intro a ha o ho hz
    have hnd' : LevelHandler.ProcessEvents.deactivates c
        (lh._players.map (LevelHandler.ProcessEvents.zones c)) o = false := by
      by_contra hne
      have hd : LevelHandler.ProcessEvents.deactivates c
          (lh._players.map (LevelHandler.ProcessEvents.zones c)) o = true := by simpa using hne
      obtain ⟨z, hz1, hz2⟩ := hz
      have := ((LevelHandler.ProcessEvents.deactivates_iff c _ o).1 hd).2.1 z hz1
      rw [hz2] at this
      exact absurd this (by simp)
    refine ⟨by rw [hobj a ha o ho, hnd']; rfl, ?_⟩
    intro hin t ht hact
    have ht' : tileAt? lh._eventMap._eventLayout
        (o._originTile.X + o._originTile.Y * lh._eventMap._layoutSize.X) = some t := ht
    have hem1 : tileAt? em1'._eventLayout
        (o._originTile.X + o._originTile.Y * lh._eventMap._layoutSize.X) = some t := by
      rw [h11, ht', LevelHandler.releasedAt_false_of_inside c _ _ _ _ o._originTile hin hz]
      rfl
    obtain ⟨t1, g1, g2⟩ := h12 _ t hem1
    refine ⟨t1, by unfold EventMap.cell; rw [h7]; exact g1, ?_⟩
    rcases g2 with g2 | g2
    · rw [g2]
      exact hact
    · rw [g2]
      unfold EventTile.activated
      split
      · exact hact
      · rfl


theorem Sample.awayLevel_zones :
    Sample.awayLevel._players.map (LevelHandler.ProcessEvents.zones Sample.consts) =
      [(⟨74, 74, 126, 126⟩, ⟨70, 70, 130, 130⟩)] := by
  simp [Sample.awayLevel, LevelHandler.ProcessEvents.zones, truncToInt, Sample.consts]
  decide

theorem ProcessEvents_deactivation_witness :
    ∃ (lh1 : LevelHandler Unit) (em1 : EventMap),
      LevelHandler.ProcessEvents Sample.consts Sample.spawner Sample.awayLevel 1 = some lh1 ∧
      Sample.awayLevel._eventMap.cell 0 0 = some { Sample.gem with IsEventActive := true } ∧
      Sample.awayLevel._eventMap.cell 1 0 =
        some { Sample.generatorTile with IsEventActive := true } ∧
      lh1.world.objects[0]? = some (Sample.actor (1 ||| 16)) ∧
      lh1.world.objects[1]? = some { Sample.actor (2 ||| 16) with _originTile := ⟨1, 0⟩ } ∧
      lh1._eventMap.cell 0 0 = some Sample.gem ∧
      lh1._eventMap.cell 1 0 = some Sample.generatorTile ∧
      Sample.awayLevel._eventMap._generators[0]? =
        some { Sample.generator with TimeLeft := 7, SpawnedActor := some 1 } ∧
      em1._generators[0]? = some Sample.generator := by
  obtain ⟨lh1, em1, objs1, r, tr, h1, _, _, h4, _, _, _, _, _, h10, _⟩ :=
    ProcessEvents_deactivation Sample.consts Sample.spawner Sample.awayLevel 1 (by decide)
      (by decide) (by decide)
      (by
        intro a ha o ho hg
        simp only [Sample.awayLevel, List.mem_cons, List.mem_singleton, List.not_mem_nil,
          or_false] at ha
        rcases ha with rfl | rfl
        · simp only [Sample.awayLevel, List.getElem?_cons_zero, Option.some.injEq] at ho
          subst ho
          exact absurd hg (by decide)
        · simp only [Sample.awayLevel, List.getElem?_cons_succ, List.getElem?_cons_zero,
            Option.some.injEq] at ho
          subst ho
          decide)
      (by decide)
      (by
        intro b p h1 h2 h3 h4
        simp only [Sample.consts, decide_eq_true_eq]
        omega)
      rfl
  have hz := Sample.awayLevel_zones
  have d0 : LevelHandler.ProcessEvents.deactivates Sample.consts
      (Sample.awayLevel._players.map (LevelHandler.ProcessEvents.zones Sample.consts))
      (Sample.actor 1) = true := by
    rw [hz]
    decide
  have d1 : LevelHandler.ProcessEvents.deactivates Sample.consts
      (Sample.awayLevel._players.map (LevelHandler.ProcessEvents.zones Sample.consts))
      { Sample.actor 2 with _originTile := ⟨1, 0⟩ } = true := by
    rw [hz]
    decide
  have a0 := h4 0 (by decide) (Sample.actor 1) rfl
  rw [d0] at a0
  have a1 := h4 1 (by decide) { Sample.actor 2 with _originTile := ⟨1, 0⟩ } rfl
  rw [d1] at a1
  have s0 := h10 0 (by decide) (Sample.actor 1) rfl d0 (by decide)
    { Sample.gem with IsEventActive := true } rfl
  have s1 := h10 1 (by decide) { Sample.actor 2 with _originTile := ⟨1, 0⟩ } rfl d1
    (by decide) { Sample.generatorTile with IsEventActive := true } rfl
  have g1 := s1.2.2 (by decide)
    { Sample.generator with TimeLeft := 7, SpawnedActor := some 1 } rfl
  exact ⟨lh1, em1, h1, rfl, rfl, a0, a1, s0.2.1, s1.2.1, rfl, g1⟩

end Jazz2
